import Mathlib

/-!
# WinAudioDecodeR: a shallow embedding of the validation core

The development follows the C++ sources of the repository
(`StreamWrapper.cpp`, `DecoderManager.cpp`, `Utils.cpp`, `FlacDecoder.cpp`,
`WavPackDecoder.cpp`, `MP3Decoder.cpp`, `ApplicationManager.cpp`,
`ExecutionManager.cpp`, and the window procedure and the loop of the decoder
thread of `MainWinAPI.cpp`).

Conventions of the embedding.

* The compilation target is the 64-bit Windows one (`_WIN64`): `size_t` is an
  unsigned 64-bit integer, `unsigned long` and `unsigned` are unsigned 32-bit
  integers, `int` is a signed 32-bit integer and `long long` a signed 64-bit
  integer.  Unsigned values are natural numbers reduced modulo `2^w`, signed
  values are integers.  Plain `char` is signed, the default of the compiler.
* A byte is a `Fin 256`.
* `wchar_t` strings are `String`s (error messages) or `List Char` (paths).
* Member functions become functions from the object state to the returned
  value together with the new object state.
* The external codec libraries (libFLAC, WavPack) are not part of the
  repository; what they hand to the code of the repository in one call is an
  explicit argument of the embedded function.
* The file system is a finite tree of directory entries, and what a function
  of the Windows API answers about a path is an explicit argument.
* The threads of the application meet under one critical section; each
  function that runs under it, or on the thread of the window, is one step.
-/

namespace WinAudioDecodeR

/-! ## Machine integers -/

/-- One byte of a stream. -/
abbrev Byte := Fin 256

/-- Number of values of a 32-bit unsigned integer (`unsigned long`, `unsigned`). -/
def U32 : Nat := 2 ^ 32

/-- Number of values of a 64-bit unsigned integer (`size_t`, `unsigned long long`). -/
def U64 : Nat := 2 ^ 64

/-- Conversion of a signed 64-bit value to `size_t` / `unsigned long long`. -/
def toU64 (x : Int) : Nat := (x % (2 : Int) ^ 64).toNat

/-- Conversion of a signed 64-bit value to `unsigned` (32 bits). -/
def toU32 (x : Int) : Nat := (x % (2 : Int) ^ 32).toNat

/-- Conversion of an unsigned 64-bit value to `long long`. -/
def toI64 (x : Nat) : Int :=
  if x % 2 ^ 64 < 2 ^ 63 then ((x % 2 ^ 64 : Nat) : Int) else ((x % 2 ^ 64 : Nat) : Int) - (2 : Int) ^ 64

/-- Conversion of an unsigned 64-bit value to `int` (32 bits, two's complement). -/
def toI32 (x : Nat) : Int :=
  if x % 2 ^ 32 < 2 ^ 31 then ((x % 2 ^ 32 : Nat) : Int) else ((x % 2 ^ 32 : Nat) : Int) - (2 : Int) ^ 32

/-- Outcome of a piece of code that may leave the defined behaviour of C++
(a `memcpy` whose source range is not inside the buffer) and whose loops are
unrolled with a bound. -/
inductive Result (α : Type) where
  | ok (value : α)
  | undefinedBehaviour
  | outOfFuel
  deriving Repr, DecidableEq

/-- Sequencing of two steps: the second runs on the value of the first. -/
def Result.bind {α β : Type} (x : Result α) (f : α → Result β) : Result β :=
  match x with
  | Result.ok a => f a
  | Result.undefinedBehaviour => Result.undefinedBehaviour
  | Result.outOfFuel => Result.outOfFuel

/-! ## StreamWrapper (fully-buffered mode)

`StreamWrapper.cpp`.  Every operation of the class first tests
`m_fileMemoryBufferPtr != nullptr && m_isMemoryBufferEnabled`; the embedding is
that of the branch taken when the test succeeds.  The other branch hands the
call to the C runtime (`fread`, `_fseeki64`, `_ftelli64`). -/

/-- Origin of a seek: `SEEK_SET`. -/
def SEEK_SET : Int := 0

/-- Origin of a seek: `SEEK_CUR`. -/
def SEEK_CUR : Int := 1

/-- Origin of a seek: `SEEK_END`. -/
def SEEK_END : Int := 2

/-- State of a `StreamWrapper` whose memory buffer is in use.
`m_fileMemoryBuffer` is the content of `m_fileMemoryBufferPtr`, whose length is
`m_fileMemoryBufferSize`; `fileEndOfFileIndicator` is what
`feof(m_fileObjectStreamPtr)` reports. -/
structure StreamWrapper where
  m_fileMemoryBuffer : List Byte
  m_fileMemoryBufferPosition : Nat
  m_isEOF : Bool
  m_isOpen : Bool
  fileEndOfFileIndicator : Bool
  deriving Repr, DecidableEq

/-- Member `m_fileMemoryBufferSize`. -/
def StreamWrapper.m_fileMemoryBufferSize (s : StreamWrapper) : Nat :=
  s.m_fileMemoryBuffer.length

/-- What `StreamWrapper::Read` hands back: the returned byte count, the bytes
copied into the caller's buffer, and the stream afterwards. -/
structure ReadResult where
  count : Nat
  data : List Byte
  stream : StreamWrapper
  deriving Repr, DecidableEq

/-- Second statement of `StreamWrapper::Read`, memory-buffer branch: when the
(adjusted) size is positive, `memcpy` from the buffer at the position and
advance the position; return the size.  The `memcpy` is defined only when its
source range lies inside the buffer. -/
def StreamWrapper.copyOut (s : StreamWrapper) (size : Nat) : Result ReadResult :=
  if size > 0 then
    if s.m_fileMemoryBufferPosition + size ≤ s.m_fileMemoryBufferSize then
      Result.ok
        { count := size
          data := (s.m_fileMemoryBuffer.drop s.m_fileMemoryBufferPosition).take size
          stream := { s with m_fileMemoryBufferPosition := (s.m_fileMemoryBufferPosition + size) % U64 } }
    else
      Result.undefinedBehaviour
  else
    Result.ok { count := size, data := [], stream := s }

/-- `StreamWrapper::Read(bufferPtr, size)`, memory-buffer branch.  The sum
`m_fileMemoryBufferPosition + size` and the difference
`m_fileMemoryBufferSize - m_fileMemoryBufferPosition` are `size_t` operations. -/
def StreamWrapper.Read (s : StreamWrapper) (size : Nat) : Result ReadResult :=
  if (s.m_fileMemoryBufferPosition + size) % U64 > s.m_fileMemoryBufferSize then
    StreamWrapper.copyOut { s with m_isEOF := true }
      (toU64 ((s.m_fileMemoryBufferSize : Int) - (s.m_fileMemoryBufferPosition : Int)))
  else
    StreamWrapper.copyOut s size

/-- `StreamWrapper::Seek(offset, origin)`, memory-buffer branch.  Returns the
`int` result and the stream afterwards.  `unsigned(offset)` keeps the low 32
bits of the offset; `m_fileMemoryBufferPosition + offset` and
`m_fileMemoryBufferSize + offset` are computed in `size_t`, so their
comparison `< 0` is never true.  The wrapped sums are written as conversions
of the exact integer sums to `size_t`. -/
def StreamWrapper.Seek (s : StreamWrapper) (offset : Int) (origin : Int) : Int × StreamWrapper :=
  let s0 : StreamWrapper := { s with m_isEOF := false }
  if origin = SEEK_SET then
    if offset < 0 ∨ toU32 offset > s.m_fileMemoryBufferSize then
      (-1, s0)
    else
      (0, { s0 with m_fileMemoryBufferPosition := toU64 offset })
  else if origin = SEEK_CUR then
    let sum : Nat := toU64 ((s.m_fileMemoryBufferPosition : Int) + offset)
    if (sum : Int) < 0 ∨ sum > s.m_fileMemoryBufferSize then
      (-1, s0)
    else
      (0, { s0 with m_fileMemoryBufferPosition := sum })
  else if origin = SEEK_END then
    let sum : Nat := toU64 ((s.m_fileMemoryBufferSize : Int) + offset)
    if offset > 0 ∨ (sum : Int) < 0 then
      (-1, s0)
    else
      (0, { s0 with m_fileMemoryBufferPosition := sum })
  else
    (-1, s0)

/-- `StreamWrapper::Tell()`, memory-buffer branch: the position converted to `long long`. -/
def StreamWrapper.Tell (s : StreamWrapper) : Int :=
  toI64 s.m_fileMemoryBufferPosition

/-- `StreamWrapper::Length()`, memory-buffer branch. -/
def StreamWrapper.Length (s : StreamWrapper) : Int :=
  toI64 s.m_fileMemoryBufferSize

/-- `StreamWrapper::isOpen()`. -/
def StreamWrapper.isOpen (s : StreamWrapper) : Bool :=
  s.m_isOpen

/-- `StreamWrapper::EndOfFile()`: an open stream answers with `feof` of the
file object, a closed one with `m_isEOF`. -/
def StreamWrapper.EndOfFile (s : StreamWrapper) : Bool :=
  if s.isOpen then
    (if s.fileEndOfFileIndicator then true else false)
  else
    s.m_isEOF

/-- `StreamWrapper::Close()`: the buffer is released and the members are reset. -/
def StreamWrapper.Close (_s : StreamWrapper) : StreamWrapper :=
  { m_fileMemoryBuffer := []
    m_fileMemoryBufferPosition := 0
    m_isEOF := false
    m_isOpen := false
    fileEndOfFileIndicator := false }

/-- The stream that `StreamWrapper::Open(filename, true)` leaves for a file
with the given bytes, all of which were read into the memory buffer: position
0, open, and no end-of-file condition on the file object (every `fread_s`
returned the requested count). -/
def StreamWrapper.opened (bytes : List Byte) : StreamWrapper :=
  { m_fileMemoryBuffer := bytes
    m_fileMemoryBufferPosition := 0
    m_isEOF := false
    m_isOpen := true
    fileEndOfFileIndicator := false }

/-! ## Utils and DecoderManager

`Utils.cpp`, `DecoderManager.cpp`, and the `DECODER_NAME` /
`FILE_EXTENSION_TYPES` constants of the four decoder headers. -/

/-- The terminating character of a C wide string. -/
def NUL : Char := Char.ofNat 0

/-- `std::tolower` in the "C" locale, applied to one `wchar_t`: the letters
`A`..`Z` are mapped to `a`..`z`, every other character is returned unchanged. -/
def tolower (c : Char) : Char :=
  if 65 ≤ c.toNat ∧ c.toNat ≤ 90 then Char.ofNat (c.toNat + 32) else c

/-- `Utils::ToLowerCase(source)`: converts each character, one at a time. -/
def Utils.ToLowerCase (source : List Char) : List Char :=
  source.map tolower

/-- `wcsrchr(str, wc)`: the tail of `str` that starts at the last occurrence of
`wc`, or `none` (a null pointer) when `wc` does not occur. -/
def wcsrchr : List Char → Char → Option (List Char)
  | [], _ => none
  | c :: rest, wc =>
    match wcsrchr rest wc with
    | some found => some found
    | none => if c = wc then some (c :: rest) else none

/-- The C wide string that starts at a pointer into a character array: the
characters before the first `NUL`. -/
def wstringAt (ptr : List Char) : List Char :=
  ptr.takeWhile (fun c => c ≠ NUL)

/-- `FlacDecoder::DECODER_NAME`. -/
def FlacDecoder.DECODER_NAME : String := "FLAC"

/-- `FlacDecoder::FILE_EXTENSION_TYPES`, the array `L"flac\0fla\0"` with its terminator. -/
def FlacDecoder.FILE_EXTENSION_TYPES : List Char :=
  ['f', 'l', 'a', 'c', NUL, 'f', 'l', 'a', NUL, NUL]

/-- `MP3Decoder::DECODER_NAME`. -/
def MP3Decoder.DECODER_NAME : String := "MP3"

/-- `MP3Decoder::FILE_EXTENSION_TYPES`, the array `L"mp3\0mp2\0m2a\0"` with its terminator. -/
def MP3Decoder.FILE_EXTENSION_TYPES : List Char :=
  ['m', 'p', '3', NUL, 'm', 'p', '2', NUL, 'm', '2', 'a', NUL, NUL]

/-- `WavPackDecoder::DECODER_NAME`. -/
def WavPackDecoder.DECODER_NAME : String := "WAV_PACK"

/-- `WavPackDecoder::FILE_EXTENSION_TYPES`, the array `L"wv\0"` with its terminator. -/
def WavPackDecoder.FILE_EXTENSION_TYPES : List Char :=
  ['w', 'v', NUL, NUL]

/-- `OggVorbisDecoder::DECODER_NAME`. -/
def OggVorbisDecoder.DECODER_NAME : String := "OGG-VORBIS"

/-- `OggVorbisDecoder::FILE_EXTENSION_TYPES`, the array `L"ogg\0"` with its terminator. -/
def OggVorbisDecoder.FILE_EXTENSION_TYPES : List Char :=
  ['o', 'g', 'g', NUL, NUL]

/-- `DecoderManager::UNSUPPORTED_TYPE`. -/
def DecoderManager.UNSUPPORTED_TYPE : String := "UNSUPPORTED"

/-- State of a `DecoderManager`: the `std::map` from file extension to decoder
name, as an association list, and the memory-buffer switch. -/
structure DecoderManager where
  m_fileExtensionToDecoderNameMap : List (List Char × String)
  decoderMemoryBufferEnabled : Bool
  deriving Repr, DecidableEq

/-- `std::map::find`: the value stored under a key, if any. -/
def mapFind (m : List (List Char × String)) (key : List Char) : Option String :=
  match m with
  | [] => none
  | (k, v) :: rest => if k = key then some v else mapFind rest key

/-- `std::map::insert`: adds the pair unless the key is already present. -/
def mapInsert (m : List (List Char × String)) (key : List Char) (value : String) :
    List (List Char × String) :=
  match mapFind m key with
  | some _ => m
  | none => m ++ [(key, value)]

/-- The loop of `DecoderManager::PopulateFileExtensionToDecoderNameMap`, with
a bound on the number of iterations: while the pointer does not point at
`NUL`, insert the string at the pointer and advance the pointer past the
string and its terminator. -/
def DecoderManager.PopulateLoop :
    Nat → List Char → String → List (List Char × String) → List (List Char × String)
  | 0, _, _, m => m
  | fuel + 1, supportedTypesPtr, decoderName, m =>
    match supportedTypesPtr with
    | [] => m
    | c :: _ =>
      if c = NUL then m
      else
        let supportedType := wstringAt supportedTypesPtr
        DecoderManager.PopulateLoop fuel (supportedTypesPtr.drop (supportedType.length + 1))
          decoderName (mapInsert m supportedType decoderName)

/-- `DecoderManager::PopulateFileExtensionToDecoderNameMap(supportedTypesPtr, decoderName)`.
Each iteration advances the pointer by at least one character, so the length
of the array bounds the number of iterations. -/
def DecoderManager.PopulateFileExtensionToDecoderNameMap (dm : DecoderManager)
    (supportedTypesPtr : List Char) (decoderName : String) : DecoderManager :=
  { dm with
    m_fileExtensionToDecoderNameMap :=
      DecoderManager.PopulateLoop supportedTypesPtr.length supportedTypesPtr decoderName
        dm.m_fileExtensionToDecoderNameMap }

/-- `DecoderManager::DecoderManager()`. -/
def DecoderManager.new : DecoderManager :=
  let dm0 : DecoderManager := { m_fileExtensionToDecoderNameMap := [], decoderMemoryBufferEnabled := false }
  let dm1 := dm0.PopulateFileExtensionToDecoderNameMap FlacDecoder.FILE_EXTENSION_TYPES FlacDecoder.DECODER_NAME
  let dm2 := dm1.PopulateFileExtensionToDecoderNameMap MP3Decoder.FILE_EXTENSION_TYPES MP3Decoder.DECODER_NAME
  let dm3 := dm2.PopulateFileExtensionToDecoderNameMap WavPackDecoder.FILE_EXTENSION_TYPES WavPackDecoder.DECODER_NAME
  dm3.PopulateFileExtensionToDecoderNameMap OggVorbisDecoder.FILE_EXTENSION_TYPES OggVorbisDecoder.DECODER_NAME

/-- `DecoderManager::FindDecoderType(filenamePtr)`. -/
def DecoderManager.FindDecoderType (dm : DecoderManager) (filenamePtr : List Char) : String :=
  match wcsrchr filenamePtr '.' with
  | none => DecoderManager.UNSUPPORTED_TYPE
  | some lastOccurence =>
    let lastOccurence := lastOccurence.drop 1
    let lowerCaseWString := Utils.ToLowerCase lastOccurence
    match mapFind dm.m_fileExtensionToDecoderNameMap lowerCaseWString with
    | some value => value
    | none => DecoderManager.UNSUPPORTED_TYPE

/-- `DecoderManager::IsSupportedType(filenamePtr)`. -/
def DecoderManager.IsSupportedType (dm : DecoderManager) (filenamePtr : List Char) : Bool :=
  if dm.FindDecoderType filenamePtr = DecoderManager.UNSUPPORTED_TYPE then false else true

/-- The classification table of the specification (section 4.2), applied to an
extension that is already in lower case. -/
def specDecoderOfExtension (ext : List Char) : String :=
  if ext = ['f', 'l', 'a', 'c'] ∨ ext = ['f', 'l', 'a'] then "FLAC"
  else if ext = ['m', 'p', '3'] ∨ ext = ['m', 'p', '2'] ∨ ext = ['m', '2', 'a'] then "MP3"
  else if ext = ['w', 'v'] then "WAV_PACK"
  else if ext = ['o', 'g', 'g'] then "OGG-VORBIS"
  else "UNSUPPORTED"

/-- The seven recognised extensions of the specification (section 4.2). -/
def specSupportedExtensions : List (List Char) :=
  [['f', 'l', 'a', 'c'], ['f', 'l', 'a'], ['m', 'p', '3'], ['m', 'p', '2'], ['m', '2', 'a'],
   ['w', 'v'], ['o', 'g', 'g']]

/-- The lower-case form of a text as the specification means it (section 4.2,
"case-insensitive"): each of the letters `A`..`Z` becomes the same letter in
lower case and every other character is kept. -/
def specLowerCase (text : List Char) : List Char :=
  text.map Char.toLower

/-! ## C strings in byte buffers -/

/-- The ASCII bytes of a string literal. -/
def asciiBytes (lit : String) : List Byte :=
  lit.toList.map (fun c => Fin.ofNat c.toNat)

/-- A `char` array of the given size, zero-initialised, after `data` was copied to its start. -/
def charArray (size : Nat) (data : List Byte) : List Byte :=
  (data ++ List.replicate (size - data.length) 0).take size

/-- The C string held in a `char` array: the bytes before the first zero byte. -/
def cString (buffer : List Byte) : List Byte :=
  buffer.takeWhile (fun b => b ≠ 0)

/-- The test `strcmp(buffer, literal) == 0`. -/
def strcmpEq (buffer : List Byte) (lit : String) : Bool :=
  decide (cString buffer = asciiBytes lit)

/-! ## FlacDecoder

`FlacDecoder.cpp`.  The libFLAC engine is an external collaborator.  One call
of `process_single()` is described by what the engine does to the code of the
repository during the call: the callbacks it invokes, in order, the value it
returns, the state `get_state()` reports afterwards, and the value `finish()`
returns if it is called then. -/

/-- `FLAC__StreamDecoderState`. -/
inductive FLAC__StreamDecoderState where
  | SEARCH_FOR_METADATA
  | READ_METADATA
  | SEARCH_FOR_FRAME_SYNC
  | READ_FRAME
  | END_OF_STREAM
  | OGG_ERROR
  | SEEK_ERROR
  | ABORTED
  | MEMORY_ALLOCATION_ERROR
  | UNINITIALIZED
  deriving Repr, DecidableEq

/-- `FLAC__StreamDecoderErrorStatus`; `OTHER` stands for the values the
`switch` of `error_callback` has no case for. -/
inductive FLAC__StreamDecoderErrorStatus where
  | LOST_SYNC
  | BAD_HEADER
  | FRAME_CRC_MISMATCH
  | UNPARSEABLE_STREAM
  | BAD_METADATA
  | OTHER
  deriving Repr, DecidableEq

/-- One callback invoked by the engine. -/
inductive FlacCallback where
  | read (bytes : Nat)
  | seek (absolute_byte_offset : Nat)
  | write (blocksize : Nat)
  | error (status : FLAC__StreamDecoderErrorStatus)
  | metadata (isStreamInfo : Bool) (sample_rate : Nat) (total_samples : Nat)
  deriving Repr, DecidableEq

/-- What the engine does during one call of `process_single()`. -/
structure ProcessSingle where
  callbacks : List FlacCallback
  returned : Bool
  state : FLAC__StreamDecoderState
  finishReturned : Bool
  deriving Repr, DecidableEq

/-- Members of `FlacDecoder`. -/
structure FlacDecoder where
  m_streamTotalSampleCount : Nat
  m_totalDecodedFrameSampleCount : Nat
  m_streamSampleRate : Nat
  m_errorCallbackFlagEnabled : Bool
  m_errorMessage : String
  m_stream : StreamWrapper
  m_lastDecodedFrameSampleSize : Int
  m_decoderIsOpen : Bool
  deriving Repr, DecidableEq

/-- `FlacDecoder::read_callback(buffer, bytes)`: only its effect on the decoder
(the stream) is kept. -/
def FlacDecoder.read_callback (d : FlacDecoder) (bytes : Nat) : Result FlacDecoder :=
  if bytes > 0 then
    if d.m_stream.EndOfFile then
      Result.ok d
    else
      match d.m_stream.Read bytes with
      | Result.ok r => Result.ok { d with m_stream := r.stream }
      | Result.undefinedBehaviour => Result.undefinedBehaviour
      | Result.outOfFuel => Result.outOfFuel
  else
    Result.ok d

/-- `FlacDecoder::seek_callback(absolute_byte_offset)`: only its effect on the decoder is kept. -/
def FlacDecoder.seek_callback (d : FlacDecoder) (absolute_byte_offset : Nat) : FlacDecoder :=
  { d with m_stream := (d.m_stream.Seek (toI64 absolute_byte_offset) SEEK_SET).2 }

/-- `FlacDecoder::write_callback(frame, buffer)`, with `frame->header.blocksize` as argument. -/
def FlacDecoder.write_callback (d : FlacDecoder) (blocksize : Nat) : FlacDecoder :=
  let d1 := { d with m_lastDecodedFrameSampleSize := ((blocksize % U32 : Nat) : Int) }
  { d1 with
    m_totalDecodedFrameSampleCount :=
      (d1.m_totalDecodedFrameSampleCount + toU64 d1.m_lastDecodedFrameSampleSize) % U64 }

/-- `FlacDecoder::metadata_callback(metadata)`. -/
def FlacDecoder.metadata_callback (d : FlacDecoder) (isStreamInfo : Bool)
    (sample_rate total_samples : Nat) : FlacDecoder :=
  if isStreamInfo then
    { d with m_streamSampleRate := sample_rate % U32, m_streamTotalSampleCount := total_samples % U64 }
  else
    d

/-- `FlacDecoder::hasID3v1Tag()`: the answer and the decoder afterwards. -/
def FlacDecoder.hasID3v1Tag (d : FlacDecoder) : Result (Bool × FlacDecoder) :=
  let sought := d.m_stream.Seek (-128) SEEK_END
  if sought.1 = 0 then
    match sought.2.Read 3 with
    | Result.ok r =>
      let id3 := charArray 4 r.data
      if strcmpEq id3 "TAG" then
        Result.ok (true, { d with m_stream := r.stream })
      else
        Result.ok (false, { d with m_stream := r.stream })
    | Result.undefinedBehaviour => Result.undefinedBehaviour
    | Result.outOfFuel => Result.outOfFuel
  else
    Result.ok (false, { d with m_stream := sought.2 })

/-- The text `"{minutes}m {seconds}s"` streamed into the `wostringstream`. -/
def FlacDecoder.stamp (minutes seconds : Nat) : String :=
  toString minutes ++ "m " ++ toString seconds ++ "s"

/-- The local `totalDecodedStreamTimeSeconds` of `error_callback` and `Truncated`. -/
def FlacDecoder.totalDecodedStreamTimeSeconds (d : FlacDecoder) : Nat :=
  if d.m_streamSampleRate > 0 then d.m_totalDecodedFrameSampleCount / d.m_streamSampleRate else 0

/-- `FlacDecoder::error_callback(status)`. -/
def FlacDecoder.error_callback (d : FlacDecoder) (status : FLAC__StreamDecoderErrorStatus) :
    Result FlacDecoder :=
  let d := { d with m_errorCallbackFlagEnabled := true }
  let totalDecodedStreamTimeSeconds : Nat := d.totalDecodedStreamTimeSeconds
  let minutes := totalDecodedStreamTimeSeconds / 60
  let seconds := totalDecodedStreamTimeSeconds % 60
  match status with
  | FLAC__StreamDecoderErrorStatus.LOST_SYNC =>
    if d.m_streamTotalSampleCount > 0 ∧ d.m_streamSampleRate > 0 then
      let totalStreamTimeSeconds := d.m_streamTotalSampleCount / d.m_streamSampleRate
      if totalStreamTimeSeconds = totalDecodedStreamTimeSeconds then
        match d.hasID3v1Tag with
        | Result.ok (true, d1) =>
          Result.ok { d1 with
            m_errorMessage := "<LOST_SYNC @ " ++ FlacDecoder.stamp minutes seconds ++ ">" ++ " <ID3v1_TAG_FOUND>" }
        | Result.ok (false, d1) =>
          Result.ok { d1 with m_errorMessage := "LOST_SYNC @ " ++ FlacDecoder.stamp minutes seconds }
        | Result.undefinedBehaviour => Result.undefinedBehaviour
        | Result.outOfFuel => Result.outOfFuel
      else
        Result.ok { d with m_errorMessage := "LOST_SYNC @ " ++ FlacDecoder.stamp minutes seconds }
    else
      Result.ok { d with m_errorMessage := "LOST_SYNC @ " ++ FlacDecoder.stamp minutes seconds }
  | FLAC__StreamDecoderErrorStatus.BAD_HEADER =>
    Result.ok { d with m_errorMessage := "BAD_HEADER @ " ++ FlacDecoder.stamp minutes seconds }
  | FLAC__StreamDecoderErrorStatus.FRAME_CRC_MISMATCH =>
    Result.ok { d with m_errorMessage := "FRAME_CRC_MISMATCH @ " ++ FlacDecoder.stamp minutes seconds }
  | FLAC__StreamDecoderErrorStatus.UNPARSEABLE_STREAM =>
    Result.ok { d with m_errorMessage := "UNPARSEABLE_STREAM" }
  | FLAC__StreamDecoderErrorStatus.BAD_METADATA =>
    Result.ok { d with m_errorMessage := "BAD_METADATA" }
  | FLAC__StreamDecoderErrorStatus.OTHER =>
    Result.ok d

/-- One callback of the engine, dispatched to the member function it invokes. -/
def FlacDecoder.invoke (d : FlacDecoder) : FlacCallback → Result FlacDecoder
  | FlacCallback.read bytes => d.read_callback bytes
  | FlacCallback.seek absolute_byte_offset => Result.ok (d.seek_callback absolute_byte_offset)
  | FlacCallback.write blocksize => Result.ok (d.write_callback blocksize)
  | FlacCallback.error status => d.error_callback status
  | FlacCallback.metadata isStreamInfo sample_rate total_samples =>
    Result.ok (d.metadata_callback isStreamInfo sample_rate total_samples)

/-- The callbacks of one engine call, invoked in order. -/
def FlacDecoder.invokeAll (d : FlacDecoder) : List FlacCallback → Result FlacDecoder
  | [] => Result.ok d
  | cb :: rest =>
    match d.invoke cb with
    | Result.ok d1 => FlacDecoder.invokeAll d1 rest
    | Result.undefinedBehaviour => Result.undefinedBehaviour
    | Result.outOfFuel => Result.outOfFuel

/-- `FlacDecoder::Truncated(errorMessage)`: the message it writes. -/
def FlacDecoder.Truncated (d : FlacDecoder) : String :=
  let totalDecodedStreamTimeSeconds : Nat := d.totalDecodedStreamTimeSeconds
  let minutes := totalDecodedStreamTimeSeconds / 60
  let seconds := totalDecodedStreamTimeSeconds % 60
  "TRUNCATED @" ++ toString minutes ++ "m " ++ toString seconds ++ "s"

/-- The part of `FlacDecoder::Read()` that follows the return of
`process_single()`: `d` is the decoder after the callbacks of the call. -/
def FlacDecoder.ReadAfterProcess (d : FlacDecoder) (engine : ProcessSingle) : Int × FlacDecoder :=
  let decodeOperationWasSuccessful := engine.returned
  if !decodeOperationWasSuccessful || d.m_errorCallbackFlagEnabled then
    let d := { d with m_lastDecodedFrameSampleSize := -1 }
    if !d.m_errorCallbackFlagEnabled then
      match engine.state with
      | FLAC__StreamDecoderState.END_OF_STREAM =>
        let d := { d with m_errorMessage := d.Truncated }
        (d.m_lastDecodedFrameSampleSize, d)
      | FLAC__StreamDecoderState.SEEK_ERROR =>
        let d := { d with m_errorMessage := "SEEK_ERROR" }
        (d.m_lastDecodedFrameSampleSize, d)
      | FLAC__StreamDecoderState.ABORTED =>
        let d := { d with m_errorMessage := "DECODER_ABORTED" }
        (d.m_lastDecodedFrameSampleSize, d)
      | FLAC__StreamDecoderState.MEMORY_ALLOCATION_ERROR =>
        let d := { d with m_errorMessage := "MEMORY_ALLOCATION_ERROR" }
        (d.m_lastDecodedFrameSampleSize, d)
      | FLAC__StreamDecoderState.OGG_ERROR =>
        let d := { d with m_errorMessage := "OGG_LAYER_ERROR" }
        (d.m_lastDecodedFrameSampleSize, d)
      | _ =>
        let d := { d with m_errorMessage := "DECODER_ERROR" }
        (d.m_lastDecodedFrameSampleSize, d)
    else
      -- `m_errorMessage == L""` compares the address of the member array with
      -- the address of a literal and `m_errorMessage == nullptr` the address
      -- with null: neither holds, the message is left as it is.
      (d.m_lastDecodedFrameSampleSize, d)
  else
    if engine.state = FLAC__StreamDecoderState.END_OF_STREAM then
      let d :=
        if !engine.finishReturned then
          { d with m_lastDecodedFrameSampleSize := -1, m_errorMessage := "MD5_MISMATCH" }
        else d
      let d :=
        if d.m_totalDecodedFrameSampleCount ≠ d.m_streamTotalSampleCount then
          let d := { d with m_lastDecodedFrameSampleSize := -1 }
          if d.m_totalDecodedFrameSampleCount < d.m_streamTotalSampleCount then
            { d with m_errorMessage := "MISSING_SAMPLES" }
          else
            { d with m_errorMessage := "EXTRA_SAMPLES" }
        else d
      (d.m_lastDecodedFrameSampleSize, d)
    else
      (d.m_lastDecodedFrameSampleSize, d)

/-- `FlacDecoder::Read()`, for one call of the engine: the returned value and
the decoder afterwards. -/
def FlacDecoder.Read (d : FlacDecoder) (engine : ProcessSingle) : Result (Int × FlacDecoder) :=
  let d := { d with m_lastDecodedFrameSampleSize := 0 }
  match d.invokeAll engine.callbacks with
  | Result.ok d1 => Result.ok (d1.ReadAfterProcess engine)
  | Result.undefinedBehaviour => Result.undefinedBehaviour
  | Result.outOfFuel => Result.outOfFuel

/-- `FlacDecoder::GetDecodedAudioDataTotal()`. -/
def FlacDecoder.GetDecodedAudioDataTotal (d : FlacDecoder) : Nat :=
  d.m_streamTotalSampleCount

/-- Repeated calls of `FlacDecoder::Read()`, one per engine call of the list:
the returned values, in order, and the decoder afterwards. -/
def FlacDecoder.ReadAll (d : FlacDecoder) : List ProcessSingle → Result (List Int × FlacDecoder)
  | [] => Result.ok ([], d)
  | engine :: rest =>
    match d.Read engine with
    | Result.ok (r, d1) =>
      match FlacDecoder.ReadAll d1 rest with
      | Result.ok (rs, d2) => Result.ok (r :: rs, d2)
      | Result.undefinedBehaviour => Result.undefinedBehaviour
      | Result.outOfFuel => Result.outOfFuel
    | Result.undefinedBehaviour => Result.undefinedBehaviour
    | Result.outOfFuel => Result.outOfFuel

/-- `FlacDecoder::FlacDecoder()`: the members after default initialisation. -/
def FlacDecoder.new : FlacDecoder :=
  { m_streamTotalSampleCount := 0
    m_totalDecodedFrameSampleCount := 0
    m_streamSampleRate := 0
    m_errorCallbackFlagEnabled := false
    m_errorMessage := ""
    m_stream := StreamWrapper.Close (StreamWrapper.opened [])
    m_lastDecodedFrameSampleSize := 0
    m_decoderIsOpen := false }

/-- `FlacDecoder::OpenFile(filenamePtr, true)` for a file with the given bytes
that `m_stream.Open` read into the memory buffer.  `initStatusOk` tells whether
`init()` returned `FLAC__STREAM_DECODER_INIT_STATUS_OK`; `callbacks` and
`decodingMetaDataWasSuccessful` describe the call of
`process_until_end_of_metadata()`. -/
def FlacDecoder.OpenFile (d : FlacDecoder) (bytes : List Byte) (initStatusOk : Bool)
    (callbacks : List FlacCallback) (decodingMetaDataWasSuccessful : Bool) : Result FlacDecoder :=
  let d := { d with m_stream := StreamWrapper.opened bytes }
  if initStatusOk then
    match d.invokeAll callbacks with
    | Result.ok d1 =>
      if decodingMetaDataWasSuccessful then
        Result.ok { d1 with m_totalDecodedFrameSampleCount := 0, m_decoderIsOpen := true }
      else
        Result.ok { d1 with m_decoderIsOpen := false, m_stream := d1.m_stream.Close }
    | Result.undefinedBehaviour => Result.undefinedBehaviour
    | Result.outOfFuel => Result.outOfFuel
  else
    Result.ok { d with m_decoderIsOpen := false, m_stream := d.m_stream.Close }

/-- An open decoder whose stream declares 4096 samples and that has decoded 4096 samples. -/
def FlacDecoder.drained4096 : FlacDecoder :=
  { m_streamTotalSampleCount := 4096
    m_totalDecodedFrameSampleCount := 4096
    m_streamSampleRate := 44100
    m_errorCallbackFlagEnabled := false
    m_errorMessage := ""
    m_stream := StreamWrapper.opened []
    m_lastDecodedFrameSampleSize := 0
    m_decoderIsOpen := true }

/-- An open decoder whose stream declares 8192 samples and that has decoded none yet. -/
def FlacDecoder.opened8192 : FlacDecoder :=
  { m_streamTotalSampleCount := 8192
    m_totalDecodedFrameSampleCount := 0
    m_streamSampleRate := 44100
    m_errorCallbackFlagEnabled := false
    m_errorMessage := ""
    m_stream := StreamWrapper.opened []
    m_lastDecodedFrameSampleSize := 0
    m_decoderIsOpen := true }

/-- The decoder `opened8192` after two frames of 4096 samples and the end of the stream. -/
def FlacDecoder.drained8192 : FlacDecoder :=
  { FlacDecoder.opened8192 with m_totalDecodedFrameSampleCount := 8192 }

/-- An engine call that delivers one audio frame of 4096 samples. -/
def ProcessSingle.frame4096 : ProcessSingle :=
  { callbacks := [FlacCallback.write 4096]
    returned := true
    state := FLAC__StreamDecoderState.SEARCH_FOR_FRAME_SYNC
    finishReturned := true }

/-- An engine call that reaches the end of the stream without any callback. -/
def ProcessSingle.cleanEnd : ProcessSingle :=
  { callbacks := []
    returned := true
    state := FLAC__StreamDecoderState.END_OF_STREAM
    finishReturned := true }

/-- An open decoder whose STREAMINFO declares no total (0 samples) and that
has decoded no sample yet. -/
def FlacDecoder.openedUnknownTotal : FlacDecoder :=
  { m_streamTotalSampleCount := 0
    m_totalDecodedFrameSampleCount := 0
    m_streamSampleRate := 44100
    m_errorCallbackFlagEnabled := false
    m_errorMessage := ""
    m_stream := StreamWrapper.opened []
    m_lastDecodedFrameSampleSize := 0
    m_decoderIsOpen := true }

/-- An engine call in which the stream ends inside a frame: `process_single()`
returns false, the state is `END_OF_STREAM`, no callback is invoked. -/
def ProcessSingle.cutInFrame : ProcessSingle :=
  { callbacks := []
    returned := false
    state := FLAC__StreamDecoderState.END_OF_STREAM
    finishReturned := true }

/-- Whether a callback is a `write_callback`. -/
def FlacCallback.isWrite : FlacCallback → Bool
  | FlacCallback.write _ => true
  | _ => false

/-- Whether a callback is an `error_callback`. -/
def FlacCallback.isError : FlacCallback → Bool
  | FlacCallback.error _ => true
  | _ => false

/-! ## WavPackDecoder

`WavPackDecoder.cpp`.  The WavPack library and the MD5 routines of `md5.h` are
external collaborators.  One call of `Read()` is described by what the library
hands over during the call; the MD5 state is the sequence of bytes appended to
it, and `md5_finish` is a function from that sequence to the 16-byte digest. -/

/-- `MAX_UNPACKED_SAMPLE_BUFFER_SIZE`. -/
def MAX_UNPACKED_SAMPLE_BUFFER_SIZE : Nat := 4096

/-- What the WavPack library hands over during one call of `Read()`: the 32-bit
sample words `WavpackUnpackSamples` stores at the start of the sample buffer
(as unsigned bit patterns), the count it returns, and what `WavpackGetNumErrors`
and `WavpackGetMD5Sum` answer. -/
structure WavpackCall where
  samples : List Nat
  unpackedSamplesPerChannel : Nat
  numErrors : Int
  md5Sum : Option (List Byte)
  deriving Repr, DecidableEq

/-- Members of `WavPackDecoder`.  `m_unpackedSampleBuffer` is the memory of the
`int32_t` array, byte by byte (little-endian words). -/
structure WavPackDecoder where
  m_errorMessage : String
  m_streamTotalSampleCount : Int
  m_totalUnpackedSampleCount : Nat
  m_bytesPerSample : Int
  m_numberOfChannels : Int
  m_requestedCompleteSamples : Nat
  m_DSDAudioFlagEnabled : Bool
  m_md5ModeIsEnabled : Bool
  m_stateStructMD5Algorithm : List Byte
  m_unpackedSampleBuffer : List Byte
  m_decoderIsOpen : Bool
  deriving Repr, DecidableEq

/-- A way `Read()` can end without returning a value. -/
inductive Abnormal where
  | exception (what : String)
  deriving Repr, DecidableEq

/-- The four bytes of a 32-bit word, least significant first. -/
def wordBytes (w : Nat) : List Byte :=
  [Fin.ofNat (w % 256), Fin.ofNat (w / 256 % 256), Fin.ofNat (w / 65536 % 256),
   Fin.ofNat (w / 16777216 % 256)]

/-- The memory of an `int32_t` array holding the given words. -/
def wordsToBytes : List Nat → List Byte
  | [] => []
  | w :: rest => wordBytes w ++ wordsToBytes rest

/-- The `int32_t` at word index `i` of a byte memory, as an unsigned bit pattern. -/
def readWord (memory : List Byte) (i : Nat) : Nat :=
  (memory.getD (4 * i) 0).val + 256 * (memory.getD (4 * i + 1) 0).val
    + 65536 * (memory.getD (4 * i + 2) 0).val + 16777216 * (memory.getD (4 * i + 3) 0).val

/-- One iteration of the `while` loop of `UpdateMD5` for the given case of the
`switch`: the word at `src` is read, then its low bytes are stored at `dst`. -/
def WavPackDecoder.UpdateMD5Step (bytesPerSample : Nat) (dsd : Bool) (src dst : Nat)
    (memory : List Byte) : List Byte :=
  let tempIntegerValue := readWord memory src
  match bytesPerSample with
  | 1 =>
    if dsd then memory.set dst (Fin.ofNat ((tempIntegerValue + 0) % 256))
    else memory.set dst (Fin.ofNat ((tempIntegerValue + 128) % 256))
  | 2 =>
    (memory.set dst (Fin.ofNat (tempIntegerValue % 256))).set (dst + 1)
      (Fin.ofNat (tempIntegerValue / 256 % 256))
  | 3 =>
    ((memory.set dst (Fin.ofNat (tempIntegerValue % 256))).set (dst + 1)
      (Fin.ofNat (tempIntegerValue / 256 % 256))).set (dst + 2)
      (Fin.ofNat (tempIntegerValue / 65536 % 256))
  | _ =>
    (((memory.set dst (Fin.ofNat (tempIntegerValue % 256))).set (dst + 1)
      (Fin.ofNat (tempIntegerValue / 256 % 256))).set (dst + 2)
      (Fin.ofNat (tempIntegerValue / 65536 % 256))).set (dst + 3)
      (Fin.ofNat (tempIntegerValue / 16777216 % 256))

/-- The `while (sampleCountLoopVar--)` loop of `UpdateMD5`: `src` is the index
of `srcIntBufferPtr` in words, `dst` the index of `dstByteBufferPtr` in bytes. -/
def WavPackDecoder.UpdateMD5Loop (bytesPerSample : Nat) (dsd : Bool) :
    Nat → Nat → Nat → List Byte → List Byte
  | 0, _, _, memory => memory
  | sampleCountLoopVar + 1, src, dst, memory =>
    WavPackDecoder.UpdateMD5Loop bytesPerSample dsd sampleCountLoopVar (src + 1) (dst + bytesPerSample)
      (WavPackDecoder.UpdateMD5Step bytesPerSample dsd src dst memory)

/-- `WavPackDecoder::UpdateMD5(sampleCount)`. -/
def WavPackDecoder.UpdateMD5 (d : WavPackDecoder) (sampleCount : Int) : Except Abnormal WavPackDecoder :=
  if d.m_bytesPerSample = 1 ∨ d.m_bytesPerSample = 2 ∨ d.m_bytesPerSample = 3 ∨ d.m_bytesPerSample = 4 then
    let memory := WavPackDecoder.UpdateMD5Loop d.m_bytesPerSample.toNat d.m_DSDAudioFlagEnabled
      sampleCount.toNat 0 0 d.m_unpackedSampleBuffer
    let numberOfBytes : Int := toI32 (toU64 (toI32 (toU64 sampleCount) * d.m_bytesPerSample))
    Except.ok { d with
      m_unpackedSampleBuffer := memory
      m_stateStructMD5Algorithm := d.m_stateStructMD5Algorithm ++ memory.take numberOfBytes.toNat }
  else
    Except.error (Abnormal.exception "Unsupported Bytes per Sample value encountered.")

/-- The text `swprintf` writes for `"%d BAD_BLOC%s"`. -/
def WavPackDecoder.badBlocksMessage (numberOfErrors : Int) : String :=
  toString numberOfErrors ++ " BAD_BLOC" ++ (if numberOfErrors > 1 then "KS" else "K")

/-- The branch of `WavPackDecoder::Read()` for a sample count mismatch: the message written. -/
def WavPackDecoder.sampleCountMismatchMessage (d : WavPackDecoder) : String :=
  if d.m_streamTotalSampleCount < 0 then
    toString (0 : Int) ++ " " ++ "SAMPLE_COUNT_UNKNOWN_ERROR"
  else if d.m_totalUnpackedSampleCount < toU64 d.m_streamTotalSampleCount then
    let sampleCountMismatch : Int :=
      toI32 (toU64 ((toU64 d.m_streamTotalSampleCount : Int) - (d.m_totalUnpackedSampleCount : Int)))
    toString sampleCountMismatch ++ " " ++ ("MISSING_SAMPL" ++ (if sampleCountMismatch = 1 then "E" else "ES"))
  else if d.m_totalUnpackedSampleCount > toU64 d.m_streamTotalSampleCount then
    let sampleCountMismatch : Int :=
      toI32 (toU64 ((d.m_totalUnpackedSampleCount : Int) - (toU64 d.m_streamTotalSampleCount : Int)))
    toString sampleCountMismatch ++ " " ++ ("EXTRA_SAMPL" ++ (if sampleCountMismatch = 1 then "E" else "ES"))
  else
    toString (0 : Int) ++ " " ++ ""

/-- `WavPackDecoder::Read()` for one call of the library: the returned value and
the decoder afterwards. -/
def WavPackDecoder.Read (md5_finish : List Byte → List Byte) (d : WavPackDecoder)
    (call : WavpackCall) : Except Abnormal (Int × WavPackDecoder) :=
  let d := { d with
    m_unpackedSampleBuffer :=
      wordsToBytes call.samples ++ d.m_unpackedSampleBuffer.drop (4 * call.samples.length) }
  let numberOfUnpackedSamplesPerChannel : Int := ((call.unpackedSamplesPerChannel % U32 : Nat) : Int)
  if numberOfUnpackedSamplesPerChannel > 0 then
    let updated : Except Abnormal WavPackDecoder :=
      if d.m_md5ModeIsEnabled then
        d.UpdateMD5 (toI64 (toU64 (numberOfUnpackedSamplesPerChannel * d.m_numberOfChannels)))
      else Except.ok d
    match updated with
    | Except.ok d =>
      Except.ok (numberOfUnpackedSamplesPerChannel,
        { d with
          m_totalUnpackedSampleCount :=
            toU64 ((d.m_totalUnpackedSampleCount : Int) + numberOfUnpackedSamplesPerChannel) })
    | Except.error e => Except.error e
  else if numberOfUnpackedSamplesPerChannel = 0 then
    let numberOfErrors := call.numErrors
    if numberOfErrors > 0 then
      Except.ok (-1, { d with m_errorMessage := WavPackDecoder.badBlocksMessage numberOfErrors })
    else
      if d.m_totalUnpackedSampleCount = toU64 d.m_streamTotalSampleCount then
        if d.m_md5ModeIsEnabled then
          match call.md5Sum with
          | some md5ChecksumWavPack =>
            let computedMD5Checksum := md5_finish d.m_stateStructMD5Algorithm
            if md5ChecksumWavPack.take 16 ≠ computedMD5Checksum.take 16 then
              Except.ok (-1, { d with m_errorMessage := "MD5_MISMATCH" })
            else
              Except.ok (numberOfUnpackedSamplesPerChannel, d)
          | none => Except.ok (numberOfUnpackedSamplesPerChannel, d)
        else
          Except.ok (numberOfUnpackedSamplesPerChannel, d)
      else
        Except.ok (-1, { d with m_errorMessage := d.sampleCountMismatchMessage })
  else
    Except.ok (numberOfUnpackedSamplesPerChannel, d)

/-- The message the claim of the specification describes for a sample count
mismatch: the difference `|D - U|`, reported as missing when `U < D` and as
extra when `U > D`, in the wording the code uses for those two cases. -/
def specSampleCountMismatchMessage (declared : Int) (unpacked : Nat) : String :=
  if (unpacked : Int) < declared then
    toString (declared - unpacked) ++ " " ++ ("MISSING_SAMPL" ++ (if declared - unpacked = 1 then "E" else "ES"))
  else
    toString ((unpacked : Int) - declared) ++ " " ++ ("EXTRA_SAMPL" ++ (if (unpacked : Int) - declared = 1 then "E" else "ES"))

/-- An open WavPack decoder whose file does not declare its number of samples
(`WavpackGetNumSamples64` returned -1) and that has unpacked 1000 samples per channel. -/
def WavPackDecoder.unknownTotal : WavPackDecoder :=
  { m_errorMessage := ""
    m_streamTotalSampleCount := -1
    m_totalUnpackedSampleCount := 1000
    m_bytesPerSample := 2
    m_numberOfChannels := 2
    m_requestedCompleteSamples := 2048
    m_DSDAudioFlagEnabled := false
    m_md5ModeIsEnabled := false
    m_stateStructMD5Algorithm := []
    m_unpackedSampleBuffer := []
    m_decoderIsOpen := true }

/-- An open WavPack decoder whose file declares 1000 samples per channel and that has unpacked 998. -/
def WavPackDecoder.twoMissing : WavPackDecoder :=
  { WavPackDecoder.unknownTotal with m_streamTotalSampleCount := 1000, m_totalUnpackedSampleCount := 998 }

/-- A call in which the library unpacks no sample and reports no error and no stored checksum. -/
def WavpackCall.done : WavpackCall :=
  { samples := [], unpackedSamplesPerChannel := 0, numErrors := 0, md5Sum := none }

/-! ## MP3Decoder

`MP3Decoder.h` and `MP3Decoder.cpp`, for a decoder whose stream is fully
buffered.  `char` is the signed 8-bit type of the Microsoft compiler.  The two
messages that carry a time stamp compute it in `float`; the embedding takes
the conversion `(int)(static_cast<float>(position) / sampleRate)` as the
function `secondsOf`. -/

/-- `MPEG1`. -/
def MPEG1 : Nat := 3

/-- `MPEG2`. -/
def MPEG2 : Nat := 2

/-- `MPEG2_5`. -/
def MPEG2_5 : Nat := 0

/-- `LAYER_1`. -/
def LAYER_1 : Nat := 3

/-- `LAYER_II`. -/
def LAYER_II : Nat := 2

/-- `LAYER_III`. -/
def LAYER_III : Nat := 1

/-- `MAX_RESYNCHRONIZATION_ATTEMPTS`. -/
def MAX_RESYNCHRONIZATION_ATTEMPTS : Nat := 65536

/-- `APE_TAG_FOOTER_BYTES`. -/
def APE_TAG_FOOTER_BYTES : Int := 32

/-- `APE_TAG_FOOTER_ID`. -/
def APE_TAG_FOOTER_ID : String := "APETAGEX"

/-- `APE_TAG_FLAG_CONTAINS_HEADER_MASK`, the value of `(1 << 31)` as `unsigned long`. -/
def APE_TAG_FLAG_CONTAINS_HEADER_MASK : Nat := 0x80000000

/-- `MP3DecoderSupport::MP3_BITRATES`. -/
def MP3_BITRATES : List (List Nat) :=
  [[0, 0, 0, 0, 0],
   [32, 32, 32, 32, 8],
   [64, 48, 40, 48, 16],
   [96, 56, 48, 56, 24],
   [128, 64, 56, 64, 32],
   [160, 80, 64, 80, 40],
   [192, 96, 80, 96, 48],
   [224, 112, 96, 112, 56],
   [256, 128, 112, 128, 64],
   [288, 160, 128, 144, 80],
   [320, 192, 160, 160, 96],
   [352, 224, 192, 176, 112],
   [384, 256, 224, 192, 128],
   [416, 320, 256, 224, 144],
   [448, 384, 320, 256, 160],
   [0, 0, 0, 0, 0]]

/-- `MP3DecoderSupport::MP3_SAMPLE_RATES`. -/
def MP3_SAMPLE_RATES : List (List Nat) :=
  [[44100, 22050, 11025],
   [48000, 24000, 12000],
   [32000, 16000, 8000],
   [0, 0, 0]]

/-- `MP3DecoderSupport::MP3_CRC_BYTE_SIZE`. -/
def MP3_CRC_BYTE_SIZE : List (List Nat) :=
  [[32, 17],
   [17, 9]]

/-- The element `table[row][column]` of a two-dimensional array. -/
def tableAt (table : List (List Nat)) (row column : Nat) : Nat :=
  (table.getD row []).getD column 0

/-- Members of `MP3Decoder`. -/
structure MP3Decoder where
  m_stream : StreamWrapper
  m_errorMessage : String
  m_streamSampleRate : Nat
  m_currentFrameHeader : Nat
  m_previousFrameHeader : Nat
  m_fileSizeInBytes : Int
  m_offset : Int
  m_frameSamplePosition : Nat
  m_encodingVersion : Nat
  m_layerDescription : Nat
  m_bitrate : Nat
  m_sampleRate : Nat
  m_framePadding : Nat
  m_singleChannelMono : Nat
  m_columnIndex : Nat
  m_tagHeaderLengthBytes : Nat
  m_tagFooterLengthBytes : Nat
  m_currentFrameLength : Nat
  m_maxResynchronizationCount : Nat
  m_CRCByteSize : Nat
  m_embeddedFrameCRC : Nat
  m_bufferCRCBytes : List Byte
  m_decoderIsOpen : Bool
  deriving Repr, DecidableEq

/-- `MP3Decoder::MP3Decoder()`: the members after default initialisation. -/
def MP3Decoder.new : MP3Decoder :=
  { m_stream := StreamWrapper.Close (StreamWrapper.opened [])
    m_errorMessage := ""
    m_streamSampleRate := 0
    m_currentFrameHeader := 0
    m_previousFrameHeader := 0
    m_fileSizeInBytes := 0
    m_offset := 0
    m_frameSamplePosition := 0
    m_encodingVersion := 0
    m_layerDescription := 0
    m_bitrate := 0
    m_sampleRate := 0
    m_framePadding := 0
    m_singleChannelMono := 0
    m_columnIndex := 0
    m_tagHeaderLengthBytes := 0
    m_tagFooterLengthBytes := 0
    m_currentFrameLength := 0
    m_maxResynchronizationCount := 0
    m_CRCByteSize := 0
    m_embeddedFrameCRC := 0
    m_bufferCRCBytes := List.replicate 40 0
    m_decoderIsOpen := false }

/-- A 32-bit or 16-bit unsigned object after the byte at byte offset `k` of
its (little-endian) memory was overwritten with `b`. -/
def setByte (width : Nat) (value : Nat) (k : Nat) (b : Nat) : Nat :=
  (value % 256 ^ k + b * 256 ^ k + (value / 256 ^ (k + 1)) * 256 ^ (k + 1)) % 2 ^ width

/-- The object after a `Read` of at most one byte stored its data at byte offset `k`. -/
def storeByte (width : Nat) (value : Nat) (k : Nat) (data : List Byte) : Nat :=
  match data with
  | [] => value
  | b :: _ => setByte width value k b.val

/-- A byte array after `data` was copied to it at `offset`. -/
def overwrite (buffer : List Byte) (offset : Nat) (data : List Byte) : List Byte :=
  (buffer.take offset ++ data ++ buffer.drop (offset + data.length)).take buffer.length

/-- A `char` read as a number: the signed value of the byte. -/
def charValue (b : Byte) : Int :=
  if b.val < 128 then (b.val : Int) else (b.val : Int) - 256

/-- The first switch of `GetFrameLength`: the column of `MP3_BITRATES`, or the
value the column index had (5) when no case matches. -/
def MP3Decoder.bitrateColumnIndex (encodingVersion layerDescription columnIndex : Nat) : Nat :=
  if encodingVersion = MPEG1 then
    if layerDescription = LAYER_1 then 0
    else if layerDescription = LAYER_II then 1
    else if layerDescription = LAYER_III then 2
    else columnIndex
  else if encodingVersion = MPEG2 ∨ encodingVersion = MPEG2_5 then
    if layerDescription = LAYER_1 then 3
    else if layerDescription = LAYER_II ∨ layerDescription = LAYER_III then 4
    else columnIndex
  else columnIndex

/-- The value stored in `m_singleChannelMono`: the comparison
`((header >> 6) & 0x03) == 0x03` converted to `unsigned long`. -/
def MP3Decoder.singleChannelMono (header : Nat) : Nat :=
  if (header >>> 6) &&& 0x03 = 0x03 then 1 else 0

/-- The second switch of `GetFrameLength`, entered for one of the three known
versions: the column of `MP3_SAMPLE_RATES`. -/
def MP3Decoder.sampleRateColumnIndex (encodingVersion : Nat) : Nat :=
  if encodingVersion = MPEG1 then 0 else if encodingVersion = MPEG2 then 1 else 2

/-- The last switch of `GetFrameLength`, on the layer: the frame sample
position is advanced and the frame length is computed. -/
def MP3Decoder.GetFrameLengthByLayer (d : MP3Decoder) : Nat × MP3Decoder :=
  if d.m_layerDescription = LAYER_1 then
    let d := { d with m_frameSamplePosition := (d.m_frameSamplePosition + 384) % U32 }
    (((12 * d.m_bitrate % U32 / d.m_sampleRate + d.m_framePadding) * 4) % U32, d)
  else if d.m_layerDescription = LAYER_II then
    let d := { d with m_frameSamplePosition := (d.m_frameSamplePosition + 1152) % U32 }
    ((144 * d.m_bitrate % U32 / d.m_sampleRate + d.m_framePadding) % U32, d)
  else if d.m_layerDescription = LAYER_III then
    if d.m_encodingVersion = MPEG1 then
      let d := { d with m_frameSamplePosition := (d.m_frameSamplePosition + 1152) % U32 }
      ((144 * d.m_bitrate % U32 / d.m_sampleRate + d.m_framePadding) % U32, d)
    else
      let d := { d with m_frameSamplePosition := (d.m_frameSamplePosition + 576) % U32 }
      ((72 * d.m_bitrate % U32 / d.m_sampleRate + d.m_framePadding) % U32, d)
  else
    (0, d)

/-- `MP3Decoder::GetFrameLength()`: the returned length and the decoder afterwards. -/
def MP3Decoder.GetFrameLength (d : MP3Decoder) : Nat × MP3Decoder :=
  if d.m_currentFrameHeader > 0xFFE00000 then
    let d := { d with
      m_encodingVersion := (d.m_currentFrameHeader >>> 19) &&& 0x03
      m_layerDescription := (d.m_currentFrameHeader >>> 17) &&& 0x03
      m_bitrate := (d.m_currentFrameHeader >>> 12) &&& 0x0F
      m_sampleRate := (d.m_currentFrameHeader >>> 10) &&& 0x03
      m_framePadding := (d.m_currentFrameHeader >>> 9) &&& 0x01
      m_singleChannelMono := MP3Decoder.singleChannelMono d.m_currentFrameHeader
      m_embeddedFrameCRC := (d.m_currentFrameHeader >>> 16) &&& 0x01
      m_columnIndex := 5 }
    let d := { d with
      m_columnIndex :=
        MP3Decoder.bitrateColumnIndex d.m_encodingVersion d.m_layerDescription d.m_columnIndex }
    if d.m_columnIndex < 5 then
      let bitsPerSecond := 1000
      let d := { d with
        m_bitrate := (bitsPerSecond * tableAt MP3_BITRATES d.m_bitrate d.m_columnIndex) % U32 }
      if d.m_encodingVersion = MPEG1 ∨ d.m_encodingVersion = MPEG2 ∨ d.m_encodingVersion = MPEG2_5 then
        let d := { d with m_columnIndex := MP3Decoder.sampleRateColumnIndex d.m_encodingVersion }
        let d := { d with m_sampleRate := tableAt MP3_SAMPLE_RATES d.m_sampleRate d.m_columnIndex }
        if d.m_sampleRate = 0 then
          (0, d)
        else
          d.GetFrameLengthByLayer
      else
        (0, d)
    else
      (0, d)
  else
    (0, d)

/-- One pass of the inner `for` loop of `CRC16`, for one bit. -/
def MP3Decoder.CRC16Bit (crc : Nat) : Nat :=
  if crc &&& 0x8000 ≠ 0 then ((crc <<< 1) ^^^ 0x8005) % 65536 else (crc <<< 1) % 65536

/-- The inner `for` loop of `CRC16`: the given number of bit passes. -/
def MP3Decoder.CRC16Bits : Nat → Nat → Nat
  | 0, crc => crc
  | n + 1, crc => MP3Decoder.CRC16Bits n (MP3Decoder.CRC16Bit crc)

/-- One pass of the outer `for` loop of `CRC16`, for one byte. -/
def MP3Decoder.CRC16Byte (crc : Nat) (b : Byte) : Nat :=
  MP3Decoder.CRC16Bits 8 (crc ^^^ ((b.val <<< 8) % 65536))

/-- `MP3Decoder::CRC16(bufferDataPtr, bufferLength)` on the first `bufferLength` bytes. -/
def MP3Decoder.CRC16 (bufferData : List Byte) : Nat :=
  bufferData.foldl MP3Decoder.CRC16Byte 0xFFFF

/-- The text `swprintf` writes for `"%dm %02ds"` with `seconds / 60` and `seconds % 60`. -/
def MP3Decoder.timeStamp (seconds : Int) : String :=
  let m := seconds.tdiv 60
  let s := seconds.tmod 60
  toString m ++ "m " ++ (if 0 ≤ s ∧ s < 10 then "0" ++ toString s else toString s) ++ "s"

/-- `MP3Decoder::CheckCRCProtection()`: the answer and the decoder afterwards. -/
def MP3Decoder.CheckCRCProtection (secondsOf : Nat → Nat → Int) (d : MP3Decoder) :
    Result (Bool × MP3Decoder) :=
  if d.m_embeddedFrameCRC = 0 ∧ d.m_layerDescription = LAYER_III then
    let d := { d with
      m_CRCByteSize :=
        tableAt MP3_CRC_BYTE_SIZE (if d.m_singleChannelMono = 1 then 1 else 0)
          (if d.m_encodingVersion = MPEG1 then 0 else 1) }
    let sought := d.m_stream.Seek (-2) SEEK_CUR
    let seekSuccessful := sought.1
    (sought.2.Read 2).bind fun initial =>
    let d := { d with m_bufferCRCBytes := overwrite d.m_bufferCRCBytes 0 initial.data }
    (initial.stream.Read 1).bind fun high =>
    let d := { d with m_embeddedFrameCRC := storeByte 16 d.m_embeddedFrameCRC 1 high.data }
    (high.stream.Read 1).bind fun low =>
    let d := { d with m_embeddedFrameCRC := storeByte 16 d.m_embeddedFrameCRC 0 low.data }
    (low.stream.Read d.m_CRCByteSize).bind fun covered =>
    let d := { d with
      m_bufferCRCBytes := overwrite d.m_bufferCRCBytes 2 covered.data
      m_stream := covered.stream }
    let calculatedCRC := MP3Decoder.CRC16 (d.m_bufferCRCBytes.take (d.m_CRCByteSize + 2))
    if seekSuccessful = 0 ∧ initial.count = 2 ∧ high.count = 1 ∧ low.count = 1
        ∧ covered.count = d.m_CRCByteSize ∧ calculatedCRC ≠ d.m_embeddedFrameCRC then
      Result.ok (false, { d with
        m_errorMessage :=
          "CRC_ERROR @ " ++ MP3Decoder.timeStamp (secondsOf d.m_frameSamplePosition d.m_streamSampleRate) })
    else
      Result.ok (true, d)
  else
    Result.ok (true, d)

/-- The `while` loop of `ResynchronizeBitstream`, entered with
`validFrameLengthWasFound` false.  The flag of the result is false when the
function returned false from inside the loop and true when the loop was left;
the decoder is the one at that point.  Each iteration that continues has read
one byte. -/
def MP3Decoder.ResynchronizeLoop : Nat → MP3Decoder → Result (Bool × MP3Decoder)
  | 0, _ => Result.outOfFuel
  | fuel + 1, d =>
    let d := { d with m_maxResynchronizationCount := toU32 ((d.m_maxResynchronizationCount : Int) - 1) }
    if d.m_maxResynchronizationCount > 0 then
      let d := { d with m_currentFrameHeader := (d.m_currentFrameHeader <<< 8) % U32 }
      (d.m_stream.Read 1).bind fun r =>
      let d := { d with
        m_stream := r.stream
        m_currentFrameHeader := storeByte 32 d.m_currentFrameHeader 0 r.data }
      if r.count ≠ 0 then
        let d : MP3Decoder := { d.GetFrameLength.2 with m_currentFrameLength := d.GetFrameLength.1 }
        if d.m_currentFrameLength > 0 then
          Result.ok (true, d)
        else
          MP3Decoder.ResynchronizeLoop fuel d
      else
        Result.ok (false, d)
    else
      Result.ok (true, d)

/-- `MP3Decoder::ResynchronizeBitstream()` with a bound on the depth of the
recursion and on the iterations of each loop: the answer and the decoder afterwards. -/
def MP3Decoder.ResynchronizeBitstreamFuel : Nat → MP3Decoder → Result (Bool × MP3Decoder)
  | 0, _ => Result.outOfFuel
  | fuel + 1, d =>
    let d := { d with m_currentFrameHeader := 0, m_currentFrameLength := 0 }
    (MP3Decoder.ResynchronizeLoop (fuel + 1) d).bind fun exit =>
    let d := exit.2
    if exit.1 = false then
      Result.ok (false, d)
    else if d.m_currentFrameLength > 0 then
      if d.m_previousFrameHeader > 0 then
        if d.m_currentFrameHeader &&& 0xFFFE0C00 = d.m_previousFrameHeader &&& 0xFFFE0C00 then
          Result.ok (true, d)
        else
          MP3Decoder.ResynchronizeBitstreamFuel fuel d
      else
        MP3Decoder.ResynchronizeBitstreamFuel fuel { d with m_previousFrameHeader := d.m_currentFrameHeader }
    else
      Result.ok (false, d)

/-- `MP3Decoder::ResynchronizeBitstream()`.  Every loop iteration that
continues and every recursive call follow the read of one more byte of the
buffer, so the size of the buffer bounds both. -/
def MP3Decoder.ResynchronizeBitstream (d : MP3Decoder) : Result (Bool × MP3Decoder) :=
  MP3Decoder.ResynchronizeBitstreamFuel (d.m_stream.m_fileMemoryBufferSize + 2) d

/-- The digits at the start of a C string, accumulated in base ten. -/
def atoiDigits : List Byte → Int → Int
  | [], acc => acc
  | b :: rest, acc => if 48 ≤ b.val ∧ b.val ≤ 57 then atoiDigits rest (acc * 10 + (b.val - 48)) else acc

/-- `atoi` on the C string held in a buffer: leading white space, an optional
sign, then digits. -/
def atoi (buffer : List Byte) : Int :=
  let str := (cString buffer).dropWhile (fun b => b.val = 32 ∨ (9 ≤ b.val ∧ b.val ≤ 13))
  match str with
  | [] => 0
  | b :: rest =>
    if b.val = 45 then -(atoiDigits rest 0)
    else if b.val = 43 then atoiDigits rest 0
    else atoiDigits (b :: rest) 0

/-- The index of the first occurrence of a byte sequence in another one. -/
def firstOccurrence : List Byte → List Byte → Option Nat
  | [], needle => if needle = [] then some 0 else none
  | b :: rest, needle =>
    if (b :: rest).take needle.length = needle then some 0
    else (firstOccurrence rest needle).map (fun i => i + 1)

/-- `strstr(array, literal)` on a `char` array that need not hold a
terminator: the offset of the first occurrence inside the C string, `none`
when there is none; without occurrence and without terminator the search runs
past the end of the array. -/
def strstr (array : List Byte) (lit : String) : Result (Option Nat) :=
  match firstOccurrence (cString array) (asciiBytes lit) with
  | some i => Result.ok (some i)
  | none => if (0 : Byte) ∈ array then Result.ok none else Result.undefinedBehaviour

/-- The local constant `searchBufferSize` of `GetLyricsTagLength`. -/
def MP3Decoder.searchBufferSize : Int := 5100

/-- `MP3Decoder::GetLyricsTagLength()`: the returned length and the decoder afterwards. -/
def MP3Decoder.GetLyricsTagLength (d : MP3Decoder) : Result (Nat × MP3Decoder) :=
  (d.m_stream.Read 9).bind fun r =>
  let d := { d with m_stream := r.stream }
  let tagNameBuffer := overwrite (List.replicate 12 0) 0 r.data
  if r.count = 9 then
    if strcmpEq tagNameBuffer "LYRICSEND" then
      let sought := d.m_stream.Seek (-MP3Decoder.searchBufferSize) SEEK_CUR
      let d := { d with m_stream := sought.2 }
      if sought.1 = 0 then
        (d.m_stream.Read MP3Decoder.searchBufferSize.toNat).bind fun r2 =>
        let d := { d with m_stream := r2.stream }
        let searchBuffer := overwrite (List.replicate MP3Decoder.searchBufferSize.toNat 0) 0 r2.data
        if r2.count = MP3Decoder.searchBufferSize.toNat then
          (strstr searchBuffer "LYRICSBEGIN").bind fun searchResultPosition =>
          match searchResultPosition with
          | some lyricsOffset =>
            let lyricsLength : Int := MP3Decoder.searchBufferSize - lyricsOffset
            Result.ok (toU32 (toI32 (toU64 lyricsLength)), d)
          | none =>
            Result.ok (0, { d with m_errorMessage := "BAD_LYRICS3v1_TAG" })
        else
          Result.ok (0, d)
      else
        Result.ok (0, d)
    else
      if strcmpEq tagNameBuffer "LYRICS200" then
        let sought := d.m_stream.Seek (-15) SEEK_CUR
        let d := { d with m_stream := sought.2 }
        if sought.1 = 0 then
          (d.m_stream.Read 6).bind fun r2 =>
          let d := { d with m_stream := r2.stream }
          let tagNameBuffer := overwrite tagNameBuffer 0 r2.data
          if r2.count = 6 then
            let tagNameBuffer := tagNameBuffer.set 6 0
            let lyricsLength : Int := atoi tagNameBuffer
            if lyricsLength ≠ 0 then
              let sought := d.m_stream.Seek (-(6 + lyricsLength)) SEEK_CUR
              let d := { d with m_stream := sought.2 }
              if sought.1 = 0 then
                (d.m_stream.Read 11).bind fun r3 =>
                let d := { d with m_stream := r3.stream }
                let tagNameBuffer := overwrite tagNameBuffer 0 r3.data
                if r3.count = 11 ∧ strcmpEq tagNameBuffer "LYRICSBEGIN" = true then
                  Result.ok (toU32 (lyricsLength + 15), d)
                else
                  Result.ok (0, { d with m_errorMessage := "BAD_LYRICS3v2_TAG" })
              else
                Result.ok (0, { d with m_errorMessage := "BAD_LYRICS3v2_TAG" })
            else
              Result.ok (0, { d with m_errorMessage := "BAD_LYRICS3v2_TAG" })
          else
            Result.ok (0, d)
        else
          Result.ok (0, d)
      else
        Result.ok (0, d)
  else
    Result.ok (0, d)

/-- The little-endian `unsigned long` at a byte offset of a structure. -/
def fieldAt (data : List Byte) (offset : Nat) : Nat :=
  (data.getD offset 0).val + 256 * (data.getD (offset + 1) 0).val
    + 65536 * (data.getD (offset + 2) 0).val + 16777216 * (data.getD (offset + 3) 0).val

/-- `MP3Decoder::GetID3v2TagHeaderLength()`: the returned length and the decoder afterwards. -/
def MP3Decoder.GetID3v2TagHeaderLength (d : MP3Decoder) : Result (Nat × MP3Decoder) :=
  if d.m_stream.isOpen then
    (d.m_stream.Read 10).bind fun r =>
    let d := { d with m_stream := r.stream }
    let buffer := overwrite (List.replicate 10 0) 0 r.data
    if r.count = 10 then
      if charValue (buffer.getD 0 0) = 73 ∧ charValue (buffer.getD 1 0) = 68
          ∧ charValue (buffer.getD 2 0) = 51 then
        let headerLength : Nat :=
          if charValue (buffer.getD 3 0) < 0xff ∧ charValue (buffer.getD 4 0) < 0xff
              ∧ charValue (buffer.getD 6 0) < 0x80 ∧ charValue (buffer.getD 7 0) < 0x80
              ∧ charValue (buffer.getD 8 0) < 0x80 ∧ charValue (buffer.getD 9 0) < 0x80 then
            let headerLength := toU32 (charValue (buffer.getD 6 0))
            let headerLength := (headerLength <<< 7) % U32
            let headerLength := toU32 ((headerLength : Int) + charValue (buffer.getD 7 0))
            let headerLength := (headerLength <<< 7) % U32
            let headerLength := toU32 ((headerLength : Int) + charValue (buffer.getD 8 0))
            let headerLength := (headerLength <<< 7) % U32
            let headerLength := toU32 ((headerLength : Int) + charValue (buffer.getD 9 0))
            (headerLength
              + (if charValue (buffer.getD 3 0) = 4 ∧ (buffer.getD 5 0).val &&& 0x10 ≠ 0 then 20 else 10)) % U32
          else 0
        if headerLength = 0 then
          Result.ok (headerLength, { d with m_errorMessage := "BAD_ID3v2_TAG" })
        else
          Result.ok (headerLength, d)
      else
        Result.ok (0, d)
    else
      Result.ok (0, d)
  else
    Result.ok (0, d)

/-- The part of `GetTagFooterLength` that checks for an APE tag, with the
offset accumulated so far in `m_offset`. -/
def MP3Decoder.GetTagFooterLengthAPE (d : MP3Decoder) : Result MP3Decoder :=
  let sought := d.m_stream.Seek (d.m_offset - APE_TAG_FOOTER_BYTES) SEEK_END
  let d := { d with m_stream := sought.2 }
  if sought.1 = 0 then
    (d.m_stream.Read APE_TAG_FOOTER_BYTES.toNat).bind fun r =>
    let d := { d with m_stream := r.stream }
    let tagFooterStruct := overwrite (List.replicate 32 0) 0 r.data
    if r.count = APE_TAG_FOOTER_BYTES.toNat ∧ tagFooterStruct.take 8 = asciiBytes APE_TAG_FOOTER_ID then
      let size := fieldAt tagFooterStruct 12
      let flags := fieldAt tagFooterStruct 20
      if (size : Int) < APE_TAG_FOOTER_BYTES ∨ (size : Int) > d.m_fileSizeInBytes then
        Result.ok { d with m_errorMessage := "BAD_APE_TAG" }
      else
        let d := { d with m_offset := d.m_offset - size }
        let d :=
          if flags &&& APE_TAG_FLAG_CONTAINS_HEADER_MASK ≠ 0 then
            { d with m_offset := d.m_offset - APE_TAG_FOOTER_BYTES }
          else d
        let sought := d.m_stream.Seek (d.m_offset - 9) SEEK_END
        let d := { d with m_stream := sought.2 }
        if sought.1 = 0 then
          d.GetLyricsTagLength.bind fun lyrics =>
          Result.ok { lyrics.2 with m_offset := lyrics.2.m_offset - lyrics.1 }
        else
          Result.ok d
    else
      Result.ok d
  else
    Result.ok d

/-- `MP3Decoder::GetTagFooterLength()`: the returned length and the decoder afterwards. -/
def MP3Decoder.GetTagFooterLength (d : MP3Decoder) : Result (Nat × MP3Decoder) :=
  let d := { d with m_offset := 0 }
  let sought := d.m_stream.Seek (-128) SEEK_END
  let d := { d with m_stream := sought.2 }
  let afterID3v1 : Result MP3Decoder :=
    if sought.1 = 0 then
      (d.m_stream.Read 3).bind fun r =>
      let d := { d with m_stream := r.stream }
      let id3 := overwrite (List.replicate 4 0) 0 r.data
      if strcmpEq id3 "TAG" then
        let d := { d with m_offset := d.m_offset - 128 }
        let sought := d.m_stream.Seek (d.m_offset - 9) SEEK_END
        let d := { d with m_stream := sought.2 }
        if sought.1 = 0 then
          d.GetLyricsTagLength.bind fun lyrics =>
          Result.ok { lyrics.2 with m_offset := lyrics.2.m_offset - lyrics.1 }
        else
          Result.ok d
      else
        Result.ok d
    else
      Result.ok d
  afterID3v1.bind fun d =>
  d.GetTagFooterLengthAPE.bind fun d =>
  let footerLength := toU32 (0 - d.m_offset)
  Result.ok (footerLength, d)

/-- `MP3Decoder::OpenFile(filenamePtr, true)` for a file with the given bytes
that `m_stream.Open` read into the memory buffer. -/
def MP3Decoder.OpenFile (d : MP3Decoder) (bytes : List Byte) : Result MP3Decoder :=
  let d := { d with m_stream := StreamWrapper.opened bytes }
  let fileSizeInBytes := d.m_stream.Length
  if fileSizeInBytes ≥ 0 then
    let d := { d with m_fileSizeInBytes := fileSizeInBytes }
    d.GetID3v2TagHeaderLength.bind fun header =>
    let d := { header.2 with m_tagHeaderLengthBytes := header.1 }
    d.GetTagFooterLength.bind fun footer =>
    let d := { footer.2 with m_tagFooterLengthBytes := footer.1 }
    let d := { d with m_fileSizeInBytes := d.m_fileSizeInBytes - d.m_tagFooterLengthBytes }
    let d := { d with m_stream := (d.m_stream.Seek d.m_tagHeaderLengthBytes SEEK_SET).2 }
    let d := { d with m_offset := d.m_tagHeaderLengthBytes }
    Result.ok { d with
      m_frameSamplePosition := 0
      m_previousFrameHeader := 0
      m_maxResynchronizationCount := MAX_RESYNCHRONIZATION_ATTEMPTS
      m_decoderIsOpen := true }
  else
    Result.ok { d with m_decoderIsOpen := false, m_stream := d.m_stream.Close }

/-- The `for` loop of `MP3Decoder::Read()` that reads the header bytes in
reverse order, `m_currentFrameLength` being the loop variable: entered with
`index + 1` bytes still to read.  The flag of the result is false when the
function returned -1 from inside the loop. -/
def MP3Decoder.ReadHeaderLoop : Nat → MP3Decoder → Result (Bool × MP3Decoder)
  | 0, d => Result.ok (true, { d with m_currentFrameLength := U32 - 1 })
  | index + 1, d =>
    let d := { d with m_currentFrameLength := index }
    (d.m_stream.Read 1).bind fun r =>
    let d := { d with
      m_stream := r.stream
      m_currentFrameHeader := storeByte 32 d.m_currentFrameHeader index r.data }
    if r.count = 0 then
      Result.ok (false, { d with m_errorMessage := "LOST_SYNC @ END_OF_FILE" })
    else
      MP3Decoder.ReadHeaderLoop index d

/-- The end of `MP3Decoder::Read()`, from the comment "Check if an error
previously occurred" on: the returned value and the decoder afterwards. -/
def MP3Decoder.ReadFailed (secondsOf : Nat → Nat → Int) (d : MP3Decoder) : Result (Int × MP3Decoder) :=
  if d.m_errorMessage.length = 0 then
    if d.m_frameSamplePosition > 0 then
      d.ResynchronizeBitstream.bind fun resync =>
      let d := resync.2
      if resync.1 then
        Result.ok (-1, { d with
          m_errorMessage :=
            "LOST_SYNC @ " ++ MP3Decoder.timeStamp (secondsOf d.m_frameSamplePosition d.m_streamSampleRate) })
      else
        Result.ok (-1, { d with m_errorMessage := "LOST_SYNC @ END_OF_FILE" })
    else
      d.ResynchronizeBitstream.bind fun resync =>
      let d := resync.2
      if !resync.1 then
        Result.ok (-1, { d with m_errorMessage := "UNRECOGNIZED_FORMAT" })
      else if d.m_tagHeaderLengthBytes > 0 then
        Result.ok (-1, { d with m_errorMessage := "BAD_ID3v2_TAG" })
      else
        Result.ok (-1, { d with m_errorMessage := "BAD_STARTING_SYNC" })
  else
    Result.ok (-1, d)

/-- `MP3Decoder::Read()`: the returned value and the decoder afterwards. -/
def MP3Decoder.Read (secondsOf : Nat → Nat → Int) (d : MP3Decoder) : Result (Int × MP3Decoder) :=
  (MP3Decoder.ReadHeaderLoop 4 d).bind fun header =>
  let d : MP3Decoder := header.2
  if header.1 = false then
    Result.ok (-1, d)
  else
    let d : MP3Decoder := { d.GetFrameLength.2 with m_currentFrameLength := d.GetFrameLength.1 }
    if d.m_currentFrameLength ≠ 0 then
      if d.m_currentFrameHeader &&& 0xFFFE0C00 = d.m_previousFrameHeader &&& 0xFFFE0C00
          ∨ d.m_previousFrameHeader = 0 then
        let d :=
          if d.m_previousFrameHeader = 0 then
            { d with m_previousFrameHeader := d.m_currentFrameHeader, m_streamSampleRate := d.m_sampleRate }
          else d
        let d := { d with m_offset := d.m_offset + d.m_currentFrameLength }
        if d.m_offset < d.m_fileSizeInBytes then
          (d.CheckCRCProtection secondsOf).bind fun crc =>
          let d := crc.2
          if crc.1 then
            let sought := d.m_stream.Seek d.m_offset SEEK_SET
            let d := { d with m_stream := sought.2 }
            if sought.1 ≠ 0 then
              Result.ok (-1, d)
            else
              Result.ok ((d.m_currentFrameLength : Int), d)
          else
            Result.ok (-1, d)
        else if d.m_offset = d.m_fileSizeInBytes then
          (d.CheckCRCProtection secondsOf).bind fun crc =>
          let d := crc.2
          if crc.1 then
            Result.ok (0, d)
          else
            Result.ok (-1, d)
        else
          MP3Decoder.ReadFailed secondsOf { d with m_errorMessage := "TRUNCATED" }
      else
        MP3Decoder.ReadFailed secondsOf d
    else
      MP3Decoder.ReadFailed secondsOf d

/-- `MP3Decoder::GetDecodedAudioDataTotal()`. -/
def MP3Decoder.GetDecodedAudioDataTotal (d : MP3Decoder) : Nat :=
  toU64 d.m_fileSizeInBytes

/-- `MP3Decoder::GetLastErrorMessage()`. -/
def MP3Decoder.GetLastErrorMessage (d : MP3Decoder) : String :=
  d.m_errorMessage

/-- Repeated calls of `MP3Decoder::Read()`: the returned values, in order, and
the decoder afterwards. -/
def MP3Decoder.ReadAll (secondsOf : Nat → Nat → Int) : Nat → MP3Decoder → Result (List Int × MP3Decoder)
  | 0, d => Result.ok ([], d)
  | calls + 1, d =>
    (d.Read secondsOf).bind fun first =>
    (MP3Decoder.ReadAll secondsOf calls first.2).bind fun rest =>
    Result.ok (first.1 :: rest.1, rest.2)

/-- An open fully-buffered stream over the given bytes at the given position,
with no end-of-file condition recorded. -/
def streamAt (bytes : List Byte) (position : Nat) : StreamWrapper :=
  { m_fileMemoryBuffer := bytes
    m_fileMemoryBufferPosition := position
    m_isEOF := false
    m_isOpen := true
    fileEndOfFileIndicator := false }

/-- The 32-bit header a frame starts with: its first four bytes, most significant first. -/
def frameHeader (frame : List Byte) : Nat :=
  (frame.getD 0 0).val * 16777216 + (frame.getD 1 0).val * 65536 + (frame.getD 2 0).val * 256
    + (frame.getD 3 0).val

/-- The length `GetFrameLength` computes for a header. -/
def MP3Decoder.frameLength (header : Nat) : Nat :=
  ({ MP3Decoder.new with m_currentFrameHeader := header } : MP3Decoder).GetFrameLength.1

/-- The part of a stream that no read and no seek changes: the buffer, the
open flag and the end-of-file indicator of the file object. -/
def StreamWrapper.file (s : StreamWrapper) : List Byte × Bool × Bool :=
  (s.m_fileMemoryBuffer, s.m_isOpen, s.fileEndOfFileIndicator)

/-- An MPEG-1 Layer III frame of 144 bytes (32 kbit/s at 32 kHz, no padding,
protection bit 1): the header `FF FB 18 00` and 140 zero bytes. -/
def MP3Decoder.frame144 : List Byte :=
  [0xFF, 0xFB, 0x18, 0x00] ++ List.replicate 140 0

/-- The decoder `OpenFile` leaves for the file made of two frames `frame144`. -/
def MP3Decoder.openedTwoFrames : MP3Decoder :=
  { MP3Decoder.new with
    m_stream := streamAt (MP3Decoder.frame144 ++ MP3Decoder.frame144) 0
    m_fileSizeInBytes := 288
    m_maxResynchronizationCount := MAX_RESYNCHRONIZATION_ATTEMPTS
    m_decoderIsOpen := true }

/-- An MPEG-2 Layer III frame of 24 bytes (8 kbit/s at 24 kHz, no padding,
protection bit 1): the header `FF F3 14 00` and 20 zero bytes. -/
def MP3Decoder.frame24 : List Byte :=
  [0xFF, 0xF3, 0x14, 0x00] ++ List.replicate 20 0

/-- An ID3v1 tag: the bytes `TAG` and 125 zero bytes. -/
def ID3v1Tag : List Byte :=
  asciiBytes "TAG" ++ List.replicate 125 0

/-- The decoder `OpenFile` leaves for the file made of two frames `frame24`
and the ID3v1 tag (176 bytes): footer length 128, end of the audio data 48. -/
def MP3Decoder.openedTaggedTwoFrames : MP3Decoder :=
  { MP3Decoder.new with
    m_stream := streamAt (MP3Decoder.frame24 ++ MP3Decoder.frame24 ++ ID3v1Tag) 0
    m_fileSizeInBytes := 48
    m_tagFooterLengthBytes := 128
    m_maxResynchronizationCount := MAX_RESYNCHRONIZATION_ATTEMPTS
    m_decoderIsOpen := true }

/-- Repeated calls of `MP3Decoder::Read()`: for each call, the returned value
and the header held in `m_currentFrameHeader` when the call returns. -/
def MP3Decoder.ReadAllHeaders (secondsOf : Nat → Nat → Int) :
    Nat → MP3Decoder → Result (List (Int × Nat))
  | 0, _ => Result.ok []
  | calls + 1, d =>
    (d.Read secondsOf).bind fun first =>
    (MP3Decoder.ReadAllHeaders secondsOf calls first.2).bind fun rest =>
    Result.ok ((first.1, first.2.m_currentFrameHeader) :: rest)

/-- A decoder whose stream holds the ten bytes `I D 3 03 00 FF 00 00 00 01`: an
ID3v2 header whose flags byte (byte 5) is `0xFF`. -/
def MP3Decoder.flagsFF : MP3Decoder :=
  { MP3Decoder.new with
    m_stream := StreamWrapper.opened [73, 68, 51, 3, 0, 0xFF, 0, 0, 0, 1] }

/-- The CRC-16 the specification names, for one message bit: polynomial
`0x8005`, most significant bit first, no reflection.  The bit that leaves the
16-bit register is combined with the message bit, the register moves up by one
place, and the polynomial is added when the combined bit is 1. -/
def specCRC16Bit (crc : Nat) (bit : Bool) : Nat :=
  if (crc.testBit 15 != bit) then ((2 * crc) % 65536) ^^^ 0x8005 else (2 * crc) % 65536

/-- The CRC-16 of the specification over the lowest `n` bits of a value, the
most significant of them first. -/
def specCRC16Bits (crc : Nat) (value : Nat) : Nat → Nat
  | 0 => crc
  | n + 1 => specCRC16Bits (specCRC16Bit crc (value.testBit n)) value n

/-- The CRC-16 of the specification over the eight bits of one byte. -/
def specCRC16Byte (crc : Nat) (b : Byte) : Nat :=
  specCRC16Bits crc b.val 8

/-- The CRC-16 of the specification over a byte sequence: initial value
`0xFFFF`, no final XOR. -/
def specCRC16 (data : List Byte) : Nat :=
  data.foldl specCRC16Byte 0xFFFF

/-- A Layer III MPEG-1 stereo frame of 144 bytes with CRC protection: the
header `FF FA 18 00`, the two bytes of the stored CRC, and zero bytes. -/
def MP3Decoder.protectedFrame (high low : Byte) : List Byte :=
  [0xFF, 0xFA, 0x18, 0x00, high, low] ++ List.replicate 138 0

/-- The decoder once the header of the frame at the start of the buffer was
read and `GetFrameLength` decoded it. -/
def MP3Decoder.headerDecoded (bytes : List Byte) : MP3Decoder :=
  ({ MP3Decoder.new with
      m_stream := streamAt bytes 4
      m_currentFrameHeader := frameHeader bytes } : MP3Decoder).GetFrameLength.2

/-- An ID3v2 tag header that declares no tag data (`ID3`, version 3.0, no
flags, size 0). -/
def ID3v2EmptyTag : List Byte :=
  [73, 68, 51, 3, 0, 0, 0, 0, 0, 0]

/-- A stream with an ID3v2 tag and no frame: the empty tag and 130 zero bytes. -/
def MP3Decoder.taggedZeros : List Byte :=
  ID3v2EmptyTag ++ List.replicate 130 0

/-- The decoder `OpenFile` leaves for the stream `taggedZeros`. -/
def MP3Decoder.openedTaggedZeros : MP3Decoder :=
  { MP3Decoder.new with
    m_stream := streamAt MP3Decoder.taggedZeros 10
    m_fileSizeInBytes := 140
    m_offset := 10
    m_tagHeaderLengthBytes := 10
    m_maxResynchronizationCount := MAX_RESYNCHRONIZATION_ATTEMPTS
    m_decoderIsOpen := true }

/-! ## ApplicationManager: scanning a folder

`ApplicationManager::rScanFolderWithCallback` of `ApplicationManager.cpp`.  The
file system is a finite tree: each directory is the sequence of entries that
`FindFirstFile` and `FindNextFile` report for it, and `IsFolderType` tells the
two kinds of entry apart.  The stopping flag can be set by another thread while
the scan runs, so `IsStoppingStateFlagEnabled()` is a function of the number of
times it was called before. -/

mutual
/-- An entry of a directory: `cFileName` of the find data, and for a folder the
entries it holds. -/
inductive DirEntry where
  | file (cFileName : List Char)
  | folder (cFileName : List Char) (entries : DirListing)
/-- The entries of a directory in the order of enumeration; `nil` also stands
for `FindFirstFile` returning `INVALID_HANDLE_VALUE`. -/
inductive DirListing where
  | nil
  | cons (entry : DirEntry) (rest : DirListing)
end

/-- The scan in progress: how often `IsStoppingStateFlagEnabled()` was called,
and the state the bound callback acts on. -/
structure ScanState (σ : Type) where
  flagReads : Nat
  callbackState : σ

/-- The start of `rScanFolderWithCallback`: `folderPath.back()` is compared
with the backslash and a backslash is appended when it differs.  `back()` of an
empty string is undefined. -/
def ApplicationManager.folderPathOf (folderPtr : List Char) : Result (List Char) :=
  match folderPtr.getLast? with
  | none => Result.undefinedBehaviour
  | some last => if last ≠ '\\' then Result.ok (folderPtr ++ ['\\']) else Result.ok folderPtr

mutual
/-- The `while` loop of `rScanFolderWithCallback` over the entries that are
still to come. -/
def ApplicationManager.rScanFolderLoop {σ : Type} (stoppingAt : Nat → Bool) (dm : DecoderManager)
    (boundCallback : List Char → σ → σ) (folderPath : List Char) :
    DirListing → ScanState σ → Result (ScanState σ)
  | DirListing.nil, s => Result.ok s
  | DirListing.cons entry rest, s =>
    if stoppingAt s.flagReads then
      Result.ok { s with flagReads := s.flagReads + 1 }
    else
      let s := { s with flagReads := s.flagReads + 1 }
      (ApplicationManager.rScanFolderEntry stoppingAt dm boundCallback folderPath entry s).bind fun s =>
      ApplicationManager.rScanFolderLoop stoppingAt dm boundCallback folderPath rest s
/-- The body of the loop for one entry, `pathName` being `folderPath +
cFileName`.  For a folder whose name does not start with a period the function
calls itself with `pathName`: its start and its loop over the entries of that
folder. -/
def ApplicationManager.rScanFolderEntry {σ : Type} (stoppingAt : Nat → Bool) (dm : DecoderManager)
    (boundCallback : List Char → σ → σ) (folderPath : List Char) :
    DirEntry → ScanState σ → Result (ScanState σ)
  | DirEntry.folder cFileName entries, s =>
    if cFileName.headD NUL ≠ '.' then
      (ApplicationManager.folderPathOf (folderPath ++ cFileName)).bind fun subFolderPath =>
      ApplicationManager.rScanFolderLoop stoppingAt dm boundCallback subFolderPath entries s
    else
      Result.ok s
  | DirEntry.file cFileName, s =>
    if dm.IsSupportedType (folderPath ++ cFileName) then
      Result.ok { s with callbackState := boundCallback (folderPath ++ cFileName) s.callbackState }
    else
      Result.ok s
end

/-- `ApplicationManager::rScanFolderWithCallback(boundCallbackRef, folderPtr)`
on a directory with the given entries. -/
def ApplicationManager.rScanFolderWithCallback {σ : Type} (stoppingAt : Nat → Bool)
    (dm : DecoderManager) (boundCallback : List Char → σ → σ) (folderPtr : List Char)
    (entries : DirListing) (s : ScanState σ) : Result (ScanState σ) :=
  (ApplicationManager.folderPathOf folderPtr).bind fun folderPath =>
  ApplicationManager.rScanFolderLoop stoppingAt dm boundCallback folderPath entries s

/-- A path with a backslash at its end, as the specification builds the path of
a directory. -/
def specFolderPath (path : List Char) : List Char :=
  if path.getLast? = some '\\' then path else path ++ ['\\']

mutual
/-- The specification's enumeration of a directory: every non-directory entry
below it, depth first in the order of enumeration, with its full path and with
the answer to whether no directory on the way down from the scanned root has a
name that begins with a period. -/
def specFilesOfListing (folderPath : List Char) (visible : Bool) :
    DirListing → List (List Char × Bool)
  | DirListing.nil => []
  | DirListing.cons entry rest =>
    specFilesOfEntry folderPath visible entry ++ specFilesOfListing folderPath visible rest
/-- The non-directory entries of one entry: the entry itself when it is a file,
the enumeration of its entries when it is a folder. -/
def specFilesOfEntry (folderPath : List Char) (visible : Bool) :
    DirEntry → List (List Char × Bool)
  | DirEntry.file cFileName => [(folderPath ++ cFileName, visible)]
  | DirEntry.folder cFileName entries =>
    specFilesOfListing (specFolderPath (folderPath ++ cFileName))
      (visible && decide (cFileName.headD NUL ≠ '.')) entries
end

/-- The entries of an enumeration that are delivered: the paths of those that
lie under no directory whose name begins with a period and are supported, in
the order of the enumeration. -/
def specDelivered (dm : DecoderManager) (files : List (List Char × Bool)) : List (List Char) :=
  (files.filter fun f => f.2 && dm.IsSupportedType f.1).map fun f => f.1

/-- The deliveries expected from the scan of a directory: one for each
non-directory entry below it that is supported and lies under no directory
whose name begins with a period, depth first in the order of enumeration. -/
def specDeliveries (dm : DecoderManager) (folderPtr : List Char) (entries : DirListing) :
    List (List Char) :=
  specDelivered dm (specFilesOfListing (specFolderPath folderPtr) true entries)

/-- The callback that records the paths it is called with, in order. -/
def recordDelivery (pathName : List Char) (delivered : List (List Char)) : List (List Char) :=
  delivered ++ [pathName]

/-- The directory of scenario S3 with the entries `.` and `..` that every
enumeration of a folder starts with: three supported files, two unsupported
files and one folder holding one supported file. -/
def DirListing.scenarioS3 : DirListing :=
  .cons (.folder ".".toList .nil) <|
  .cons (.folder "..".toList .nil) <|
  .cons (.file "a.mp3".toList) <|
  .cons (.file "notes.txt".toList) <|
  .cons (.folder "live".toList
    (.cons (.folder ".".toList .nil) <|
     .cons (.folder "..".toList .nil) <|
     .cons (.file "d.ogg".toList) .nil)) <|
  .cons (.file "b.flac".toList) <|
  .cons (.file "cover.jpg".toList) <|
  .cons (.file "c.wv".toList) .nil

/-- A directory that holds a supported file whose name begins with a period,
and a folder whose name begins with a period with a supported file in it. -/
def DirListing.hiddenNames : DirListing :=
  .cons (.file ".a.mp3".toList) <|
  .cons (.folder ".cache".toList (.cons (.file "b.mp3".toList) .nil)) .nil

/-! ## ApplicationManager and ExecutionManager: the queue of files and the stopping state

`ApplicationManager.cpp`, `ExecutionManager.cpp` and the handlers of `WndProc`
in `MainWinAPI.cpp` that act on them.  The state is the members that hold the
queues, the counters and the flags; events, windows and timers are outside it,
so `SetPendingEvent()` and the message boxes are not written.  Every function
runs under the critical section or on the thread of the window, so it is a step
of its own. -/

/-- `INT_MAX` of the target. -/
def INT_MAX : Int := 2147483647

/-- `value++` on an `int`: undefined when the result is not representable. -/
def intIncrement (value : Int) : Result Int :=
  if value < INT_MAX then Result.ok (value + 1) else Result.undefinedBehaviour

/-- `value += amount` on an `int`: undefined when the result is not representable. -/
def intAdd (value amount : Int) : Result Int :=
  if -INT_MAX - 1 ≤ value + amount ∧ value + amount ≤ INT_MAX then
    Result.ok (value + amount)
  else
    Result.undefinedBehaviour

/-- Members of `ExecutionManager`: the queue of folders to scan, the list the
scan of a folder fills, and the two state flags. -/
structure ExecutionManager where
  folderQueue : List (List Char)
  processedFileList : List (List Char)
  runningStateFlagEnabled : Bool
  stoppingStateFlagEnabled : Bool
  deriving Repr, DecidableEq

/-- The members of an `ExecutionManager` after construction. -/
def ExecutionManager.new : ExecutionManager :=
  { folderQueue := []
    processedFileList := []
    runningStateFlagEnabled := false
    stoppingStateFlagEnabled := false }

/-- `ExecutionManager::AddFolderToQueue(folderNamePtr, setPendingEventFlag)`
with a folder name that is not null. -/
def ExecutionManager.AddFolderToQueue (em : ExecutionManager) (folderNamePtr : List Char) :
    ExecutionManager :=
  { em with folderQueue := em.folderQueue ++ [folderNamePtr] }

/-- `ExecutionManager::GetNextFolder(folderNameRef, pendingEvent)`: the answer,
the folder name when one was removed, and the members afterwards. -/
def ExecutionManager.GetNextFolder (em : ExecutionManager) :
    Bool × Option (List Char) × ExecutionManager :=
  match em.folderQueue with
  | [] => (false, none, em)
  | folderName :: rest => (true, some folderName, { em with folderQueue := rest })

/-- `ExecutionManager::ClearFolderQueue()`. -/
def ExecutionManager.ClearFolderQueue (em : ExecutionManager) : ExecutionManager :=
  { em with folderQueue := [] }

/-- `ExecutionManager::IsFolderQueueEmpty()`. -/
def ExecutionManager.IsFolderQueueEmpty (em : ExecutionManager) : Bool :=
  em.folderQueue.isEmpty

/-- `ExecutionManager::AddToProcessedFileList(filenamePtr)`. -/
def ExecutionManager.AddToProcessedFileList (em : ExecutionManager) (filenamePtr : List Char) :
    ExecutionManager :=
  { em with processedFileList := em.processedFileList ++ [filenamePtr] }

/-- `ExecutionManager::ClearProcessedFileList()`. -/
def ExecutionManager.ClearProcessedFileList (em : ExecutionManager) : ExecutionManager :=
  { em with processedFileList := [] }

/-- `ExecutionManager::IsRunningStateFlagEnabled()`. -/
def ExecutionManager.IsRunningStateFlagEnabled (em : ExecutionManager) : Bool :=
  em.runningStateFlagEnabled

/-- `ExecutionManager::SetRunningStateFlagEnabled(value)`. -/
def ExecutionManager.SetRunningStateFlagEnabled (em : ExecutionManager) (value : Bool) :
    ExecutionManager :=
  { em with runningStateFlagEnabled := value }

/-- `ExecutionManager::IsStoppingStateFlagEnabled()`. -/
def ExecutionManager.IsStoppingStateFlagEnabled (em : ExecutionManager) : Bool :=
  em.stoppingStateFlagEnabled

/-- `ExecutionManager::SetStoppingStateFlagEnabled(value)`. -/
def ExecutionManager.SetStoppingStateFlagEnabled (em : ExecutionManager) (value : Bool) :
    ExecutionManager :=
  { em with stoppingStateFlagEnabled := value }

/-- Members of `ApplicationManager`: the list of file names that wait for a
worker thread, the two counters (`int`), the two flags, and the objects behind
`executionManagerPtr` and `decoderManagerPtr`. -/
structure ApplicationManager where
  listOfFilenames : List (List Char)
  filesProcessedCount : Int
  totalFilesToProcess : Int
  stoppingStateFlagEnabled : Bool
  stopButtonPressedFlagEnabled : Bool
  executionManager : ExecutionManager
  decoderManager : DecoderManager
  deriving Repr, DecidableEq

/-- The members of an `ApplicationManager` after construction. -/
def ApplicationManager.new : ApplicationManager :=
  { listOfFilenames := []
    filesProcessedCount := 0
    totalFilesToProcess := 0
    stoppingStateFlagEnabled := false
    stopButtonPressedFlagEnabled := false
    executionManager := ExecutionManager.new
    decoderManager := DecoderManager.new }

/-- `ApplicationManager::AddToFileList(filenamePtr)`. -/
def ApplicationManager.AddToFileList (am : ApplicationManager) (filenamePtr : List Char) :
    Result ApplicationManager :=
  let am := { am with listOfFilenames := am.listOfFilenames ++ [filenamePtr] }
  (intIncrement am.totalFilesToProcess).bind fun total =>
  Result.ok { am with totalFilesToProcess := total }

/-- `ApplicationManager::AddFileSync(filenamePtr, setPendingEventFlag)`. -/
def ApplicationManager.AddFileSync (am : ApplicationManager) (filenamePtr : List Char)
    (_setPendingEventFlag : Bool) : Result ApplicationManager :=
  if am.decoderManager.IsSupportedType filenamePtr then
    am.AddToFileList filenamePtr
  else
    Result.ok am

/-- `ApplicationManager::IsStoppingStateFlagEnabled()`. -/
def ApplicationManager.IsStoppingStateFlagEnabled (am : ApplicationManager) : Bool :=
  am.stoppingStateFlagEnabled

/-- `ApplicationManager::SetStoppingStateFlagEnabled(value)`. -/
def ApplicationManager.SetStoppingStateFlagEnabled (am : ApplicationManager) (value : Bool) :
    ApplicationManager :=
  { am with stoppingStateFlagEnabled := value }

/-- `ApplicationManager::SetStopButtonPressedFlag(value)`. -/
def ApplicationManager.SetStopButtonPressedFlag (am : ApplicationManager) (value : Bool) :
    ApplicationManager :=
  { am with stopButtonPressedFlagEnabled := value }

/-- `ApplicationManager::AddSupportedTypeSync(filenamePtr, setPendingEventFlag)`.
`folder` is what the file system holds under the path: the entries of the
directory when `IsFolderType` answers true, nothing when it answers false.  The
scan runs on the calling thread with `AddToFileList` as its callback, and the
stopping flag it tests is the one of this object. -/
def ApplicationManager.AddSupportedTypeSync (am : ApplicationManager) (filenamePtr : List Char)
    (folder : Option DirListing) (_setPendingEventFlag : Bool) : Result ApplicationManager :=
  match folder with
  | some entries =>
    (ApplicationManager.rScanFolderWithCallback (fun _ => am.IsStoppingStateFlagEnabled)
      am.decoderManager
      (fun pathName (state : Result ApplicationManager) =>
        state.bind fun am => am.AddToFileList pathName)
      filenamePtr entries { flagReads := 0, callbackState := Result.ok am }).bind fun s =>
    s.callbackState
  | none => am.AddFileSync filenamePtr false

/-- `ApplicationManager::GetNextAvailableFilename(filenameRef, handlePendingEvent)`:
the answer, the file name when one was removed, and the members afterwards. -/
def ApplicationManager.GetNextAvailableFilename (am : ApplicationManager) :
    Bool × Option (List Char) × ApplicationManager :=
  match am.listOfFilenames with
  | [] => (false, none, am)
  | filename :: rest => (true, some filename, { am with listOfFilenames := rest })

/-- `ApplicationManager::IncrementFilesProcessed()`. -/
def ApplicationManager.IncrementFilesProcessed (am : ApplicationManager) :
    Result ApplicationManager :=
  (intIncrement am.filesProcessedCount).bind fun count =>
  Result.ok { am with filesProcessedCount := count }

/-- `ApplicationManager::ClearListOfFilenames()`. -/
def ApplicationManager.ClearListOfFilenames (am : ApplicationManager) : ApplicationManager :=
  { am with listOfFilenames := [] }

/-- `ApplicationManager::EnableStoppingState()`. -/
def ApplicationManager.EnableStoppingState (am : ApplicationManager) : ApplicationManager :=
  let am := am.SetStoppingStateFlagEnabled true
  if am.executionManager.IsRunningStateFlagEnabled then
    { am with executionManager := am.executionManager.SetStoppingStateFlagEnabled true }
  else
    am

/-- `ApplicationManager::IsStoppingState()`. -/
def ApplicationManager.IsStoppingState (am : ApplicationManager) : Bool :=
  am.IsStoppingStateFlagEnabled || am.executionManager.IsStoppingStateFlagEnabled

/-- `ApplicationManager::IsRunningState()`. -/
def ApplicationManager.IsRunningState (am : ApplicationManager) : Bool :=
  !am.IsStoppingState && am.executionManager.IsRunningStateFlagEnabled

/-- The critical section at the end of `ApplicationManager::ScanFolderAsync`:
the processed file list is spliced to the list of file names, or everything is
discarded after a stop, or nothing happens while folders remain in the queue. -/
def ApplicationManager.ScanFolderAsyncEnd (am : ApplicationManager) : Result ApplicationManager :=
  let isStoppingStateFlagEnabled := am.executionManager.IsStoppingStateFlagEnabled
  if !isStoppingStateFlagEnabled && am.executionManager.IsFolderQueueEmpty then
    let processedFileListSize := toI32 am.executionManager.processedFileList.length
    let am := { am with
      listOfFilenames := am.listOfFilenames ++ am.executionManager.processedFileList
      executionManager := { am.executionManager with processedFileList := [] } }
    (intAdd am.totalFilesToProcess processedFileListSize).bind fun total =>
    Result.ok { am with totalFilesToProcess := total }
  else if isStoppingStateFlagEnabled then
    let am := am.ClearListOfFilenames
    let am := { am with totalFilesToProcess := 0 }
    let am := { am with executionManager := am.executionManager.ClearFolderQueue }
    let am := { am with executionManager := am.executionManager.ClearProcessedFileList }
    let am := am.SetStoppingStateFlagEnabled false
    Result.ok { am with executionManager := am.executionManager.SetStoppingStateFlagEnabled false }
  else
    Result.ok am

/-- `ApplicationManager::ScanFolderAsync(folderPtr)` with no other thread at
work meanwhile: the scan with `ExecutionManager::AddToProcessedFileList` as its
callback, then the critical section. -/
def ApplicationManager.ScanFolderAsync (am : ApplicationManager) (folderPtr : List Char)
    (entries : DirListing) : Result ApplicationManager :=
  (ApplicationManager.rScanFolderWithCallback (fun _ => am.IsStoppingStateFlagEnabled)
    am.decoderManager
    (fun pathName (em : ExecutionManager) => em.AddToProcessedFileList pathName)
    folderPtr entries { flagReads := 0, callbackState := am.executionManager }).bind fun s =>
  ({ am with executionManager := s.callbackState } : ApplicationManager).ScanFolderAsyncEnd

/-- `WndProc`, `WM_COMMAND` with `BN_CLICKED` of the Stop button. -/
def WndProc.BN_CLICKED (am : ApplicationManager) : ApplicationManager :=
  ((am.SetStopButtonPressedFlag true).EnableStoppingState).ClearListOfFilenames

/-- `WndProc`, `WM_COPYDATA`: `isAbout` is `pCopyDataStruct->dwData == ID_ABOUT`,
`filenamePtr` the data of the message, `folder` what the file system holds
under that path. -/
def WndProc.WM_COPYDATA (am : ApplicationManager) (isAbout : Bool) (filenamePtr : List Char)
    (folder : Option DirListing) : Result ApplicationManager :=
  if isAbout then am.AddSupportedTypeSync filenamePtr folder true else Result.ok am

/-- `WndProc`, `MSG_CMDLINE` with a file name that is not null. -/
def WndProc.MSG_CMDLINE (am : ApplicationManager) (filenamePtr : List Char)
    (folder : Option DirListing) : Result ApplicationManager :=
  am.AddSupportedTypeSync filenamePtr folder true

/-- `WndProc`, `WM_DROPFILES`: `OnDrop` is called unless the application is in
the stopping state, in which case a message box is shown.  What `OnDrop` does
with the dropped paths is a parameter. -/
def WndProc.WM_DROPFILES (am : ApplicationManager)
    (OnDrop : ApplicationManager → Result ApplicationManager) : Result ApplicationManager :=
  if !am.IsStoppingState then OnDrop am else Result.ok am

/-- `WndProc`, `MSG_THREAD_FILE_PROCESSED`. -/
def WndProc.MSG_THREAD_FILE_PROCESSED (am : ApplicationManager) : Result ApplicationManager :=
  am.IncrementFilesProcessed
/-- The coordinator: the `ApplicationManager`, and the number of files a worker
thread has removed from the list with `GetNextAvailableFilename` and whose
`MSG_THREAD_FILE_PROCESSED` the window has not handled yet. -/
structure Coordinator where
  applicationManager : ApplicationManager
  inFlight : Nat
  deriving Repr, DecidableEq

/-- The coordinator before any input. -/
def Coordinator.initial : Coordinator :=
  { applicationManager := ApplicationManager.new, inFlight := 0 }

/-- The steps of the coordinator, each one a function that runs under the
critical section or on the thread of the window. -/
inductive CoordinatorStep where
  /-- `AddToFileList(filenamePtr)`. -/
  | push (filenamePtr : List Char)
  /-- `GetNextAvailableFilename` called by a worker thread. -/
  | pop
  /-- `MSG_THREAD_FILE_PROCESSED` posted by a worker thread for the file it removed. -/
  | fileFinished
  /-- `BN_CLICKED` of the Stop button. -/
  | cancel
  /-- `AddFolderToQueue(folderNamePtr)`. -/
  | addFolder (folderNamePtr : List Char)
  /-- `FoldersThreadProc`: `GetNextFolder` and, when it answers true, `SetRunningStateFlagEnabled(true)`. -/
  | scanStart
  /-- `AddToProcessedFileList(filenamePtr)`, the callback of a running scan. -/
  | scanDeliver (filenamePtr : List Char)
  /-- The critical section at the end of `ScanFolderAsync`. -/
  | scanEnd
  /-- `FoldersThreadProc`: `SetRunningStateFlagEnabled(false)` after the scan. -/
  | scanStop
  deriving Repr, DecidableEq

/-- Whether a step can happen: a worker thread posts `MSG_THREAD_FILE_PROCESSED`
only for a file it removed before, and the scan acts only while it runs. -/
def Coordinator.enabled (c : Coordinator) : CoordinatorStep → Bool
  | CoordinatorStep.fileFinished => decide (0 < c.inFlight)
  | CoordinatorStep.scanDeliver _ => c.applicationManager.executionManager.IsRunningStateFlagEnabled
  | CoordinatorStep.scanEnd => c.applicationManager.executionManager.IsRunningStateFlagEnabled
  | CoordinatorStep.scanStop => c.applicationManager.executionManager.IsRunningStateFlagEnabled
  | _ => true

/-- One step of the coordinator. -/
def Coordinator.step (c : Coordinator) : CoordinatorStep → Result Coordinator
  | CoordinatorStep.push filenamePtr =>
    (c.applicationManager.AddToFileList filenamePtr).bind fun am =>
    Result.ok { c with applicationManager := am }
  | CoordinatorStep.pop =>
    let next := c.applicationManager.GetNextAvailableFilename
    if next.1 then
      Result.ok { applicationManager := next.2.2, inFlight := c.inFlight + 1 }
    else
      Result.ok { c with applicationManager := next.2.2 }
  | CoordinatorStep.fileFinished =>
    (WndProc.MSG_THREAD_FILE_PROCESSED c.applicationManager).bind fun am =>
    Result.ok { applicationManager := am, inFlight := c.inFlight - 1 }
  | CoordinatorStep.cancel =>
    Result.ok { c with applicationManager := WndProc.BN_CLICKED c.applicationManager }
  | CoordinatorStep.addFolder folderNamePtr =>
    Result.ok { c with
      applicationManager := { c.applicationManager with
        executionManager := c.applicationManager.executionManager.AddFolderToQueue folderNamePtr } }
  | CoordinatorStep.scanStart =>
    let next := c.applicationManager.executionManager.GetNextFolder
    if next.1 then
      Result.ok { c with
        applicationManager := { c.applicationManager with
          executionManager := next.2.2.SetRunningStateFlagEnabled true } }
    else
      Result.ok { c with
        applicationManager := { c.applicationManager with executionManager := next.2.2 } }
  | CoordinatorStep.scanDeliver filenamePtr =>
    Result.ok { c with
      applicationManager := { c.applicationManager with
        executionManager := c.applicationManager.executionManager.AddToProcessedFileList filenamePtr } }
  | CoordinatorStep.scanEnd =>
    c.applicationManager.ScanFolderAsyncEnd.bind fun am =>
    Result.ok { c with applicationManager := am }
  | CoordinatorStep.scanStop =>
    Result.ok { c with
      applicationManager := { c.applicationManager with
        executionManager := c.applicationManager.executionManager.SetRunningStateFlagEnabled false } }

/-- The coordinator after a sequence of steps: nothing when a step cannot
happen or leaves the defined behaviour. -/
def Coordinator.run : List CoordinatorStep → Coordinator → Option Coordinator
  | [], c => some c
  | s :: rest, c =>
    if c.enabled s then
      match c.step s with
      | Result.ok next => Coordinator.run rest next
      | _ => none
    else
      none

/-- The conservation of the specification: the total is the number of files
processed, plus those in the list, plus those a worker holds. -/
def Coordinator.conserved (c : Coordinator) : Prop :=
  c.applicationManager.totalFilesToProcess
    = c.applicationManager.filesProcessedCount + c.applicationManager.listOfFilenames.length
      + c.inFlight

/-- The header `FF FB 18 00` of `frame144`: MPEG-1, Layer III, 32 kbit/s at
32 kHz, channel mode 0 (stereo). -/
def MP3Decoder.stereoHeader : Nat := 0xFFFB1800

/-- The header `stereoHeader` with the channel mode 3 (single channel). -/
def MP3Decoder.monoHeader : Nat := 0xFFFB18C0

/-- The frame `frame144` with the channel mode 3 (single channel): the header
`FF FB 18 C0` and 140 zero bytes. -/
def MP3Decoder.frame144Mono : List Byte :=
  [0xFF, 0xFB, 0x18, 0xC0] ++ List.replicate 140 0

/-- A FLAC decoder at a lost synchronisation one sample before the declared
total of two samples, at 44100 Hz, over a stream of 128 bytes that begins
with `TAG`. -/
def FlacDecoder.lostSyncBeforeTotal : FlacDecoder :=
  { m_streamTotalSampleCount := 2
    m_totalDecodedFrameSampleCount := 1
    m_streamSampleRate := 44100
    m_errorCallbackFlagEnabled := false
    m_errorMessage := ""
    m_stream := streamAt ID3v1Tag 128
    m_lastDecodedFrameSampleSize := 1
    m_decoderIsOpen := true }

/-- The serialisation the specification names, for one sample word: its
`bytesPerSample` low-order bytes, least significant first; with one byte per
sample, 128 is added to the word for content that is not DSD and the byte is
passed through for DSD content. -/
def specSampleBytes (bytesPerSample : Nat) (dsd : Bool) (w : Nat) : List Byte :=
  if bytesPerSample = 1 then
    [Fin.ofNat (if dsd then w % 256 else (w + 128) % 256)]
  else
    (wordBytes w).take bytesPerSample

/-- The serialisation the specification names, for a sequence of sample words:
the bytes of each word, in sample order. -/
def specSerialize (bytesPerSample : Nat) (dsd : Bool) : List Nat → List Byte
  | [] => []
  | w :: rest => specSampleBytes bytesPerSample dsd w ++ specSerialize bytesPerSample dsd rest

/-- A decoder with two bytes per sample whose sample buffer holds the words
`0x12345678` and `0xFFFF8001` (the 16-bit sample -32767), in MD5 mode. -/
def WavPackDecoder.twoWords : WavPackDecoder :=
  { m_errorMessage := ""
    m_streamTotalSampleCount := 2
    m_totalUnpackedSampleCount := 0
    m_bytesPerSample := 2
    m_numberOfChannels := 1
    m_requestedCompleteSamples := 4096
    m_DSDAudioFlagEnabled := false
    m_md5ModeIsEnabled := true
    m_stateStructMD5Algorithm := []
    m_unpackedSampleBuffer := wordsToBytes [0x12345678, 0xFFFF8001] ++ List.replicate 8 0
    m_decoderIsOpen := true }

/-- A file of 140 bytes: an ID3v2 header whose size bytes `00 00 7F 7F` declare a
tag of 16383 bytes, followed by 130 zero bytes. -/
def MP3Decoder.oversizedTag : List Byte :=
  [73, 68, 51, 3, 0, 0, 0, 0, 0x7F, 0x7F] ++ List.replicate 130 0

/-- The states of an opened decoder between two calls of `Read`: the
position of the stream is inside the buffer, the byte offset is not negative,
the end of the audio data is not behind the end of the buffer, and as long as
no message is set the counter of resynchronization attempts is the one
`OpenFile` stored. -/
def MP3Decoder.ready (d : MP3Decoder) : Prop :=
  d.m_stream.m_fileMemoryBufferSize < 2 ^ 63
    ∧ d.m_stream.m_fileMemoryBufferPosition ≤ d.m_stream.m_fileMemoryBufferSize
    ∧ 0 ≤ d.m_offset
    ∧ d.m_fileSizeInBytes ≤ (d.m_stream.m_fileMemoryBufferSize : Int)
    ∧ (d.m_errorMessage.length = 0
        → d.m_maxResynchronizationCount = MAX_RESYNCHRONIZATION_ATTEMPTS)

/-- The loop of `DecoderThreadProc` that reads a file to its end, for an MP3
decoder and with the terminate event never signalled, so that the loop is
left only through the test `currentAudioUnitSizeRead > 0`.  The result is the
last value of `currentAudioUnitSizeRead`, `totalAudioUnitsRead` and the
decoder; the fuel bounds the number of tests. -/
def DecoderThreadProc.readLoop (secondsOf : Nat → Nat → Int) :
    Nat → MP3Decoder → Int → Nat → Result (Int × Nat × MP3Decoder)
  | 0, _, _, _ => Result.outOfFuel
  | fuel + 1, d, currentAudioUnitSizeRead, totalAudioUnitsRead =>
    if currentAudioUnitSizeRead > 0 then
      let totalAudioUnitsRead := toU64 ((totalAudioUnitsRead : Int) + currentAudioUnitSizeRead)
      (d.Read secondsOf).bind fun r =>
      DecoderThreadProc.readLoop secondsOf fuel r.2 r.1 totalAudioUnitsRead
    else
      Result.ok (currentAudioUnitSizeRead, totalAudioUnitsRead, d)

/-- The part of `DecoderThreadProc` that reads an opened file: the first call
of `Read` and the loop. -/
def DecoderThreadProc.readFile (secondsOf : Nat → Nat → Int) (fuel : Nat) (d : MP3Decoder) :
    Result (Int × Nat × MP3Decoder) :=
  (d.Read secondsOf).bind fun r => DecoderThreadProc.readLoop secondsOf fuel r.2 r.1 0

/-- An APE tag footer of 32 bytes: the magic `APETAGEX`, the version 2000,
the given size, a field count of 0, the given flags and eight reserved zero
bytes; the four numbers are little-endian `unsigned long` values. -/
def APEFooter (size flags : Nat) : List Byte :=
  asciiBytes "APETAGEX" ++ wordBytes 2000 ++ wordBytes size ++ wordBytes 0 ++ wordBytes flags
    ++ List.replicate 8 0

/-- The decoder on which `OpenFile` calls `GetTagFooterLength` for an untagged
start: the stream over the bytes of the file, behind the ten bytes the ID3v2
probe read, and the size of the file in `m_fileSizeInBytes`. -/
def MP3Decoder.beforeFooter (bytes : List Byte) : MP3Decoder :=
  { MP3Decoder.new with
    m_stream := streamAt bytes 10
    m_fileSizeInBytes := (bytes.length : Int) }

/-! # Theorems -/

/-! ## StreamWrapper -/

/-- Seeking from the current position to a target beyond the end of the buffer
is refused and leaves the position where it was. -/
theorem StreamWrapper.Seek_cur_beyond_end (s : StreamWrapper) (offset : Int)
    (hp : s.m_fileMemoryBufferPosition ≤ s.m_fileMemoryBufferSize)
    (hL : s.m_fileMemoryBufferSize < 2 ^ 63)
    (hhi : offset < (2 : Int) ^ 63)
    (ht : (s.m_fileMemoryBufferPosition : Int) + offset > s.m_fileMemoryBufferSize) :
    (s.Seek offset SEEK_CUR).1 = -1 ∧ (s.Seek offset SEEK_CUR).2.Tell = s.Tell := by
  have hgt : toU64 ((s.m_fileMemoryBufferPosition : Int) + offset) > s.m_fileMemoryBufferSize := by
    unfold toU64
    omega
  simp [StreamWrapper.Seek, SEEK_CUR, SEEK_SET, hgt, StreamWrapper.Tell]

/-- Seeking from the end with a positive offset is refused and leaves the
position where it was. -/
theorem StreamWrapper.Seek_end_beyond_end (s : StreamWrapper) (offset : Int)
    (ht : (s.m_fileMemoryBufferSize : Int) + offset > s.m_fileMemoryBufferSize) :
    (s.Seek offset SEEK_END).1 = -1 ∧ (s.Seek offset SEEK_END).2.Tell = s.Tell := by
  have h0 : 0 < offset := by omega
  simp [StreamWrapper.Seek, SEEK_CUR, SEEK_SET, SEEK_END, h0, StreamWrapper.Tell]

/-- Seeking from the start to a target beyond the end is refused when the
offset is below `2^32`, and leaves the position where it was. -/
theorem StreamWrapper.Seek_set_beyond_end_small (s : StreamWrapper) (offset : Int)
    (hhi : offset < (2 : Int) ^ 32)
    (ht : offset > s.m_fileMemoryBufferSize) :
    (s.Seek offset SEEK_SET).1 = -1 ∧ (s.Seek offset SEEK_SET).2.Tell = s.Tell := by
  have hgt : s.m_fileMemoryBufferSize < toU32 offset := by
    unfold toU32
    omega
  simp [StreamWrapper.Seek, SEEK_SET, hgt, StreamWrapper.Tell]

/-- C8 (evaluation at the failing input): on a fully-buffered stream of 1 byte
at position 0, `Seek(2^32, SEEK_SET)` has its target beyond the end, yet it
returns 0 and moves the position to `2^32`: `unsigned(offset)` keeps only the
low 32 bits of the offset, which are 0. -/
theorem StreamWrapper.Seek_set_beyond_end_accepted :
    (2 : Int) ^ 32 > ((StreamWrapper.opened [0]).m_fileMemoryBufferSize : Int)
      ∧ ((StreamWrapper.opened [0]).Seek ((2 : Int) ^ 32) SEEK_SET).1 = 0
      ∧ ((StreamWrapper.opened [0]).Seek ((2 : Int) ^ 32) SEEK_SET).2.Tell = (2 : Int) ^ 32
      ∧ (StreamWrapper.opened [0]).Tell = 0 := by
  decide

/-- Seeking from the start with a negative offset is refused and leaves the
position where it was. -/
theorem StreamWrapper.Seek_set_before_start (s : StreamWrapper) (offset : Int)
    (ht : offset < 0) :
    (s.Seek offset SEEK_SET).1 = -1 ∧ (s.Seek offset SEEK_SET).2.Tell = s.Tell := by
  simp [StreamWrapper.Seek, SEEK_SET, ht, StreamWrapper.Tell]

/-- Seeking from the current position to a target before the start is refused
and leaves the position where it was. -/
theorem StreamWrapper.Seek_cur_before_start (s : StreamWrapper) (offset : Int)
    (hL : s.m_fileMemoryBufferSize < 2 ^ 63)
    (hlo : -(2 : Int) ^ 63 ≤ offset)
    (ht : (s.m_fileMemoryBufferPosition : Int) + offset < 0) :
    (s.Seek offset SEEK_CUR).1 = -1 ∧ (s.Seek offset SEEK_CUR).2.Tell = s.Tell := by
  have hgt : toU64 ((s.m_fileMemoryBufferPosition : Int) + offset) > s.m_fileMemoryBufferSize := by
    unfold toU64
    omega
  simp [StreamWrapper.Seek, SEEK_CUR, SEEK_SET, hgt, StreamWrapper.Tell]

/-- C9 (evaluation at the failing input): on a fully-buffered stream of 100
bytes at position 0, `Seek(-128, SEEK_END)` has its target before the start,
yet it returns 0 and moves the position to `2^64 - 28`, which `Tell()` reports
as `-28`: the sum `m_fileMemoryBufferSize + offset` is a `size_t`, so its test
`< 0` never holds. -/
theorem StreamWrapper.Seek_end_before_start_accepted :
    ((StreamWrapper.opened (List.replicate 100 0)).m_fileMemoryBufferSize : Int) + (-128) < 0
      ∧ ((StreamWrapper.opened (List.replicate 100 0)).Seek (-128) SEEK_END).1 = 0
      ∧ ((StreamWrapper.opened (List.replicate 100 0)).Seek (-128) SEEK_END).2.m_fileMemoryBufferPosition
          = 2 ^ 64 - 28
      ∧ ((StreamWrapper.opened (List.replicate 100 0)).Seek (-128) SEEK_END).2.Tell = -28
      ∧ (StreamWrapper.opened (List.replicate 100 0)).Tell = 0 := by
  decide

/-- A request that reaches beyond the end of the buffer returns the bytes that
remain, moves the position to the end and sets `m_isEOF`. -/
theorem StreamWrapper.Read_beyond_end (s : StreamWrapper) (n : Nat)
    (hp : s.m_fileMemoryBufferPosition ≤ s.m_fileMemoryBufferSize)
    (hL : s.m_fileMemoryBufferSize < 2 ^ 63) (hn : n < 2 ^ 63)
    (h : s.m_fileMemoryBufferPosition + n > s.m_fileMemoryBufferSize) :
    s.Read n = Result.ok
      { count := s.m_fileMemoryBufferSize - s.m_fileMemoryBufferPosition
        data := s.m_fileMemoryBuffer.drop s.m_fileMemoryBufferPosition
        stream := { s with m_isEOF := true, m_fileMemoryBufferPosition := s.m_fileMemoryBufferSize } } := by
  have h1 : (s.m_fileMemoryBufferPosition + n) % U64 > s.m_fileMemoryBufferSize := by
    unfold U64; omega
  have h2 : toU64 ((s.m_fileMemoryBufferSize : Int) - (s.m_fileMemoryBufferPosition : Int))
      = s.m_fileMemoryBufferSize - s.m_fileMemoryBufferPosition := by
    unfold toU64; omega
  rw [StreamWrapper.Read, if_pos h1, h2, StreamWrapper.copyOut]
  by_cases h3 : s.m_fileMemoryBufferSize - s.m_fileMemoryBufferPosition > 0
  · have h5 : s.m_fileMemoryBufferPosition + (s.m_fileMemoryBufferSize - s.m_fileMemoryBufferPosition)
        = s.m_fileMemoryBufferSize := by omega
    have h6 : s.m_fileMemoryBufferSize % U64 = s.m_fileMemoryBufferSize := by
      unfold U64; omega
    have h7 : (s.m_fileMemoryBuffer.drop s.m_fileMemoryBufferPosition).take
        (s.m_fileMemoryBufferSize - s.m_fileMemoryBufferPosition)
        = s.m_fileMemoryBuffer.drop s.m_fileMemoryBufferPosition := by
      apply List.take_of_length_le
      simp [StreamWrapper.m_fileMemoryBufferSize]
    rw [if_pos h3]
    simp only [StreamWrapper.m_fileMemoryBufferSize] at h5 h6 h7 ⊢
    rw [h5, h6, h7]
    simp
  · have h4 : s.m_fileMemoryBufferPosition = s.m_fileMemoryBufferSize := by omega
    have h5 : s.m_fileMemoryBufferSize - s.m_fileMemoryBufferPosition = 0 := by omega
    have h7 : s.m_fileMemoryBuffer.drop s.m_fileMemoryBufferPosition = [] := by
      rw [h4]; simp [StreamWrapper.m_fileMemoryBufferSize]
    rw [if_neg h3, h5, h7, h4]

/-- A request that stays inside the buffer returns the requested count, copies
the bytes at the position, and advances the position by the count. -/
theorem StreamWrapper.Read_inside (s : StreamWrapper) (n : Nat)
    (hL : s.m_fileMemoryBufferSize < 2 ^ 63)
    (h : s.m_fileMemoryBufferPosition + n ≤ s.m_fileMemoryBufferSize) :
    s.Read n = Result.ok
      { count := n
        data := (s.m_fileMemoryBuffer.drop s.m_fileMemoryBufferPosition).take n
        stream := { s with m_fileMemoryBufferPosition := s.m_fileMemoryBufferPosition + n } } := by
  have h1 : ¬ (s.m_fileMemoryBufferPosition + n) % U64 > s.m_fileMemoryBufferSize := by
    unfold U64; omega
  have h2 : (s.m_fileMemoryBufferPosition + n) % U64 = s.m_fileMemoryBufferPosition + n := by
    unfold U64; omega
  rw [StreamWrapper.Read, if_neg h1, StreamWrapper.copyOut]
  by_cases h3 : n > 0
  · rw [if_pos h3, if_pos h, h2]
  · have h4 : n = 0 := by omega
    subst h4
    simp

/-- C10 (evaluation at the failing input): an open fully-buffered stream of 3
bytes at position 0 is asked for 10 bytes.  `Read` returns 3, copies the three
bytes, leaves the position at 3 and sets `m_isEOF`; the following `EndOfFile()`
nevertheless returns false, because for an open stream it reports `feof` of the
file object and never looks at `m_isEOF`. -/
theorem StreamWrapper.EndOfFile_false_after_truncated_Read :
    ∃ r : ReadResult,
      (StreamWrapper.opened [1, 2, 3]).Read 10 = Result.ok r
        ∧ r.count = 3 ∧ r.data = [1, 2, 3]
        ∧ r.stream.m_fileMemoryBufferPosition = 3
        ∧ r.stream.m_isEOF = true
        ∧ r.stream.EndOfFile = false := by
  refine ⟨_, rfl, ?_⟩
  decide

/-! ## DecoderManager -/

theorem wcsrchr_eq_none (p : List Char) (wc : Char) (h : wc ∉ p) : wcsrchr p wc = none := by
  induction p with
  | nil => rfl
  | cons c rest ih =>
    have h1 : wc ∉ rest := fun hm => h (List.mem_cons_of_mem _ hm)
    have h2 : c ≠ wc := fun he => h (by rw [he]; exact List.mem_cons_self _ _)
    simp [wcsrchr, ih h1, h2]

theorem wcsrchr_append_cons (pre ext : List Char) (wc : Char) (h : wc ∉ ext) :
    wcsrchr (pre ++ wc :: ext) wc = some (wc :: ext) := by
  induction pre with
  | nil => simp [wcsrchr, wcsrchr_eq_none ext wc h]
  | cons c rest ih => simp [wcsrchr, ih]

/-- The map built by the constructor of `DecoderManager`. -/
theorem DecoderManager.new_map :
    DecoderManager.new.m_fileExtensionToDecoderNameMap =
      [(['f', 'l', 'a', 'c'], "FLAC"), (['f', 'l', 'a'], "FLAC"),
       (['m', 'p', '3'], "MP3"), (['m', 'p', '2'], "MP3"), (['m', '2', 'a'], "MP3"),
       (['w', 'v'], "WAV_PACK"), (['o', 'g', 'g'], "OGG-VORBIS")] := by
  decide

theorem DecoderManager.mapFind_new (key : List Char) :
    (match mapFind DecoderManager.new.m_fileExtensionToDecoderNameMap key with
      | some value => value
      | none => DecoderManager.UNSUPPORTED_TYPE) = specDecoderOfExtension key := by
  rw [DecoderManager.new_map]
  unfold specDecoderOfExtension DecoderManager.UNSUPPORTED_TYPE
  simp only [mapFind]
  by_cases h1 : ['f', 'l', 'a', 'c'] = key
  · subst h1; simp
  by_cases h2 : ['f', 'l', 'a'] = key
  · subst h2; simp
  by_cases h3 : ['m', 'p', '3'] = key
  · subst h3; simp
  by_cases h4 : ['m', 'p', '2'] = key
  · subst h4; simp
  by_cases h5 : ['m', '2', 'a'] = key
  · subst h5; simp
  by_cases h6 : ['w', 'v'] = key
  · subst h6; simp
  by_cases h7 : ['o', 'g', 'g'] = key
  · subst h7; simp
  have g1 : ¬ key = ['f', 'l', 'a', 'c'] := fun h => h1 h.symm
  have g2 : ¬ key = ['f', 'l', 'a'] := fun h => h2 h.symm
  have g3 : ¬ key = ['m', 'p', '3'] := fun h => h3 h.symm
  have g4 : ¬ key = ['m', 'p', '2'] := fun h => h4 h.symm
  have g5 : ¬ key = ['m', '2', 'a'] := fun h => h5 h.symm
  have g6 : ¬ key = ['w', 'v'] := fun h => h6 h.symm
  have g7 : ¬ key = ['o', 'g', 'g'] := fun h => h7 h.symm
  simp only [if_neg h1, if_neg h2, if_neg h3, if_neg h4, if_neg h5, if_neg h6, if_neg h7,
    g1, g2, g3, g4, g5, g6, g7, or_self, if_false]

theorem specDecoderOfExtension_supported (ext : List Char) :
    specDecoderOfExtension ext ≠ "UNSUPPORTED" ↔ ext ∈ specSupportedExtensions := by
  unfold specDecoderOfExtension specSupportedExtensions
  simp only [List.mem_cons, List.mem_singleton, List.not_mem_nil, or_false]
  by_cases h1 : ext = ['f', 'l', 'a', 'c']
  · simp [h1]
  by_cases h2 : ext = ['f', 'l', 'a']
  · simp [h2]
  by_cases h3 : ext = ['m', 'p', '3']
  · simp [h3]
  by_cases h4 : ext = ['m', 'p', '2']
  · simp [h4]
  by_cases h5 : ext = ['m', '2', 'a']
  · simp [h5]
  by_cases h6 : ext = ['w', 'v']
  · simp [h6]
  by_cases h7 : ext = ['o', 'g', 'g']
  · simp [h7]
  simp [h1, h2, h3, h4, h5, h6, h7]

theorem tolower_eq (c : Char) : tolower c = c.toLower := by
  unfold tolower Char.toLower
  rfl

theorem Utils.ToLowerCase_eq (source : List Char) :
    Utils.ToLowerCase source = specLowerCase source := by
  unfold Utils.ToLowerCase specLowerCase
  exact List.map_congr_left (fun c _ => tolower_eq c)

/-- C4: `FindDecoderType` returns UNSUPPORTED for a path without a '.'; for a
path `pre ++ "." ++ ext` whose last '.' is the one shown (no '.' in `ext`) it
returns the decoder that the table of the specification gives for the
lower-case form of `ext` (FLAC for flac and fla, MP3 for mp3, mp2 and m2a,
WAV_PACK for wv, OGG-VORBIS for ogg, UNSUPPORTED otherwise); and
`IsSupportedType` is true exactly when the path has a '.' and the lower-case
form of the text after the last '.' is one of the seven listed extensions,
whatever the case of its letters. -/
theorem DecoderManager.FindDecoderType_spec :
    (∀ p : List Char, '.' ∉ p →
        DecoderManager.new.FindDecoderType p = "UNSUPPORTED"
          ∧ DecoderManager.new.IsSupportedType p = false)
    ∧ (∀ pre ext : List Char, '.' ∉ ext →
        DecoderManager.new.FindDecoderType (pre ++ '.' :: ext)
            = specDecoderOfExtension (specLowerCase ext)
          ∧ (DecoderManager.new.IsSupportedType (pre ++ '.' :: ext) = true
              ↔ specLowerCase ext ∈ specSupportedExtensions)) := by
  constructor
  · intro p hp
    have h : DecoderManager.new.FindDecoderType p = "UNSUPPORTED" := by
      simp [DecoderManager.FindDecoderType, wcsrchr_eq_none p '.' hp, DecoderManager.UNSUPPORTED_TYPE]
    refine ⟨h, ?_⟩
    simp [DecoderManager.IsSupportedType, h, DecoderManager.UNSUPPORTED_TYPE]
  · intro pre ext hext
    have h : DecoderManager.new.FindDecoderType (pre ++ '.' :: ext)
        = specDecoderOfExtension (specLowerCase ext) := by
      rw [← DecoderManager.mapFind_new, ← Utils.ToLowerCase_eq]
      simp [DecoderManager.FindDecoderType, wcsrchr_append_cons pre ext '.' hext]
    refine ⟨h, ?_⟩
    rw [← specDecoderOfExtension_supported]
    simp [DecoderManager.IsSupportedType, h, DecoderManager.UNSUPPORTED_TYPE]

/-- C4 at concrete paths: `music/Song.Mp3` is classified as MP3 and
`a.b/Track.FLAC` as FLAC, and both are supported. -/
theorem DecoderManager.FindDecoderType_spec_witness :
    '.' ∉ ['M', 'p', '3'] ∧ '.' ∉ ['F', 'L', 'A', 'C']
      ∧ DecoderManager.new.FindDecoderType
          (['m', 'u', 's', 'i', 'c', '/', 'S', 'o', 'n', 'g'] ++ '.' :: ['M', 'p', '3']) = "MP3"
      ∧ DecoderManager.new.IsSupportedType
          (['m', 'u', 's', 'i', 'c', '/', 'S', 'o', 'n', 'g'] ++ '.' :: ['M', 'p', '3']) = true
      ∧ DecoderManager.new.FindDecoderType
          (['a', '.', 'b', '/', 'T', 'r', 'a', 'c', 'k'] ++ '.' :: ['F', 'L', 'A', 'C']) = "FLAC"
      ∧ DecoderManager.new.IsSupportedType
          (['a', '.', 'b', '/', 'T', 'r', 'a', 'c', 'k'] ++ '.' :: ['F', 'L', 'A', 'C']) = true :=
  ⟨by decide, by decide,
    (DecoderManager.FindDecoderType_spec.2 _ ['M', 'p', '3'] (by decide)).1.trans (by decide),
    (DecoderManager.FindDecoderType_spec.2 _ ['M', 'p', '3'] (by decide)).2.mpr (by decide),
    (DecoderManager.FindDecoderType_spec.2 _ ['F', 'L', 'A', 'C'] (by decide)).1.trans (by decide),
    (DecoderManager.FindDecoderType_spec.2 _ ['F', 'L', 'A', 'C'] (by decide)).2.mpr (by decide)⟩

/-! ## FlacDecoder -/

theorem FlacDecoder.hasID3v1Tag_preserves (d d1 : FlacDecoder) (b : Bool)
    (h : d.hasID3v1Tag = Result.ok (b, d1)) :
    d1.m_lastDecodedFrameSampleSize = d.m_lastDecodedFrameSampleSize
      ∧ d1.m_totalDecodedFrameSampleCount = d.m_totalDecodedFrameSampleCount
      ∧ d1.m_streamTotalSampleCount = d.m_streamTotalSampleCount
      ∧ d1.m_errorCallbackFlagEnabled = d.m_errorCallbackFlagEnabled := by
  unfold FlacDecoder.hasID3v1Tag at h
  dsimp only at h
  split at h
  · split at h
    · split at h <;> (cases h; exact ⟨rfl, rfl, rfl, rfl⟩)
    · cases h
    · cases h
  · cases h; exact ⟨rfl, rfl, rfl, rfl⟩

theorem FlacDecoder.error_callback_preserves (d d1 : FlacDecoder)
    (status : FLAC__StreamDecoderErrorStatus) (h : d.error_callback status = Result.ok d1) :
    d1.m_lastDecodedFrameSampleSize = d.m_lastDecodedFrameSampleSize
      ∧ d1.m_totalDecodedFrameSampleCount = d.m_totalDecodedFrameSampleCount
      ∧ d1.m_streamTotalSampleCount = d.m_streamTotalSampleCount
      ∧ d1.m_errorCallbackFlagEnabled = true := by
  unfold FlacDecoder.error_callback at h
  cases status
  case LOST_SYNC =>
    dsimp only at h
    split at h
    · split at h
      · split at h
        · rename_i d2 hd2
          have hp := FlacDecoder.hasID3v1Tag_preserves _ _ _ hd2
          injection h with h
          subst h
          exact ⟨hp.1, hp.2.1, hp.2.2.1, hp.2.2.2⟩
        · rename_i d2 hd2
          have hp := FlacDecoder.hasID3v1Tag_preserves _ _ _ hd2
          injection h with h
          subst h
          exact ⟨hp.1, hp.2.1, hp.2.2.1, hp.2.2.2⟩
        · cases h
        · cases h
      · injection h with h
        subst h
        exact ⟨rfl, rfl, rfl, rfl⟩
    · injection h with h
      subst h
      exact ⟨rfl, rfl, rfl, rfl⟩
  all_goals (dsimp only at h; injection h with h; subst h; exact ⟨rfl, rfl, rfl, rfl⟩)

/-- A callback other than `write_callback` leaves the sample size of the last
frame and the running total of decoded samples as they are. -/
theorem FlacDecoder.invoke_not_write (d d1 : FlacDecoder) (cb : FlacCallback)
    (hcb : cb.isWrite = false) (h : d.invoke cb = Result.ok d1) :
    d1.m_lastDecodedFrameSampleSize = d.m_lastDecodedFrameSampleSize
      ∧ d1.m_totalDecodedFrameSampleCount = d.m_totalDecodedFrameSampleCount := by
  cases cb with
  | read bytes =>
    simp only [FlacDecoder.invoke, FlacDecoder.read_callback] at h
    split at h
    · split at h
      · cases h; exact ⟨rfl, rfl⟩
      · split at h
        · cases h; exact ⟨rfl, rfl⟩
        · cases h
        · cases h
    · cases h; exact ⟨rfl, rfl⟩
  | seek off =>
    simp only [FlacDecoder.invoke, FlacDecoder.seek_callback] at h
    cases h; exact ⟨rfl, rfl⟩
  | write b => simp [FlacCallback.isWrite] at hcb
  | error status =>
    simp only [FlacDecoder.invoke] at h
    have hp := FlacDecoder.error_callback_preserves d d1 status h
    exact ⟨hp.1, hp.2.1⟩
  | metadata isStreamInfo rate total =>
    simp only [FlacDecoder.invoke, FlacDecoder.metadata_callback] at h
    split at h <;> cases h <;> exact ⟨rfl, rfl⟩

/-- A callback other than `error_callback` leaves the error flag as it is; `error_callback` sets it. -/
theorem FlacDecoder.invoke_flag (d d1 : FlacDecoder) (cb : FlacCallback)
    (h : d.invoke cb = Result.ok d1) :
    d1.m_errorCallbackFlagEnabled = (d.m_errorCallbackFlagEnabled || cb.isError) := by
  cases cb with
  | read bytes =>
    simp only [FlacDecoder.invoke, FlacDecoder.read_callback] at h
    split at h
    · split at h
      · cases h; simp [FlacCallback.isError]
      · split at h
        · cases h; simp [FlacCallback.isError]
        · cases h
        · cases h
    · cases h; simp [FlacCallback.isError]
  | seek off =>
    simp only [FlacDecoder.invoke, FlacDecoder.seek_callback] at h
    cases h; simp [FlacCallback.isError]
  | write b =>
    simp only [FlacDecoder.invoke, FlacDecoder.write_callback] at h
    cases h; simp [FlacCallback.isError]
  | error status =>
    simp only [FlacDecoder.invoke] at h
    have hp := FlacDecoder.error_callback_preserves d d1 status h
    simp [FlacCallback.isError, hp.2.2.2]
  | metadata isStreamInfo rate total =>
    simp only [FlacDecoder.invoke, FlacDecoder.metadata_callback] at h
    split at h <;> cases h <;> simp [FlacCallback.isError]

theorem FlacDecoder.invokeAll_flag (cbs : List FlacCallback) (d d1 : FlacDecoder)
    (h : d.invokeAll cbs = Result.ok d1) :
    d1.m_errorCallbackFlagEnabled = (d.m_errorCallbackFlagEnabled || cbs.any FlacCallback.isError) := by
  induction cbs generalizing d with
  | nil =>
    simp only [FlacDecoder.invokeAll] at h
    cases h; simp
  | cons cb rest ih =>
    simp only [FlacDecoder.invokeAll] at h
    split at h
    · rename_i d2 hd2
      rw [ih d2 h, FlacDecoder.invoke_flag d d2 cb hd2]
      simp [Bool.or_assoc]
    · cases h
    · cases h

theorem FlacDecoder.invokeAll_no_write (cbs : List FlacCallback) (d d1 : FlacDecoder)
    (hcbs : ∀ cb ∈ cbs, cb.isWrite = false) (h : d.invokeAll cbs = Result.ok d1) :
    d1.m_lastDecodedFrameSampleSize = d.m_lastDecodedFrameSampleSize
      ∧ d1.m_totalDecodedFrameSampleCount = d.m_totalDecodedFrameSampleCount := by
  induction cbs generalizing d with
  | nil =>
    simp only [FlacDecoder.invokeAll] at h
    cases h; exact ⟨rfl, rfl⟩
  | cons cb rest ih =>
    simp only [FlacDecoder.invokeAll] at h
    split at h
    · rename_i d2 hd2
      have h1 := FlacDecoder.invoke_not_write d d2 cb (hcbs cb (List.mem_cons_self _ _)) hd2
      have h2 := ih d2 (fun c hc => hcbs c (List.mem_cons_of_mem _ hc)) h
      exact ⟨h2.1.trans h1.1, h2.2.trans h1.2⟩
    · cases h
    · cases h

/-- What `ReadAfterProcess` returns when the engine has returned true in the
state `END_OF_STREAM` and the last frame size is still 0. -/
theorem FlacDecoder.ReadAfterProcess_end_of_stream (d1 : FlacDecoder) (engine : ProcessSingle)
    (hret : engine.returned = true)
    (hstate : engine.state = FLAC__StreamDecoderState.END_OF_STREAM)
    (hlast : d1.m_lastDecodedFrameSampleSize = 0) :
    ((d1.ReadAfterProcess engine).1 = 0 ∨ (d1.ReadAfterProcess engine).1 = -1)
      ∧ ((d1.ReadAfterProcess engine).1 = 0 ↔
          (d1.m_totalDecodedFrameSampleCount = d1.m_streamTotalSampleCount
            ∧ d1.m_errorCallbackFlagEnabled = false
            ∧ engine.finishReturned = true)) := by
  unfold FlacDecoder.ReadAfterProcess
  cases hflag : d1.m_errorCallbackFlagEnabled
  · cases hfin : engine.finishReturned
    · by_cases hMN : d1.m_totalDecodedFrameSampleCount = d1.m_streamTotalSampleCount
      · simp [hret, hstate, hflag, hfin, hMN]
      · by_cases hlt : d1.m_totalDecodedFrameSampleCount < d1.m_streamTotalSampleCount
        · simp [hret, hstate, hflag, hfin, hMN, hlt]
        · simp [hret, hstate, hflag, hfin, hMN, hlt]
    · by_cases hMN : d1.m_totalDecodedFrameSampleCount = d1.m_streamTotalSampleCount
      · simp [hret, hstate, hflag, hfin, hMN, hlast]
      · by_cases hlt : d1.m_totalDecodedFrameSampleCount < d1.m_streamTotalSampleCount
        · simp [hret, hstate, hflag, hfin, hMN, hlt]
        · simp [hret, hstate, hflag, hfin, hMN, hlt]
  · simp [hret, hflag]

/-- What `ReadAfterProcess` returns when the engine has returned false. -/
theorem FlacDecoder.ReadAfterProcess_failed (d1 : FlacDecoder) (engine : ProcessSingle)
    (hret : engine.returned = false) :
    (d1.ReadAfterProcess engine).1 = -1 := by
  unfold FlacDecoder.ReadAfterProcess
  cases hflag : d1.m_errorCallbackFlagEnabled
  · cases hst : engine.state <;> simp [hret, hflag]
  · simp [hret, hflag]

/-- C2 (amended): at the call of `Read` in which the engine reaches
end-of-stream (`get_state()` is `END_OF_STREAM` after `process_single()`, no
audio frame is delivered in the call), `Read` returns 0 or -1, and it returns
0 if and only if `process_single()` returned true, the running total of
decoded samples equals the STREAMINFO total, no error callback has fired
(neither before the call nor in it), and `finish()` reports that the MD5
matches. -/
theorem FlacDecoder.Read_end_of_stream (d : FlacDecoder) (engine : ProcessSingle) (d1 : FlacDecoder)
    (hcb : FlacDecoder.invokeAll { d with m_lastDecodedFrameSampleSize := 0 } engine.callbacks
      = Result.ok d1)
    (hstate : engine.state = FLAC__StreamDecoderState.END_OF_STREAM)
    (hnowrite : ∀ cb ∈ engine.callbacks, cb.isWrite = false) :
    ∃ r d2, d.Read engine = Result.ok (r, d2)
      ∧ (r = 0 ∨ r = -1)
      ∧ (r = 0 ↔
          (engine.returned = true
            ∧ d.m_totalDecodedFrameSampleCount = d1.m_streamTotalSampleCount
            ∧ d.m_errorCallbackFlagEnabled = false
            ∧ engine.callbacks.any FlacCallback.isError = false
            ∧ engine.finishReturned = true)) := by
  have hnw := FlacDecoder.invokeAll_no_write _ _ _ hnowrite hcb
  have hfl := FlacDecoder.invokeAll_flag _ _ _ hcb
  have hlast : d1.m_lastDecodedFrameSampleSize = 0 := hnw.1
  have hM : d1.m_totalDecodedFrameSampleCount = d.m_totalDecodedFrameSampleCount := hnw.2
  have hflag : d1.m_errorCallbackFlagEnabled
      = (d.m_errorCallbackFlagEnabled || engine.callbacks.any FlacCallback.isError) := hfl
  have hread : d.Read engine
      = Result.ok ((d1.ReadAfterProcess engine).1, (d1.ReadAfterProcess engine).2) := by
    unfold FlacDecoder.Read
    dsimp only
    rw [hcb]
  refine ⟨(d1.ReadAfterProcess engine).1, (d1.ReadAfterProcess engine).2, hread, ?_⟩
  cases hret : engine.returned
  · have hfail := FlacDecoder.ReadAfterProcess_failed d1 engine hret
    rw [hfail]
    refine ⟨Or.inr rfl, ?_⟩
    constructor
    · intro k
      exact absurd k (by decide)
    · intro k
      exact Bool.noConfusion k.1
  · have hmain := FlacDecoder.ReadAfterProcess_end_of_stream d1 engine hret hstate hlast
    refine ⟨hmain.1, ?_⟩
    rw [hmain.2, hM, hflag, Bool.or_eq_false_iff]
    tauto

/-- C2 (amended) at a concrete call: 4096 samples declared and decoded, no
error, `process_single()` true, MD5 matching: `Read` returns 0. -/
theorem FlacDecoder.Read_end_of_stream_witness :
    ∃ r d2,
      FlacDecoder.drained4096.Read ProcessSingle.cleanEnd = Result.ok (r, d2)
      ∧ (r = 0 ∨ r = -1)
      ∧ (r = 0 ↔
          (ProcessSingle.cleanEnd.returned = true
            ∧ FlacDecoder.drained4096.m_totalDecodedFrameSampleCount
              = FlacDecoder.drained4096.m_streamTotalSampleCount
            ∧ FlacDecoder.drained4096.m_errorCallbackFlagEnabled = false
            ∧ ProcessSingle.cleanEnd.callbacks.any FlacCallback.isError = false
            ∧ ProcessSingle.cleanEnd.finishReturned = true)) :=
  FlacDecoder.Read_end_of_stream FlacDecoder.drained4096 ProcessSingle.cleanEnd FlacDecoder.drained4096
    rfl rfl (by simp [ProcessSingle.cleanEnd])

/-- C2 (counterexample): a stream whose STREAMINFO declares no total (N = 0)
ends inside its first frame.  `process_single()` returns false and the state
is `END_OF_STREAM`: the engine has reached end-of-stream, M = N = 0, no error
callback has fired and `finish()` would report no MD5 mismatch, yet `Read`
returns -1, with the message of `Truncated`. -/
theorem FlacDecoder.Read_cut_in_frame :
    ProcessSingle.cutInFrame.state = FLAC__StreamDecoderState.END_OF_STREAM
      ∧ FlacDecoder.openedUnknownTotal.m_totalDecodedFrameSampleCount
          = FlacDecoder.openedUnknownTotal.m_streamTotalSampleCount
      ∧ FlacDecoder.openedUnknownTotal.m_errorCallbackFlagEnabled = false
      ∧ ProcessSingle.cutInFrame.callbacks.any FlacCallback.isError = false
      ∧ ProcessSingle.cutInFrame.finishReturned = true
      ∧ ((FlacDecoder.openedUnknownTotal.Read ProcessSingle.cutInFrame).bind fun r =>
          Result.ok (r.1, r.2.m_errorMessage)) = Result.ok (-1, "TRUNCATED @0m 0s") := by
  decide

/-- `ReadAfterProcess` leaves the two sample counts as they are; it returns -1
or the size of the last frame, the latter at end-of-stream only when the
running total equals the declared total. -/
theorem FlacDecoder.ReadAfterProcess_result (d : FlacDecoder) (engine : ProcessSingle) :
    (d.ReadAfterProcess engine).2.m_totalDecodedFrameSampleCount = d.m_totalDecodedFrameSampleCount
      ∧ (d.ReadAfterProcess engine).2.m_streamTotalSampleCount = d.m_streamTotalSampleCount
      ∧ ((d.ReadAfterProcess engine).1 = -1
          ∨ ((d.ReadAfterProcess engine).1 = d.m_lastDecodedFrameSampleSize
              ∧ (engine.state = FLAC__StreamDecoderState.END_OF_STREAM →
                  d.m_totalDecodedFrameSampleCount = d.m_streamTotalSampleCount))) := by
  unfold FlacDecoder.ReadAfterProcess
  cases hret : engine.returned <;> cases hflag : d.m_errorCallbackFlagEnabled
  · cases hst : engine.state <;> simp [hflag]
  · simp [hflag]
  · by_cases hst : engine.state = FLAC__StreamDecoderState.END_OF_STREAM
    · cases hfin : engine.finishReturned
      · by_cases hMN : d.m_totalDecodedFrameSampleCount = d.m_streamTotalSampleCount
        · simp [hflag, hst, hMN]
        · by_cases hlt : d.m_totalDecodedFrameSampleCount < d.m_streamTotalSampleCount
          · simp [hflag, hst, hMN, hlt]
          · simp [hflag, hst, hMN, hlt]
      · by_cases hMN : d.m_totalDecodedFrameSampleCount = d.m_streamTotalSampleCount
        · simp [hflag, hst, hMN]
        · by_cases hlt : d.m_totalDecodedFrameSampleCount < d.m_streamTotalSampleCount
          · simp [hflag, hst, hMN, hlt]
          · simp [hflag, hst, hMN, hlt]
    · simp [hflag, hst]
  · simp [hflag]

/-- When the engine delivers at most one frame in a call, the size of the last
frame after the callbacks is what was added to the running total. -/
theorem FlacDecoder.invokeAll_write_le_one (cbs : List FlacCallback) (d d1 : FlacDecoder)
    (hone : (cbs.filter FlacCallback.isWrite).length ≤ 1)
    (hlast : d.m_lastDecodedFrameSampleSize = 0)
    (hM : d.m_totalDecodedFrameSampleCount < 2 ^ 64)
    (h : d.invokeAll cbs = Result.ok d1) :
    0 ≤ d1.m_lastDecodedFrameSampleSize
      ∧ d1.m_totalDecodedFrameSampleCount < 2 ^ 64
      ∧ (d1.m_totalDecodedFrameSampleCount : Int)
          = ((d.m_totalDecodedFrameSampleCount : Int) + d1.m_lastDecodedFrameSampleSize) % 2 ^ 64 := by
  induction cbs generalizing d with
  | nil =>
    simp only [FlacDecoder.invokeAll] at h
    cases h
    rw [hlast]
    refine ⟨le_refl _, hM, ?_⟩
    omega
  | cons cb rest ih =>
    simp only [FlacDecoder.invokeAll] at h
    split at h
    · rename_i d2 hd2
      cases hw : cb.isWrite
      · have h1 := FlacDecoder.invoke_not_write d d2 cb hw hd2
        have hone2 : (rest.filter FlacCallback.isWrite).length ≤ 1 := by
          simpa [List.filter_cons, hw] using hone
        have h2 := ih d2 hone2 (h1.1.trans hlast) (by rw [h1.2]; exact hM) h
        rw [h1.2] at h2
        exact h2
      · have hrest : ∀ c ∈ rest, c.isWrite = false := by
          have hz : (rest.filter FlacCallback.isWrite).length = 0 := by
            have : (rest.filter FlacCallback.isWrite).length + 1 ≤ 1 := by
              simpa [List.filter_cons, hw] using hone
            omega
          have hnil : rest.filter FlacCallback.isWrite = [] := List.length_eq_zero.mp hz
          intro c hc
          cases hcw : c.isWrite
          · rfl
          · have : c ∈ rest.filter FlacCallback.isWrite := List.mem_filter.mpr ⟨hc, hcw⟩
            rw [hnil] at this
            cases this
        have h2 := FlacDecoder.invokeAll_no_write rest d2 d1 hrest h
        cases cb with
        | write b =>
          simp only [FlacDecoder.invoke, FlacDecoder.write_callback] at hd2
          injection hd2 with hd2
          subst hd2
          rw [h2.1, h2.2]
          dsimp only
          have hb : b % U32 < 2 ^ 32 := by unfold U32; exact Nat.mod_lt _ (by norm_num)
          have hu : toU64 ((b % U32 : Nat) : Int) = b % U32 := by unfold toU64; omega
          rw [hu]
          refine ⟨by omega, ?_, ?_⟩
          · unfold U64; omega
          · unfold U64; omega
        | read _ => simp [FlacCallback.isWrite] at hw
        | seek _ => simp [FlacCallback.isWrite] at hw
        | error _ => simp [FlacCallback.isWrite] at hw
        | metadata _ _ _ => simp [FlacCallback.isWrite] at hw
    · cases h
    · cases h

/-- One call of `Read` that returns a non-negative value adds that value to the
running total; when it returns at end-of-stream, the running total equals the
declared total. -/
theorem FlacDecoder.Read_nonneg (d d1 : FlacDecoder) (engine : ProcessSingle) (r : Int)
    (hone : (engine.callbacks.filter FlacCallback.isWrite).length ≤ 1)
    (hM : d.m_totalDecodedFrameSampleCount < 2 ^ 64)
    (h : d.Read engine = Result.ok (r, d1)) (hr : 0 ≤ r) :
    d1.m_totalDecodedFrameSampleCount < 2 ^ 64
      ∧ (d1.m_totalDecodedFrameSampleCount : Int)
          = ((d.m_totalDecodedFrameSampleCount : Int) + r) % 2 ^ 64
      ∧ (engine.state = FLAC__StreamDecoderState.END_OF_STREAM →
          d1.m_totalDecodedFrameSampleCount = d1.m_streamTotalSampleCount) := by
  unfold FlacDecoder.Read at h
  dsimp only at h
  split at h
  · rename_i d2 hd2
    have h1 := FlacDecoder.invokeAll_write_le_one engine.callbacks
      { d with m_lastDecodedFrameSampleSize := 0 } d2 hone rfl hM hd2
    have h2 := FlacDecoder.ReadAfterProcess_result d2 engine
    injection h with h
    rw [h] at h2
    dsimp only at h1 h2
    rcases h2.2.2 with h3 | h3
    · omega
    · rw [h2.1, h2.2.1]
      refine ⟨h1.2.1, ?_, h3.2⟩
      rw [h3.1]
      exact h1.2.2
  · cases h
  · cases h

theorem FlacDecoder.ReadAll_cons (e : ProcessSingle) (es : List ProcessSingle)
    (d dEnd : FlacDecoder) (rs : List Int)
    (h : d.ReadAll (e :: es) = Result.ok (rs, dEnd)) :
    ∃ r d1 rs1, d.Read e = Result.ok (r, d1) ∧ d1.ReadAll es = Result.ok (rs1, dEnd) ∧ rs = r :: rs1 := by
  simp only [FlacDecoder.ReadAll] at h
  cases hR : d.Read e with
  | ok p =>
    obtain ⟨r, d1⟩ := p
    rw [hR] at h
    dsimp only at h
    cases hA : d1.ReadAll es with
    | ok q =>
      obtain ⟨rs1, d2⟩ := q
      rw [hA] at h
      dsimp only at h
      injection h with h
      injection h with h1 h2
      subst h1 h2
      exact ⟨r, d1, rs1, rfl, hA, rfl⟩
    | undefinedBehaviour => rw [hA] at h; cases h
    | outOfFuel => rw [hA] at h; cases h
  | undefinedBehaviour => rw [hR] at h; cases h
  | outOfFuel => rw [hR] at h; cases h

theorem FlacDecoder.ReadAll_length (engines : List ProcessSingle) (d dEnd : FlacDecoder)
    (rs : List Int) (h : d.ReadAll engines = Result.ok (rs, dEnd)) : rs.length = engines.length := by
  induction engines generalizing d rs with
  | nil =>
    simp only [FlacDecoder.ReadAll] at h
    injection h with h
    injection h with h1 h2
    subst h1
    rfl
  | cons e es ih =>
    obtain ⟨r, d1, rs1, _, hA, hrs⟩ := FlacDecoder.ReadAll_cons e es d dEnd rs h
    subst hrs
    simp [ih d1 rs1 hA]

theorem FlacDecoder.ReadAll_total (engines : List ProcessSingle) (last : ProcessSingle)
    (d dEnd : FlacDecoder) (rs : List Int)
    (hM : d.m_totalDecodedFrameSampleCount < 2 ^ 64)
    (hrun : d.ReadAll (engines ++ [last]) = Result.ok (rs ++ [0], dEnd))
    (hlen : rs.length = engines.length)
    (hpos : ∀ r ∈ rs, 0 < r)
    (hone : ∀ e ∈ engines ++ [last], (e.callbacks.filter FlacCallback.isWrite).length ≤ 1)
    (hlast : last.state = FLAC__StreamDecoderState.END_OF_STREAM) :
    ((d.m_totalDecodedFrameSampleCount : Int) + rs.sum) % 2 ^ 64
      = (dEnd.GetDecodedAudioDataTotal : Int) := by
  induction engines generalizing d rs with
  | nil =>
    have hrs : rs = [] := List.length_eq_zero.mp hlen
    subst hrs
    simp only [List.nil_append] at hrun
    obtain ⟨r, d1, rs1, hR, hA, hrs⟩ := FlacDecoder.ReadAll_cons last [] d dEnd [0] hrun
    simp only [FlacDecoder.ReadAll] at hA
    injection hA with hA
    injection hA with h1 h2
    subst h1 h2
    injection hrs with h1 _
    subst h1
    have h3 := FlacDecoder.Read_nonneg d d1 last 0 (hone last (by simp)) hM hR (le_refl _)
    have h4 := h3.2.2 hlast
    unfold FlacDecoder.GetDecodedAudioDataTotal
    rw [← h4, h3.2.1]
    simp only [List.sum_nil]
  | cons e es ih =>
    cases rs with
    | nil => simp at hlen
    | cons r rs1 =>
      simp only [List.cons_append] at hrun
      obtain ⟨r0, d1, rs2, hR, hA, hrs⟩ := FlacDecoder.ReadAll_cons e (es ++ [last]) d dEnd _ hrun
      injection hrs with h1 h2
      subst h1 h2
      have hr : 0 < r := hpos r (List.mem_cons_self _ _)
      have h3 := FlacDecoder.Read_nonneg d d1 e r (hone e (by simp)) hM hR (le_of_lt hr)
      have h4 := ih d1 rs1 h3.1 hA (by simpa using hlen)
        (fun x hx => hpos x (List.mem_cons_of_mem _ hx))
        (fun x hx => hone x (by
          rw [List.cons_append]
          exact List.mem_cons_of_mem _ hx))
      rw [← h4, h3.2.1, List.sum_cons]
      omega

/-- C6: on an opened decoder (running total 0), a run of `Read` calls that
returns positive values `r1..rk` and then 0 at the call in which the engine
reports `END_OF_STREAM`, the engine delivering at most one audio frame per
call: `r1 + ... + rk`, reduced modulo `2^64` like the 64-bit running total,
equals `GetDecodedAudioDataTotal()`; so the plain sum equals it whenever the
sum is below `2^64`. -/
theorem FlacDecoder.ReadAll_sum (engines : List ProcessSingle) (last : ProcessSingle)
    (d dEnd : FlacDecoder) (rs : List Int)
    (hopen : d.m_totalDecodedFrameSampleCount = 0)
    (hrun : d.ReadAll (engines ++ [last]) = Result.ok (rs ++ [0], dEnd))
    (hpos : ∀ r ∈ rs, 0 < r)
    (hone : ∀ e ∈ engines ++ [last], (e.callbacks.filter FlacCallback.isWrite).length ≤ 1)
    (hlast : last.state = FLAC__StreamDecoderState.END_OF_STREAM) :
    rs.sum % 2 ^ 64 = (dEnd.GetDecodedAudioDataTotal : Int)
      ∧ (rs.sum < 2 ^ 64 → rs.sum = (dEnd.GetDecodedAudioDataTotal : Int)) := by
  have hlen : rs.length = engines.length := by
    have := FlacDecoder.ReadAll_length _ _ _ _ hrun
    simpa using this
  have hM : d.m_totalDecodedFrameSampleCount < 2 ^ 64 := by rw [hopen]; norm_num
  have h := FlacDecoder.ReadAll_total engines last d dEnd rs hM hrun hlen hpos hone hlast
  rw [hopen] at h
  have hnonneg : 0 ≤ rs.sum := List.sum_nonneg (fun r hr => le_of_lt (hpos r hr))
  constructor
  · simpa using h
  · intro hlt
    have : rs.sum % 2 ^ 64 = rs.sum := Int.emod_eq_of_lt hnonneg hlt
    rw [← this]
    simpa using h

/-- C6 at a concrete run: 8192 samples declared, two frames of 4096 samples, then the end of the stream. -/
theorem FlacDecoder.ReadAll_sum_witness :
    FlacDecoder.opened8192.ReadAll ([ProcessSingle.frame4096, ProcessSingle.frame4096] ++ [ProcessSingle.cleanEnd])
        = Result.ok ([4096, 4096] ++ [0], FlacDecoder.drained8192)
      ∧ ([4096, 4096] : List Int).sum % 2 ^ 64 = (FlacDecoder.drained8192.GetDecodedAudioDataTotal : Int)
      ∧ (([4096, 4096] : List Int).sum < 2 ^ 64 →
          ([4096, 4096] : List Int).sum = (FlacDecoder.drained8192.GetDecodedAudioDataTotal : Int)) :=
  ⟨by decide,
    FlacDecoder.ReadAll_sum [ProcessSingle.frame4096, ProcessSingle.frame4096] ProcessSingle.cleanEnd
      FlacDecoder.opened8192 FlacDecoder.drained8192 [4096, 4096] rfl (by decide) (by decide) (by decide) rfl⟩

/-! ## WavPackDecoder -/

theorem WavPackDecoder.sampleCountMismatchMessage_missing (d : WavPackDecoder)
    (hD0 : 0 ≤ d.m_streamTotalSampleCount) (hD1 : d.m_streamTotalSampleCount < 2 ^ 63)
    (hlt : (d.m_totalUnpackedSampleCount : Int) < d.m_streamTotalSampleCount)
    (hdelta : d.m_streamTotalSampleCount - d.m_totalUnpackedSampleCount < 2 ^ 31) :
    d.sampleCountMismatchMessage
      = specSampleCountMismatchMessage d.m_streamTotalSampleCount d.m_totalUnpackedSampleCount := by
  have h1 : ¬ d.m_streamTotalSampleCount < 0 := by omega
  have h2 : d.m_totalUnpackedSampleCount < toU64 d.m_streamTotalSampleCount := by
    unfold toU64; omega
  have h3 : toI32 (toU64 ((toU64 d.m_streamTotalSampleCount : Int) - (d.m_totalUnpackedSampleCount : Int)))
      = d.m_streamTotalSampleCount - d.m_totalUnpackedSampleCount := by
    unfold toI32 toU64
    split <;> omega
  unfold WavPackDecoder.sampleCountMismatchMessage specSampleCountMismatchMessage
  rw [if_neg h1, if_pos h2, if_pos hlt]
  dsimp only
  rw [h3]

theorem WavPackDecoder.sampleCountMismatchMessage_extra (d : WavPackDecoder)
    (hD0 : 0 ≤ d.m_streamTotalSampleCount)
    (hU : d.m_totalUnpackedSampleCount < 2 ^ 64)
    (hgt : (d.m_totalUnpackedSampleCount : Int) > d.m_streamTotalSampleCount)
    (hdelta : (d.m_totalUnpackedSampleCount : Int) - d.m_streamTotalSampleCount < 2 ^ 31) :
    d.sampleCountMismatchMessage
      = specSampleCountMismatchMessage d.m_streamTotalSampleCount d.m_totalUnpackedSampleCount := by
  have h1 : ¬ d.m_streamTotalSampleCount < 0 := by omega
  have h2 : ¬ d.m_totalUnpackedSampleCount < toU64 d.m_streamTotalSampleCount := by
    unfold toU64; omega
  have h2b : d.m_totalUnpackedSampleCount > toU64 d.m_streamTotalSampleCount := by
    unfold toU64; omega
  have h3 : toI32 (toU64 ((d.m_totalUnpackedSampleCount : Int) - (toU64 d.m_streamTotalSampleCount : Int)))
      = (d.m_totalUnpackedSampleCount : Int) - d.m_streamTotalSampleCount := by
    unfold toI32 toU64
    split <;> omega
  have h4 : ¬ (d.m_totalUnpackedSampleCount : Int) < d.m_streamTotalSampleCount := by omega
  unfold WavPackDecoder.sampleCountMismatchMessage specSampleCountMismatchMessage
  rw [if_neg h1, if_neg h2, if_pos h2b, if_neg h4]
  dsimp only
  rw [h3]

/-- C3 (as stated, at a concrete input): with no library error, a declared
total of -1 (unknown) and 1000 unpacked samples, the claim expects a message
reporting 1001 extra samples; `Read` returns -1 with the message
`0 SAMPLE_COUNT_UNKNOWN_ERROR`. -/
theorem WavPackDecoder.Read_unknown_total :
    WavPackDecoder.Read (fun _ => []) WavPackDecoder.unknownTotal WavpackCall.done
        = Except.ok (-1, { WavPackDecoder.unknownTotal with m_errorMessage := "0 SAMPLE_COUNT_UNKNOWN_ERROR" })
      ∧ specSampleCountMismatchMessage WavPackDecoder.unknownTotal.m_streamTotalSampleCount
          WavPackDecoder.unknownTotal.m_totalUnpackedSampleCount = "1001 EXTRA_SAMPLES"
      ∧ "0 SAMPLE_COUNT_UNKNOWN_ERROR"
          ≠ specSampleCountMismatchMessage WavPackDecoder.unknownTotal.m_streamTotalSampleCount
              WavPackDecoder.unknownTotal.m_totalUnpackedSampleCount :=
  ⟨rfl, by decide, by decide⟩

/-- C3 (amended): at the call in which the library unpacks zero samples, with
`E` the error count, `D` the declared total and `U` the accumulated count.
If `E > 0` the result is -1 with `E BAD_BLOCK` (`E = 1`) or `E BAD_BLOCKS`.
If `E = 0` and the total is unknown (`D < 0`, and `U` is not the unsigned
reading of `D`) the result is -1 with `0 SAMPLE_COUNT_UNKNOWN_ERROR`.  If
`E = 0`, `D >= 0` and `U` differs from `D` by less than `2^31`, the result is
-1 with the difference reported as missing (`U < D`) or extra (`U > D`)
samples.  If `E = 0` and `U = D` the result is -1 with `MD5_MISMATCH` when MD5
mode is active, the library supplies a stored checksum and it differs from the
computed one, and 0 with the message unchanged otherwise. -/
theorem WavPackDecoder.Read_zero_samples (md5_finish : List Byte → List Byte)
    (d : WavPackDecoder) (call : WavpackCall)
    (h0 : call.unpackedSamplesPerChannel % U32 = 0)
    (hD0 : -(2 : Int) ^ 63 ≤ d.m_streamTotalSampleCount) (hD1 : d.m_streamTotalSampleCount < 2 ^ 63)
    (hU : d.m_totalUnpackedSampleCount < 2 ^ 64) :
    ∃ r d1, WavPackDecoder.Read md5_finish d call = Except.ok (r, d1)
      ∧ (0 < call.numErrors →
          r = -1 ∧ d1.m_errorMessage
            = toString call.numErrors ++ " BAD_BLOC" ++ (if call.numErrors > 1 then "KS" else "K"))
      ∧ (call.numErrors = 0 → d.m_streamTotalSampleCount < 0 →
          d.m_totalUnpackedSampleCount ≠ toU64 d.m_streamTotalSampleCount →
          r = -1 ∧ d1.m_errorMessage = "0 SAMPLE_COUNT_UNKNOWN_ERROR")
      ∧ (call.numErrors = 0 → 0 ≤ d.m_streamTotalSampleCount →
          (d.m_totalUnpackedSampleCount : Int) ≠ d.m_streamTotalSampleCount →
          |d.m_streamTotalSampleCount - d.m_totalUnpackedSampleCount| < 2 ^ 31 →
          r = -1 ∧ d1.m_errorMessage
            = specSampleCountMismatchMessage d.m_streamTotalSampleCount d.m_totalUnpackedSampleCount)
      ∧ (call.numErrors = 0 → (d.m_totalUnpackedSampleCount : Int) = d.m_streamTotalSampleCount →
          ((d.m_md5ModeIsEnabled = true
              ∧ ∃ stored, call.md5Sum = some stored
                  ∧ stored.take 16 ≠ (md5_finish d.m_stateStructMD5Algorithm).take 16) →
            r = -1 ∧ d1.m_errorMessage = "MD5_MISMATCH")
          ∧ (¬ (d.m_md5ModeIsEnabled = true
              ∧ ∃ stored, call.md5Sum = some stored
                  ∧ stored.take 16 ≠ (md5_finish d.m_stateStructMD5Algorithm).take 16) →
            r = 0 ∧ d1.m_errorMessage = d.m_errorMessage)) := by
  have hn : ¬ (((call.unpackedSamplesPerChannel % U32 : Nat) : Int) > 0) := by rw [h0]; simp
  have hz : ((call.unpackedSamplesPerChannel % U32 : Nat) : Int) = 0 := by rw [h0]; simp
  unfold WavPackDecoder.Read
  dsimp only
  rw [if_neg hn, if_pos hz]
  by_cases hE : call.numErrors > 0
  · rw [if_pos hE]
    refine ⟨_, _, rfl, ?_, ?_, ?_, ?_⟩
    · intro _
      exact ⟨rfl, rfl⟩
    · intro h; omega
    · intro h; omega
    · intro h; omega
  · rw [if_neg hE]
    by_cases hEq : d.m_totalUnpackedSampleCount = toU64 d.m_streamTotalSampleCount
    · rw [if_pos hEq]
      have hDU : 0 ≤ d.m_streamTotalSampleCount → (d.m_totalUnpackedSampleCount : Int) = d.m_streamTotalSampleCount := by
        intro h
        rw [hEq]
        unfold toU64
        omega
      cases hmd5 : d.m_md5ModeIsEnabled
      · simp only [Bool.false_eq_true, if_false]
        refine ⟨_, _, rfl, ?_, ?_, ?_, ?_⟩
        · intro h; exact absurd h hE
        · intro _ _ hne; exact absurd hEq hne
        · intro _ h hne; exact absurd (hDU h) hne
        · intro _ _
          simp [hz]
      · simp only [if_true]
        cases hsum : call.md5Sum with
        | none =>
          dsimp only
          refine ⟨_, _, rfl, ?_, ?_, ?_, ?_⟩
          · intro h; exact absurd h hE
          · intro _ _ hne; exact absurd hEq hne
          · intro _ h hne; exact absurd (hDU h) hne
          · intro _ _
            simp [hz]
        | some stored =>
          dsimp only
          by_cases hcmp : stored.take 16 ≠ (md5_finish d.m_stateStructMD5Algorithm).take 16
          · rw [if_pos hcmp]
            refine ⟨_, _, rfl, ?_, ?_, ?_, ?_⟩
            · intro h; exact absurd h hE
            · intro _ _ hne; exact absurd hEq hne
            · intro _ h hne; exact absurd (hDU h) hne
            · intro _ _
              refine ⟨fun _ => ⟨rfl, rfl⟩, fun hnot => ?_⟩
              exact absurd ⟨trivial, stored, rfl, hcmp⟩ hnot
          · rw [if_neg hcmp]
            refine ⟨_, _, rfl, ?_, ?_, ?_, ?_⟩
            · intro h; exact absurd h hE
            · intro _ _ hne; exact absurd hEq hne
            · intro _ h hne; exact absurd (hDU h) hne
            · intro _ _
              refine ⟨fun hyes => ?_, fun _ => ⟨hz, rfl⟩⟩
              obtain ⟨_, st, hst, hne⟩ := hyes
              injection hst with hst
              subst hst
              exact absurd hne hcmp
    · rw [if_neg hEq]
      refine ⟨_, _, rfl, ?_, ?_, ?_, ?_⟩
      · intro h; exact absurd h hE
      · intro _ hneg _
        refine ⟨rfl, ?_⟩
        show WavPackDecoder.sampleCountMismatchMessage _ = _
        unfold WavPackDecoder.sampleCountMismatchMessage
        dsimp only
        rw [if_pos hneg]
        decide
      · intro _ hpos hne habs
        refine ⟨rfl, ?_⟩
        show WavPackDecoder.sampleCountMismatchMessage _ = _
        rcases lt_or_gt_of_ne hne with hlt | hgt
        · exact WavPackDecoder.sampleCountMismatchMessage_missing _ hpos hD1 hlt
            (by rw [abs_lt] at habs; dsimp only; omega)
        · exact WavPackDecoder.sampleCountMismatchMessage_extra _ hpos hU hgt
            (by rw [abs_lt] at habs; dsimp only; omega)
      · intro _ heq
        exfalso
        apply hEq
        unfold toU64
        omega

/-- C3 (amended) at a concrete call: 1000 samples declared, 998 unpacked, no error. -/
theorem WavPackDecoder.Read_zero_samples_witness :
    ∃ r d1, WavPackDecoder.Read (fun _ => []) WavPackDecoder.twoMissing WavpackCall.done = Except.ok (r, d1)
      ∧ r = -1 ∧ d1.m_errorMessage = "2 MISSING_SAMPLES" := by
  obtain ⟨r, d1, h, _, _, h3, _⟩ :=
    WavPackDecoder.Read_zero_samples (fun _ => []) WavPackDecoder.twoMissing WavpackCall.done
      (by decide) (by decide) (by decide) (by decide)
  refine ⟨r, d1, h, ?_⟩
  have h4 := h3 (by decide) (by decide) (by decide) (by decide)
  refine ⟨h4.1, ?_⟩
  rw [h4.2]
  decide

/-! ## MP3Decoder: the stream operations the decoder performs -/

theorem Result.bind_ok {α β : Type} (a : α) (f : α → Result β) :
    (Result.ok a).bind f = f a := rfl

theorem streamAt_Read (bytes : List Byte) (p n : Nat) (hL : bytes.length < 2 ^ 63)
    (h : p + n ≤ bytes.length) :
    (streamAt bytes p).Read n
      = Result.ok { count := n, data := (bytes.drop p).take n, stream := streamAt bytes (p + n) } := by
  have := StreamWrapper.Read_inside (streamAt bytes p) n hL h
  rw [this]
  rfl

theorem streamAt_size (bytes : List Byte) (p : Nat) :
    (streamAt bytes p).m_fileMemoryBufferSize = bytes.length := rfl

theorem streamAt_Seek_set (bytes : List Byte) (p : Nat) (offset : Int)
    (hL : bytes.length < 2 ^ 63)
    (h0 : 0 ≤ offset) (h1 : offset ≤ bytes.length) :
    (streamAt bytes p).Seek offset SEEK_SET = (0, streamAt bytes offset.toNat) := by
  have hc : ¬ (offset < 0 ∨ toU32 offset > (streamAt bytes p).m_fileMemoryBufferSize) := by
    have : toU32 offset ≤ bytes.length := by unfold toU32; omega
    rw [streamAt_size]
    omega
  have hu : toU64 offset = offset.toNat := by unfold toU64; omega
  unfold StreamWrapper.Seek
  simp only [if_true, if_neg hc, hu]
  rfl

theorem streamAt_Seek_end (bytes : List Byte) (p : Nat) (offset : Int)
    (hL : bytes.length < 2 ^ 63)
    (h0 : offset ≤ 0) (h1 : -(bytes.length : Int) ≤ offset) :
    (streamAt bytes p).Seek offset SEEK_END = (0, streamAt bytes ((bytes.length : Int) + offset).toNat) := by
  have hu : toU64 (((streamAt bytes p).m_fileMemoryBufferSize : Int) + offset)
      = ((bytes.length : Int) + offset).toNat := by
    rw [streamAt_size]
    unfold toU64; omega
  have hc : ¬ (offset > 0 ∨ ((((bytes.length : Int) + offset).toNat : Nat) : Int) < 0) := by omega
  unfold StreamWrapper.Seek
  have e1 : ¬ (SEEK_END = SEEK_SET) := by decide
  have e2 : ¬ (SEEK_END = SEEK_CUR) := by decide
  simp only [if_neg e1, if_neg e2, if_true, hu, if_neg hc]
  rfl

/-! ## MP3Decoder: reading the header of a frame -/

theorem setByte_four (h : Nat) (b0 b1 b2 b3 : Byte) :
    setByte 32 (setByte 32 (setByte 32 (setByte 32 h 3 b0.val) 2 b1.val) 1 b2.val) 0 b3.val
      = b0.val * 16777216 + b1.val * 65536 + b2.val * 256 + b3.val := by
  unfold setByte
  have h0 := b0.isLt
  have h1 := b1.isLt
  have h2 := b2.isLt
  have h3 := b3.isLt
  norm_num
  omega

theorem MP3Decoder.ReadHeaderLoop_step (d : MP3Decoder) (bytes : List Byte) (p index : Nat)
    (b : Byte) (tl : List Byte)
    (hs : d.m_stream = streamAt bytes p) (hL : bytes.length < 2 ^ 63)
    (hb : bytes.drop p = b :: tl) :
    MP3Decoder.ReadHeaderLoop (index + 1) d
      = MP3Decoder.ReadHeaderLoop index
          { d with
            m_currentFrameLength := index
            m_stream := streamAt bytes (p + 1)
            m_currentFrameHeader := setByte 32 d.m_currentFrameHeader index b.val } := by
  have hlen : p + 1 ≤ bytes.length := by
    have h1 : (bytes.drop p).length = tl.length + 1 := by rw [hb]; rfl
    rw [List.length_drop] at h1
    omega
  have hr := streamAt_Read bytes p 1 hL hlen
  rw [hb] at hr
  simp only [List.take_succ_cons, List.take_zero] at hr
  rw [MP3Decoder.ReadHeaderLoop]
  dsimp only
  rw [hs, hr, Result.bind_ok]
  dsimp only
  rw [if_neg (by decide)]
  rfl

theorem MP3Decoder.ReadHeaderLoop_four (d : MP3Decoder) (bytes pre rest : List Byte)
    (b0 b1 b2 b3 : Byte)
    (hs : d.m_stream = streamAt bytes pre.length) (hL : bytes.length < 2 ^ 63)
    (hb : bytes = pre ++ b0 :: b1 :: b2 :: b3 :: rest) :
    MP3Decoder.ReadHeaderLoop 4 d
      = Result.ok (true,
          { d with
            m_currentFrameLength := U32 - 1
            m_stream := streamAt bytes (pre.length + 4)
            m_currentFrameHeader := b0.val * 16777216 + b1.val * 65536 + b2.val * 256 + b3.val }) := by
  have hd0 : bytes.drop pre.length = b0 :: b1 :: b2 :: b3 :: rest := by
    rw [hb]; exact List.drop_left _ _
  have hd1 : bytes.drop (pre.length + 1) = b1 :: b2 :: b3 :: rest := by
    rw [hb, List.drop_append]; rfl
  have hd2 : bytes.drop (pre.length + 1 + 1) = b2 :: b3 :: rest := by
    rw [hb, Nat.add_assoc, List.drop_append]; rfl
  have hd3 : bytes.drop (pre.length + 1 + 1 + 1) = b3 :: rest := by
    rw [hb, Nat.add_assoc, Nat.add_assoc, List.drop_append]; rfl
  rw [MP3Decoder.ReadHeaderLoop_step d bytes pre.length 3 b0 _ hs hL hd0]
  rw [MP3Decoder.ReadHeaderLoop_step _ bytes (pre.length + 1) 2 b1 _ rfl hL hd1]
  rw [MP3Decoder.ReadHeaderLoop_step _ bytes (pre.length + 1 + 1) 1 b2 _ rfl hL hd2]
  rw [MP3Decoder.ReadHeaderLoop_step _ bytes (pre.length + 1 + 1 + 1) 0 b3 _ rfl hL hd3]
  rw [MP3Decoder.ReadHeaderLoop]
  dsimp only
  rw [setByte_four]

/-! ## MP3Decoder: GetFrameLength -/

theorem MP3Decoder.GetFrameLengthByLayer_preserves (d : MP3Decoder) :
    d.GetFrameLengthByLayer.2.m_stream = d.m_stream
      ∧ d.GetFrameLengthByLayer.2.m_errorMessage = d.m_errorMessage
      ∧ d.GetFrameLengthByLayer.2.m_currentFrameHeader = d.m_currentFrameHeader
      ∧ d.GetFrameLengthByLayer.2.m_previousFrameHeader = d.m_previousFrameHeader
      ∧ d.GetFrameLengthByLayer.2.m_fileSizeInBytes = d.m_fileSizeInBytes
      ∧ d.GetFrameLengthByLayer.2.m_offset = d.m_offset
      ∧ d.GetFrameLengthByLayer.2.m_embeddedFrameCRC = d.m_embeddedFrameCRC := by
  unfold MP3Decoder.GetFrameLengthByLayer
  dsimp only
  split_ifs <;> exact ⟨rfl, rfl, rfl, rfl, rfl, rfl, rfl⟩

theorem MP3Decoder.GetFrameLengthByLayer_fst (d e : MP3Decoder)
    (h1 : d.m_layerDescription = e.m_layerDescription)
    (h2 : d.m_encodingVersion = e.m_encodingVersion)
    (h3 : d.m_bitrate = e.m_bitrate) (h4 : d.m_sampleRate = e.m_sampleRate)
    (h5 : d.m_framePadding = e.m_framePadding) :
    d.GetFrameLengthByLayer.1 = e.GetFrameLengthByLayer.1 := by
  unfold MP3Decoder.GetFrameLengthByLayer
  dsimp only
  rw [h1, h2, h3, h4, h5]
  split_ifs <;> rfl

/-- The length `GetFrameLength` returns depends on the current header only. -/
theorem MP3Decoder.GetFrameLength_fst (d : MP3Decoder) :
    d.GetFrameLength.1 = MP3Decoder.frameLength d.m_currentFrameHeader := by
  unfold MP3Decoder.frameLength MP3Decoder.GetFrameLength
  dsimp only
  split_ifs
  · rfl
  · exact MP3Decoder.GetFrameLengthByLayer_fst _ _ rfl rfl rfl rfl rfl
  · rfl
  · rfl
  · rfl

/-- The members `GetFrameLength` leaves as they are. -/
theorem MP3Decoder.GetFrameLength_preserves (d : MP3Decoder) :
    d.GetFrameLength.2.m_stream = d.m_stream
      ∧ d.GetFrameLength.2.m_errorMessage = d.m_errorMessage
      ∧ d.GetFrameLength.2.m_currentFrameHeader = d.m_currentFrameHeader
      ∧ d.GetFrameLength.2.m_previousFrameHeader = d.m_previousFrameHeader
      ∧ d.GetFrameLength.2.m_fileSizeInBytes = d.m_fileSizeInBytes
      ∧ d.GetFrameLength.2.m_offset = d.m_offset := by
  unfold MP3Decoder.GetFrameLength
  dsimp only
  split_ifs
  · exact ⟨rfl, rfl, rfl, rfl, rfl, rfl⟩
  · have h := MP3Decoder.GetFrameLengthByLayer_preserves
    refine ⟨(h _).1, (h _).2.1, (h _).2.2.1, (h _).2.2.2.1, (h _).2.2.2.2.1, (h _).2.2.2.2.2.1⟩
  · exact ⟨rfl, rfl, rfl, rfl, rfl, rfl⟩
  · exact ⟨rfl, rfl, rfl, rfl, rfl, rfl⟩
  · exact ⟨rfl, rfl, rfl, rfl, rfl, rfl⟩

/-- A header for which `GetFrameLength` returns a length other than 0 is above
`0xFFE00000`, and the decoder then holds its protection bit in `m_embeddedFrameCRC`. -/
theorem MP3Decoder.GetFrameLength_ne_zero (d : MP3Decoder) (h : d.GetFrameLength.1 ≠ 0) :
    d.m_currentFrameHeader > 0xFFE00000
      ∧ d.GetFrameLength.2.m_embeddedFrameCRC = (d.m_currentFrameHeader >>> 16) &&& 0x01 := by
  unfold MP3Decoder.GetFrameLength at h ⊢
  dsimp only at h ⊢
  split_ifs at h ⊢
  · exact absurd rfl h
  · rename_i h1 _ _ _
    exact ⟨h1, (MP3Decoder.GetFrameLengthByLayer_preserves _).2.2.2.2.2.2⟩
  · exact absurd rfl h
  · exact absurd rfl h
  · exact absurd rfl h

/-! ## MP3Decoder: what the tag probes of OpenFile leave unchanged -/

theorem Result.bind_eq_ok {α β : Type} (x : Result α) (f : α → Result β) (b : β)
    (h : x.bind f = Result.ok b) : ∃ a, x = Result.ok a ∧ f a = Result.ok b := by
  cases x with
  | ok a => exact ⟨a, rfl, h⟩
  | undefinedBehaviour => cases h
  | outOfFuel => cases h

theorem StreamWrapper.copyOut_file (s : StreamWrapper) (n : Nat) (r : ReadResult)
    (h : s.copyOut n = Result.ok r) : r.stream.file = s.file := by
  unfold StreamWrapper.copyOut at h
  split at h
  · split at h
    · injection h with h
      subst h
      rfl
    · cases h
  · injection h with h
    subst h
    rfl

theorem StreamWrapper.Read_file (s : StreamWrapper) (n : Nat) (r : ReadResult)
    (h : s.Read n = Result.ok r) : r.stream.file = s.file := by
  unfold StreamWrapper.Read at h
  split at h
  · have e := StreamWrapper.copyOut_file _ _ _ h
    exact e
  · exact StreamWrapper.copyOut_file _ _ _ h

theorem StreamWrapper.Seek_file (s : StreamWrapper) (offset origin : Int) :
    (s.Seek offset origin).2.file = s.file := by
  unfold StreamWrapper.Seek
  dsimp only
  split_ifs <;> rfl

theorem MP3Decoder.GetID3v2TagHeaderLength_file (d d1 : MP3Decoder) (n : Nat)
    (h : d.GetID3v2TagHeaderLength = Result.ok (n, d1)) :
    d1.m_stream.file = d.m_stream.file ∧ d1.m_fileSizeInBytes = d.m_fileSizeInBytes := by
  unfold MP3Decoder.GetID3v2TagHeaderLength at h
  split at h
  · obtain ⟨r, hr, h⟩ := Result.bind_eq_ok _ _ _ h
    have e := StreamWrapper.Read_file _ _ _ hr
    dsimp only at h
    repeat' split at h
    all_goals
      injection h with h
      injection h with h1 h2
      subst h2
      exact ⟨e, rfl⟩
  · injection h with h
    injection h with h1 h2
    subst h2
    exact ⟨rfl, rfl⟩

theorem Result.bind_eq_ok_iff {α β : Type} (x : Result α) (f : α → Result β) (b : β) :
    x.bind f = Result.ok b ↔ ∃ a, x = Result.ok a ∧ f a = Result.ok b := by
  constructor
  · exact Result.bind_eq_ok x f b
  · rintro ⟨a, rfl, h⟩
    exact h

theorem MP3Decoder.GetLyricsTagLength_file (d d1 : MP3Decoder) (n : Nat)
    (h : d.GetLyricsTagLength = Result.ok (n, d1)) :
    d1.m_stream.file = d.m_stream.file ∧ d1.m_fileSizeInBytes = d.m_fileSizeInBytes := by
  unfold MP3Decoder.GetLyricsTagLength at h
  rw [Result.bind_eq_ok_iff] at h
  obtain ⟨r, hr, h⟩ := h
  try dsimp only at h
  have e := StreamWrapper.Read_file _ _ _ hr
  split at h
  · split at h
    · split at h
      rw [Result.bind_eq_ok_iff] at h
      obtain ⟨r2, hr2, h⟩ := h
      try dsimp only at h
      have e2 := StreamWrapper.Read_file _ _ _ hr2
      split at h
      rw [Result.bind_eq_ok_iff] at h
      obtain ⟨found, _, h⟩ := h
      try dsimp only at h
      split at h
      all_goals
        injection h with h
        injection h with h1 h2
        subst h2
        dsimp only
        simp only [StreamWrapper.Seek_file, *, and_self]
    · split at h
      · split at h
        rw [Result.bind_eq_ok_iff] at h
        obtain ⟨r2, hr2, h⟩ := h
        try dsimp only at h
        have e2 := StreamWrapper.Read_file _ _ _ hr2
        split at h
        split at h
        split at h
        rw [Result.bind_eq_ok_iff] at h
        obtain ⟨r3, hr3, h⟩ := h
        try dsimp only at h
        have e3 := StreamWrapper.Read_file _ _ _ hr3
        split at h
        all_goals
          injection h with h
          injection h with h1 h2
          subst h2
          dsimp only
          simp only [StreamWrapper.Seek_file, *, and_self]
      · injection h with h
        injection h with h1 h2
        subst h2
        exact ⟨e, rfl⟩
  · injection h with h
    injection h with h1 h2
    subst h2
    exact ⟨e, rfl⟩

theorem MP3Decoder.GetTagFooterLengthAPE_file (d d1 : MP3Decoder)
    (h : d.GetTagFooterLengthAPE = Result.ok d1) :
    d1.m_stream.file = d.m_stream.file ∧ d1.m_fileSizeInBytes = d.m_fileSizeInBytes := by
  unfold MP3Decoder.GetTagFooterLengthAPE at h
  dsimp only at h
  split at h
  · rw [Result.bind_eq_ok_iff] at h
    obtain ⟨r, hr, h⟩ := h
    have e := StreamWrapper.Read_file _ _ _ hr
    try dsimp only at h
    split at h
    · split at h
      · injection h with h
        subst h
        dsimp only
        simp only [StreamWrapper.Seek_file, e, and_self]
      · split at h
        all_goals
          dsimp only at h
          split at h
          · rw [Result.bind_eq_ok_iff] at h
            obtain ⟨lyrics, hl, h⟩ := h
            obtain ⟨el1, el2⟩ := MP3Decoder.GetLyricsTagLength_file _ lyrics.2 lyrics.1 hl
            dsimp only at el1 el2
            injection h with h
            subst h
            dsimp only
            rw [el1, el2]
            simp only [StreamWrapper.Seek_file, e, and_self]
          · injection h with h
            subst h
            dsimp only
            simp only [StreamWrapper.Seek_file, e, and_self]
    · injection h with h
      subst h
      exact ⟨e.trans (StreamWrapper.Seek_file _ _ _), rfl⟩
  · injection h with h
    subst h
    exact ⟨StreamWrapper.Seek_file _ _ _, rfl⟩

theorem MP3Decoder.GetTagFooterLength_file (d d1 : MP3Decoder) (n : Nat)
    (h : d.GetTagFooterLength = Result.ok (n, d1)) :
    d1.m_stream.file = d.m_stream.file ∧ d1.m_fileSizeInBytes = d.m_fileSizeInBytes := by
  unfold MP3Decoder.GetTagFooterLength at h
  dsimp only at h
  rw [Result.bind_eq_ok_iff] at h
  obtain ⟨d2, h2, h⟩ := h
  rw [Result.bind_eq_ok_iff] at h
  obtain ⟨d3, h3, h⟩ := h
  obtain ⟨a1, a2⟩ := MP3Decoder.GetTagFooterLengthAPE_file _ _ h3
  injection h with h
  injection h with h4 h5
  subst h5
  rw [a1, a2]
  split at h2
  · rw [Result.bind_eq_ok_iff] at h2
    obtain ⟨r, hr, h2⟩ := h2
    have e := StreamWrapper.Read_file _ _ _ hr
    try dsimp only at h2
    split at h2
    · split at h2
      · rw [Result.bind_eq_ok_iff] at h2
        obtain ⟨lyrics, hl, h2⟩ := h2
        obtain ⟨el1, el2⟩ := MP3Decoder.GetLyricsTagLength_file _ lyrics.2 lyrics.1 hl
        dsimp only at el1 el2
        injection h2 with h2
        subst h2
        dsimp only
        rw [el1, el2]
        simp only [StreamWrapper.Seek_file, e, and_self]
      · injection h2 with h2
        subst h2
        dsimp only
        simp only [StreamWrapper.Seek_file, e, and_self]
    · injection h2 with h2
      subst h2
      dsimp only
      simp only [StreamWrapper.Seek_file, e, and_self]
  · injection h2 with h2
    subst h2
    dsimp only
    simp only [StreamWrapper.Seek_file, and_self]

theorem StreamWrapper.Length_opened (bytes : List Byte) (hL : bytes.length < 2 ^ 63) :
    (StreamWrapper.opened bytes).Length = (bytes.length : Int) := by
  unfold StreamWrapper.Length toI64
  have e : (StreamWrapper.opened bytes).m_fileMemoryBufferSize = bytes.length := rfl
  rw [e]
  split <;> omega

theorem StreamWrapper.Seek_zero_of_file (s : StreamWrapper) (bytes : List Byte)
    (h : s.file = (bytes, true, false)) :
    (s.Seek ((0 : Nat) : Int) SEEK_SET).2 = streamAt bytes 0 := by
  obtain ⟨buffer, position, eof, isopen, indicator⟩ := s
  unfold StreamWrapper.file at h
  dsimp only at h
  injection h with h1 h2
  injection h2 with h2 h3
  subst h1 h2 h3
  have hc : ¬ (((0 : Nat) : Int) < 0 ∨ toU32 ((0 : Nat) : Int)
      > (StreamWrapper.mk buffer position eof true false).m_fileMemoryBufferSize) := by
    have : toU32 ((0 : Nat) : Int) = 0 := by unfold toU32; omega
    rw [this]
    omega
  have hu : toU64 ((0 : Nat) : Int) = 0 := by unfold toU64; omega
  unfold StreamWrapper.Seek
  simp only [if_true, if_neg hc, hu]
  rfl

/-- What a successful `OpenFile` that computed the header length 0 leaves: the
stream at position 0 over the bytes of the file, the size of the file less the
footer length as the end, and the counters reset. -/
theorem MP3Decoder.OpenFile_ok (d d0 : MP3Decoder) (bytes : List Byte)
    (hL : bytes.length < 2 ^ 63)
    (h : d.OpenFile bytes = Result.ok d0) (hh : d0.m_tagHeaderLengthBytes = 0) :
    d0.m_stream = streamAt bytes 0
      ∧ d0.m_fileSizeInBytes = (bytes.length : Int) - (d0.m_tagFooterLengthBytes : Int)
      ∧ d0.m_offset = 0
      ∧ d0.m_previousFrameHeader = 0
      ∧ d0.m_frameSamplePosition = 0 := by
  unfold MP3Decoder.OpenFile at h
  dsimp only at h
  rw [StreamWrapper.Length_opened bytes hL] at h
  rw [if_pos (by omega)] at h
  rw [Result.bind_eq_ok_iff] at h
  obtain ⟨header, h1, h⟩ := h
  rw [Result.bind_eq_ok_iff] at h
  obtain ⟨footer, h2, h⟩ := h
  obtain ⟨a1, a2⟩ := MP3Decoder.GetID3v2TagHeaderLength_file _ header.2 header.1 h1
  obtain ⟨b1, b2⟩ := MP3Decoder.GetTagFooterLength_file _ footer.2 footer.1 h2
  dsimp only at a1 a2 b1 b2
  injection h with h
  subst h
  dsimp only at hh ⊢
  rw [hh, b2, a2]
  refine ⟨?_, rfl, rfl, rfl, rfl⟩
  apply StreamWrapper.Seek_zero_of_file
  rw [b1, a1]
  rfl

/-! ## MP3Decoder: one call of Read on a frame -/

theorem MP3Decoder.CheckCRCProtection_unprotected (secondsOf : Nat → Nat → Int) (d : MP3Decoder)
    (h : d.m_embeddedFrameCRC = 1) :
    d.CheckCRCProtection secondsOf = Result.ok (true, d) := by
  unfold MP3Decoder.CheckCRCProtection
  rw [if_neg]
  rw [h]
  intro hc
  exact absurd hc.1 (by decide)

theorem exists_four_bytes (f : List Byte) (h4 : 4 ≤ f.length) :
    ∃ b0 b1 b2 b3 tl, f = b0 :: b1 :: b2 :: b3 :: tl := by
  rcases f with _ | ⟨b0, _ | ⟨b1, _ | ⟨b2, _ | ⟨b3, tl⟩⟩⟩⟩
  · simp at h4
  · simp at h4
  · simp at h4
  · simp at h4
  · exact ⟨b0, b1, b2, b3, tl, rfl⟩

theorem MP3Decoder.Read_frame (secondsOf : Nat → Nat → Int) (d : MP3Decoder)
    (bytes pre f rest : List Byte)
    (hL : bytes.length < 2 ^ 63) (hb : bytes = pre ++ f ++ rest)
    (hs : d.m_stream = streamAt bytes pre.length) (ho : d.m_offset = (pre.length : Int))
    (hz : d.m_fileSizeInBytes = (bytes.length : Int)) (hm : d.m_errorMessage = "")
    (h4 : 4 ≤ f.length) (hlen : MP3Decoder.frameLength (frameHeader f) = f.length)
    (hcrc : (frameHeader f >>> 16) &&& 0x01 = 1)
    (hmask : frameHeader f &&& 0xFFFE0C00 = d.m_previousFrameHeader &&& 0xFFFE0C00
      ∨ d.m_previousFrameHeader = 0) :
    ∃ d1, d.Read secondsOf = Result.ok ((if rest = [] then 0 else (f.length : Int)), d1)
      ∧ d1.m_stream = streamAt bytes (if rest = [] then pre.length + 4 else pre.length + f.length)
      ∧ d1.m_offset = ((pre.length + f.length : Nat) : Int)
      ∧ d1.m_fileSizeInBytes = (bytes.length : Int) ∧ d1.m_errorMessage = ""
      ∧ d1.m_currentFrameHeader = frameHeader f
      ∧ d1.m_previousFrameHeader
          = (if d.m_previousFrameHeader = 0 then frameHeader f else d.m_previousFrameHeader) := by
  obtain ⟨b0, b1, b2, b3, tl, hf⟩ := exists_four_bytes f h4
  have hhdr : frameHeader f = b0.val * 16777216 + b1.val * 65536 + b2.val * 256 + b3.val := by
    rw [hf]; rfl
  have hb1 : bytes = pre ++ b0 :: b1 :: b2 :: b3 :: (tl ++ rest) := by
    rw [hb, hf, List.append_assoc]; rfl
  have hloop := MP3Decoder.ReadHeaderLoop_four d bytes pre (tl ++ rest) b0 b1 b2 b3 hs hL hb1
  rw [← hhdr] at hloop
  obtain ⟨dh, hdh⟩ : ∃ dh : MP3Decoder, dh = { d with
      m_currentFrameLength := U32 - 1
      m_stream := streamAt bytes (pre.length + 4)
      m_currentFrameHeader := frameHeader f } := ⟨_, rfl⟩
  rw [← hdh] at hloop
  have dh1 : dh.m_currentFrameHeader = frameHeader f := by rw [hdh]
  have dh2 : dh.m_stream = streamAt bytes (pre.length + 4) := by rw [hdh]
  have dh3 : dh.m_offset = (pre.length : Int) := by rw [hdh]; exact ho
  have dh4 : dh.m_fileSizeInBytes = (bytes.length : Int) := by rw [hdh]; exact hz
  have dh5 : dh.m_errorMessage = "" := by rw [hdh]; exact hm
  have dh6 : dh.m_previousFrameHeader = d.m_previousFrameHeader := by rw [hdh]
  obtain ⟨g, hg⟩ : ∃ g, g = dh.GetFrameLength := ⟨_, rfl⟩
  have g1 : g.1 = f.length := by rw [hg, MP3Decoder.GetFrameLength_fst, dh1, hlen]
  have gp := MP3Decoder.GetFrameLength_preserves dh
  have gz := MP3Decoder.GetFrameLength_ne_zero dh (by rw [← hg, g1]; omega)
  rw [← hg] at gp gz
  rw [dh1, hcrc] at gz
  rw [dh1, dh2, dh3, dh4, dh5, dh6] at gp
  obtain ⟨gp1, gp2, gp3, gp4, gp5, gp6⟩ := gp
  unfold MP3Decoder.Read
  rw [hloop, Result.bind_ok]
  dsimp only
  rw [← hg]
  rw [if_neg (by decide : ¬ (true = false))]
  rw [if_pos (by rw [g1]; omega : g.1 ≠ 0)]
  rw [if_pos (by rw [gp3, gp4]; exact hmask)]
  have hlen2 : (bytes.length : Int) = (pre.length : Int) + (f.length : Int) + (rest.length : Int) := by
    rw [hb, List.length_append, List.length_append]; push_cast; ring
  by_cases hp : d.m_previousFrameHeader = 0
  on_goal 1 =>
    have hp1 : g.2.m_previousFrameHeader = 0 := gp4.trans hp
    rw [if_pos hp1]
  on_goal 2 =>
    have hp1 : ¬ g.2.m_previousFrameHeader = 0 := by rw [gp4]; exact hp
    rw [if_neg hp1]
  all_goals
    dsimp only
    rw [gp6, g1, gp5]
    by_cases hr : rest = []
    · have hrl : (rest.length : Int) = 0 := by rw [hr]; rfl
      rw [if_neg (by omega), if_pos (by omega)]
      rw [MP3Decoder.CheckCRCProtection_unprotected, Result.bind_ok]
      on_goal 2 => exact gz.2
      dsimp only
      rw [if_pos rfl, if_pos hr, if_pos hr]
      refine ⟨_, rfl, ?_, ?_, ?_, ?_, ?_, ?_⟩
      · exact gp1
      · exact (Nat.cast_add _ _).symm
      · rfl
      · exact gp2
      · exact gp3
      · first | (rw [if_pos hp]; exact gp3) | (rw [if_neg hp]; exact gp4)
    · have hrl : 0 < rest.length := List.length_pos.mpr hr
      rw [if_pos (by omega)]
      rw [MP3Decoder.CheckCRCProtection_unprotected, Result.bind_ok]
      on_goal 2 => exact gz.2
      dsimp only
      rw [gp1, streamAt_Seek_set bytes _ _ hL (by omega) (by omega)]
      dsimp only
      rw [if_pos rfl, if_neg (by decide), if_neg hr, if_neg hr]
      refine ⟨_, rfl, ?_, ?_, ?_, ?_, ?_, ?_⟩
      · show streamAt bytes ((pre.length : Int) + (f.length : Int)).toNat = _
        congr 1
      · exact (Nat.cast_add _ _).symm
      · rfl
      · exact gp2
      · exact gp3
      · first | (rw [if_pos hp]; exact gp3) | (rw [if_neg hp]; exact gp4)

/-! ## MP3Decoder: draining a stream of frames -/

theorem MP3Decoder.ReadAll_succ (secondsOf : Nat → Nat → Int) (k : Nat) (d d1 : MP3Decoder)
    (r : Int) (h : d.Read secondsOf = Result.ok (r, d1)) :
    MP3Decoder.ReadAll secondsOf (k + 1) d
      = (MP3Decoder.ReadAll secondsOf k d1).bind fun rest => Result.ok (r :: rest.1, rest.2) := by
  rw [MP3Decoder.ReadAll, h, Result.bind_ok]

theorem MP3Decoder.ReadAll_frames (secondsOf : Nat → Nat → Int) (bytes : List Byte) (m : Nat)
    (hL : bytes.length < 2 ^ 63) :
    ∀ (frames : List (List Byte)) (pre : List Byte) (d : MP3Decoder),
      frames ≠ [] → bytes = pre ++ frames.flatten →
      (∀ f ∈ frames, 4 ≤ f.length ∧ MP3Decoder.frameLength (frameHeader f) = f.length
        ∧ frameHeader f &&& 0xFFFE0C00 = m ∧ (frameHeader f >>> 16) &&& 0x01 = 1) →
      d.m_stream = streamAt bytes pre.length → d.m_offset = (pre.length : Int) →
      d.m_fileSizeInBytes = (bytes.length : Int) → d.m_errorMessage = "" →
      (d.m_previousFrameHeader &&& 0xFFFE0C00 = m ∨ d.m_previousFrameHeader = 0) →
      ∀ k, k ≤ frames.length →
        ∃ dk, MP3Decoder.ReadAll secondsOf k d
            = Result.ok (((frames.dropLast.map (fun (f : List Byte) => (f.length : Int))) ++ [0]).take k, dk)
          ∧ dk.m_errorMessage = "" := by
  intro frames
  induction frames with
  | nil => intro pre d hne; exact absurd rfl hne
  | cons f fs ih =>
    intro pre d _ hb hframe hs ho hz hm hprev k hk
    cases k with
    | zero => exact ⟨d, rfl, hm⟩
    | succ k =>
      obtain ⟨hf4, hflen, hfmask, hfcrc⟩ := hframe f (List.mem_cons_self f fs)
      have hb1 : bytes = pre ++ f ++ fs.flatten := by
        rw [hb, List.flatten_cons, List.append_assoc]
      have hmask : frameHeader f &&& 0xFFFE0C00 = d.m_previousFrameHeader &&& 0xFFFE0C00
          ∨ d.m_previousFrameHeader = 0 := by
        rcases hprev with h | h
        · exact Or.inl (hfmask.trans h.symm)
        · exact Or.inr h
      obtain ⟨d1, hread, h1s, h1o, h1z, h1m, _, h1p⟩ :=
        MP3Decoder.Read_frame secondsOf d bytes pre f fs.flatten hL hb1 hs ho hz hm hf4 hflen hfcrc hmask
      cases fs with
      | nil =>
        have hk0 : k = 0 := by
          have : k + 1 ≤ 1 := hk
          omega
        subst hk0
        rw [MP3Decoder.ReadAll_succ secondsOf 0 d d1 _ hread]
        exact ⟨d1, rfl, h1m⟩
      | cons f2 fs2 =>
        have hf2 := (hframe f2 (List.mem_cons_of_mem f (List.mem_cons_self f2 fs2))).1
        have hrest : (f2 :: fs2).flatten ≠ [] := by
          intro hnil
          have hlen0 := congrArg List.length hnil
          rw [List.flatten_cons, List.length_append] at hlen0
          have : ([] : List Byte).length = 0 := rfl
          omega
        rw [if_neg hrest] at hread h1s
        have hpre : (pre ++ f).length = pre.length + f.length := List.length_append pre f
        have hprev1 : d1.m_previousFrameHeader &&& 0xFFFE0C00 = m ∨ d1.m_previousFrameHeader = 0 := by
          rw [h1p]
          split
          · exact Or.inl hfmask
          · rcases hprev with h | h
            · exact Or.inl h
            · rename_i hn
              exact absurd h hn
        obtain ⟨dk, hall, hmsg⟩ := ih (pre ++ f) d1 (List.cons_ne_nil f2 fs2)
          (by rw [hb1, List.append_assoc])
          (fun g hg => hframe g (List.mem_cons_of_mem f hg))
          (by rw [hpre]; exact h1s) (by rw [hpre]; exact h1o) h1z h1m hprev1 k
          (by have : k + 1 ≤ (f2 :: fs2).length + 1 := hk
              omega)
        refine ⟨dk, ?_, hmsg⟩
        rw [MP3Decoder.ReadAll_succ secondsOf k d d1 _ hread, hall, Result.bind_ok]
        rw [List.dropLast_cons_of_ne_nil (List.cons_ne_nil f2 fs2)]
        rfl

/-- C1: for a stream of at least 128 bytes that is the concatenation of n ≥ 1
frames, each starting with a 4-byte header for which `GetFrameLength` gives the
length of the frame, agreeing with the first header on the bits `0xFFFE0C00`
and with the protection bit 1, and for which `OpenFile` detects no tag (header
length 0, footer length 0, no message), the first k calls of `Read`, for every
k ≤ n, return the first k of |f1|, ..., |f(n-1)|, 0, none of them -1, and
leave the error message empty. -/
theorem MP3Decoder.Read_valid_frames (secondsOf : Nat → Nat → Int) (frames : List (List Byte))
    (d0 : MP3Decoder)
    (hne : frames ≠ [])
    (_h128 : 128 ≤ frames.flatten.length) (hL : frames.flatten.length < 2 ^ 63)
    (hframe : ∀ f ∈ frames, 4 ≤ f.length ∧ MP3Decoder.frameLength (frameHeader f) = f.length
      ∧ frameHeader f &&& 0xFFFE0C00 = frameHeader (frames.headD []) &&& 0xFFFE0C00
      ∧ (frameHeader f >>> 16) &&& 0x01 = 1)
    (hopen : MP3Decoder.new.OpenFile frames.flatten = Result.ok d0)
    (hheader : d0.m_tagHeaderLengthBytes = 0) (hfooter : d0.m_tagFooterLengthBytes = 0)
    (hmsg : d0.GetLastErrorMessage = "") :
    ∀ k, k ≤ frames.length → ∃ dk,
      MP3Decoder.ReadAll secondsOf k d0
          = Result.ok (((frames.dropLast.map (fun (f : List Byte) => (f.length : Int))) ++ [0]).take k, dk)
        ∧ (-1 : Int) ∉ ((frames.dropLast.map (fun (f : List Byte) => (f.length : Int))) ++ [0]).take k
        ∧ dk.GetLastErrorMessage = "" := by
  intro k hk
  obtain ⟨o1, o2, o3, o4, _⟩ := MP3Decoder.OpenFile_ok MP3Decoder.new d0 frames.flatten hL hopen hheader
  rw [hfooter] at o2
  obtain ⟨dk, hall, hend⟩ :=
    MP3Decoder.ReadAll_frames secondsOf frames.flatten (frameHeader (frames.headD []) &&& 0xFFFE0C00) hL
      frames [] d0 hne rfl hframe o1 o3 (by rw [o2]; simp) hmsg (Or.inr o4) k hk
  refine ⟨dk, hall, ?_, hend⟩
  intro hmem
  rcases List.mem_append.mp (List.mem_of_mem_take hmem) with h | h
  · obtain ⟨f, _, hf⟩ := List.mem_map.mp h
    omega
  · have := List.mem_singleton.mp h
    omega

set_option maxRecDepth 100000 in
/-- C1 at a concrete stream: two frames of 144 bytes are read as 144 and then 0. -/
theorem MP3Decoder.Read_valid_frames_witness :
    ∃ dk, MP3Decoder.ReadAll (fun _ _ => 0) 2 MP3Decoder.openedTwoFrames = Result.ok ([144, 0], dk)
      ∧ (-1 : Int) ∉ ([144, 0] : List Int)
      ∧ dk.GetLastErrorMessage = "" :=
  MP3Decoder.Read_valid_frames (fun _ _ => 0) [MP3Decoder.frame144, MP3Decoder.frame144]
    MP3Decoder.openedTwoFrames (by decide) (by decide) (by decide) (by decide) (by decide)
    rfl rfl rfl 2 (by decide)

/-! ## MP3Decoder: the headers of the frames Read accepts -/

theorem MP3Decoder.ReadHeaderLoop_previous (index : Nat) :
    ∀ (d dh : MP3Decoder) (flag : Bool),
      MP3Decoder.ReadHeaderLoop index d = Result.ok (flag, dh) →
      dh.m_previousFrameHeader = d.m_previousFrameHeader := by
  induction index with
  | zero =>
    intro d dh flag h
    rw [MP3Decoder.ReadHeaderLoop] at h
    injection h with h
    injection h with h1 h2
    subst h2
    rfl
  | succ index ih =>
    intro d dh flag h
    rw [MP3Decoder.ReadHeaderLoop] at h
    dsimp only at h
    rw [Result.bind_eq_ok_iff] at h
    obtain ⟨r, _, h⟩ := h
    split at h
    · injection h with h
      injection h with h1 h2
      subst h2
      rfl
    · have e := ih _ _ _ h
      exact e

theorem MP3Decoder.CheckCRCProtection_preserves (secondsOf : Nat → Nat → Int) (d d1 : MP3Decoder)
    (b : Bool) (h : d.CheckCRCProtection secondsOf = Result.ok (b, d1)) :
    d1.m_currentFrameHeader = d.m_currentFrameHeader
      ∧ d1.m_previousFrameHeader = d.m_previousFrameHeader := by
  unfold MP3Decoder.CheckCRCProtection at h
  split at h
  · dsimp only at h
    rw [Result.bind_eq_ok_iff] at h
    obtain ⟨r1, _, h⟩ := h
    rw [Result.bind_eq_ok_iff] at h
    obtain ⟨r2, _, h⟩ := h
    rw [Result.bind_eq_ok_iff] at h
    obtain ⟨r3, _, h⟩ := h
    rw [Result.bind_eq_ok_iff] at h
    obtain ⟨r4, _, h⟩ := h
    repeat' split at h
    all_goals
      injection h with h
      injection h with h1 h2
      subst h2
      exact ⟨rfl, rfl⟩
  · injection h with h
    injection h with h1 h2
    subst h2
    exact ⟨rfl, rfl⟩

theorem MP3Decoder.ReadFailed_result (secondsOf : Nat → Nat → Int) (d d1 : MP3Decoder) (r : Int)
    (h : MP3Decoder.ReadFailed secondsOf d = Result.ok (r, d1)) : r = -1 := by
  unfold MP3Decoder.ReadFailed at h
  split at h
  · split at h
    · rw [Result.bind_eq_ok_iff] at h
      obtain ⟨resync, _, h⟩ := h
      dsimp only at h
      split at h
      all_goals
        injection h with h
        injection h with h1 h2
        exact h1.symm
    · rw [Result.bind_eq_ok_iff] at h
      obtain ⟨resync, _, h⟩ := h
      dsimp only at h
      split at h
      · injection h with h
        injection h with h1 h2
        exact h1.symm
      · split at h
        all_goals
          injection h with h
          injection h with h1 h2
          exact h1.symm
  · injection h with h
    injection h with h1 h2
    exact h1.symm

/-- A call of `Read` that returns a value that is not negative has accepted a
frame: the previous header is then set, the current header agrees with it on
the bits `0xFFFE0C00`, and a previous header that was set before is kept. -/
theorem MP3Decoder.Read_accept (secondsOf : Nat → Nat → Int) (d d1 : MP3Decoder) (r : Int)
    (h : d.Read secondsOf = Result.ok (r, d1)) (hr : 0 ≤ r) :
    d1.m_previousFrameHeader ≠ 0
      ∧ d1.m_currentFrameHeader &&& 0xFFFE0C00 = d1.m_previousFrameHeader &&& 0xFFFE0C00
      ∧ (d.m_previousFrameHeader ≠ 0 → d1.m_previousFrameHeader = d.m_previousFrameHeader) := by
  unfold MP3Decoder.Read at h
  rw [Result.bind_eq_ok_iff] at h
  obtain ⟨hd, hloop, h⟩ := h
  have hprev := MP3Decoder.ReadHeaderLoop_previous 4 d hd.2 hd.1 hloop
  dsimp only at h
  obtain ⟨g, hg⟩ : ∃ g, g = hd.2.GetFrameLength := ⟨_, rfl⟩
  rw [← hg] at h
  obtain ⟨_, _, gp3, gp4, _, _⟩ := MP3Decoder.GetFrameLength_preserves hd.2
  rw [← hg] at gp3 gp4
  split at h
  · injection h with h
    injection h with h1 h2
    omega
  · split at h
    · rename_i hlen
      have gz := (MP3Decoder.GetFrameLength_ne_zero hd.2 (by rw [← hg]; exact hlen)).1
      rw [← gp3] at gz
      split at h
      · rename_i hmask
        have key : ∀ D : MP3Decoder, D.m_currentFrameHeader = g.2.m_currentFrameHeader →
            D.m_previousFrameHeader
              = (if g.2.m_previousFrameHeader = 0 then g.2.m_currentFrameHeader
                  else g.2.m_previousFrameHeader) →
            D.m_previousFrameHeader ≠ 0
              ∧ D.m_currentFrameHeader &&& 0xFFFE0C00 = D.m_previousFrameHeader &&& 0xFFFE0C00
              ∧ (d.m_previousFrameHeader ≠ 0 → D.m_previousFrameHeader = d.m_previousFrameHeader) := by
          intro D e1 e2
          rw [e1, e2]
          split
          · rename_i hz
            refine ⟨by omega, rfl, fun hn => ?_⟩
            rw [← hprev, ← gp4] at hn
            exact absurd hz hn
          · rename_i hz
            exact ⟨hz, hmask.resolve_right hz, fun _ => gp4.trans hprev⟩
        by_cases hp : g.2.m_previousFrameHeader = 0
        on_goal 1 => rw [if_pos hp] at h
        on_goal 2 => rw [if_neg hp] at h
        all_goals
          dsimp only at h
          split at h
          · rw [Result.bind_eq_ok_iff] at h
            obtain ⟨crc, hcrc, h⟩ := h
            obtain ⟨c1, c2⟩ := MP3Decoder.CheckCRCProtection_preserves _ _ crc.2 crc.1 hcrc
            dsimp only at c1 c2 h
            split at h
            · split at h
              · injection h with h
                injection h with h1 h2
                omega
              · injection h with h
                injection h with h1 h2
                subst h2
                refine key _ c1 ?_
                first | (rw [if_pos hp]; exact c2) | (rw [if_neg hp]; exact c2)
            · injection h with h
              injection h with h1 h2
              omega
          · split at h
            · rw [Result.bind_eq_ok_iff] at h
              obtain ⟨crc, hcrc, h⟩ := h
              obtain ⟨c1, c2⟩ := MP3Decoder.CheckCRCProtection_preserves _ _ crc.2 crc.1 hcrc
              dsimp only at c1 c2 h
              split at h
              · injection h with h
                injection h with h1 h2
                subst h2
                refine key _ c1 ?_
                first | (rw [if_pos hp]; exact c2) | (rw [if_neg hp]; exact c2)
              · injection h with h
                injection h with h1 h2
                omega
            · have := MP3Decoder.ReadFailed_result _ _ _ _ h
              omega
      · have := MP3Decoder.ReadFailed_result _ _ _ _ h
        omega
    · have := MP3Decoder.ReadFailed_result _ _ _ _ h
      omega

theorem MP3Decoder.ReadAllHeaders_previous (secondsOf : Nat → Nat → Int) (calls : Nat) :
    ∀ (d : MP3Decoder) (trace : List (Int × Nat)),
      MP3Decoder.ReadAllHeaders secondsOf calls d = Result.ok trace →
      (∀ e ∈ trace, 0 ≤ e.1) → d.m_previousFrameHeader ≠ 0 →
      ∀ e ∈ trace, e.2 &&& 0xFFFE0C00 = d.m_previousFrameHeader &&& 0xFFFE0C00 := by
  induction calls with
  | zero =>
    intro d trace h _ _ e he
    rw [MP3Decoder.ReadAllHeaders] at h
    injection h with h
    subst h
    exact absurd he (List.not_mem_nil e)
  | succ calls ih =>
    intro d trace h hnn hp e he
    rw [MP3Decoder.ReadAllHeaders] at h
    rw [Result.bind_eq_ok_iff] at h
    obtain ⟨first, hfirst, h⟩ := h
    rw [Result.bind_eq_ok_iff] at h
    obtain ⟨rest, hrest, h⟩ := h
    injection h with h
    subst h
    have h0 : 0 ≤ first.1 := hnn (first.1, first.2.m_currentFrameHeader) (List.mem_cons_self _ _)
    obtain ⟨a1, a2, a3⟩ := MP3Decoder.Read_accept secondsOf d first.2 first.1 hfirst h0
    have a4 := a3 hp
    rcases List.mem_cons.mp he with he | he
    · subst he
      dsimp only
      rw [a2, a4]
    · have e1 := ih first.2 rest hrest (fun x hx => hnn x (List.mem_cons_of_mem _ hx)) a1 e he
      rw [e1, a4]

/-- C5: in a sequence of calls of `Read` that all return a value that is not
negative, the header held after every call agrees with the header held after
the first call on the bits `0xFFFE0C00`; this holds from any state of the
decoder, the freshly opened one included. -/
theorem MP3Decoder.Read_header_mask (secondsOf : Nat → Nat → Int) (d0 : MP3Decoder) (calls : Nat)
    (trace : List (Int × Nat))
    (hrun : MP3Decoder.ReadAllHeaders secondsOf calls d0 = Result.ok trace)
    (hnonneg : ∀ e ∈ trace, 0 ≤ e.1) :
    ∀ e ∈ trace, e.2 &&& 0xFFFE0C00 = (trace.headD (0, 0)).2 &&& 0xFFFE0C00 := by
  cases calls with
  | zero =>
    intro e he
    rw [MP3Decoder.ReadAllHeaders] at hrun
    injection hrun with hrun
    subst hrun
    exact absurd he (List.not_mem_nil e)
  | succ calls =>
    intro e he
    rw [MP3Decoder.ReadAllHeaders] at hrun
    rw [Result.bind_eq_ok_iff] at hrun
    obtain ⟨first, hfirst, hrun⟩ := hrun
    rw [Result.bind_eq_ok_iff] at hrun
    obtain ⟨rest, hrest, hrun⟩ := hrun
    injection hrun with hrun
    subst hrun
    have h0 : 0 ≤ first.1 := hnonneg (first.1, first.2.m_currentFrameHeader) (List.mem_cons_self _ _)
    obtain ⟨a1, a2, _⟩ := MP3Decoder.Read_accept secondsOf d0 first.2 first.1 hfirst h0
    rcases List.mem_cons.mp he with he | he
    · subst he
      rfl
    · have e1 := MP3Decoder.ReadAllHeaders_previous secondsOf calls first.2 rest hrest
        (fun x hx => hnonneg x (List.mem_cons_of_mem _ hx)) a1 e he
      rw [e1]
      exact a2.symm

set_option maxRecDepth 100000 in
/-- C5 at a concrete stream: the decoder opened on two frames of 144 bytes
accepts both, and both headers are `0xFFFB1800`. -/
theorem MP3Decoder.Read_header_mask_witness :
    MP3Decoder.new.OpenFile (MP3Decoder.frame144 ++ MP3Decoder.frame144)
        = Result.ok MP3Decoder.openedTwoFrames
      ∧ MP3Decoder.ReadAllHeaders (fun _ _ => 0) 2 MP3Decoder.openedTwoFrames
        = Result.ok [(144, 0xFFFB1800), (0, 0xFFFB1800)]
      ∧ ∀ e ∈ [((144 : Int), 0xFFFB1800), ((0 : Int), 0xFFFB1800)],
          e.2 &&& 0xFFFE0C00 = (0xFFFB1800 : Nat) &&& 0xFFFE0C00 :=
  ⟨by decide, by decide,
    MP3Decoder.Read_header_mask (fun _ _ => 0) MP3Decoder.openedTwoFrames 2
      [(144, 0xFFFB1800), (0, 0xFFFB1800)] (by decide) (by decide)⟩

/-! ## MP3Decoder: a short stream that ends with an ID3v1 tag -/

set_option maxRecDepth 100000 in
/-- Two frames of 24 bytes followed by the ID3v1 tag (176 bytes): `OpenFile`
computes the footer length 128 and the end 48, and two calls of `Read` return
24 and 0 with no message. -/
theorem MP3Decoder.OpenFile_tagged_two_frames :
    ((MP3Decoder.new.OpenFile (MP3Decoder.frame24 ++ MP3Decoder.frame24 ++ ID3v1Tag)).bind fun d =>
        (d.ReadAll (fun _ _ => 0) 2).bind fun run =>
        Result.ok (d.m_tagFooterLengthBytes, d.m_fileSizeInBytes, run.1, run.2.m_errorMessage))
      = Result.ok (128, 48, [24, 0], "") := by
  decide

set_option maxRecDepth 100000 in
/-- One valid unprotected frame of 24 bytes followed by a 128-byte ID3v1 tag
(152 bytes).  `OpenFile` finds the tag, then probes for an APE footer 160
bytes before the end of the buffer; the stream accepts that seek and the read
that follows copies 8 bytes from in front of the buffer, which has no defined
result in C++: the embedding gives no value for `OpenFile` on a tagged stream
whose frames total fewer than 32 bytes. -/
theorem MP3Decoder.OpenFile_short_tagged :
    MP3Decoder.frameLength (frameHeader MP3Decoder.frame24) = MP3Decoder.frame24.length
      ∧ (frameHeader MP3Decoder.frame24 >>> 16) &&& 0x01 = 1
      ∧ (MP3Decoder.frame24 ++ ID3v1Tag).length = 152
      ∧ ((StreamWrapper.opened (MP3Decoder.frame24 ++ ID3v1Tag)).Seek (-160) SEEK_END).1 = 0
      ∧ MP3Decoder.new.OpenFile (MP3Decoder.frame24 ++ ID3v1Tag) = Result.undefinedBehaviour := by
  decide

/-! ## MP3Decoder: the frame length of a valid header -/

theorem tableAt_of_row_le (table : List (List Nat)) (row column : Nat) (h : table.length ≤ row) :
    tableAt table row column = 0 := by
  unfold tableAt
  rw [List.getD_eq_default _ _ h]
  rfl

theorem tableAt_MP3_BITRATES_le (row column : Nat) : tableAt MP3_BITRATES row column ≤ 448 := by
  by_cases hr : row < 16
  · by_cases hc : column < 5
    · have key : ∀ r : Fin 16, ∀ c : Fin 5, tableAt MP3_BITRATES r.val c.val ≤ 448 := by decide
      exact key ⟨row, hr⟩ ⟨column, hc⟩
    · have key : ∀ r : Fin 16, (MP3_BITRATES.getD r.val []).length ≤ 5 := by decide
      unfold tableAt
      rw [List.getD_eq_default _ _ (le_trans (key ⟨row, hr⟩) (by omega))]
      omega
  · rw [tableAt_of_row_le _ _ _ (by have : MP3_BITRATES.length = 16 := rfl
                                    omega)]
    omega

theorem tableAt_MP3_SAMPLE_RATES_bounds (row column : Nat) (hr : row ≤ 2) (hc : column ≤ 2) :
    8000 ≤ tableAt MP3_SAMPLE_RATES row column ∧ tableAt MP3_SAMPLE_RATES row column ≤ 48000 := by
  have key : ∀ r : Fin 3, ∀ c : Fin 3,
      8000 ≤ tableAt MP3_SAMPLE_RATES r.val c.val ∧ tableAt MP3_SAMPLE_RATES r.val c.val ≤ 48000 := by
    decide
  exact key ⟨row, by omega⟩ ⟨column, by omega⟩

theorem MP3Decoder.sampleRateColumnIndex_le (encodingVersion : Nat) :
    MP3Decoder.sampleRateColumnIndex encodingVersion ≤ 2 := by
  unfold MP3Decoder.sampleRateColumnIndex
  split_ifs <;> omega

theorem MP3Decoder.header_gt_of_sync (header : Nat) (hsync : header >>> 21 = 0x7FF)
    (hlayer : (header >>> 17) &&& 0x03 ≠ 0) : header > 0xFFE00000 := by
  rw [Nat.shiftRight_eq_div_pow] at hsync
  by_contra hle
  have heq : header = 0xFFE00000 := by omega
  rw [heq] at hlayer
  exact hlayer (by decide)

/-- C18: for a header with the 11 sync bits set, a version `V` among MPEG1,
MPEG2 and MPEG2.5, a layer `L` among I, II and III, a bitrate index in 1..14
and a sample-rate index in 0..2, with `B` and `R` the entries of the two tables
and `P` the padding bit, `GetFrameLength` returns `(12*B*1000 / R + P) * 4` for
Layer I, `144*B*1000 / R + P` for Layer II and for Layer III MPEG1 and
`72*B*1000 / R + P` for Layer III MPEG2/2.5, computed without 32-bit overflow,
and adds 384, 1152, 1152 and 576 to the 32-bit frame-sample position.  The
bound 1..14 on the bitrate index is not used: the rows 0 and 15 of the bitrate
table hold `B = 0` and the same formulas apply. -/
theorem MP3Decoder.GetFrameLength_formula (d : MP3Decoder) (V L bitrateIndex rateIndex P : Nat)
    (hsync : d.m_currentFrameHeader >>> 21 = 0x7FF)
    (hV : (d.m_currentFrameHeader >>> 19) &&& 0x03 = V)
    (hL : (d.m_currentFrameHeader >>> 17) &&& 0x03 = L)
    (hB : (d.m_currentFrameHeader >>> 12) &&& 0x0F = bitrateIndex)
    (hR : (d.m_currentFrameHeader >>> 10) &&& 0x03 = rateIndex)
    (hP : (d.m_currentFrameHeader >>> 9) &&& 0x01 = P)
    (hversion : V = MPEG1 ∨ V = MPEG2 ∨ V = MPEG2_5)
    (hlayer : L = LAYER_1 ∨ L = LAYER_II ∨ L = LAYER_III)
    (hrate : rateIndex ≤ 2) :
    d.GetFrameLength.1
        = (if L = LAYER_1 then
            (12 * tableAt MP3_BITRATES bitrateIndex (MP3Decoder.bitrateColumnIndex V L 5) * 1000
              / tableAt MP3_SAMPLE_RATES rateIndex (MP3Decoder.sampleRateColumnIndex V) + P) * 4
          else if L = LAYER_II ∨ V = MPEG1 then
            144 * tableAt MP3_BITRATES bitrateIndex (MP3Decoder.bitrateColumnIndex V L 5) * 1000
              / tableAt MP3_SAMPLE_RATES rateIndex (MP3Decoder.sampleRateColumnIndex V) + P
          else
            72 * tableAt MP3_BITRATES bitrateIndex (MP3Decoder.bitrateColumnIndex V L 5) * 1000
              / tableAt MP3_SAMPLE_RATES rateIndex (MP3Decoder.sampleRateColumnIndex V) + P)
      ∧ d.GetFrameLength.2.m_frameSamplePosition
        = (d.m_frameSamplePosition
            + (if L = LAYER_1 then 384 else if L = LAYER_II ∨ V = MPEG1 then 1152 else 576)) % 2 ^ 32 := by
  have hgt : d.m_currentFrameHeader > 0xFFE00000 := by
    apply MP3Decoder.header_gt_of_sync _ hsync
    rw [hL]
    rcases hlayer with h | h | h <;> rw [h] <;> decide
  have hPle : P ≤ 1 := by
    rw [← hP]
    have := Nat.and_le_right (n := d.m_currentFrameHeader >>> 9) (m := 0x01)
    exact this
  have hcol : MP3Decoder.bitrateColumnIndex V L 5 < 5 := by
    rcases hversion with h | h | h <;> rcases hlayer with k | k | k <;> rw [h, k] <;> decide
  have hBle := tableAt_MP3_BITRATES_le bitrateIndex (MP3Decoder.bitrateColumnIndex V L 5)
  have hRb := tableAt_MP3_SAMPLE_RATES_bounds rateIndex (MP3Decoder.sampleRateColumnIndex V) hrate
    (MP3Decoder.sampleRateColumnIndex_le V)
  unfold MP3Decoder.GetFrameLength
  rw [if_pos hgt]
  dsimp only
  rw [hV, hL, hB, hR, hP]
  rw [if_pos hcol, if_pos hversion]
  generalize tableAt MP3_BITRATES bitrateIndex (MP3Decoder.bitrateColumnIndex V L 5) = B at *
  generalize tableAt MP3_SAMPLE_RATES rateIndex (MP3Decoder.sampleRateColumnIndex V) = R at *
  rw [if_neg (by omega)]
  have hb1 : 1000 * B % U32 = 1000 * B := by unfold U32; omega
  have e12 : 12 * (1000 * B) % U32 = 12 * B * 1000 := by unfold U32; omega
  have e144 : 144 * (1000 * B) % U32 = 144 * B * 1000 := by unfold U32; omega
  have e72 : 72 * (1000 * B) % U32 = 72 * B * 1000 := by unfold U32; omega
  have q12 := Nat.div_le_self (12 * B * 1000) R
  have q144 := Nat.div_le_self (144 * B * 1000) R
  have q72 := Nat.div_le_self (72 * B * 1000) R
  unfold MP3Decoder.GetFrameLengthByLayer
  dsimp only
  rw [hb1, e12, e144, e72]
  generalize 12 * B * 1000 / R = a at *
  generalize 144 * B * 1000 / R = b at *
  generalize 72 * B * 1000 / R = c at *
  have m12 : (a + P) * 4 % U32 = (a + P) * 4 := by unfold U32; omega
  have m144 : (b + P) % U32 = b + P := by unfold U32; omega
  have m72 : (c + P) % U32 = c + P := by unfold U32; omega
  rw [m12, m144, m72]
  have hU : U32 = 2 ^ 32 := rfl
  rw [hU]
  rcases hlayer with k | k | k <;> rcases hversion with h | h | h <;> subst k h <;>
    simp [LAYER_1, LAYER_II, LAYER_III, MPEG1, MPEG2, MPEG2_5]

/-- C18 at the header `FF FB 18 00` (MPEG1, Layer III, 32 kbit/s, 32 kHz, no
padding): the length is `144*32*1000 / 32000 + 0 = 144` and the frame-sample
position goes from 0 to 1152. -/
theorem MP3Decoder.GetFrameLength_formula_witness :
    ({ MP3Decoder.new with m_currentFrameHeader := 0xFFFB1800 } : MP3Decoder).GetFrameLength.1
        = 144 * 32 * 1000 / 32000 + 0
      ∧ ({ MP3Decoder.new with m_currentFrameHeader := 0xFFFB1800 } : MP3Decoder).GetFrameLength.2.m_frameSamplePosition
        = 1152 :=
  MP3Decoder.GetFrameLength_formula { MP3Decoder.new with m_currentFrameHeader := 0xFFFB1800 }
    3 1 1 2 0 (by decide) (by decide) (by decide) (by decide) (by decide) (by decide)
    (by decide) (by decide) (by decide)

/-! ## MP3Decoder: headers with a free or bad bitrate index or a reserved sample rate -/

theorem tableAt_MP3_SAMPLE_RATES_reserved (column : Nat) : tableAt MP3_SAMPLE_RATES 3 column = 0 := by
  by_cases hc : column < 3
  · have key : ∀ c : Fin 3, tableAt MP3_SAMPLE_RATES 3 c.val = 0 := by decide
    exact key ⟨column, hc⟩
  · unfold tableAt
    rw [List.getD_eq_default _ _ (by have : (MP3_SAMPLE_RATES.getD 3 []).length = 3 := rfl
                                     omega)]

theorem tableAt_MP3_BITRATES_free_bad (row column : Nat) (h : row = 0 ∨ row = 15) :
    tableAt MP3_BITRATES row column = 0 := by
  by_cases hc : column < 5
  · have key : ∀ c : Fin 5, tableAt MP3_BITRATES 0 c.val = 0 ∧ tableAt MP3_BITRATES 15 c.val = 0 := by
      decide
    rcases h with h | h
    · rw [h]; exact (key ⟨column, hc⟩).1
    · rw [h]; exact (key ⟨column, hc⟩).2
  · have key : ∀ r : Fin 16, (MP3_BITRATES.getD r.val []).length ≤ 5 := by decide
    unfold tableAt
    rw [List.getD_eq_default _ _ (le_trans (key ⟨row, by omega⟩) (by omega))]

/-- A header with the reserved sample-rate index 3 has the frame length 0. -/
theorem MP3Decoder.GetFrameLength_reserved_rate (d : MP3Decoder)
    (h : (d.m_currentFrameHeader >>> 10) &&& 0x03 = 3) : d.GetFrameLength.1 = 0 := by
  unfold MP3Decoder.GetFrameLength
  dsimp only
  rw [h]
  split_ifs with h1 h2 h3 h4
  · rfl
  · exact absurd (tableAt_MP3_SAMPLE_RATES_reserved _) h4
  · rfl
  · rfl
  · rfl

/-- A header with the free (0) or bad (15) bitrate index and the padding bit 0
has the frame length 0. -/
theorem MP3Decoder.GetFrameLength_free_bad_unpadded (d : MP3Decoder)
    (h : (d.m_currentFrameHeader >>> 12) &&& 0x0F = 0 ∨ (d.m_currentFrameHeader >>> 12) &&& 0x0F = 15)
    (hP : (d.m_currentFrameHeader >>> 9) &&& 0x01 = 0) : d.GetFrameLength.1 = 0 := by
  unfold MP3Decoder.GetFrameLength
  dsimp only
  rw [hP]
  split_ifs with h1 h2 h3 h4
  · rfl
  · rw [tableAt_MP3_BITRATES_free_bad _ _ h]
    unfold MP3Decoder.GetFrameLengthByLayer
    dsimp only
    split_ifs <;> simp [U32]
  · rfl
  · rfl
  · rfl

/-- C11 (evaluation at the failing inputs): the headers `FF FB 02 00` (MPEG1,
Layer III, bitrate index 0, padding bit 1), `FF FB F2 00` (bitrate index 15,
padding bit 1) and `FF FF 02 00` (Layer I, bitrate index 0, padding bit 1) get
the frame lengths 1, 1 and 4 instead of 0: with the table bitrate 0 the length
formula is left with the padding. -/
theorem MP3Decoder.GetFrameLength_free_bad_padded :
    ((0xFFFB0200 >>> 12) &&& 0x0F = 0 ∧ (0xFFFB0200 >>> 9) &&& 0x01 = 1
        ∧ MP3Decoder.frameLength 0xFFFB0200 = 1)
      ∧ ((0xFFFBF200 >>> 12) &&& 0x0F = 15 ∧ (0xFFFBF200 >>> 9) &&& 0x01 = 1
        ∧ MP3Decoder.frameLength 0xFFFBF200 = 1)
      ∧ ((0xFFFF0200 >>> 12) &&& 0x0F = 0 ∧ (0xFFFF0200 >>> 9) &&& 0x01 = 1
        ∧ MP3Decoder.frameLength 0xFFFF0200 = 4) := by
  decide

/-! ## MP3Decoder: the ID3v2 header -/

theorem charValue_lt (b : Byte) : charValue b < 128 := by
  unfold charValue
  have := b.isLt
  split <;> omega

theorem charValue_of_lt (b : Byte) (h : b.val < 128) : charValue b = (b.val : Int) := by
  unfold charValue
  rw [if_pos h]

/-- C12 (as stated, at a concrete input): the stream `I D 3 03 00 FF 00 00 00 01`
begins with the marker and its byte 5 equals `0xFF`, so the claim expects the
result 0 and the message `BAD_ID3v2_TAG`; `GetID3v2TagHeaderLength` returns
`1 + 10 = 11` and leaves the message empty, since byte 5 is the flags byte and
is only tested for its bit `0x10`. -/
theorem MP3Decoder.GetID3v2TagHeaderLength_flagsFF :
    MP3Decoder.flagsFF.m_stream.m_fileMemoryBuffer.take 3 = asciiBytes "ID3"
      ∧ MP3Decoder.flagsFF.m_stream.m_fileMemoryBuffer.getD 5 0 = 0xFF
      ∧ (MP3Decoder.flagsFF.GetID3v2TagHeaderLength.bind fun r =>
          Result.ok (r.1, r.2.m_errorMessage)) = Result.ok (11, "")
      ∧ (MP3Decoder.flagsFF.GetID3v2TagHeaderLength.bind fun r =>
          Result.ok (r.1, r.2.m_errorMessage)) ≠ Result.ok (0, "BAD_ID3v2_TAG") := by
  decide

/-- C12 (amended): for a stream whose first ten bytes begin with `I`, `D`, `3`,
`GetID3v2TagHeaderLength` returns a length and sets the message
`BAD_ID3v2_TAG` exactly when that length is 0; and when bytes 3 and 4 are below
`0xFF` and bytes 6..9 are below `0x80`, whatever byte 5 is, the length is the
syncsafe value of bytes 6..9 plus 10 (plus 20 when byte 3 is 4 and bit `0x10`
of byte 5 is set), it is not 0 and the message is left unchanged. -/
theorem MP3Decoder.GetID3v2TagHeaderLength_marker (d : MP3Decoder) (bytes rest : List Byte)
    (b3 b4 b5 b6 b7 b8 b9 : Byte)
    (hs : d.m_stream = streamAt bytes 0) (hL : bytes.length < 2 ^ 63)
    (hb : bytes = 73 :: 68 :: 51 :: b3 :: b4 :: b5 :: b6 :: b7 :: b8 :: b9 :: rest) :
    ∃ n d1, d.GetID3v2TagHeaderLength = Result.ok (n, d1)
      ∧ d1.m_errorMessage = (if n = 0 then "BAD_ID3v2_TAG" else d.m_errorMessage)
      ∧ (b3.val < 0xFF → b4.val < 0xFF → b6.val < 0x80 → b7.val < 0x80 → b8.val < 0x80
          → b9.val < 0x80 →
          n = b6.val * 2 ^ 21 + b7.val * 2 ^ 14 + b8.val * 2 ^ 7 + b9.val
                + (if b3.val = 4 ∧ b5.val &&& 0x10 ≠ 0 then 20 else 10)
            ∧ n ≠ 0 ∧ d1.m_errorMessage = d.m_errorMessage) := by
  have hlen : 0 + 10 ≤ bytes.length := by rw [hb]; simp
  have hread := streamAt_Read bytes 0 10 hL hlen
  have hdata : (bytes.drop 0).take 10 = [73, 68, 51, b3, b4, b5, b6, b7, b8, b9] := by
    rw [hb]; rfl
  rw [hdata] at hread
  have hopen : (streamAt bytes 0).isOpen = true := rfl
  have hbuf : overwrite (List.replicate 10 0) 0 [73, 68, 51, b3, b4, b5, b6, b7, b8, b9]
      = [73, 68, 51, b3, b4, b5, b6, b7, b8, b9] := rfl
  have hI : charValue (73 : Byte) = 73 := by decide
  have hD : charValue (68 : Byte) = 68 := by decide
  have h3 : charValue (51 : Byte) = 51 := by decide
  have hvalid : charValue b3 < 255 ∧ charValue b4 < 255 ∧ charValue b6 < 128 ∧ charValue b7 < 128
      ∧ charValue b8 < 128 ∧ charValue b9 < 128 := by
    have := charValue_lt b3
    have := charValue_lt b4
    exact ⟨by omega, by omega, charValue_lt b6, charValue_lt b7, charValue_lt b8, charValue_lt b9⟩
  have hfour : charValue b3 = 4 ↔ b3.val = 4 := by
    unfold charValue
    split <;> omega
  unfold MP3Decoder.GetID3v2TagHeaderLength
  rw [hs]
  rw [if_pos hopen, hread, Result.bind_ok]
  dsimp only
  rw [hbuf]
  simp only [List.getD_cons_succ, List.getD_cons_zero]
  rw [if_pos trivial, if_pos ⟨hI, hD, h3⟩, if_pos hvalid]
  generalize hn : (toU32 ((((toU32 ((((toU32 ((((toU32 (charValue b6)) <<< 7 % U32 : Nat) : Int)
    + charValue b7)) <<< 7 % U32 : Nat) : Int) + charValue b8)) <<< 7 % U32 : Nat) : Int)
    + charValue b9) + if charValue b3 = 4 ∧ b5.val &&& 16 ≠ 0 then 20 else 10) % U32 = n
  have hii : b3.val < 0xFF → b4.val < 0xFF → b6.val < 0x80 → b7.val < 0x80 → b8.val < 0x80
      → b9.val < 0x80 →
      n = b6.val * 2 ^ 21 + b7.val * 2 ^ 14 + b8.val * 2 ^ 7 + b9.val
            + (if b3.val = 4 ∧ b5.val &&& 0x10 ≠ 0 then 20 else 10) ∧ n ≠ 0 := by
    intro _ _ k6 k7 k8 k9
    rw [charValue_of_lt b6 k6, charValue_of_lt b7 k7, charValue_of_lt b8 k8, charValue_of_lt b9 k9] at hn
    have t : ∀ x : Nat, x < 2 ^ 32 → toU32 (x : Int) = x := by
      intro x hx
      unfold toU32
      omega
    have u : ∀ x : Nat, x < 2 ^ 25 → x <<< 7 % U32 = x * 128 := by
      intro x hx
      rw [Nat.shiftLeft_eq]
      unfold U32
      omega
    have t2 : ∀ a b : Nat, a + b < 2 ^ 32 → toU32 ((a : Int) + (b : Int)) = a + b := by
      intro a b hab
      unfold toU32
      omega
    rw [t b6.val (by omega), u b6.val (by omega)] at hn
    rw [t2 (b6.val * 128) b7.val (by omega), u (b6.val * 128 + b7.val) (by omega)] at hn
    rw [t2 ((b6.val * 128 + b7.val) * 128) b8.val (by omega),
      u ((b6.val * 128 + b7.val) * 128 + b8.val) (by omega)] at hn
    rw [t2 (((b6.val * 128 + b7.val) * 128 + b8.val) * 128) b9.val (by omega)] at hn
    simp only [hfour] at hn
    unfold U32 at hn
    split_ifs at hn ⊢ <;> omega
  by_cases h0 : n = 0
  · rw [if_pos h0]
    refine ⟨_, _, rfl, ?_, ?_⟩
    · rw [if_pos h0]
    · intro k3 k4 k6 k7 k8 k9
      exact absurd h0 (hii k3 k4 k6 k7 k8 k9).2
  · rw [if_neg h0]
    refine ⟨_, _, rfl, ?_, ?_⟩
    · rw [if_neg h0]
    · intro k3 k4 k6 k7 k8 k9
      exact ⟨(hii k3 k4 k6 k7 k8 k9).1, h0, rfl⟩

/-- C12 (amended) at the header `I D 3 04 00 10 00 00 02 01`: the length is
`2 * 128 + 1 + 20 = 277` and the message stays empty. -/
theorem MP3Decoder.GetID3v2TagHeaderLength_marker_witness :
    ∃ n d1,
      ({ MP3Decoder.new with m_stream := streamAt [73, 68, 51, 4, 0, 0x10, 0, 0, 2, 1] 0 }
          : MP3Decoder).GetID3v2TagHeaderLength = Result.ok (n, d1)
        ∧ n = 277 ∧ d1.m_errorMessage = "" := by
  obtain ⟨n, d1, h1, _, h3⟩ :=
    MP3Decoder.GetID3v2TagHeaderLength_marker
      { MP3Decoder.new with m_stream := streamAt [73, 68, 51, 4, 0, 0x10, 0, 0, 2, 1] 0 }
      [73, 68, 51, 4, 0, 0x10, 0, 0, 2, 1] [] 4 0 0x10 0 0 2 1 rfl (by decide) rfl
  obtain ⟨h4, _, h5⟩ := h3 (by decide) (by decide) (by decide) (by decide) (by decide) (by decide)
  exact ⟨n, d1, h1, h4, h5⟩

/-- The stream `I D 3 03 00 00 80 00 00 00`, whose byte 6 has its top bit set:
the `char` comparison `buffer[6] < 0x80` holds for the negative value -128, the
validation passes, and the function returns `0xF000000A` with no message. -/
theorem MP3Decoder.GetID3v2TagHeaderLength_top_bit :
    (({ MP3Decoder.new with m_stream := streamAt [73, 68, 51, 3, 0, 0, 0x80, 0, 0, 0] 0 }
        : MP3Decoder).GetID3v2TagHeaderLength.bind fun r =>
      Result.ok (r.1, r.2.m_errorMessage)) = Result.ok (0xF000000A, "") := by
  decide

/-! ## MP3Decoder: CRC16 is the CRC-16 of the specification -/

theorem and_0x8000_ne_zero (x : Nat) : (x &&& 0x8000 ≠ 0) ↔ x.testBit 15 = true := by
  have h : (0x8000 : Nat) = 2 ^ 15 := by norm_num
  rw [h, Nat.and_two_pow]
  cases x.testBit 15 <;> simp

theorem xor_mod_65536 (x y : Nat) : (x ^^^ y) % 65536 = (x % 65536) ^^^ (y % 65536) := by
  apply Nat.eq_of_testBit_eq
  intro i
  have h16 : (65536 : Nat) = 2 ^ 16 := by norm_num
  rw [h16]
  simp only [Nat.testBit_mod_two_pow, Nat.testBit_xor]
  cases decide (i < 16) <;> cases x.testBit i <;> cases y.testBit i <;> rfl

/-- One bit pass of `CRC16` on a register into which message bits were
XOR-ed in advance is the bit step of the specification on the register alone. -/
theorem MP3Decoder.CRC16Bit_xor (s m : Nat) :
    MP3Decoder.CRC16Bit (s ^^^ m) = specCRC16Bit s (m.testBit 15) ^^^ ((2 * m) % 65536) := by
  unfold MP3Decoder.CRC16Bit specCRC16Bit
  have hc : ((s ^^^ m) &&& 0x8000 ≠ 0) ↔ ((s.testBit 15 != m.testBit 15) = true) := by
    rw [and_0x8000_ne_zero, Nat.testBit_xor]
  have e1 : ((s ^^^ m) <<< 1) % 65536 = ((2 * s) % 65536) ^^^ ((2 * m) % 65536) := by
    apply Nat.eq_of_testBit_eq
    intro i
    have h16 : (65536 : Nat) = 2 ^ 16 := by norm_num
    rw [h16]
    simp only [Nat.testBit_mod_two_pow, Nat.testBit_xor, Nat.testBit_shiftLeft, Nat.mul_comm 2,
      ← Nat.shiftLeft_eq _ 1, pow_one]
    cases decide (i < 16) <;> cases decide (i ≥ 1) <;> cases s.testBit (i - 1)
      <;> cases m.testBit (i - 1) <;> rfl
  have e2 : (((s ^^^ m) <<< 1) ^^^ 0x8005) % 65536
      = (((2 * s) % 65536) ^^^ 0x8005) ^^^ ((2 * m) % 65536) := by
    rw [xor_mod_65536, e1, Nat.xor_assoc, Nat.xor_assoc]
    congr 1
    rw [Nat.xor_comm]
  by_cases h : (s.testBit 15 != m.testBit 15) = true
  · rw [if_pos (hc.mpr h), if_pos h, e2]
  · rw [if_neg (fun k => h (hc.mp k)), if_neg h, e1]

theorem MP3Decoder.CRC16Bits_eq (n : Nat) : ∀ (s v : Nat), n ≤ 16 →
    MP3Decoder.CRC16Bits n (s ^^^ ((v <<< (16 - n)) % 65536)) = specCRC16Bits s v n := by
  induction n with
  | zero =>
    intro s v _
    have h0 : (v <<< (16 - 0)) % 65536 = 0 := by
      rw [Nat.shiftLeft_eq]
      omega
    rw [h0, Nat.xor_zero]
    rfl
  | succ n ih =>
    intro s v hn
    have hbit : ((v <<< (16 - (n + 1))) % 65536).testBit 15 = v.testBit n := by
      have h16 : (65536 : Nat) = 2 ^ 16 := by norm_num
      rw [h16, Nat.testBit_mod_two_pow, Nat.testBit_shiftLeft]
      have e : 15 - (16 - (n + 1)) = n := by omega
      rw [e]
      have c1 : decide (15 < 16) = true := by decide
      have c2 : decide (15 ≥ 16 - (n + 1)) = true := by
        apply decide_eq_true
        omega
      rw [c1, c2]
      rfl
    have hshift : (2 * ((v <<< (16 - (n + 1))) % 65536)) % 65536 = (v <<< (16 - n)) % 65536 := by
      have e : 16 - n = (16 - (n + 1)) + 1 := by omega
      rw [e, Nat.shiftLeft_succ]
      omega
    show MP3Decoder.CRC16Bits n (MP3Decoder.CRC16Bit (s ^^^ ((v <<< (16 - (n + 1))) % 65536))) = _
    rw [MP3Decoder.CRC16Bit_xor, hbit, hshift, ih _ _ (by omega)]
    rfl

theorem MP3Decoder.CRC16Byte_eq (crc : Nat) (b : Byte) :
    MP3Decoder.CRC16Byte crc b = specCRC16Byte crc b :=
  MP3Decoder.CRC16Bits_eq 8 crc b.val (by omega)

/-- `CRC16` computes the CRC-16 of the specification. -/
theorem MP3Decoder.CRC16_eq (data : List Byte) : MP3Decoder.CRC16 data = specCRC16 data := by
  unfold MP3Decoder.CRC16 specCRC16
  have h : MP3Decoder.CRC16Byte = specCRC16Byte := by
    funext crc b
    exact MP3Decoder.CRC16Byte_eq crc b
  rw [h]

set_option maxRecDepth 100000 in
/-- The check value of this CRC-16 (`0xAEE7` for the ASCII digits `123456789`). -/
theorem specCRC16_check : specCRC16 (asciiBytes "123456789") = 0xAEE7 := by
  decide

/-! ## MP3Decoder: CheckCRCProtection -/

theorem streamAt_Seek_cur (bytes : List Byte) (p : Nat) (offset : Int)
    (hL : bytes.length < 2 ^ 63)
    (h0 : 0 ≤ (p : Int) + offset) (h1 : (p : Int) + offset ≤ bytes.length) :
    (streamAt bytes p).Seek offset SEEK_CUR = (0, streamAt bytes ((p : Int) + offset).toNat) := by
  have hu : toU64 (((streamAt bytes p).m_fileMemoryBufferPosition : Int) + offset)
      = ((p : Int) + offset).toNat := by
    show toU64 ((p : Int) + offset) = _
    unfold toU64; omega
  have hc : ¬ (((((p : Int) + offset).toNat : Nat) : Int) < 0
      ∨ ((p : Int) + offset).toNat > (streamAt bytes p).m_fileMemoryBufferSize) := by
    rw [streamAt_size]
    omega
  unfold StreamWrapper.Seek
  have e1 : ¬ (SEEK_CUR = SEEK_SET) := by decide
  simp only [if_neg e1, if_true, hu, if_neg hc]
  rfl

theorem take_one_drop (bytes : List Byte) (k : Nat) (h : k < bytes.length) :
    (bytes.drop k).take 1 = [bytes.getD k 0] := by
  rw [List.drop_eq_getElem_cons h, List.getD_eq_getElem _ _ h]
  rfl

theorem storeByte_two (hi lo : Byte) :
    storeByte 16 (storeByte 16 0 1 [hi]) 0 [lo] = hi.val * 256 + lo.val := by
  unfold storeByte setByte
  have h0 := hi.isLt
  have h1 := lo.isLt
  norm_num
  omega

theorem overwrite_take (buffer data : List Byte) (offset : Nat)
    (h : offset + data.length ≤ buffer.length) :
    (overwrite buffer offset data).take (offset + data.length) = buffer.take offset ++ data := by
  unfold overwrite
  rw [List.take_take, min_eq_left h, List.append_assoc, ← List.append_assoc]
  have hl : (List.take offset buffer ++ data).length = offset + data.length := by
    rw [List.length_append, List.length_take]
    omega
  rw [← hl, List.take_left]

theorem overwrite_length (buffer data : List Byte) (offset : Nat)
    (h : offset + data.length ≤ buffer.length) :
    (overwrite buffer offset data).length = buffer.length := by
  unfold overwrite
  simp only [List.length_take, List.length_append, List.length_drop]
  omega

theorem tableAt_MP3_CRC_BYTE_SIZE_le (row column : Nat) :
    tableAt MP3_CRC_BYTE_SIZE row column ≤ 32 := by
  by_cases hr : row < 2
  · by_cases hc : column < 2
    · have key : ∀ r : Fin 2, ∀ c : Fin 2, tableAt MP3_CRC_BYTE_SIZE r.val c.val ≤ 32 := by decide
      exact key ⟨row, hr⟩ ⟨column, hc⟩
    · have key : ∀ r : Fin 2, (MP3_CRC_BYTE_SIZE.getD r.val []).length ≤ 2 := by decide
      unfold tableAt
      rw [List.getD_eq_default _ _ (le_trans (key ⟨row, hr⟩) (by omega))]
      omega
  · rw [tableAt_of_row_le _ _ _ (by have : MP3_CRC_BYTE_SIZE.length = 2 := rfl
                                    omega)]
    omega

/-- `CheckCRCProtection` on a Layer III frame with protection bit 0, the stream
standing right after the four header bytes of the frame at `p` and the checked
bytes being inside the buffer. -/
theorem MP3Decoder.CheckCRCProtection_checked (secondsOf : Nat → Nat → Int) (d : MP3Decoder)
    (bytes : List Byte) (p n : Nat)
    (hL : bytes.length < 2 ^ 63)
    (hs : d.m_stream = streamAt bytes (p + 4))
    (hprot : d.m_embeddedFrameCRC = 0) (hlayer : d.m_layerDescription = LAYER_III)
    (hn : n = tableAt MP3_CRC_BYTE_SIZE (if d.m_singleChannelMono = 1 then 1 else 0)
      (if d.m_encodingVersion = MPEG1 then 0 else 1))
    (hread : p + 6 + n ≤ bytes.length)
    (hbuf : d.m_bufferCRCBytes.length = 40) :
    ∃ d1, d.CheckCRCProtection secondsOf
        = Result.ok (decide ((bytes.getD (p + 4) 0).val * 256 + (bytes.getD (p + 5) 0).val
            = specCRC16 ((bytes.drop (p + 2)).take 2 ++ (bytes.drop (p + 6)).take n)), d1)
      ∧ d1.m_errorMessage
          = (if (bytes.getD (p + 4) 0).val * 256 + (bytes.getD (p + 5) 0).val
                = specCRC16 ((bytes.drop (p + 2)).take 2 ++ (bytes.drop (p + 6)).take n)
             then d.m_errorMessage
             else "CRC_ERROR @ "
               ++ MP3Decoder.timeStamp (secondsOf d.m_frameSamplePosition d.m_streamSampleRate))
      ∧ d1.m_stream = streamAt bytes (p + 6 + n)
      ∧ d1.m_CRCByteSize = n
      ∧ d1.m_embeddedFrameCRC = (bytes.getD (p + 4) 0).val * 256 + (bytes.getD (p + 5) 0).val
      ∧ d1.m_offset = d.m_offset ∧ d1.m_fileSizeInBytes = d.m_fileSizeInBytes
      ∧ d1.m_currentFrameLength = d.m_currentFrameLength
      ∧ d1.m_frameSamplePosition = d.m_frameSamplePosition
      ∧ d1.m_streamSampleRate = d.m_streamSampleRate := by
  have hn32 : n ≤ 32 := by
    rw [hn]
    exact tableAt_MP3_CRC_BYTE_SIZE_le _ _
  have hseek := streamAt_Seek_cur bytes (p + 4) (-2) hL (by omega) (by omega)
  have e1 : (((p + 4 : Nat) : Int) + (-2)).toNat = p + 2 := by omega
  rw [e1] at hseek
  have hr1 := streamAt_Read bytes (p + 2) 2 hL (by omega)
  have hr2 := streamAt_Read bytes (p + 2 + 2) 1 hL (by omega)
  have hr3 := streamAt_Read bytes (p + 2 + 2 + 1) 1 hL (by omega)
  have hr4 := streamAt_Read bytes (p + 2 + 2 + 1 + 1) n hL (by omega)
  rw [show p + 2 + 2 = p + 4 from rfl, take_one_drop bytes (p + 4) (by omega)] at hr2
  rw [show p + 2 + 2 + 1 = p + 5 from rfl, take_one_drop bytes (p + 5) (by omega)] at hr3
  rw [show p + 2 + 2 + 1 + 1 = p + 6 from rfl] at hr4
  have hlen1 : ((bytes.drop (p + 2)).take 2).length = 2 := by
    rw [List.length_take, List.length_drop]
    omega
  have hlen2 : ((bytes.drop (p + 6)).take n).length = n := by
    rw [List.length_take, List.length_drop]
    omega
  have hbuf1 : (overwrite d.m_bufferCRCBytes 0 ((bytes.drop (p + 2)).take 2)).length = 40 := by
    rw [overwrite_length _ _ _ (by rw [hlen1, hbuf]; omega), hbuf]
  have htake : (overwrite (overwrite d.m_bufferCRCBytes 0 ((bytes.drop (p + 2)).take 2)) 2
      ((bytes.drop (p + 6)).take n)).take (n + 2)
        = (bytes.drop (p + 2)).take 2 ++ (bytes.drop (p + 6)).take n := by
    have a := overwrite_take (overwrite d.m_bufferCRCBytes 0 ((bytes.drop (p + 2)).take 2)) 
      ((bytes.drop (p + 6)).take n) 2 (by rw [hlen2, hbuf1]; omega)
    have b := overwrite_take d.m_bufferCRCBytes ((bytes.drop (p + 2)).take 2) 0
      (by rw [hlen1, hbuf]; omega)
    rw [hlen2] at a
    rw [hlen1] at b
    rw [Nat.add_comm n 2, a, show (0 + 2 = 2) from rfl] at *
    rw [b]
    rfl
  unfold MP3Decoder.CheckCRCProtection
  rw [if_pos ⟨hprot, hlayer⟩]
  dsimp only
  rw [hs, hseek]
  dsimp only
  rw [hr1, Result.bind_ok]
  dsimp only
  rw [hr2, Result.bind_ok]
  dsimp only
  rw [hr3, Result.bind_ok]
  dsimp only
  rw [← hn, hr4, Result.bind_ok]
  dsimp only
  rw [htake, hprot, storeByte_two, MP3Decoder.CRC16_eq]
  by_cases hc : (bytes.getD (p + 4) 0).val * 256 + (bytes.getD (p + 5) 0).val
      = specCRC16 ((bytes.drop (p + 2)).take 2 ++ (bytes.drop (p + 6)).take n)
  · rw [if_neg (by
      intro k
      exact k.2.2.2.2.2 hc.symm), if_pos hc, decide_eq_true hc]
    exact ⟨_, rfl, rfl, rfl, rfl, rfl, rfl, rfl, rfl, rfl, rfl⟩
  · rw [if_pos ⟨rfl, rfl, rfl, rfl, rfl, fun k => hc k.symm⟩, if_neg hc, decide_eq_false hc]
    exact ⟨_, rfl, rfl, rfl, rfl, rfl, rfl, rfl, rfl, rfl, rfl⟩

/-! ## MP3Decoder: the CRC check of a protected frame -/

theorem MP3Decoder.GetFrameLengthByLayer_fields (d : MP3Decoder) :
    d.GetFrameLengthByLayer.2.m_layerDescription = d.m_layerDescription
      ∧ d.GetFrameLengthByLayer.2.m_encodingVersion = d.m_encodingVersion
      ∧ d.GetFrameLengthByLayer.2.m_singleChannelMono = d.m_singleChannelMono
      ∧ d.GetFrameLengthByLayer.2.m_bufferCRCBytes = d.m_bufferCRCBytes
      ∧ d.GetFrameLengthByLayer.2.m_tagHeaderLengthBytes = d.m_tagHeaderLengthBytes := by
  unfold MP3Decoder.GetFrameLengthByLayer
  dsimp only
  split_ifs <;> exact ⟨rfl, rfl, rfl, rfl, rfl⟩

/-- What `GetFrameLength` decodes from a header above `0xFFE00000`: the layer,
the version, the channel flag and the protection bit; the CRC buffer and the
length of the ID3v2 tag are left as they are. -/
theorem MP3Decoder.GetFrameLength_fields (d : MP3Decoder) (h : d.m_currentFrameHeader > 0xFFE00000) :
    d.GetFrameLength.2.m_layerDescription = (d.m_currentFrameHeader >>> 17) &&& 0x03
      ∧ d.GetFrameLength.2.m_encodingVersion = (d.m_currentFrameHeader >>> 19) &&& 0x03
      ∧ d.GetFrameLength.2.m_singleChannelMono = MP3Decoder.singleChannelMono d.m_currentFrameHeader
      ∧ d.GetFrameLength.2.m_embeddedFrameCRC = (d.m_currentFrameHeader >>> 16) &&& 0x01
      ∧ d.GetFrameLength.2.m_bufferCRCBytes = d.m_bufferCRCBytes := by
  unfold MP3Decoder.GetFrameLength
  dsimp only
  rw [if_pos h]
  split_ifs
  · exact ⟨rfl, rfl, rfl, rfl, rfl⟩
  · have k := MP3Decoder.GetFrameLengthByLayer_fields
    have k2 := MP3Decoder.GetFrameLengthByLayer_preserves
    exact ⟨(k _).1, (k _).2.1, (k _).2.2.1, (k2 _).2.2.2.2.2.2, (k _).2.2.2.1⟩
  · exact ⟨rfl, rfl, rfl, rfl, rfl⟩
  · exact ⟨rfl, rfl, rfl, rfl, rfl⟩

/-- C19: for a frame at `p` whose checked bytes are inside the buffer, the
stream standing right after its four header bytes and the decoder holding the
fields `GetFrameLength` decoded from its header, `CheckCRCProtection` returns
false if and only if the frame is Layer III, its protection bit is 0, and the
16-bit big-endian value stored right after the header differs from the CRC-16
of the specification (initial value `0xFFFF`, polynomial `0x8005`, most
significant bit first, no reflection, no final XOR) of the last two header
bytes followed by the covered bytes that come after the stored value.  When it
returns false the message is `CRC_ERROR @ ` with the time stamp, and when it
returns true, as it does for every frame that is not Layer III or has
protection bit 1, the message is unchanged. -/
theorem MP3Decoder.CheckCRCProtection_false_iff (secondsOf : Nat → Nat → Int) (d : MP3Decoder)
    (bytes : List Byte) (p n : Nat)
    (hL : bytes.length < 2 ^ 63)
    (hs : d.m_stream = streamAt bytes (p + 4))
    (hlayer : d.m_layerDescription = (frameHeader (bytes.drop p) >>> 17) &&& 0x03)
    (hprot : d.m_embeddedFrameCRC = (frameHeader (bytes.drop p) >>> 16) &&& 0x01)
    (hn : n = tableAt MP3_CRC_BYTE_SIZE (if d.m_singleChannelMono = 1 then 1 else 0)
      (if d.m_encodingVersion = MPEG1 then 0 else 1))
    (hread : (frameHeader (bytes.drop p) >>> 17) &&& 0x03 = LAYER_III
      → (frameHeader (bytes.drop p) >>> 16) &&& 0x01 = 0 → p + 6 + n ≤ bytes.length)
    (hbuf : d.m_bufferCRCBytes.length = 40) :
    ∃ b d1, d.CheckCRCProtection secondsOf = Result.ok (b, d1)
      ∧ (b = false ↔
          ((frameHeader (bytes.drop p) >>> 17) &&& 0x03 = LAYER_III
            ∧ (frameHeader (bytes.drop p) >>> 16) &&& 0x01 = 0
            ∧ (bytes.getD (p + 4) 0).val * 256 + (bytes.getD (p + 5) 0).val
                ≠ specCRC16 ((bytes.drop (p + 2)).take 2 ++ (bytes.drop (p + 6)).take n)))
      ∧ (b = false → d1.m_errorMessage = "CRC_ERROR @ "
            ++ MP3Decoder.timeStamp (secondsOf d.m_frameSamplePosition d.m_streamSampleRate))
      ∧ (b = true → d1.m_errorMessage = d.m_errorMessage) := by
  by_cases hc : (frameHeader (bytes.drop p) >>> 17) &&& 0x03 = LAYER_III
      ∧ (frameHeader (bytes.drop p) >>> 16) &&& 0x01 = 0
  · obtain ⟨d1, h1, h2, _⟩ := MP3Decoder.CheckCRCProtection_checked secondsOf d bytes p n hL hs
      (hprot.trans hc.2) (hlayer.trans hc.1) hn (hread hc.1 hc.2) hbuf
    refine ⟨_, d1, h1, ?_, ?_, ?_⟩
    · rw [decide_eq_false_iff_not]
      exact ⟨fun k => ⟨hc.1, hc.2, k⟩, fun k => k.2.2⟩
    · intro k
      rw [decide_eq_false_iff_not] at k
      rw [h2, if_neg k]
    · intro k
      rw [decide_eq_true_iff] at k
      rw [h2, if_pos k]
  · refine ⟨true, d, ?_, ?_, fun k => absurd k (by decide), fun _ => rfl⟩
    · unfold MP3Decoder.CheckCRCProtection
      rw [if_neg]
      rw [hprot, hlayer]
      exact fun k => hc ⟨k.2, k.1⟩
    · constructor
      · intro k
        exact absurd k (by decide)
      · intro k
        exact absurd ⟨k.1, k.2.1⟩ hc

set_option maxRecDepth 100000 in
/-- C19 at the protected frame `FF FA 18 00 00 00` followed by zero bytes, whose
stored CRC `00 00` is not the CRC-16 of the checked bytes. -/
theorem MP3Decoder.CheckCRCProtection_false_iff_witness :
    ∃ b d1, (MP3Decoder.headerDecoded (MP3Decoder.protectedFrame 0 0)).CheckCRCProtection (fun _ _ => 0)
        = Result.ok (b, d1)
      ∧ (b = false ↔
          ((frameHeader ((MP3Decoder.protectedFrame 0 0).drop 0) >>> 17) &&& 0x03 = LAYER_III
            ∧ (frameHeader ((MP3Decoder.protectedFrame 0 0).drop 0) >>> 16) &&& 0x01 = 0
            ∧ ((MP3Decoder.protectedFrame 0 0).getD (0 + 4) 0).val * 256
                + ((MP3Decoder.protectedFrame 0 0).getD (0 + 5) 0).val
                ≠ specCRC16 (((MP3Decoder.protectedFrame 0 0).drop (0 + 2)).take 2
                    ++ ((MP3Decoder.protectedFrame 0 0).drop (0 + 6)).take 32)))
      ∧ (b = false → d1.m_errorMessage = "CRC_ERROR @ "
            ++ MP3Decoder.timeStamp ((fun _ _ => 0)
                (MP3Decoder.headerDecoded (MP3Decoder.protectedFrame 0 0)).m_frameSamplePosition
                (MP3Decoder.headerDecoded (MP3Decoder.protectedFrame 0 0)).m_streamSampleRate))
      ∧ (b = true → d1.m_errorMessage
            = (MP3Decoder.headerDecoded (MP3Decoder.protectedFrame 0 0)).m_errorMessage) :=
  MP3Decoder.CheckCRCProtection_false_iff (fun _ _ => 0)
    (MP3Decoder.headerDecoded (MP3Decoder.protectedFrame 0 0)) (MP3Decoder.protectedFrame 0 0) 0 32
    (by decide) (by decide) (by decide) (by decide) (by decide) (fun _ _ => by decide) (by decide)

set_option maxRecDepth 100000 in
/-- Two protected frames whose stored CRC `A0 E2` is the CRC-16 of the checked
bytes: `Read` returns 144 and 0 and leaves no message.  With the stored CRC
`00 00` the first call of `Read` returns -1 with the message `CRC_ERROR @ 0m 00s`. -/
theorem MP3Decoder.Read_protected_frames :
    ((MP3Decoder.new.OpenFile (MP3Decoder.protectedFrame 0xA0 0xE2 ++ MP3Decoder.protectedFrame 0xA0 0xE2)).bind
        fun d => (d.ReadAll (fun _ _ => 0) 2).bind fun run => Result.ok (run.1, run.2.m_errorMessage))
      = Result.ok ([144, 0], "")
    ∧ ((MP3Decoder.new.OpenFile (MP3Decoder.protectedFrame 0 0 ++ MP3Decoder.protectedFrame 0 0)).bind
        fun d => (d.Read (fun _ _ => 0)).bind fun run => Result.ok (run.1, run.2.m_errorMessage))
      = Result.ok (-1, "CRC_ERROR @ 0m 00s") := by
  decide

/-- The two places of `Read` that call `CheckCRCProtection`, for a Layer III
frame with protection bit 0 whose stored value differs from the CRC-16 of the
checked bytes: -1 is returned with the message `CRC_ERROR @ ` and the time stamp. -/
theorem MP3Decoder.Read_after_crc_error (secondsOf : Nat → Nat → Int) (d : MP3Decoder)
    (bytes : List Byte) (p n : Nat) (accepted : Bool × MP3Decoder → Result (Int × MP3Decoder))
    (hL : bytes.length < 2 ^ 63)
    (hs : d.m_stream = streamAt bytes (p + 4))
    (hprot : d.m_embeddedFrameCRC = 0) (hlayer : d.m_layerDescription = LAYER_III)
    (hn : n = tableAt MP3_CRC_BYTE_SIZE (if d.m_singleChannelMono = 1 then 1 else 0)
      (if d.m_encodingVersion = MPEG1 then 0 else 1))
    (hread : p + 6 + n ≤ bytes.length)
    (hbuf : d.m_bufferCRCBytes.length = 40)
    (hbad : (bytes.getD (p + 4) 0).val * 256 + (bytes.getD (p + 5) 0).val
      ≠ specCRC16 ((bytes.drop (p + 2)).take 2 ++ (bytes.drop (p + 6)).take n)) :
    ∃ d1, ((d.CheckCRCProtection secondsOf).bind fun crc =>
          if crc.1 = true then accepted crc else Result.ok (-1, crc.2)) = Result.ok (-1, d1)
      ∧ d1.m_errorMessage = "CRC_ERROR @ "
          ++ MP3Decoder.timeStamp (secondsOf d1.m_frameSamplePosition d1.m_streamSampleRate) := by
  obtain ⟨d1, h1, h2, _, _, _, _, _, _, h3, h4⟩ :=
    MP3Decoder.CheckCRCProtection_checked secondsOf d bytes p n hL hs hprot hlayer hn hread hbuf
  rw [h1, Result.bind_ok, decide_eq_false hbad]
  refine ⟨d1, rfl, ?_⟩
  rw [h2, if_neg hbad, h3, h4]

/-- A call of `Read` at a Layer III frame with protection bit 0 whose stored
value differs from the CRC-16 of the checked bytes returns -1 with the message
`CRC_ERROR @ ` and the time stamp. -/
theorem MP3Decoder.Read_crc_error (secondsOf : Nat → Nat → Int) (d : MP3Decoder)
    (bytes pre f rest : List Byte) (n : Nat)
    (hL : bytes.length < 2 ^ 63) (hb : bytes = pre ++ f ++ rest)
    (hs : d.m_stream = streamAt bytes pre.length) (ho : d.m_offset = (pre.length : Int))
    (hz : d.m_fileSizeInBytes = (bytes.length : Int))
    (h4 : 4 ≤ f.length) (hlen : MP3Decoder.frameLength (frameHeader f) = f.length)
    (hlayer : (frameHeader f >>> 17) &&& 0x03 = LAYER_III)
    (hprot : (frameHeader f >>> 16) &&& 0x01 = 0)
    (hn : n = tableAt MP3_CRC_BYTE_SIZE (if MP3Decoder.singleChannelMono (frameHeader f) = 1 then 1 else 0)
      (if (frameHeader f >>> 19) &&& 0x03 = MPEG1 then 0 else 1))
    (hread : pre.length + 6 + n ≤ bytes.length)
    (hbuf : d.m_bufferCRCBytes.length = 40)
    (hmask : frameHeader f &&& 0xFFFE0C00 = d.m_previousFrameHeader &&& 0xFFFE0C00
      ∨ d.m_previousFrameHeader = 0)
    (hbad : (bytes.getD (pre.length + 4) 0).val * 256 + (bytes.getD (pre.length + 5) 0).val
      ≠ specCRC16 ((bytes.drop (pre.length + 2)).take 2 ++ (bytes.drop (pre.length + 6)).take n)) :
    ∃ d1, d.Read secondsOf = Result.ok (-1, d1)
      ∧ d1.m_errorMessage = "CRC_ERROR @ "
          ++ MP3Decoder.timeStamp (secondsOf d1.m_frameSamplePosition d1.m_streamSampleRate) := by
  obtain ⟨b0, b1, b2, b3, tl, hf⟩ := exists_four_bytes f h4
  have hhdr : frameHeader f = b0.val * 16777216 + b1.val * 65536 + b2.val * 256 + b3.val := by
    rw [hf]; rfl
  have hb1 : bytes = pre ++ b0 :: b1 :: b2 :: b3 :: (tl ++ rest) := by
    rw [hb, hf, List.append_assoc]; rfl
  have hloop := MP3Decoder.ReadHeaderLoop_four d bytes pre (tl ++ rest) b0 b1 b2 b3 hs hL hb1
  rw [← hhdr] at hloop
  obtain ⟨dh, hdh⟩ : ∃ dh : MP3Decoder, dh = { d with
      m_currentFrameLength := U32 - 1
      m_stream := streamAt bytes (pre.length + 4)
      m_currentFrameHeader := frameHeader f } := ⟨_, rfl⟩
  rw [← hdh] at hloop
  have dh1 : dh.m_currentFrameHeader = frameHeader f := by rw [hdh]
  have dh2 : dh.m_stream = streamAt bytes (pre.length + 4) := by rw [hdh]
  have dh3 : dh.m_offset = (pre.length : Int) := by rw [hdh]; exact ho
  have dh4 : dh.m_fileSizeInBytes = (bytes.length : Int) := by rw [hdh]; exact hz
  have dh6 : dh.m_previousFrameHeader = d.m_previousFrameHeader := by rw [hdh]
  have dh7 : dh.m_bufferCRCBytes = d.m_bufferCRCBytes := by rw [hdh]
  obtain ⟨g, hg⟩ : ∃ g, g = dh.GetFrameLength := ⟨_, rfl⟩
  have g1 : g.1 = f.length := by rw [hg, MP3Decoder.GetFrameLength_fst, dh1, hlen]
  have gp := MP3Decoder.GetFrameLength_preserves dh
  have gz := MP3Decoder.GetFrameLength_ne_zero dh (by rw [← hg, g1]; omega)
  have gf := MP3Decoder.GetFrameLength_fields dh gz.1
  rw [← hg] at gp gf
  rw [dh1, dh7] at gf
  rw [dh1, dh2, dh3, dh4, dh6] at gp
  obtain ⟨gp1, gp2, gp3, gp4, gp5, gp6⟩ := gp
  obtain ⟨gf1, gf2, gf3, gf4, gf5⟩ := gf
  unfold MP3Decoder.Read
  rw [hloop, Result.bind_ok]
  dsimp only
  rw [← hg]
  rw [if_neg (by decide : ¬ (true = false))]
  rw [if_pos (by rw [g1]; omega : g.1 ≠ 0)]
  rw [if_pos (by rw [gp3, gp4]; exact hmask)]
  have hlen2 : (bytes.length : Int) = (pre.length : Int) + (f.length : Int) + (rest.length : Int) := by
    rw [hb, List.length_append, List.length_append]; push_cast; ring
  by_cases hp : d.m_previousFrameHeader = 0
  on_goal 1 =>
    have hp1 : g.2.m_previousFrameHeader = 0 := gp4.trans hp
    rw [if_pos hp1]
  on_goal 2 =>
    have hp1 : ¬ g.2.m_previousFrameHeader = 0 := by rw [gp4]; exact hp
    rw [if_neg hp1]
  all_goals
    dsimp only
    rw [gp6, g1, gp5]
    by_cases hr : rest = []
    · have hrl : (rest.length : Int) = 0 := by rw [hr]; rfl
      rw [if_neg (by omega), if_pos (by omega)]
      refine MP3Decoder.Read_after_crc_error secondsOf _ bytes pre.length n _ hL gp1
        (gf4.trans hprot) (gf1.trans hlayer) ?_ hread (by rw [← gf5] at hbuf; exact hbuf) hbad
      show n = tableAt MP3_CRC_BYTE_SIZE (if g.2.m_singleChannelMono = 1 then 1 else 0)
        (if g.2.m_encodingVersion = MPEG1 then 0 else 1)
      rw [gf3, gf2]
      exact hn
    · have hrl : 0 < rest.length := List.length_pos.mpr hr
      rw [if_pos (by omega)]
      refine MP3Decoder.Read_after_crc_error secondsOf _ bytes pre.length n _ hL gp1
        (gf4.trans hprot) (gf1.trans hlayer) ?_ hread (by rw [← gf5] at hbuf; exact hbuf) hbad
      show n = tableAt MP3_CRC_BYTE_SIZE (if g.2.m_singleChannelMono = 1 then 1 else 0)
        (if g.2.m_encodingVersion = MPEG1 then 0 else 1)
      rw [gf3, gf2]
      exact hn

/-! ## MP3Decoder: the number of bytes the CRC covers -/

set_option maxRecDepth 100000 in
/-- C20 (counterexample): protected Layer III frames with the headers
`FF FA 18 00` (MPEG1, stereo), `FF FA 18 C0` (MPEG1, mono) and `FF F2 18 00`
(MPEG2, stereo).  `CheckCRCProtection` reads 32, 17 and 17 covered bytes after
the stored CRC, and leaves the stream 38, 23 and 23 bytes after the start of
the frame. -/
theorem MP3Decoder.CheckCRCProtection_counts :
    (((MP3Decoder.headerDecoded ([0xFF, 0xFA, 0x18, 0x00] ++ List.replicate 140 0)).CheckCRCProtection
        (fun _ _ => 0)).bind fun r =>
      Result.ok (r.2.m_encodingVersion, r.2.m_singleChannelMono, r.2.m_CRCByteSize,
        r.2.m_stream.m_fileMemoryBufferPosition)) = Result.ok (MPEG1, 0, 32, 38)
    ∧ (((MP3Decoder.headerDecoded ([0xFF, 0xFA, 0x18, 0xC0] ++ List.replicate 140 0)).CheckCRCProtection
        (fun _ _ => 0)).bind fun r =>
      Result.ok (r.2.m_encodingVersion, r.2.m_singleChannelMono, r.2.m_CRCByteSize,
        r.2.m_stream.m_fileMemoryBufferPosition)) = Result.ok (MPEG1, 1, 17, 23)
    ∧ (((MP3Decoder.headerDecoded ([0xFF, 0xF2, 0x18, 0x00] ++ List.replicate 140 0)).CheckCRCProtection
        (fun _ _ => 0)).bind fun r =>
      Result.ok (r.2.m_encodingVersion, r.2.m_singleChannelMono, r.2.m_CRCByteSize,
        r.2.m_stream.m_fileMemoryBufferPosition)) = Result.ok (MPEG2, 0, 17, 23) := by
  decide

/-- C20 (amended): for a protected Layer III frame at `p` whose checked bytes
are inside the buffer, the number of covered bytes `CheckCRCProtection` reads
after the stored CRC is 32 for an MPEG1 stereo frame, 17 for an MPEG1 mono
frame, 17 for an MPEG2/2.5 stereo frame and 9 for an MPEG2/2.5 mono frame: the
element of `MP3_CRC_BYTE_SIZE` at [channel is mono][version is not MPEG1].  The
stream is left that many bytes after the stored CRC. -/
theorem MP3Decoder.CheckCRCProtection_count (secondsOf : Nat → Nat → Int) (d : MP3Decoder)
    (bytes : List Byte) (p : Nat)
    (hL : bytes.length < 2 ^ 63)
    (hs : d.m_stream = streamAt bytes (p + 4))
    (hlayer : d.m_layerDescription = LAYER_III) (hprot : d.m_embeddedFrameCRC = 0)
    (hversion : d.m_encodingVersion = (frameHeader (bytes.drop p) >>> 19) &&& 0x03)
    (hmono : d.m_singleChannelMono = MP3Decoder.singleChannelMono (frameHeader (bytes.drop p)))
    (hread : p + 6 + 32 ≤ bytes.length)
    (hbuf : d.m_bufferCRCBytes.length = 40) :
    ∃ b d1, d.CheckCRCProtection secondsOf = Result.ok (b, d1)
      ∧ d1.m_CRCByteSize
          = (if (frameHeader (bytes.drop p) >>> 19) &&& 0x03 = MPEG1 then
              (if (frameHeader (bytes.drop p) >>> 6) &&& 0x03 = 0x03 then 17 else 32)
             else
              (if (frameHeader (bytes.drop p) >>> 6) &&& 0x03 = 0x03 then 9 else 17))
      ∧ d1.m_CRCByteSize
          = tableAt MP3_CRC_BYTE_SIZE
              (if (frameHeader (bytes.drop p) >>> 6) &&& 0x03 = 0x03 then 1 else 0)
              (if (frameHeader (bytes.drop p) >>> 19) &&& 0x03 = MPEG1 then 0 else 1)
      ∧ d1.m_stream = streamAt bytes (p + 6 + d1.m_CRCByteSize) := by
  have hle := tableAt_MP3_CRC_BYTE_SIZE_le (if d.m_singleChannelMono = 1 then 1 else 0)
    (if d.m_encodingVersion = MPEG1 then 0 else 1)
  obtain ⟨d1, h1, _, h3, h4, _⟩ := MP3Decoder.CheckCRCProtection_checked secondsOf d bytes p _ hL hs
    hprot hlayer rfl (by omega) hbuf
  refine ⟨_, d1, h1, ?_, ?_, ?_⟩
  · rw [h4, hmono, hversion]
    unfold MP3Decoder.singleChannelMono
    by_cases hc : (frameHeader (bytes.drop p) >>> 6) &&& 0x03 = 0x03 <;>
      by_cases hv : (frameHeader (bytes.drop p) >>> 19) &&& 0x03 = MPEG1 <;>
      simp only [hc, hv, if_true, if_false, one_ne_zero, zero_ne_one] <;> rfl
  · rw [h4, hmono, hversion]
    unfold MP3Decoder.singleChannelMono
    by_cases hc : (frameHeader (bytes.drop p) >>> 6) &&& 0x03 = 0x03 <;>
      by_cases hv : (frameHeader (bytes.drop p) >>> 19) &&& 0x03 = MPEG1 <;>
      simp only [hc, hv, if_true, if_false, one_ne_zero, zero_ne_one]
  · rw [h3, h4]

set_option maxRecDepth 100000 in
/-- C20 (amended) at the protected MPEG1 stereo frame `FF FA 18 00 A0 E2`
followed by zero bytes: 32 covered bytes are read. -/
theorem MP3Decoder.CheckCRCProtection_count_witness :
    ∃ b d1, (MP3Decoder.headerDecoded (MP3Decoder.protectedFrame 0xA0 0xE2)).CheckCRCProtection
        (fun _ _ => 0) = Result.ok (b, d1)
      ∧ d1.m_CRCByteSize
          = (if (frameHeader ((MP3Decoder.protectedFrame 0xA0 0xE2).drop 0) >>> 19) &&& 0x03 = MPEG1 then
              (if (frameHeader ((MP3Decoder.protectedFrame 0xA0 0xE2).drop 0) >>> 6) &&& 0x03 = 0x03
                then 17 else 32)
             else
              (if (frameHeader ((MP3Decoder.protectedFrame 0xA0 0xE2).drop 0) >>> 6) &&& 0x03 = 0x03
                then 9 else 17))
      ∧ d1.m_CRCByteSize
          = tableAt MP3_CRC_BYTE_SIZE
              (if (frameHeader ((MP3Decoder.protectedFrame 0xA0 0xE2).drop 0) >>> 6) &&& 0x03 = 0x03
                then 1 else 0)
              (if (frameHeader ((MP3Decoder.protectedFrame 0xA0 0xE2).drop 0) >>> 19) &&& 0x03 = MPEG1
                then 0 else 1)
      ∧ d1.m_stream = streamAt (MP3Decoder.protectedFrame 0xA0 0xE2) (0 + 6 + d1.m_CRCByteSize) :=
  MP3Decoder.CheckCRCProtection_count (fun _ _ => 0)
    (MP3Decoder.headerDecoded (MP3Decoder.protectedFrame 0xA0 0xE2))
    (MP3Decoder.protectedFrame 0xA0 0xE2) 0
    (by decide) (by decide) (by decide) (by decide) (by decide) (by decide) (by decide) (by decide)

/-! ## MP3Decoder: a header that is not a valid frame -/

theorem MP3Decoder.GetFrameLength_tag (d : MP3Decoder) :
    d.GetFrameLength.2.m_tagHeaderLengthBytes = d.m_tagHeaderLengthBytes := by
  unfold MP3Decoder.GetFrameLength
  dsimp only
  split_ifs
  · rfl
  · exact (MP3Decoder.GetFrameLengthByLayer_fields _).2.2.2.2
  · rfl
  · rfl
  · rfl

/-- The loop of `ResynchronizeBitstream` ends: entered with a frame length of 0
at a position inside the buffer and with more fuel than bytes remain, it
returns.  The buffer and the tag length are kept, the position does not move
back, and it has moved forward when the loop was left with a frame length
above 0. -/
theorem MP3Decoder.ResynchronizeLoop_ok (fuel : Nat) : ∀ d : MP3Decoder,
    d.m_stream.m_fileMemoryBufferSize < 2 ^ 63 →
    d.m_stream.m_fileMemoryBufferPosition ≤ d.m_stream.m_fileMemoryBufferSize →
    d.m_currentFrameLength = 0 →
    d.m_stream.m_fileMemoryBufferSize - d.m_stream.m_fileMemoryBufferPosition < fuel →
    ∃ b d1, MP3Decoder.ResynchronizeLoop fuel d = Result.ok (b, d1)
      ∧ d1.m_stream.m_fileMemoryBuffer = d.m_stream.m_fileMemoryBuffer
      ∧ d1.m_stream.m_fileMemoryBufferPosition ≤ d.m_stream.m_fileMemoryBufferSize
      ∧ d.m_stream.m_fileMemoryBufferPosition ≤ d1.m_stream.m_fileMemoryBufferPosition
      ∧ (b = true → d1.m_currentFrameLength > 0
          → d.m_stream.m_fileMemoryBufferPosition < d1.m_stream.m_fileMemoryBufferPosition)
      ∧ d1.m_tagHeaderLengthBytes = d.m_tagHeaderLengthBytes := by
  induction fuel with
  | zero =>
    intro d _ _ _ hf
    omega
  | succ fuel ih =>
    intro d hL hp hlen hf
    rw [MP3Decoder.ResynchronizeLoop]
    dsimp only
    by_cases hc : toU32 ((d.m_maxResynchronizationCount : Int) - 1) > 0
    · rw [if_pos hc]
      by_cases hin : d.m_stream.m_fileMemoryBufferPosition + 1 ≤ d.m_stream.m_fileMemoryBufferSize
      · rw [StreamWrapper.Read_inside d.m_stream 1 hL hin, Result.bind_ok]
        dsimp only
        rw [if_pos (by decide : (1 : Nat) ≠ 0)]
        suffices H : ∀ X : MP3Decoder,
            X.m_stream = { d.m_stream with
              m_fileMemoryBufferPosition := d.m_stream.m_fileMemoryBufferPosition + 1 } →
            X.m_tagHeaderLengthBytes = d.m_tagHeaderLengthBytes →
            ∃ b d1, (if X.GetFrameLength.1 > 0 then
                  Result.ok (true, { X.GetFrameLength.2 with m_currentFrameLength := X.GetFrameLength.1 })
                else MP3Decoder.ResynchronizeLoop fuel
                  { X.GetFrameLength.2 with m_currentFrameLength := X.GetFrameLength.1 })
                = Result.ok (b, d1)
              ∧ d1.m_stream.m_fileMemoryBuffer = d.m_stream.m_fileMemoryBuffer
              ∧ d1.m_stream.m_fileMemoryBufferPosition ≤ d.m_stream.m_fileMemoryBufferSize
              ∧ d.m_stream.m_fileMemoryBufferPosition ≤ d1.m_stream.m_fileMemoryBufferPosition
              ∧ (b = true → d1.m_currentFrameLength > 0
                  → d.m_stream.m_fileMemoryBufferPosition < d1.m_stream.m_fileMemoryBufferPosition)
              ∧ d1.m_tagHeaderLengthBytes = d.m_tagHeaderLengthBytes from H _ rfl rfl
        intro X hXs hXt
        have gs : X.GetFrameLength.2.m_stream = X.m_stream := (MP3Decoder.GetFrameLength_preserves X).1
        have gt := MP3Decoder.GetFrameLength_tag X
        by_cases hg : X.GetFrameLength.1 > 0
        · rw [if_pos hg]
          refine ⟨true, _, rfl, ?_, ?_, ?_, ?_, ?_⟩
          · show X.GetFrameLength.2.m_stream.m_fileMemoryBuffer = _
            rw [gs, hXs]
          · show X.GetFrameLength.2.m_stream.m_fileMemoryBufferPosition ≤ _
            rw [gs, hXs]
            exact hin
          · show _ ≤ X.GetFrameLength.2.m_stream.m_fileMemoryBufferPosition
            rw [gs, hXs]
            exact Nat.le_succ _
          · intro _ _
            show _ < X.GetFrameLength.2.m_stream.m_fileMemoryBufferPosition
            rw [gs, hXs]
            exact Nat.lt_succ_self _
          · show X.GetFrameLength.2.m_tagHeaderLengthBytes = _
            rw [gt, hXt]
        · rw [if_neg hg]
          obtain ⟨Y, hY⟩ : ∃ Y : MP3Decoder,
              Y = { X.GetFrameLength.2 with m_currentFrameLength := X.GetFrameLength.1 } := ⟨_, rfl⟩
          rw [← hY]
          have y1 : Y.m_stream = { d.m_stream with
              m_fileMemoryBufferPosition := d.m_stream.m_fileMemoryBufferPosition + 1 } := by
            rw [hY]
            exact gs.trans hXs
          have y2 : Y.m_currentFrameLength = 0 := by
            rw [hY]
            show X.GetFrameLength.1 = 0
            omega
          have y3 : Y.m_tagHeaderLengthBytes = d.m_tagHeaderLengthBytes := by
            rw [hY]
            exact gt.trans hXt
          have y4 : Y.m_stream.m_fileMemoryBufferSize = d.m_stream.m_fileMemoryBufferSize := by
            rw [y1]
            rfl
          have y5 : Y.m_stream.m_fileMemoryBufferPosition = d.m_stream.m_fileMemoryBufferPosition + 1 := by
            rw [y1]
          have y6 : Y.m_stream.m_fileMemoryBuffer = d.m_stream.m_fileMemoryBuffer := by
            rw [y1]
          obtain ⟨b, d1, h1, h2, h3, h4, h5, h6⟩ := ih Y (by rw [y4]; exact hL)
            (by rw [y4, y5]; exact hin) y2 (by rw [y4, y5]; omega)
          refine ⟨b, d1, h1, ?_, ?_, ?_, ?_, ?_⟩
          · rw [h2, y6]
          · rw [← y4]
            exact h3
          · rw [y5] at h4
            omega
          · intro _ _
            rw [y5] at h4
            omega
          · rw [h6, y3]
      · have hr := StreamWrapper.Read_beyond_end d.m_stream 1 hp hL (by norm_num) (by omega)
        rw [hr, Result.bind_ok]
        dsimp only
        have hz : d.m_stream.m_fileMemoryBufferSize - d.m_stream.m_fileMemoryBufferPosition = 0 := by
          omega
        rw [if_neg (by rw [hz]; decide)]
        refine ⟨false, _, rfl, rfl, le_refl _, ?_, ?_, rfl⟩
        · exact hp
        · intro k
          exact absurd k (by decide)
    · rw [if_neg hc]
      refine ⟨true, _, rfl, rfl, hp, le_refl _, ?_, rfl⟩
      intro _ k
      rw [hlen] at k
      exact absurd k (by decide)

/-- `ResynchronizeBitstream` ends: at a position inside the buffer and with
more fuel than bytes remain it returns, and it keeps the tag length. -/
theorem MP3Decoder.ResynchronizeBitstreamFuel_ok (fuel : Nat) : ∀ d : MP3Decoder,
    d.m_stream.m_fileMemoryBufferSize < 2 ^ 63 →
    d.m_stream.m_fileMemoryBufferPosition ≤ d.m_stream.m_fileMemoryBufferSize →
    d.m_stream.m_fileMemoryBufferSize - d.m_stream.m_fileMemoryBufferPosition < fuel →
    ∃ b d1, MP3Decoder.ResynchronizeBitstreamFuel fuel d = Result.ok (b, d1)
      ∧ d1.m_tagHeaderLengthBytes = d.m_tagHeaderLengthBytes := by
  induction fuel with
  | zero =>
    intro d _ _ hf
    omega
  | succ fuel ih =>
    intro d hL hp hf
    rw [MP3Decoder.ResynchronizeBitstreamFuel]
    dsimp only
    suffices H : ∀ X : MP3Decoder, X.m_stream = d.m_stream → X.m_currentFrameLength = 0 →
        X.m_tagHeaderLengthBytes = d.m_tagHeaderLengthBytes →
        ∃ b d1, ((MP3Decoder.ResynchronizeLoop (fuel + 1) X).bind fun exit =>
            if exit.1 = false then
              Result.ok (false, exit.2)
            else if exit.2.m_currentFrameLength > 0 then
              if exit.2.m_previousFrameHeader > 0 then
                if exit.2.m_currentFrameHeader &&& 0xFFFE0C00
                    = exit.2.m_previousFrameHeader &&& 0xFFFE0C00 then
                  Result.ok (true, exit.2)
                else
                  MP3Decoder.ResynchronizeBitstreamFuel fuel exit.2
              else
                MP3Decoder.ResynchronizeBitstreamFuel fuel
                  { exit.2 with m_previousFrameHeader := exit.2.m_currentFrameHeader }
            else
              Result.ok (false, exit.2)) = Result.ok (b, d1)
          ∧ d1.m_tagHeaderLengthBytes = d.m_tagHeaderLengthBytes from H _ rfl rfl rfl
    intro X hXs hXl hXt
    obtain ⟨b, e, h1, h2, h3, h4, h5, h6⟩ := MP3Decoder.ResynchronizeLoop_ok (fuel + 1) X
      (by rw [hXs]; exact hL) (by rw [hXs]; exact hp) hXl (by rw [hXs]; exact hf)
    rw [h1, Result.bind_ok]
    dsimp only
    rw [hXs] at h2 h3 h4 h5
    have esize : e.m_stream.m_fileMemoryBufferSize = d.m_stream.m_fileMemoryBufferSize := by
      unfold StreamWrapper.m_fileMemoryBufferSize
      rw [h2]
    by_cases hb : b = false
    · rw [if_pos hb]
      exact ⟨false, e, rfl, h6.trans hXt⟩
    · rw [if_neg hb]
      by_cases hl : e.m_currentFrameLength > 0
      · rw [if_pos hl]
        have hlt := h5 (by cases b; exact absurd rfl hb; rfl) hl
        by_cases hprev : e.m_previousFrameHeader > 0
        · rw [if_pos hprev]
          by_cases hmask : e.m_currentFrameHeader &&& 0xFFFE0C00
              = e.m_previousFrameHeader &&& 0xFFFE0C00
          · rw [if_pos hmask]
            exact ⟨true, e, rfl, h6.trans hXt⟩
          · rw [if_neg hmask]
            obtain ⟨b2, d2, k1, k2⟩ := ih e (by rw [esize]; exact hL) (by rw [esize]; exact h3)
              (by rw [esize]; omega)
            exact ⟨b2, d2, k1, k2.trans (h6.trans hXt)⟩
        · rw [if_neg hprev]
          obtain ⟨Y, hY⟩ : ∃ Y : MP3Decoder,
              Y = { e with m_previousFrameHeader := e.m_currentFrameHeader } := ⟨_, rfl⟩
          rw [← hY]
          have y1 : Y.m_stream = e.m_stream := by rw [hY]
          have y2 : Y.m_tagHeaderLengthBytes = e.m_tagHeaderLengthBytes := by rw [hY]
          obtain ⟨b2, d2, k1, k2⟩ := ih Y (by rw [y1, esize]; exact hL)
            (by rw [y1, esize]; exact h3) (by rw [y1, esize]; omega)
          exact ⟨b2, d2, k1, k2.trans (y2.trans (h6.trans hXt))⟩
      · rw [if_neg hl]
        exact ⟨false, e, rfl, h6.trans hXt⟩

theorem MP3Decoder.ResynchronizeBitstream_ok (d : MP3Decoder)
    (hL : d.m_stream.m_fileMemoryBufferSize < 2 ^ 63)
    (hp : d.m_stream.m_fileMemoryBufferPosition ≤ d.m_stream.m_fileMemoryBufferSize) :
    ∃ b d1, d.ResynchronizeBitstream = Result.ok (b, d1)
      ∧ d1.m_tagHeaderLengthBytes = d.m_tagHeaderLengthBytes :=
  MP3Decoder.ResynchronizeBitstreamFuel_ok _ d hL hp (by omega)

/-- The end of `Read` with no message set: resynchronization returns, -1 is
returned, and the message is chosen by the frame-sample position, the answer
of the resynchronization and the length of the ID3v2 tag. -/
theorem MP3Decoder.ReadFailed_message (secondsOf : Nat → Nat → Int) (d : MP3Decoder)
    (hL : d.m_stream.m_fileMemoryBufferSize < 2 ^ 63)
    (hp : d.m_stream.m_fileMemoryBufferPosition ≤ d.m_stream.m_fileMemoryBufferSize)
    (hm : d.m_errorMessage = "") :
    ∃ b d2, d.ResynchronizeBitstream = Result.ok (b, d2)
      ∧ MP3Decoder.ReadFailed secondsOf d = Result.ok (-1, { d2 with
          m_errorMessage :=
            if d.m_frameSamplePosition > 0 then
              (if b = true then
                "LOST_SYNC @ "
                  ++ MP3Decoder.timeStamp (secondsOf d2.m_frameSamplePosition d2.m_streamSampleRate)
               else "LOST_SYNC @ END_OF_FILE")
            else
              (if b = true then
                (if d.m_tagHeaderLengthBytes > 0 then "BAD_ID3v2_TAG" else "BAD_STARTING_SYNC")
               else "UNRECOGNIZED_FORMAT") }) := by
  obtain ⟨b, d2, h1, h2⟩ := MP3Decoder.ResynchronizeBitstream_ok d hL hp
  refine ⟨b, d2, h1, ?_⟩
  unfold MP3Decoder.ReadFailed
  rw [if_pos (by rw [hm]; rfl), h1, Result.bind_ok, Result.bind_ok]
  dsimp only
  by_cases hpos : d.m_frameSamplePosition > 0
  · rw [if_pos hpos, if_pos hpos]
    cases b
    · rw [if_neg (by decide), if_neg (by decide)]
    · rw [if_pos rfl, if_pos rfl]
  · rw [if_neg hpos, if_neg hpos]
    cases b
    · rw [if_pos (show (!false) = true from rfl), if_neg (show ¬ (false = true) by decide)]
    · rw [if_neg (show ¬ ((!true) = true) by decide), if_pos (show true = true from rfl), h2]
      by_cases ht : d.m_tagHeaderLengthBytes > 0
      · rw [if_pos ht, if_pos ht]
      · rw [if_neg ht, if_neg ht]

/-- `Read` at a header that is not a valid frame, with no message set.  The
four header bytes at `p` are inside the buffer; `g` is what `GetFrameLength`
makes of them, and the header is not a valid frame when the length is 0 or
when it differs from the previous header on the bits `0xFFFE0C00`.
Resynchronization then returns, `Read` returns -1, and the message is chosen
by the frame-sample position that `GetFrameLength` has left, the answer of the
resynchronization and the length of the ID3v2 tag. -/
theorem MP3Decoder.Read_rejected_header (secondsOf : Nat → Nat → Int) (d : MP3Decoder)
    (bytes : List Byte) (p : Nat) (g : Nat × MP3Decoder)
    (hL : bytes.length < 2 ^ 63)
    (hs : d.m_stream = streamAt bytes p) (h4 : p + 4 ≤ bytes.length)
    (hm : d.m_errorMessage = "")
    (hg : g = ({ d with
        m_currentFrameLength := U32 - 1
        m_stream := streamAt bytes (p + 4)
        m_currentFrameHeader := frameHeader (bytes.drop p) } : MP3Decoder).GetFrameLength)
    (hinvalid : g.1 = 0
      ∨ (d.m_previousFrameHeader ≠ 0
          ∧ frameHeader (bytes.drop p) &&& 0xFFFE0C00 ≠ d.m_previousFrameHeader &&& 0xFFFE0C00)) :
    ∃ b d2,
      ({ g.2 with m_currentFrameLength := g.1 } : MP3Decoder).ResynchronizeBitstream = Result.ok (b, d2)
      ∧ d.Read secondsOf = Result.ok (-1, { d2 with
          m_errorMessage :=
            if g.2.m_frameSamplePosition > 0 then
              (if b = true then
                "LOST_SYNC @ "
                  ++ MP3Decoder.timeStamp (secondsOf d2.m_frameSamplePosition d2.m_streamSampleRate)
               else "LOST_SYNC @ END_OF_FILE")
            else
              (if b = true then
                (if d.m_tagHeaderLengthBytes > 0 then "BAD_ID3v2_TAG" else "BAD_STARTING_SYNC")
               else "UNRECOGNIZED_FORMAT") }) := by
  have hdl : 4 ≤ (bytes.drop p).length := by
    rw [List.length_drop]
    omega
  obtain ⟨b0, b1, b2, b3, tl, hf⟩ := exists_four_bytes (bytes.drop p) hdl
  have hhdr : frameHeader (bytes.drop p)
      = b0.val * 16777216 + b1.val * 65536 + b2.val * 256 + b3.val := by
    rw [hf]; rfl
  have hpl : (bytes.take p).length = p := by
    rw [List.length_take]
    omega
  have hb1 : bytes = bytes.take p ++ b0 :: b1 :: b2 :: b3 :: tl := by
    rw [← hf, List.take_append_drop]
  have hloop := MP3Decoder.ReadHeaderLoop_four d bytes (bytes.take p) tl b0 b1 b2 b3
    (by rw [hpl]; exact hs) hL hb1
  rw [← hhdr, hpl] at hloop
  obtain ⟨dh, hdh⟩ : ∃ dh : MP3Decoder, dh = { d with
      m_currentFrameLength := U32 - 1
      m_stream := streamAt bytes (p + 4)
      m_currentFrameHeader := frameHeader (bytes.drop p) } := ⟨_, rfl⟩
  rw [← hdh] at hloop hg
  have dh1 : dh.m_currentFrameHeader = frameHeader (bytes.drop p) := by rw [hdh]
  have dh2 : dh.m_stream = streamAt bytes (p + 4) := by rw [hdh]
  have dh5 : dh.m_errorMessage = "" := by rw [hdh]; exact hm
  have dh6 : dh.m_previousFrameHeader = d.m_previousFrameHeader := by rw [hdh]
  have dh7 : dh.m_tagHeaderLengthBytes = d.m_tagHeaderLengthBytes := by rw [hdh]
  have gp := MP3Decoder.GetFrameLength_preserves dh
  have gt := MP3Decoder.GetFrameLength_tag dh
  rw [← hg] at gp gt
  rw [dh1, dh2, dh5, dh6] at gp
  rw [dh7] at gt
  obtain ⟨gp1, gp2, gp3, gp4, _, _⟩ := gp
  obtain ⟨X, hX⟩ : ∃ X : MP3Decoder, X = { g.2 with m_currentFrameLength := g.1 } := ⟨_, rfl⟩
  have x1 : X.m_stream = streamAt bytes (p + 4) := by rw [hX]; exact gp1
  have x2 : X.m_errorMessage = "" := by rw [hX]; exact gp2
  have x3 : X.m_frameSamplePosition = g.2.m_frameSamplePosition := by rw [hX]
  have x4 : X.m_tagHeaderLengthBytes = d.m_tagHeaderLengthBytes := by rw [hX]; exact gt
  have hfail := MP3Decoder.ReadFailed_message secondsOf X
    (by rw [x1]; exact hL) (by rw [x1]; exact h4) x2
  rw [x3, x4] at hfail
  rw [← hX]
  obtain ⟨b, d2, k1, k2⟩ := hfail
  refine ⟨b, d2, k1, ?_⟩
  rw [← k2]
  unfold MP3Decoder.Read
  rw [hloop, Result.bind_ok]
  dsimp only
  rw [← hg]
  rw [if_neg (by decide : ¬ (true = false))]
  by_cases hz : g.1 ≠ 0
  · rw [if_pos hz]
    rcases hinvalid with h0 | ⟨hprev, hmask⟩
    · exact absurd h0 hz
    · rw [if_neg, hX]
      rw [gp3, gp4]
      intro k
      rcases k with k | k
      · exact hmask k
      · exact hprev k
  · rw [if_neg hz, hX]

/-- C13 (amended): `Read` at a header that is not a valid frame, with no
message set.  The four header bytes at `p` are inside the buffer; `g` is what
`GetFrameLength` makes of them, and the header is not a valid frame when the
length is 0 or when it differs from the previous header on the bits
`0xFFFE0C00`.  Frames were already accepted when the frame-sample position
of the decoder before the call is above 0, and the header is the first of the
stream when that position is 0; headers whose decoding moves the position
from 0 or back to 0 are left out.  Resynchronization then returns, `Read`
returns -1, and the message is: with frames already accepted,
`LOST_SYNC @ ` and the time stamp when resynchronization succeeds and
`LOST_SYNC @ END_OF_FILE` when it fails; at the first header,
`UNRECOGNIZED_FORMAT` when resynchronization fails, whatever the length of
the ID3v2 tag, and when it succeeds `BAD_ID3v2_TAG` with a tag (length above
0) and `BAD_STARTING_SYNC` without. -/
theorem MP3Decoder.Read_invalid_header (secondsOf : Nat → Nat → Int) (d : MP3Decoder)
    (bytes : List Byte) (p : Nat) (g : Nat × MP3Decoder)
    (hL : bytes.length < 2 ^ 63)
    (hs : d.m_stream = streamAt bytes p) (h4 : p + 4 ≤ bytes.length)
    (hm : d.m_errorMessage = "")
    (hg : g = ({ d with
        m_currentFrameLength := U32 - 1
        m_stream := streamAt bytes (p + 4)
        m_currentFrameHeader := frameHeader (bytes.drop p) } : MP3Decoder).GetFrameLength)
    (hinvalid : g.1 = 0
      ∨ (d.m_previousFrameHeader ≠ 0
          ∧ frameHeader (bytes.drop p) &&& 0xFFFE0C00 ≠ d.m_previousFrameHeader &&& 0xFFFE0C00))
    (hpos : g.2.m_frameSamplePosition > 0 ↔ d.m_frameSamplePosition > 0) :
    ∃ b d2,
      ({ g.2 with m_currentFrameLength := g.1 } : MP3Decoder).ResynchronizeBitstream = Result.ok (b, d2)
      ∧ d.Read secondsOf = Result.ok (-1, { d2 with
          m_errorMessage :=
            if d.m_frameSamplePosition > 0 then
              (if b = true then
                "LOST_SYNC @ "
                  ++ MP3Decoder.timeStamp (secondsOf d2.m_frameSamplePosition d2.m_streamSampleRate)
               else "LOST_SYNC @ END_OF_FILE")
            else
              (if b = true then
                (if d.m_tagHeaderLengthBytes > 0 then "BAD_ID3v2_TAG" else "BAD_STARTING_SYNC")
               else "UNRECOGNIZED_FORMAT") }) := by
  obtain ⟨b, d2, k1, k2⟩ :=
    MP3Decoder.Read_rejected_header secondsOf d bytes p g hL hs h4 hm hg hinvalid
  refine ⟨b, d2, k1, ?_⟩
  rw [k2]
  by_cases hd : d.m_frameSamplePosition > 0
  · rw [if_pos hd, if_pos (hpos.mpr hd)]
  · rw [if_neg hd, if_neg (fun k => hd (hpos.mp k))]

set_option maxRecDepth 100000 in
/-- C13 (amended) at the stream made of an empty ID3v2 tag and 130 zero bytes,
opened and standing after the tag: the header `00 00 00 00` is the first of
the stream and not a valid frame, resynchronization fails and the message is
`UNRECOGNIZED_FORMAT`. -/
theorem MP3Decoder.Read_invalid_header_witness :
    MP3Decoder.openedTaggedZeros.m_frameSamplePosition = 0
    ∧ ∃ b d2,
      ({ (({ MP3Decoder.openedTaggedZeros with
              m_currentFrameLength := U32 - 1
              m_stream := streamAt MP3Decoder.taggedZeros (10 + 4)
              m_currentFrameHeader := frameHeader (MP3Decoder.taggedZeros.drop 10) }
            : MP3Decoder).GetFrameLength).2 with
          m_currentFrameLength :=
            (({ MP3Decoder.openedTaggedZeros with
              m_currentFrameLength := U32 - 1
              m_stream := streamAt MP3Decoder.taggedZeros (10 + 4)
              m_currentFrameHeader := frameHeader (MP3Decoder.taggedZeros.drop 10) }
            : MP3Decoder).GetFrameLength).1 } : MP3Decoder).ResynchronizeBitstream
        = Result.ok (b, d2)
      ∧ MP3Decoder.openedTaggedZeros.Read (fun _ _ => 0) = Result.ok (-1, { d2 with
          m_errorMessage :=
            if MP3Decoder.openedTaggedZeros.m_frameSamplePosition > 0 then
              (if b = true then
                "LOST_SYNC @ "
                  ++ MP3Decoder.timeStamp ((fun _ _ => 0) d2.m_frameSamplePosition d2.m_streamSampleRate)
               else "LOST_SYNC @ END_OF_FILE")
            else
              (if b = true then
                (if MP3Decoder.openedTaggedZeros.m_tagHeaderLengthBytes > 0 then "BAD_ID3v2_TAG"
                 else "BAD_STARTING_SYNC")
               else "UNRECOGNIZED_FORMAT") }) :=
  ⟨by decide,
    MP3Decoder.Read_invalid_header (fun _ _ => 0) MP3Decoder.openedTaggedZeros
      MP3Decoder.taggedZeros 10 _ (by decide) rfl (by decide) rfl rfl (Or.inl (by decide))
      (by decide)⟩

set_option maxRecDepth 100000 in
/-- C13 (counterexample): the stream is an ID3v2 tag header followed by 130
zero bytes.  `OpenFile` finds the tag (length 10) and leaves the frame-sample
position at 0; the first header read is `00 00 00 00`, not a valid frame;
resynchronization from there fails, no frame being in the stream; and `Read`
returns -1 with the message `UNRECOGNIZED_FORMAT`, not `BAD_ID3v2_TAG`. -/
theorem MP3Decoder.Read_tagged_zeros :
    MP3Decoder.new.OpenFile MP3Decoder.taggedZeros = Result.ok MP3Decoder.openedTaggedZeros
      ∧ MP3Decoder.openedTaggedZeros.m_tagHeaderLengthBytes = 10
      ∧ MP3Decoder.openedTaggedZeros.m_frameSamplePosition = 0
      ∧ frameHeader (MP3Decoder.taggedZeros.drop 10) = 0
      ∧ MP3Decoder.frameLength 0 = 0
      ∧ (({ MP3Decoder.openedTaggedZeros with
            m_stream := streamAt MP3Decoder.taggedZeros 14 } : MP3Decoder).ResynchronizeBitstream.bind
          fun resync => Result.ok resync.1) = Result.ok false
      ∧ ((MP3Decoder.openedTaggedZeros.Read (fun _ _ => 0)).bind fun r =>
          Result.ok (r.1, r.2.m_errorMessage)) = Result.ok (-1, "UNRECOGNIZED_FORMAT") := by
  decide

set_option maxRecDepth 100000 in
/-- The five messages on streams made of the frame `frame144`, zero bytes and
the empty ID3v2 tag: for each stream, the values the calls of `Read` return and
the message after the last call. -/
theorem MP3Decoder.Read_messages :
    ((MP3Decoder.new.OpenFile (MP3Decoder.frame144 ++ [0, 0, 0, 0, 0] ++ MP3Decoder.frame144
          ++ MP3Decoder.frame144)).bind fun d =>
        (d.ReadAll (fun _ _ => 0) 2).bind fun run => Result.ok (run.1, run.2.m_errorMessage))
      = Result.ok ([144, -1], "LOST_SYNC @ 0m 00s")
    ∧ ((MP3Decoder.new.OpenFile (MP3Decoder.frame144 ++ MP3Decoder.frame144
          ++ List.replicate 100 0)).bind fun d =>
        (d.ReadAll (fun _ _ => 0) 3).bind fun run => Result.ok (run.1, run.2.m_errorMessage))
      = Result.ok ([144, 144, -1], "LOST_SYNC @ END_OF_FILE")
    ∧ ((MP3Decoder.new.OpenFile (List.replicate 140 0)).bind fun d =>
        (d.ReadAll (fun _ _ => 0) 1).bind fun run => Result.ok (run.1, run.2.m_errorMessage))
      = Result.ok ([-1], "UNRECOGNIZED_FORMAT")
    ∧ ((MP3Decoder.new.OpenFile (ID3v2EmptyTag ++ [0, 0, 0, 0, 0] ++ MP3Decoder.frame144
          ++ MP3Decoder.frame144)).bind fun d =>
        (d.ReadAll (fun _ _ => 0) 1).bind fun run => Result.ok (run.1, run.2.m_errorMessage))
      = Result.ok ([-1], "BAD_ID3v2_TAG")
    ∧ ((MP3Decoder.new.OpenFile ([0, 0, 0, 0, 0] ++ MP3Decoder.frame144
          ++ MP3Decoder.frame144)).bind fun d =>
        (d.ReadAll (fun _ _ => 0) 1).bind fun run => Result.ok (run.1, run.2.m_errorMessage))
      = Result.ok ([-1], "BAD_STARTING_SYNC") := by
  decide

set_option maxRecDepth 100000 in
/-- A first header with the free bitrate index and no padding (`FF FB 00 00`)
after an ID3v2 tag: `GetFrameLength` returns 0 for it but has advanced the
frame-sample position to 1152 before, so the end of `Read` takes the branch
of a position above 0 and the message is `LOST_SYNC @ END_OF_FILE`. -/
theorem MP3Decoder.Read_first_header_free_bitrate :
    ((MP3Decoder.new.OpenFile (ID3v2EmptyTag ++ [0xFF, 0xFB, 0x00, 0x00] ++ List.replicate 140 0)).bind
        fun d => (d.Read (fun _ _ => 0)).bind fun r =>
          Result.ok (d.m_frameSamplePosition, r.1, r.2.m_frameSamplePosition, r.2.m_errorMessage))
      = Result.ok (0, -1, 1152, "LOST_SYNC @ END_OF_FILE") := by
  decide

/-! ## ApplicationManager: the deliveries of a folder scan -/

theorem specFolderPath_getLast (path : List Char) :
    (specFolderPath path).getLast? = some '\\' := by
  unfold specFolderPath
  split_ifs with h
  · exact h
  · simp

theorem ApplicationManager.folderPathOf_eq (folderPtr : List Char) (h : folderPtr ≠ []) :
    ApplicationManager.folderPathOf folderPtr = Result.ok (specFolderPath folderPtr) := by
  unfold ApplicationManager.folderPathOf specFolderPath
  cases hl : folderPtr.getLast? with
  | none => exact absurd (List.getLast?_eq_none_iff.mp hl) h
  | some last =>
    dsimp only
    by_cases hc : last = '\\'
    · rw [if_neg (by simpa using hc), if_pos (by rw [hc])]
    · rw [if_pos hc, if_neg (by simpa using hc)]

theorem ne_nil_of_getLast (path : List Char) (c : Char) (h : path.getLast? = some c) :
    path ≠ [] := by
  intro k
  rw [k] at h
  exact absurd h (by simp)

mutual
theorem specFilesOfListing_hidden (folderPath : List Char) :
    ∀ (entries : DirListing), ∀ f ∈ specFilesOfListing folderPath false entries, f.2 = false
  | DirListing.nil => by
    intro f hf
    simp [specFilesOfListing] at hf
  | DirListing.cons entry rest => by
    intro f hf
    rw [specFilesOfListing, List.mem_append] at hf
    rcases hf with hf | hf
    · exact specFilesOfEntry_hidden folderPath entry f hf
    · exact specFilesOfListing_hidden folderPath rest f hf
theorem specFilesOfEntry_hidden (folderPath : List Char) :
    ∀ (entry : DirEntry), ∀ f ∈ specFilesOfEntry folderPath false entry, f.2 = false
  | DirEntry.file cFileName => by
    intro f hf
    simp [specFilesOfEntry] at hf
    rw [hf]
  | DirEntry.folder cFileName entries => by
    intro f hf
    rw [specFilesOfEntry, Bool.false_and] at hf
    exact specFilesOfListing_hidden _ entries f hf
end

theorem specDelivered_append (dm : DecoderManager) (a b : List (List Char × Bool)) :
    specDelivered dm (a ++ b) = specDelivered dm a ++ specDelivered dm b := by
  unfold specDelivered
  rw [List.filter_append, List.map_append]

theorem specDelivered_hidden (dm : DecoderManager) (folderPath : List Char) (entries : DirListing) :
    specDelivered dm (specFilesOfListing folderPath false entries) = [] := by
  unfold specDelivered
  rw [List.map_eq_nil_iff, List.filter_eq_nil_iff]
  intro f hf
  rw [specFilesOfListing_hidden folderPath entries f hf]
  simp

mutual
/-- The loop of the scan with the stopping flag never set: it returns, and the
callback was applied to the expected deliveries in order. -/
theorem ApplicationManager.rScanFolderLoop_spec {σ : Type} (stoppingAt : Nat → Bool)
    (dm : DecoderManager) (boundCallback : List Char → σ → σ)
    (hstop : ∀ k, stoppingAt k = false) :
    ∀ (entries : DirListing) (folderPath : List Char) (s : ScanState σ),
      folderPath ≠ [] →
      ∃ n, ApplicationManager.rScanFolderLoop stoppingAt dm boundCallback folderPath entries s
        = Result.ok
            { flagReads := n
              callbackState :=
                (specDelivered dm (specFilesOfListing folderPath true entries)).foldl
                  (fun state pathName => boundCallback pathName state) s.callbackState }
  | DirListing.nil, folderPath, s, _ => ⟨s.flagReads, rfl⟩
  | DirListing.cons entry rest, folderPath, s, hne => by
    obtain ⟨n1, h1⟩ := ApplicationManager.rScanFolderEntry_spec stoppingAt dm boundCallback hstop
      entry folderPath { s with flagReads := s.flagReads + 1 } hne
    obtain ⟨n2, h2⟩ := ApplicationManager.rScanFolderLoop_spec stoppingAt dm boundCallback hstop
      rest folderPath
      { flagReads := n1
        callbackState :=
          (specDelivered dm (specFilesOfEntry folderPath true entry)).foldl
            (fun state pathName => boundCallback pathName state) s.callbackState } hne
    refine ⟨n2, ?_⟩
    rw [ApplicationManager.rScanFolderLoop, hstop, if_neg (by decide)]
    dsimp only
    rw [h1, Result.bind_ok, h2, specFilesOfListing, specDelivered_append, List.foldl_append]
theorem ApplicationManager.rScanFolderEntry_spec {σ : Type} (stoppingAt : Nat → Bool)
    (dm : DecoderManager) (boundCallback : List Char → σ → σ)
    (hstop : ∀ k, stoppingAt k = false) :
    ∀ (entry : DirEntry) (folderPath : List Char) (s : ScanState σ),
      folderPath ≠ [] →
      ∃ n, ApplicationManager.rScanFolderEntry stoppingAt dm boundCallback folderPath entry s
        = Result.ok
            { flagReads := n
              callbackState :=
                (specDelivered dm (specFilesOfEntry folderPath true entry)).foldl
                  (fun state pathName => boundCallback pathName state) s.callbackState }
  | DirEntry.file cFileName, folderPath, s, _ => by
    refine ⟨s.flagReads, ?_⟩
    rw [ApplicationManager.rScanFolderEntry, specFilesOfEntry]
    unfold specDelivered
    by_cases hsup : dm.IsSupportedType (folderPath ++ cFileName) = true
    · rw [if_pos hsup]
      simp [hsup]
    · rw [if_neg hsup]
      simp [hsup]
  | DirEntry.folder cFileName entries, folderPath, s, hne => by
    rw [ApplicationManager.rScanFolderEntry, specFilesOfEntry]
    by_cases hdot : cFileName.headD NUL ≠ '.'
    · have hsub : folderPath ++ cFileName ≠ [] := by
        intro k
        exact hne (List.append_eq_nil.mp k).1
      rw [if_pos hdot, ApplicationManager.folderPathOf_eq _ hsub, Result.bind_ok]
      rw [Bool.true_and, decide_eq_true hdot]
      exact ApplicationManager.rScanFolderLoop_spec stoppingAt dm boundCallback hstop entries
        (specFolderPath (folderPath ++ cFileName)) s
        (ne_nil_of_getLast _ _ (specFolderPath_getLast _))
    · rw [if_neg hdot, Bool.true_and, decide_eq_false hdot, specDelivered_hidden]
      exact ⟨s.flagReads, rfl⟩
end

/-- C14 (amended): for every finite directory tree, scanned from a folder path
that is not empty and with the stopping flag never set,
`rScanFolderWithCallback` returns and has invoked the callback exactly on the
expected deliveries, in order: once for each non-directory entry that is
supported and for which the name of every directory on the way down from the
scanned root does not begin with a period, depth first in the order of
enumeration, and for no other entry.  The name of the entry itself is not
looked at. -/
theorem ApplicationManager.rScanFolderWithCallback_deliveries {σ : Type}
    (stoppingAt : Nat → Bool) (dm : DecoderManager) (boundCallback : List Char → σ → σ)
    (folderPtr : List Char) (entries : DirListing) (s : ScanState σ)
    (hroot : folderPtr ≠ []) (hstop : ∀ k, stoppingAt k = false) :
    ∃ n, ApplicationManager.rScanFolderWithCallback stoppingAt dm boundCallback folderPtr entries s
      = Result.ok
          { flagReads := n
            callbackState :=
              (specDeliveries dm folderPtr entries).foldl
                (fun state pathName => boundCallback pathName state) s.callbackState } := by
  unfold ApplicationManager.rScanFolderWithCallback specDeliveries
  rw [ApplicationManager.folderPathOf_eq _ hroot, Result.bind_ok]
  exact ApplicationManager.rScanFolderLoop_spec stoppingAt dm boundCallback hstop entries _ s
    (ne_nil_of_getLast _ _ (specFolderPath_getLast _))

set_option maxRecDepth 100000 in
/-- C14 (amended) at the directory of scenario S3, scanned from `C:\music` with
the callback that records its deliveries: the four expected deliveries. -/
theorem ApplicationManager.rScanFolderWithCallback_deliveries_witness :
    (∃ n, ApplicationManager.rScanFolderWithCallback (fun _ => false) DecoderManager.new
        recordDelivery "C:\\music".toList DirListing.scenarioS3 { flagReads := 0, callbackState := [] }
      = Result.ok
          { flagReads := n
            callbackState :=
              (specDeliveries DecoderManager.new "C:\\music".toList DirListing.scenarioS3).foldl
                (fun state pathName => recordDelivery pathName state) [] })
    ∧ specDeliveries DecoderManager.new "C:\\music".toList DirListing.scenarioS3
        = ["C:\\music\\a.mp3".toList, "C:\\music\\live\\d.ogg".toList,
            "C:\\music\\b.flac".toList, "C:\\music\\c.wv".toList] :=
  ⟨ApplicationManager.rScanFolderWithCallback_deliveries (fun _ => false) DecoderManager.new
      recordDelivery "C:\\music".toList DirListing.scenarioS3 { flagReads := 0, callbackState := [] }
      (by decide) (fun _ => rfl),
    by decide⟩

set_option maxRecDepth 100000 in
/-- C14 (counterexample): the folder `C:\music` holds the supported file
`.a.mp3`, whose name begins with a period, and the folder `.cache` with the
supported file `b.mp3` in it.  The scan delivers `.a.mp3`, and nothing from
`.cache`. -/
theorem ApplicationManager.rScanFolderWithCallback_hidden_names :
    DecoderManager.new.IsSupportedType "C:\\music\\.a.mp3".toList = true
      ∧ ((ApplicationManager.rScanFolderWithCallback (fun _ => false) DecoderManager.new
            recordDelivery "C:\\music".toList DirListing.hiddenNames
            { flagReads := 0, callbackState := [] }).bind fun s => Result.ok s.callbackState)
          = Result.ok ["C:\\music\\.a.mp3".toList] := by
  decide

set_option maxRecDepth 100000 in
/-- Scenario S3: three supported files, two unsupported files and one folder
holding one supported file give exactly four deliveries, in the order of the
enumeration. -/
theorem ApplicationManager.rScanFolderWithCallback_scenarioS3 :
    ((ApplicationManager.rScanFolderWithCallback (fun _ => false) DecoderManager.new
          recordDelivery "C:\\music".toList DirListing.scenarioS3
          { flagReads := 0, callbackState := [] }).bind fun s => Result.ok s.callbackState)
      = Result.ok ["C:\\music\\a.mp3".toList, "C:\\music\\live\\d.ogg".toList,
          "C:\\music\\b.flac".toList, "C:\\music\\c.wv".toList] := by
  decide

/-- A scan that finds the stopping flag set at its first test leaves the loop
at once: the callback is not invoked. -/
theorem ApplicationManager.rScanFolderWithCallback_stopping {σ : Type}
    (stoppingAt : Nat → Bool) (dm : DecoderManager) (boundCallback : List Char → σ → σ)
    (folderPtr : List Char) (entries : DirListing) (s s1 : ScanState σ)
    (hstop : stoppingAt s.flagReads = true)
    (h : ApplicationManager.rScanFolderWithCallback stoppingAt dm boundCallback folderPtr entries s
      = Result.ok s1) :
    s1.callbackState = s.callbackState := by
  unfold ApplicationManager.rScanFolderWithCallback at h
  rw [Result.bind_eq_ok_iff] at h
  obtain ⟨folderPath, _, h⟩ := h
  cases entries with
  | nil =>
    rw [ApplicationManager.rScanFolderLoop] at h
    injection h with h
    rw [← h]
  | cons entry rest =>
    rw [ApplicationManager.rScanFolderLoop, if_pos hstop] at h
    injection h with h
    rw [← h]

/-! ## Coordinator: conservation of the counters -/

theorem intIncrement_eq_ok (value r : Int) (h : intIncrement value = Result.ok r) :
    r = value + 1 := by
  unfold intIncrement at h
  split at h
  · injection h with h
    exact h.symm
  · exact absurd h (by simp)

theorem intAdd_eq_ok (value amount r : Int) (h : intAdd value amount = Result.ok r) :
    r = value + amount := by
  unfold intAdd at h
  split at h
  · injection h with h
    exact h.symm
  · exact absurd h (by simp)

theorem toI32_of_lt (n : Nat) (h : n < 2 ^ 31) : toI32 n = (n : Int) := by
  unfold toI32
  have e : n % 2 ^ 32 = n := Nat.mod_eq_of_lt (by omega)
  rw [e, if_pos h]

/-- One step other than a cancel keeps the conservation and leaves both
stopping flags unset; the processed file list grows by at most one entry. -/
theorem Coordinator.step_conserved (c c1 : Coordinator) (s : CoordinatorStep)
    (hc : c.conserved)
    (hA : c.applicationManager.stoppingStateFlagEnabled = false)
    (hE : c.applicationManager.executionManager.stoppingStateFlagEnabled = false)
    (hP : c.applicationManager.executionManager.processedFileList.length < 2 ^ 31)
    (hs : s ≠ CoordinatorStep.cancel) (hen : c.enabled s = true)
    (hstep : c.step s = Result.ok c1) :
    c1.conserved
      ∧ c1.applicationManager.stoppingStateFlagEnabled = false
      ∧ c1.applicationManager.executionManager.stoppingStateFlagEnabled = false
      ∧ c1.applicationManager.executionManager.processedFileList.length
          ≤ c.applicationManager.executionManager.processedFileList.length + 1 := by
  unfold Coordinator.conserved at hc ⊢
  cases s with
  | push filenamePtr =>
    unfold Coordinator.step ApplicationManager.AddToFileList at hstep
    dsimp only at hstep
    rw [Result.bind_eq_ok_iff] at hstep
    obtain ⟨am, h1, h2⟩ := hstep
    rw [Result.bind_eq_ok_iff] at h1
    obtain ⟨total, h3, h4⟩ := h1
    have ht := intIncrement_eq_ok _ _ h3
    injection h4 with h4
    injection h2 with h2
    subst h2
    subst h4
    refine ⟨?_, hA, hE, Nat.le_succ _⟩
    show total = _ + ((c.applicationManager.listOfFilenames ++ [filenamePtr]).length : Int) + _
    rw [ht, List.length_append, hc]
    simp only [List.length_singleton]
    push_cast
    ring
  | pop =>
    unfold Coordinator.step ApplicationManager.GetNextAvailableFilename at hstep
    dsimp only at hstep
    cases hl : c.applicationManager.listOfFilenames with
    | nil =>
      rw [hl] at hstep
      dsimp only at hstep
      rw [if_neg (by decide)] at hstep
      injection hstep with hstep
      subst hstep
      exact ⟨hc, hA, hE, Nat.le_succ _⟩
    | cons filename rest =>
      rw [hl] at hstep hc
      dsimp only at hstep
      rw [if_pos rfl] at hstep
      injection hstep with hstep
      subst hstep
      refine ⟨?_, hA, hE, Nat.le_succ _⟩
      show c.applicationManager.totalFilesToProcess
        = c.applicationManager.filesProcessedCount + (rest.length : Int) + ((c.inFlight + 1 : Nat) : Int)
      rw [hc, List.length_cons]
      push_cast
      ring
  | fileFinished =>
    have hpos : 0 < c.inFlight := by
      unfold Coordinator.enabled at hen
      exact of_decide_eq_true hen
    unfold Coordinator.step WndProc.MSG_THREAD_FILE_PROCESSED
      ApplicationManager.IncrementFilesProcessed at hstep
    rw [Result.bind_eq_ok_iff] at hstep
    obtain ⟨am, h1, h2⟩ := hstep
    rw [Result.bind_eq_ok_iff] at h1
    obtain ⟨count, h3, h4⟩ := h1
    have ht := intIncrement_eq_ok _ _ h3
    injection h4 with h4
    injection h2 with h2
    subst h2
    subst h4
    refine ⟨?_, hA, hE, Nat.le_succ _⟩
    show c.applicationManager.totalFilesToProcess
      = count + (c.applicationManager.listOfFilenames.length : Int) + ((c.inFlight - 1 : Nat) : Int)
    rw [ht, hc]
    omega
  | cancel => exact absurd rfl hs
  | addFolder folderNamePtr =>
    unfold Coordinator.step at hstep
    injection hstep with hstep
    subst hstep
    exact ⟨hc, hA, hE, Nat.le_succ _⟩
  | scanStart =>
    unfold Coordinator.step ExecutionManager.GetNextFolder at hstep
    dsimp only at hstep
    cases hq : c.applicationManager.executionManager.folderQueue with
    | nil =>
      rw [hq] at hstep
      dsimp only at hstep
      rw [if_neg (by decide)] at hstep
      injection hstep with hstep
      subst hstep
      exact ⟨hc, hA, hE, Nat.le_succ _⟩
    | cons folderName rest =>
      rw [hq] at hstep
      dsimp only at hstep
      rw [if_pos rfl] at hstep
      injection hstep with hstep
      subst hstep
      exact ⟨hc, hA, hE, Nat.le_succ _⟩
  | scanDeliver filenamePtr =>
    unfold Coordinator.step at hstep
    injection hstep with hstep
    subst hstep
    refine ⟨hc, hA, hE, ?_⟩
    show (c.applicationManager.executionManager.processedFileList ++ [filenamePtr]).length ≤ _
    rw [List.length_append]
    rfl
  | scanEnd =>
    unfold Coordinator.step ApplicationManager.ScanFolderAsyncEnd at hstep
    rw [Result.bind_eq_ok_iff] at hstep
    obtain ⟨am, h1, h2⟩ := hstep
    injection h2 with h2
    subst h2
    dsimp only at h1
    have hE1 : c.applicationManager.executionManager.IsStoppingStateFlagEnabled = false := hE
    rw [hE1] at h1
    by_cases hq : c.applicationManager.executionManager.IsFolderQueueEmpty = true
    · rw [hq, if_pos (by decide)] at h1
      rw [Result.bind_eq_ok_iff] at h1
      obtain ⟨total, h3, h4⟩ := h1
      have ht := intAdd_eq_ok _ _ _ h3
      injection h4 with h4
      subst h4
      refine ⟨?_, hA, hE, Nat.zero_le _⟩
      show total = c.applicationManager.filesProcessedCount
        + ((c.applicationManager.listOfFilenames
            ++ c.applicationManager.executionManager.processedFileList).length : Int) + _
      rw [ht, toI32_of_lt _ hP, List.length_append]
      show c.applicationManager.totalFilesToProcess + _ = _
      rw [hc]
      push_cast
      ring
    · have hq1 : c.applicationManager.executionManager.IsFolderQueueEmpty = false := by
        cases h : c.applicationManager.executionManager.IsFolderQueueEmpty
        · rfl
        · exact absurd h hq
      rw [hq1, if_neg (by decide), if_neg (by decide)] at h1
      injection h1 with h1
      subst h1
      exact ⟨hc, hA, hE, Nat.le_succ _⟩
  | scanStop =>
    unfold Coordinator.step at hstep
    injection hstep with hstep
    subst hstep
    exact ⟨hc, hA, hE, Nat.le_succ _⟩

theorem Coordinator.run_conserved (steps : List CoordinatorStep) :
    ∀ (c c1 : Coordinator), c.conserved →
      c.applicationManager.stoppingStateFlagEnabled = false →
      c.applicationManager.executionManager.stoppingStateFlagEnabled = false →
      c.applicationManager.executionManager.processedFileList.length + steps.length < 2 ^ 31 →
      CoordinatorStep.cancel ∉ steps →
      Coordinator.run steps c = some c1 →
      c1.conserved ∧ c1.applicationManager.IsStoppingState = false := by
  induction steps with
  | nil =>
    intro c c1 hc hA hE _ _ hrun
    rw [Coordinator.run] at hrun
    injection hrun with hrun
    subst hrun
    refine ⟨hc, ?_⟩
    unfold ApplicationManager.IsStoppingState ApplicationManager.IsStoppingStateFlagEnabled
      ExecutionManager.IsStoppingStateFlagEnabled
    rw [hA, hE]
    rfl
  | cons s rest ih =>
    intro c c1 hc hA hE hP hno hrun
    rw [Coordinator.run] at hrun
    by_cases hen : c.enabled s = true
    · rw [if_pos hen] at hrun
      cases hstep : c.step s with
      | ok next =>
        rw [hstep] at hrun
        dsimp only at hrun
        have hs : s ≠ CoordinatorStep.cancel := by
          intro k
          exact hno (by rw [k]; exact List.mem_cons_self _ _)
        rw [List.length_cons] at hP
        obtain ⟨k1, k2, k3, k4⟩ := Coordinator.step_conserved c next s hc hA hE (by omega) hs hen hstep
        exact ih next c1 k1 k2 k3 (by omega) (fun k => hno (List.mem_cons_of_mem _ k)) hrun
      | undefinedBehaviour =>
        rw [hstep] at hrun
        exact absurd hrun (by simp)
      | outOfFuel =>
        rw [hstep] at hrun
        exact absurd hrun (by simp)
    · rw [if_neg hen] at hrun
      exact absurd hrun (by simp)

/-- C15 (amended): every state the coordinator reaches from its initial state
by fewer than `2^31` steps, none of them a cancel, satisfies
`totalFilesToProcess = filesProcessedCount + length of listOfFilenames + number
of files removed by a worker and not yet reported`, and is not in the stopping
state.  The steps are push, pop, file finished, and those of a folder scan
with its splice at the end. -/
theorem Coordinator.conserved_without_cancel (steps : List CoordinatorStep) (c : Coordinator)
    (hlen : steps.length < 2 ^ 31) (hno : CoordinatorStep.cancel ∉ steps)
    (hrun : Coordinator.run steps Coordinator.initial = some c) :
    c.conserved ∧ c.applicationManager.IsStoppingState = false :=
  Coordinator.run_conserved steps Coordinator.initial c (by unfold Coordinator.conserved; decide)
    rfl rfl (by
      show 0 + steps.length < 2 ^ 31
      omega) hno hrun

/-- C15 (amended) at nine steps without a cancel: two pushes, a pop, a folder
scan that delivers one file and splices it, and the report of the removed file. -/
theorem Coordinator.conserved_without_cancel_witness :
    ({ applicationManager :=
        { ApplicationManager.new with
          listOfFilenames := ["b.mp3".toList, "c.mp3".toList]
          filesProcessedCount := 1
          totalFilesToProcess := 3 }
       inFlight := 0 } : Coordinator).conserved
      ∧ ({ ApplicationManager.new with
          listOfFilenames := ["b.mp3".toList, "c.mp3".toList]
          filesProcessedCount := 1
          totalFilesToProcess := 3 } : ApplicationManager).IsStoppingState = false :=
  Coordinator.conserved_without_cancel
    [CoordinatorStep.push "a.mp3".toList, CoordinatorStep.push "b.mp3".toList,
      CoordinatorStep.pop, CoordinatorStep.addFolder "f".toList, CoordinatorStep.scanStart,
      CoordinatorStep.scanDeliver "c.mp3".toList, CoordinatorStep.scanEnd,
      CoordinatorStep.scanStop, CoordinatorStep.fileFinished]
    { applicationManager :=
        { ApplicationManager.new with
          listOfFilenames := ["b.mp3".toList, "c.mp3".toList]
          filesProcessedCount := 1
          totalFilesToProcess := 3 }
      inFlight := 0 }
    (by decide) (by decide) (by decide)

/-- C15 (counterexample): two pushes and a cancel.  The list of file names is
empty, nothing was processed and no worker holds a file, yet
`totalFilesToProcess` is still 2. -/
theorem Coordinator.cancel_not_conserved :
    ∃ c, Coordinator.run
        [CoordinatorStep.push "a.mp3".toList, CoordinatorStep.push "b.mp3".toList,
          CoordinatorStep.cancel] Coordinator.initial = some c
      ∧ c.applicationManager.totalFilesToProcess = 2
      ∧ c.applicationManager.filesProcessedCount = 0
      ∧ c.applicationManager.listOfFilenames = []
      ∧ c.inFlight = 0
      ∧ c.applicationManager.IsStoppingState = true
      ∧ ¬ c.conserved :=
  ⟨_, rfl, rfl, rfl, rfl, rfl, rfl, by unfold Coordinator.conserved; decide⟩

/-- What a cancel does to the counters: the list of file names is emptied, the
total and the number of processed files stay as they are. -/
theorem WndProc.BN_CLICKED_counters (am : ApplicationManager) :
    (WndProc.BN_CLICKED am).listOfFilenames = []
      ∧ (WndProc.BN_CLICKED am).totalFilesToProcess = am.totalFilesToProcess
      ∧ (WndProc.BN_CLICKED am).filesProcessedCount = am.filesProcessedCount := by
  unfold WndProc.BN_CLICKED ApplicationManager.ClearListOfFilenames
    ApplicationManager.EnableStoppingState ApplicationManager.SetStoppingStateFlagEnabled
    ApplicationManager.SetStopButtonPressedFlag
  dsimp only
  split_ifs <;> exact ⟨rfl, rfl, rfl⟩

/-- What the end of a scan does after a stop reached the `ExecutionManager`:
everything is discarded, the total is set to 0, the number of processed files
stays as it is, and both stopping flags are reset. -/
theorem ApplicationManager.ScanFolderAsyncEnd_discard (am : ApplicationManager)
    (h : am.executionManager.stoppingStateFlagEnabled = true) :
    ∃ am1, am.ScanFolderAsyncEnd = Result.ok am1
      ∧ am1.listOfFilenames = [] ∧ am1.totalFilesToProcess = 0
      ∧ am1.filesProcessedCount = am.filesProcessedCount
      ∧ am1.executionManager.folderQueue = [] ∧ am1.executionManager.processedFileList = []
      ∧ am1.IsStoppingState = false := by
  have h1 : am.executionManager.IsStoppingStateFlagEnabled = true := h
  unfold ApplicationManager.ScanFolderAsyncEnd
  dsimp only
  have hneg : ¬ ((!true && am.executionManager.IsFolderQueueEmpty) = true) := by simp
  rw [h1, if_neg hneg, if_pos rfl]
  exact ⟨_, rfl, rfl, rfl, rfl, rfl, rfl, rfl⟩

set_option maxRecDepth 100000 in
/-- A cancel while a folder scan runs, then the end of the scan: one file was
processed before, the scan discards its delivery and sets the total to 0, so
the total is below the number of processed files. -/
theorem Coordinator.discard_not_conserved :
    (Coordinator.run
        [CoordinatorStep.push "a.mp3".toList, CoordinatorStep.addFolder "f".toList,
          CoordinatorStep.scanStart, CoordinatorStep.scanDeliver "b.mp3".toList,
          CoordinatorStep.pop, CoordinatorStep.fileFinished, CoordinatorStep.cancel,
          CoordinatorStep.scanEnd, CoordinatorStep.scanStop] Coordinator.initial).map
      (fun c => (c.applicationManager.totalFilesToProcess, c.applicationManager.filesProcessedCount,
        c.applicationManager.listOfFilenames, c.inFlight, c.applicationManager.IsStoppingState))
      = some (0, 1, [], 0, false) := by
  decide

/-- The splice at the end of a scan counts the processed file list through a
conversion to `int`: a list of `2^32` entries is spliced and the total stays
as it is. -/
theorem ApplicationManager.ScanFolderAsyncEnd_wrap (am : ApplicationManager)
    (hE : am.executionManager.stoppingStateFlagEnabled = false)
    (hq : am.executionManager.folderQueue = [])
    (hlen : am.executionManager.processedFileList.length = 2 ^ 32)
    (htotal : -INT_MAX - 1 ≤ am.totalFilesToProcess ∧ am.totalFilesToProcess ≤ INT_MAX) :
    ∃ am1, am.ScanFolderAsyncEnd = Result.ok am1
      ∧ am1.totalFilesToProcess = am.totalFilesToProcess
      ∧ am1.listOfFilenames.length = am.listOfFilenames.length + 2 ^ 32 := by
  have h1 : am.executionManager.IsStoppingStateFlagEnabled = false := hE
  have h2 : am.executionManager.IsFolderQueueEmpty = true := by
    unfold ExecutionManager.IsFolderQueueEmpty
    rw [hq]
    rfl
  have h3 : toI32 (2 ^ 32) = 0 := by decide
  unfold ApplicationManager.ScanFolderAsyncEnd intAdd
  dsimp only
  rw [h1, h2, if_pos (by decide), hlen, h3, Int.add_zero, if_pos htotal, Result.bind_ok]
  refine ⟨_, rfl, rfl, ?_⟩
  show (am.listOfFilenames ++ am.executionManager.processedFileList).length = _
  rw [List.length_append, hlen]

/-! ## ApplicationManager: adding a file in the stopping state -/

/-- `AddSupportedTypeSync` with the path of a folder while the stopping flag of
the `ApplicationManager` is set: the scan leaves its loop at the first test of
the flag and nothing is added. -/
theorem ApplicationManager.AddSupportedTypeSync_folder_stopping (am : ApplicationManager)
    (filenamePtr : List Char) (entries : DirListing) (setPendingEventFlag : Bool)
    (hstop : am.stoppingStateFlagEnabled = true) (hpath : filenamePtr ≠ []) :
    am.AddSupportedTypeSync filenamePtr (some entries) setPendingEventFlag = Result.ok am := by
  have h1 : am.IsStoppingStateFlagEnabled = true := hstop
  unfold ApplicationManager.AddSupportedTypeSync ApplicationManager.rScanFolderWithCallback
  dsimp only
  rw [ApplicationManager.folderPathOf_eq _ hpath, Result.bind_ok, h1]
  cases entries with
  | nil =>
    rw [ApplicationManager.rScanFolderLoop, Result.bind_ok]
  | cons entry rest =>
    rw [ApplicationManager.rScanFolderLoop, if_pos rfl, Result.bind_ok]

/-- `AddSupportedTypeSync` with the path of a supported file adds it to the
list of file names and counts it, whatever the stopping flags are. -/
theorem ApplicationManager.AddSupportedTypeSync_file (am : ApplicationManager)
    (filenamePtr : List Char) (setPendingEventFlag : Bool)
    (hsup : am.decoderManager.IsSupportedType filenamePtr = true)
    (htotal : am.totalFilesToProcess < INT_MAX) :
    am.AddSupportedTypeSync filenamePtr none setPendingEventFlag
      = Result.ok { am with
          listOfFilenames := am.listOfFilenames ++ [filenamePtr]
          totalFilesToProcess := am.totalFilesToProcess + 1 } := by
  unfold ApplicationManager.AddSupportedTypeSync ApplicationManager.AddFileSync
    ApplicationManager.AddToFileList intIncrement
  dsimp only
  rw [if_pos hsup, if_pos htotal]
  rfl

/-- The sibling of `WM_COPYDATA`: in the stopping state `WM_DROPFILES` leaves
the application as it is, whatever was dropped. -/
theorem WndProc.WM_DROPFILES_while_stopping (am : ApplicationManager)
    (OnDrop : ApplicationManager → Result ApplicationManager)
    (h : am.IsStoppingState = true) :
    WndProc.WM_DROPFILES am OnDrop = Result.ok am := by
  unfold WndProc.WM_DROPFILES
  rw [h]
  rfl

set_option maxRecDepth 100000 in
/-- C16 (evaluation at the failing input): a file is added, the Stop button is
clicked, and `WM_COPYDATA` arrives with the path of a supported file.  The
application is in the stopping state when the message arrives and still is
afterwards, and the path has entered the list of file names and was counted. -/
theorem WndProc.WM_COPYDATA_while_stopping :
    ((WndProc.WM_COPYDATA ApplicationManager.new true "C:\\music\\a.mp3".toList none).bind fun am =>
        let stopping := WndProc.BN_CLICKED am
        (WndProc.WM_COPYDATA stopping true "C:\\music\\b.mp3".toList none).bind fun am1 =>
        Result.ok ((stopping.IsStoppingState, stopping.listOfFilenames, stopping.totalFilesToProcess),
          (am1.IsStoppingState, am1.listOfFilenames, am1.totalFilesToProcess)))
      = Result.ok ((true, [], 1), (true, ["C:\\music\\b.mp3".toList], 2)) := by
  decide

/-! ## ApplicationManager: a cancel in the idle state -/

/-- C17 (amended): in every idle state (empty list of file names, empty folder
queue, no scan running, both stopping flags unset) the cancel operation,
`EnableStoppingState` followed by `ClearListOfFilenames`, changes one member:
it sets the stopping flag of the `ApplicationManager`, so the state is not the
one it started from.  The queues, the counters and the stopping flag of the
`ExecutionManager` are as before, and `IsStoppingState()` is true afterwards. -/
theorem ApplicationManager.cancel_idle (am : ApplicationManager)
    (hlist : am.listOfFilenames = []) (hqueue : am.executionManager.folderQueue = [])
    (hrunning : am.executionManager.runningStateFlagEnabled = false)
    (hstopping : am.stoppingStateFlagEnabled = false)
    (hstoppingEM : am.executionManager.stoppingStateFlagEnabled = false) :
    am.EnableStoppingState.ClearListOfFilenames = { am with stoppingStateFlagEnabled := true }
      ∧ am.EnableStoppingState.ClearListOfFilenames ≠ am
      ∧ am.EnableStoppingState.ClearListOfFilenames.listOfFilenames = []
      ∧ am.EnableStoppingState.ClearListOfFilenames.executionManager.folderQueue = []
      ∧ am.EnableStoppingState.ClearListOfFilenames.executionManager.stoppingStateFlagEnabled = false
      ∧ am.EnableStoppingState.ClearListOfFilenames.IsStoppingState = true := by
  have h1 : (am.SetStoppingStateFlagEnabled true).executionManager.IsRunningStateFlagEnabled
      = false := hrunning
  have key : am.EnableStoppingState.ClearListOfFilenames
      = { am with stoppingStateFlagEnabled := true } := by
    unfold ApplicationManager.EnableStoppingState
    dsimp only
    rw [h1, if_neg (by decide)]
    unfold ApplicationManager.ClearListOfFilenames ApplicationManager.SetStoppingStateFlagEnabled
    dsimp only
    rw [← hlist]
  rw [key]
  refine ⟨rfl, ?_, hlist, hqueue, hstoppingEM, rfl⟩
  intro h
  have k := congrArg ApplicationManager.stoppingStateFlagEnabled h
  rw [hstopping] at k
  have k2 : true = false := k
  exact absurd k2 (by decide)

/-- C17 (amended) at the state after construction. -/
theorem ApplicationManager.cancel_idle_witness :
    ApplicationManager.new.EnableStoppingState.ClearListOfFilenames
        = { ApplicationManager.new with stoppingStateFlagEnabled := true }
      ∧ ApplicationManager.new.EnableStoppingState.ClearListOfFilenames ≠ ApplicationManager.new
      ∧ ApplicationManager.new.EnableStoppingState.ClearListOfFilenames.listOfFilenames = []
      ∧ ApplicationManager.new.EnableStoppingState.ClearListOfFilenames.executionManager.folderQueue
          = []
      ∧ ApplicationManager.new.EnableStoppingState.ClearListOfFilenames.executionManager.stoppingStateFlagEnabled
          = false
      ∧ ApplicationManager.new.EnableStoppingState.ClearListOfFilenames.IsStoppingState = true :=
  ApplicationManager.cancel_idle ApplicationManager.new rfl rfl rfl rfl rfl

/-- C17 (counterexample): the state after construction is idle; after the
cancel operation the stopping flag of the `ApplicationManager` is set, the
state differs from the one before, and `IsStoppingState()` is true. -/
theorem ApplicationManager.cancel_new :
    ApplicationManager.new.listOfFilenames = []
      ∧ ApplicationManager.new.executionManager.folderQueue = []
      ∧ ApplicationManager.new.executionManager.runningStateFlagEnabled = false
      ∧ ApplicationManager.new.IsStoppingState = false
      ∧ ApplicationManager.new.EnableStoppingState.ClearListOfFilenames.stoppingStateFlagEnabled = true
      ∧ ApplicationManager.new.EnableStoppingState.ClearListOfFilenames ≠ ApplicationManager.new
      ∧ ApplicationManager.new.EnableStoppingState.ClearListOfFilenames.IsStoppingState = true := by
  refine ⟨rfl, rfl, rfl, rfl, rfl, ?_, rfl⟩
  intro h
  have k := congrArg ApplicationManager.stoppingStateFlagEnabled h
  exact absurd k (by decide)

/-- A push and a pop: the list of file names is empty again, no folder waits,
no scan runs and no stopping flag is set, while a worker thread still holds the
file it removed.  A cancel in that state puts the application into the
stopping state. -/
theorem Coordinator.cancel_with_file_in_flight :
    (Coordinator.run [CoordinatorStep.push "a.mp3".toList, CoordinatorStep.pop]
        Coordinator.initial).map
      (fun c => (c.applicationManager.listOfFilenames, c.applicationManager.executionManager,
        c.applicationManager.IsStoppingState, c.inFlight))
      = some ([], ExecutionManager.new, false, 1)
    ∧ (Coordinator.run [CoordinatorStep.push "a.mp3".toList, CoordinatorStep.pop,
        CoordinatorStep.cancel] Coordinator.initial).map
      (fun c => (c.applicationManager.listOfFilenames, c.applicationManager.executionManager,
        c.applicationManager.IsStoppingState, c.inFlight))
      = some ([], ExecutionManager.new, true, 1) := by
  decide

/-! ## MP3Decoder: the residue of CRC16 -/

/-- Every bit pass leaves a 16-bit register. -/
theorem MP3Decoder.CRC16Bit_lt (crc : Nat) : MP3Decoder.CRC16Bit crc < 65536 := by
  unfold MP3Decoder.CRC16Bit
  split <;> exact Nat.mod_lt _ (by norm_num)

theorem MP3Decoder.CRC16Bits_lt (n : Nat) : ∀ crc : Nat, crc < 65536 →
    MP3Decoder.CRC16Bits n crc < 65536 := by
  induction n with
  | zero => intro crc h; exact h
  | succ n ih => intro crc _; exact ih _ (MP3Decoder.CRC16Bit_lt crc)

theorem MP3Decoder.CRC16_lt (bufferData : List Byte) : MP3Decoder.CRC16 bufferData < 65536 := by
  unfold MP3Decoder.CRC16
  have H : ∀ (l : List Byte) (c : Nat), c < 65536 → l.foldl MP3Decoder.CRC16Byte c < 65536 := by
    intro l
    induction l with
    | nil => intro c h; exact h
    | cons b l ih =>
      intro c _
      exact ih _ (MP3Decoder.CRC16Bits_lt 7 _ (MP3Decoder.CRC16Bit_lt (c ^^^ ((b.val <<< 8) % 65536))))
  exact H _ _ (by norm_num)

/-- Bit passes on a register whose top bits are clear only shift it. -/
theorem MP3Decoder.CRC16Bits_shift (n : Nat) : ∀ x : Nat, x * 2 ^ n < 65536 →
    MP3Decoder.CRC16Bits n x = x * 2 ^ n := by
  induction n with
  | zero => intro x _; simp [MP3Decoder.CRC16Bits]
  | succ n ih =>
    intro x h
    have hx : x < 2 ^ 15 := by
      have : 1 ≤ 2 ^ n := Nat.one_le_two_pow
      rw [pow_succ] at h
      nlinarith
    have hb : ¬ (x &&& 0x8000 ≠ 0) := by
      rw [and_0x8000_ne_zero, Nat.testBit_eq_false_of_lt hx]
      decide
    have e : MP3Decoder.CRC16Bit x = x * 2 := by
      unfold MP3Decoder.CRC16Bit
      rw [if_neg hb, Nat.shiftLeft_eq]
      norm_num at hx ⊢
      omega
    show MP3Decoder.CRC16Bits n (MP3Decoder.CRC16Bit x) = _
    rw [e, ih _ (by rw [pow_succ] at h; nlinarith), pow_succ]
    ring

theorem xor_high_byte (c : Nat) (h : c < 65536) :
    c ^^^ ((((c >>> 8) % 256) <<< 8) % 65536) = c % 256 := by
  apply Nat.eq_of_testBit_eq
  intro i
  have h16 : (65536 : Nat) = 2 ^ 16 := by norm_num
  have h8 : (256 : Nat) = 2 ^ 8 := by norm_num
  rw [h16, h8]
  simp only [Nat.testBit_mod_two_pow, Nat.testBit_xor, Nat.testBit_shiftLeft,
    Nat.testBit_shiftRight]
  by_cases h1 : i < 8
  · have a : ¬ (i ≥ 8) := by omega
    simp [h1, a]
  · have a : i ≥ 8 := by omega
    by_cases h2 : i < 16
    · have b : i - 8 < 8 := by omega
      have e : 8 + (i - 8) = i := by omega
      simp [h1, a, h2, b, e]
    · have e : c.testBit i = false := by
        apply Nat.testBit_eq_false_of_lt
        calc c < 2 ^ 16 := by omega
          _ ≤ 2 ^ i := Nat.pow_le_pow_right (by norm_num) (by omega)
      simp [h1, h2, e]

/-- C30. Appending to a message the two bytes of its `CRC16` value, high byte
first, gives a message whose `CRC16` is zero, and the `CRC16` of the empty
message is `0xFFFF`. -/
theorem MP3Decoder.CRC16_residue (m : List Byte) :
    MP3Decoder.CRC16 (m ++ [Fin.ofNat (MP3Decoder.CRC16 m >>> 8),
        Fin.ofNat (MP3Decoder.CRC16 m &&& 0xFF)]) = 0
      ∧ MP3Decoder.CRC16 [] = 0xFFFF := by
  refine ⟨?_, rfl⟩
  have hc := MP3Decoder.CRC16_lt m
  generalize hcd : MP3Decoder.CRC16 m = c at hc
  have e0 : MP3Decoder.CRC16 (m ++ [Fin.ofNat (c >>> 8), Fin.ofNat (c &&& 0xFF)])
      = MP3Decoder.CRC16Byte (MP3Decoder.CRC16Byte c (Fin.ofNat (c >>> 8))) (Fin.ofNat (c &&& 0xFF)) := by
    unfold MP3Decoder.CRC16
    rw [List.foldl_append]
    unfold MP3Decoder.CRC16 at hcd
    rw [hcd]
    rfl
  rw [e0]
  have v1 : (Fin.ofNat (c >>> 8) : Byte).val = (c >>> 8) % 256 := rfl
  have v2 : (Fin.ofNat (c &&& 0xFF) : Byte).val = c % 256 := by
    show (c &&& 0xFF) % 256 = c % 256
    have : (0xFF : Nat) = 2 ^ 8 - 1 := by norm_num
    rw [this, Nat.and_pow_two_sub_one_eq_mod]
    norm_num
  have s1 : MP3Decoder.CRC16Byte c (Fin.ofNat (c >>> 8)) = (c % 256) * 2 ^ 8 := by
    unfold MP3Decoder.CRC16Byte
    rw [v1, xor_high_byte c hc]
    exact MP3Decoder.CRC16Bits_shift 8 _ (by omega)
  rw [s1]
  unfold MP3Decoder.CRC16Byte
  rw [v2]
  have e2 : ((c % 256) <<< 8) % 65536 = (c % 256) * 2 ^ 8 := by
    rw [Nat.shiftLeft_eq]
    omega
  rw [e2, Nat.xor_self]
  exact MP3Decoder.CRC16Bits_shift 8 0 (by norm_num)

/-! ## MP3Decoder: what the header mask compares -/

theorem and_mask_field (c p M k m : Nat) (h : c &&& M = p &&& M)
    (hm : ∀ j, m.testBit j = true → M.testBit (k + j) = true) :
    (c >>> k) &&& m = (p >>> k) &&& m := by
  apply Nat.eq_of_testBit_eq
  intro j
  simp only [Nat.testBit_and, Nat.testBit_shiftRight]
  by_cases hj : m.testBit j = true
  · have e := congrArg (fun x => x.testBit (k + j)) h
    simp only [Nat.testBit_and, hm j hj, Bool.and_true] at e
    rw [e]
  · have : m.testBit j = false := by simpa using hj
    rw [this, Bool.and_false, Bool.and_false]

theorem testBit_three (j : Nat) (h : (3 : Nat).testBit j = true) : j = 0 ∨ j = 1 := by
  rcases j with _ | _ | j
  · exact Or.inl rfl
  · exact Or.inr rfl
  · have : (3 : Nat).testBit (j + 2) = false := by
      apply Nat.testBit_eq_false_of_lt
      calc 3 < 2 ^ 2 := by norm_num
        _ ≤ 2 ^ (j + 2) := Nat.pow_le_pow_right (by norm_num) (by omega)
    rw [this] at h
    cases h

theorem MP3Decoder.GetFrameLengthByLayer_sampleRate (d : MP3Decoder) :
    d.GetFrameLengthByLayer.2.m_sampleRate = d.m_sampleRate := by
  unfold MP3Decoder.GetFrameLengthByLayer
  dsimp only
  split_ifs <;> rfl

/-- The sample rate `GetFrameLength` leaves for a header it returns a length
other than 0 for: the entry of `MP3_SAMPLE_RATES` for the sample-rate index
and the version of the header. -/
theorem MP3Decoder.GetFrameLength_sampleRate (d : MP3Decoder) (h : d.GetFrameLength.1 ≠ 0) :
    d.GetFrameLength.2.m_sampleRate
      = tableAt MP3_SAMPLE_RATES ((d.m_currentFrameHeader >>> 10) &&& 0x03)
          (MP3Decoder.sampleRateColumnIndex ((d.m_currentFrameHeader >>> 19) &&& 0x03)) := by
  unfold MP3Decoder.GetFrameLength at h ⊢
  dsimp only at h ⊢
  split_ifs at h ⊢
  · exact absurd rfl h
  · rw [MP3Decoder.GetFrameLengthByLayer_sampleRate]
  · exact absurd rfl h
  · exact absurd rfl h
  · exact absurd rfl h

/-- C25 (as the code has it). Two headers for which `GetFrameLength` returns a
length other than 0 and that agree on the bits `0xFFFE0C00`, which is what
`Read` and `ResynchronizeBitstream` compare, have the same version, the same
layer and the same sample-rate index, and `GetFrameLength` decodes the same
sample rate from both.  The channel mode (bits 6..7) is outside the mask. -/
theorem MP3Decoder.same_header_fields (dc dp : MP3Decoder)
    (hc : dc.GetFrameLength.1 ≠ 0) (hp : dp.GetFrameLength.1 ≠ 0)
    (hmask : dc.m_currentFrameHeader &&& 0xFFFE0C00 = dp.m_currentFrameHeader &&& 0xFFFE0C00) :
    dc.GetFrameLength.2.m_encodingVersion = dp.GetFrameLength.2.m_encodingVersion
      ∧ dc.GetFrameLength.2.m_layerDescription = dp.GetFrameLength.2.m_layerDescription
      ∧ (dc.m_currentFrameHeader >>> 10) &&& 0x03 = (dp.m_currentFrameHeader >>> 10) &&& 0x03
      ∧ dc.GetFrameLength.2.m_sampleRate = dp.GetFrameLength.2.m_sampleRate := by
  have v : (dc.m_currentFrameHeader >>> 19) &&& 0x03 = (dp.m_currentFrameHeader >>> 19) &&& 0x03 := by
    apply and_mask_field _ _ _ _ _ hmask
    intro j hj
    rcases testBit_three j hj with rfl | rfl <;> decide
  have l : (dc.m_currentFrameHeader >>> 17) &&& 0x03 = (dp.m_currentFrameHeader >>> 17) &&& 0x03 := by
    apply and_mask_field _ _ _ _ _ hmask
    intro j hj
    rcases testBit_three j hj with rfl | rfl <;> decide
  have s : (dc.m_currentFrameHeader >>> 10) &&& 0x03 = (dp.m_currentFrameHeader >>> 10) &&& 0x03 := by
    apply and_mask_field _ _ _ _ _ hmask
    intro j hj
    rcases testBit_three j hj with rfl | rfl <;> decide
  have fc := MP3Decoder.GetFrameLength_fields dc (MP3Decoder.GetFrameLength_ne_zero dc hc).1
  have fp := MP3Decoder.GetFrameLength_fields dp (MP3Decoder.GetFrameLength_ne_zero dp hp).1
  refine ⟨?_, ?_, s, ?_⟩
  · rw [fc.2.1, fp.2.1, v]
  · rw [fc.1, fp.1, l]
  · rw [MP3Decoder.GetFrameLength_sampleRate dc hc, MP3Decoder.GetFrameLength_sampleRate dp hp, s, v]

/-- C25: the theorem at the headers `FF FB 18 C0` and `FF FB 18 00`. -/
theorem MP3Decoder.same_header_fields_witness :
    ({ MP3Decoder.new with m_currentFrameHeader := MP3Decoder.monoHeader } : MP3Decoder).GetFrameLength.2.m_encodingVersion
        = ({ MP3Decoder.new with m_currentFrameHeader := MP3Decoder.stereoHeader } : MP3Decoder).GetFrameLength.2.m_encodingVersion
      ∧ ({ MP3Decoder.new with m_currentFrameHeader := MP3Decoder.monoHeader } : MP3Decoder).GetFrameLength.2.m_layerDescription
        = ({ MP3Decoder.new with m_currentFrameHeader := MP3Decoder.stereoHeader } : MP3Decoder).GetFrameLength.2.m_layerDescription
      ∧ (MP3Decoder.monoHeader >>> 10) &&& 0x03 = (MP3Decoder.stereoHeader >>> 10) &&& 0x03
      ∧ ({ MP3Decoder.new with m_currentFrameHeader := MP3Decoder.monoHeader } : MP3Decoder).GetFrameLength.2.m_sampleRate
        = ({ MP3Decoder.new with m_currentFrameHeader := MP3Decoder.stereoHeader } : MP3Decoder).GetFrameLength.2.m_sampleRate :=
  MP3Decoder.same_header_fields
    { MP3Decoder.new with m_currentFrameHeader := MP3Decoder.monoHeader }
    { MP3Decoder.new with m_currentFrameHeader := MP3Decoder.stereoHeader }
    (by decide) (by decide) (by decide)

set_option maxRecDepth 100000 in
/-- C25 (counterexample). The headers `FF FB 18 00` (stereo) and `FF FB 18 C0`
(single channel) are both headers `GetFrameLength` returns 144 for and agree
on the bits `0xFFFE0C00`, but their channel modes differ, and so does the
channel flag `GetFrameLength` decodes.  On the file made of a stereo frame, a
single-channel frame and a stereo frame, `Read` accepts the single-channel
frame after the stereo one. -/
theorem MP3Decoder.same_header_channel_mode :
    MP3Decoder.frameLength MP3Decoder.stereoHeader = 144
      ∧ MP3Decoder.frameLength MP3Decoder.monoHeader = 144
      ∧ MP3Decoder.monoHeader &&& 0xFFFE0C00 = MP3Decoder.stereoHeader &&& 0xFFFE0C00
      ∧ (MP3Decoder.monoHeader >>> 6) &&& 0x03 = 3
      ∧ (MP3Decoder.stereoHeader >>> 6) &&& 0x03 = 0
      ∧ ({ MP3Decoder.new with m_currentFrameHeader := MP3Decoder.monoHeader } : MP3Decoder).GetFrameLength.2.m_singleChannelMono = 1
      ∧ ({ MP3Decoder.new with m_currentFrameHeader := MP3Decoder.stereoHeader } : MP3Decoder).GetFrameLength.2.m_singleChannelMono = 0
      ∧ ((MP3Decoder.new.OpenFile (MP3Decoder.frame144 ++ MP3Decoder.frame144Mono
            ++ MP3Decoder.frame144)).bind fun d =>
          MP3Decoder.ReadAllHeaders (fun _ _ => 0) 3 d)
        = Result.ok [(144, MP3Decoder.stereoHeader), (144, MP3Decoder.monoHeader),
            (0, MP3Decoder.stereoHeader)] := by
  decide

/-! ## MP3Decoder: the length of the ID3v2 tag -/

/-- The syncsafe value of four bytes below `0x80`, written with shifts and
ORs, is their weighted sum. -/
theorem syncsafe_or (b6 b7 b8 b9 : Nat) (h7 : b7 < 128) (h8 : b8 < 128)
    (h9 : b9 < 128) :
    (b6 <<< 21) ||| (b7 <<< 14) ||| (b8 <<< 7) ||| b9
      = b6 * 2 ^ 21 + b7 * 2 ^ 14 + b8 * 2 ^ 7 + b9 := by
  have e1 : (b6 <<< 21) ||| (b7 <<< 14) = 2 ^ 14 * (b6 * 2 ^ 7 + b7) := by
    have k := @Nat.mul_add_lt_is_or 21 (b7 <<< 14) (by rw [Nat.shiftLeft_eq]; omega) b6
    simp only [Nat.shiftLeft_eq] at k ⊢
    rw [Nat.mul_comm b6 (2 ^ 21), ← k]
    ring
  have e2 : 2 ^ 14 * (b6 * 2 ^ 7 + b7) ||| (b8 <<< 7)
      = 2 ^ 7 * ((b6 * 2 ^ 7 + b7) * 2 ^ 7 + b8) := by
    have k := @Nat.mul_add_lt_is_or 14 (b8 <<< 7) (by rw [Nat.shiftLeft_eq]; omega)
      (b6 * 2 ^ 7 + b7)
    simp only [Nat.shiftLeft_eq] at k ⊢
    rw [← k]
    ring
  have e3 : 2 ^ 7 * ((b6 * 2 ^ 7 + b7) * 2 ^ 7 + b8) ||| b9
      = 2 ^ 7 * ((b6 * 2 ^ 7 + b7) * 2 ^ 7 + b8) + b9 :=
    (@Nat.mul_add_lt_is_or 7 b9 (by omega) _).symm
  rw [e1, e2, e3]
  ring

theorem exists_ten_bytes (l : List Byte) (h : 10 ≤ l.length) :
    ∃ b0 b1 b2 b3 b4 b5 b6 b7 b8 b9 rest,
      l = b0 :: b1 :: b2 :: b3 :: b4 :: b5 :: b6 :: b7 :: b8 :: b9 :: rest := by
  match l, h with
  | b0 :: b1 :: b2 :: b3 :: b4 :: b5 :: b6 :: b7 :: b8 :: b9 :: rest, _ =>
    exact ⟨b0, b1, b2, b3, b4, b5, b6, b7, b8, b9, rest, rfl⟩

theorem charValue_eq_small (b : Byte) (v : Nat) (hv : v < 128) :
    charValue b = (v : Int) ↔ b.val = v := by
  unfold charValue
  split <;> omega

/-- `GetID3v2TagHeaderLength` on a stream at position 0 whose first ten bytes
begin with `I`, `D`, `3` and have bytes 6..9 below `0x80` (the `char`
comparisons of bytes 3 and 4 with `0xff` hold for every byte): the length
computed and the message left as it was. -/
theorem MP3Decoder.GetID3v2TagHeaderLength_valid (d : MP3Decoder) (bytes rest : List Byte)
    (b3 b4 b5 b6 b7 b8 b9 : Byte)
    (hs : d.m_stream = streamAt bytes 0) (hL : bytes.length < 2 ^ 63)
    (hb : bytes = 73 :: 68 :: 51 :: b3 :: b4 :: b5 :: b6 :: b7 :: b8 :: b9 :: rest)
    (k6 : b6.val < 0x80) (k7 : b7.val < 0x80) (k8 : b8.val < 0x80) (k9 : b9.val < 0x80) :
    d.GetID3v2TagHeaderLength
      = Result.ok (b6.val * 2 ^ 21 + b7.val * 2 ^ 14 + b8.val * 2 ^ 7 + b9.val
          + (if b3.val = 4 ∧ b5.val &&& 0x10 ≠ 0 then 20 else 10),
          { d with m_stream := streamAt bytes 10 }) := by
  have hlen : 0 + 10 ≤ bytes.length := by rw [hb]; simp
  have hread := streamAt_Read bytes 0 10 hL hlen
  have hdata : (bytes.drop 0).take 10 = [73, 68, 51, b3, b4, b5, b6, b7, b8, b9] := by
    rw [hb]; rfl
  rw [hdata] at hread
  have hopen : (streamAt bytes 0).isOpen = true := rfl
  have hbuf : overwrite (List.replicate 10 0) 0 [73, 68, 51, b3, b4, b5, b6, b7, b8, b9]
      = [73, 68, 51, b3, b4, b5, b6, b7, b8, b9] := rfl
  have hI : charValue (73 : Byte) = 73 := by decide
  have hD : charValue (68 : Byte) = 68 := by decide
  have h3 : charValue (51 : Byte) = 51 := by decide
  have hvalid : charValue b3 < 255 ∧ charValue b4 < 255 ∧ charValue b6 < 128 ∧ charValue b7 < 128
      ∧ charValue b8 < 128 ∧ charValue b9 < 128 := by
    have := charValue_lt b3
    have := charValue_lt b4
    exact ⟨by omega, by omega, charValue_lt b6, charValue_lt b7, charValue_lt b8, charValue_lt b9⟩
  have hfour : charValue b3 = 4 ↔ b3.val = 4 := charValue_eq_small b3 4 (by norm_num)
  unfold MP3Decoder.GetID3v2TagHeaderLength
  rw [hs]
  rw [if_pos hopen, hread, Result.bind_ok]
  dsimp only
  rw [hbuf]
  simp only [List.getD_cons_succ, List.getD_cons_zero]
  rw [if_pos trivial, if_pos ⟨hI, hD, h3⟩, if_pos hvalid]
  generalize hn : (toU32 ((((toU32 ((((toU32 ((((toU32 (charValue b6)) <<< 7 % U32 : Nat) : Int)
    + charValue b7)) <<< 7 % U32 : Nat) : Int) + charValue b8)) <<< 7 % U32 : Nat) : Int)
    + charValue b9) + if charValue b3 = 4 ∧ b5.val &&& 16 ≠ 0 then 20 else 10) % U32 = n
  have hii : n = b6.val * 2 ^ 21 + b7.val * 2 ^ 14 + b8.val * 2 ^ 7 + b9.val
            + (if b3.val = 4 ∧ b5.val &&& 0x10 ≠ 0 then 20 else 10) ∧ n ≠ 0 := by
    rw [charValue_of_lt b6 k6, charValue_of_lt b7 k7, charValue_of_lt b8 k8, charValue_of_lt b9 k9] at hn
    have t : ∀ x : Nat, x < 2 ^ 32 → toU32 (x : Int) = x := by
      intro x hx
      unfold toU32
      omega
    have u : ∀ x : Nat, x < 2 ^ 25 → x <<< 7 % U32 = x * 128 := by
      intro x hx
      rw [Nat.shiftLeft_eq]
      unfold U32
      omega
    have t2 : ∀ a b : Nat, a + b < 2 ^ 32 → toU32 ((a : Int) + (b : Int)) = a + b := by
      intro a b hab
      unfold toU32
      omega
    rw [t b6.val (by omega), u b6.val (by omega)] at hn
    rw [t2 (b6.val * 128) b7.val (by omega), u (b6.val * 128 + b7.val) (by omega)] at hn
    rw [t2 ((b6.val * 128 + b7.val) * 128) b8.val (by omega),
      u ((b6.val * 128 + b7.val) * 128 + b8.val) (by omega)] at hn
    rw [t2 (((b6.val * 128 + b7.val) * 128 + b8.val) * 128) b9.val (by omega)] at hn
    simp only [hfour] at hn
    unfold U32 at hn
    split_ifs at hn ⊢ <;> omega
  rw [if_neg hii.2, hii.1]

/-- `GetID3v2TagHeaderLength` on a stream at position 0 that is shorter than ten
bytes or does not begin with `I`, `D`, `3`: 0 is returned and the message is
left as it was. -/
theorem MP3Decoder.GetID3v2TagHeaderLength_absent (d : MP3Decoder) (bytes : List Byte)
    (hs : d.m_stream = streamAt bytes 0) (hL : bytes.length < 2 ^ 63)
    (h : bytes.length < 10 ∨ bytes.take 3 ≠ [73, 68, 51]) :
    ∃ d1, d.GetID3v2TagHeaderLength = Result.ok (0, d1)
      ∧ d1.m_errorMessage = d.m_errorMessage := by
  have hopen : (streamAt bytes 0).isOpen = true := rfl
  by_cases hshort : bytes.length < 10
  · have hread := StreamWrapper.Read_beyond_end (streamAt bytes 0) 10
      (Nat.zero_le _) hL (by norm_num)
      (by rw [streamAt_size]; show 0 + 10 > bytes.length; omega)
    unfold MP3Decoder.GetID3v2TagHeaderLength
    rw [hs, if_pos hopen, hread, Result.bind_ok]
    dsimp only
    have hc : ¬ ((streamAt bytes 0).m_fileMemoryBufferSize
        - (streamAt bytes 0).m_fileMemoryBufferPosition = 10) := by
      rw [streamAt_size]
      show ¬ (bytes.length - 0 = 10)
      omega
    rw [if_neg hc]
    exact ⟨_, rfl, rfl⟩
  · have h3 : bytes.take 3 ≠ [73, 68, 51] := by
      rcases h with h | h
      · exact absurd h hshort
      · exact h
    obtain ⟨b0, b1, b2, b3, b4, b5, b6, b7, b8, b9, rest, hb⟩ :=
      exists_ten_bytes bytes (by omega)
    have hlen : 0 + 10 ≤ bytes.length := by omega
    have hread := streamAt_Read bytes 0 10 hL hlen
    have hdata : (bytes.drop 0).take 10 = [b0, b1, b2, b3, b4, b5, b6, b7, b8, b9] := by
      rw [hb]; rfl
    rw [hdata] at hread
    have hbuf : overwrite (List.replicate 10 0) 0 [b0, b1, b2, b3, b4, b5, b6, b7, b8, b9]
        = [b0, b1, b2, b3, b4, b5, b6, b7, b8, b9] := rfl
    have hno : ¬ (charValue b0 = 73 ∧ charValue b1 = 68 ∧ charValue b2 = 51) := by
      rintro ⟨c0, c1, c2⟩
      apply h3
      rw [hb]
      have e0 : b0 = 73 := Fin.ext ((charValue_eq_small b0 73 (by norm_num)).mp c0)
      have e1 : b1 = 68 := Fin.ext ((charValue_eq_small b1 68 (by norm_num)).mp c1)
      have e2 : b2 = 51 := Fin.ext ((charValue_eq_small b2 51 (by norm_num)).mp c2)
      rw [e0, e1, e2]
      rfl
    unfold MP3Decoder.GetID3v2TagHeaderLength
    rw [hs, if_pos hopen, hread, Result.bind_ok]
    dsimp only
    rw [hbuf]
    simp only [List.getD_cons_succ, List.getD_cons_zero]
    rw [if_pos trivial, if_neg hno]
    exact ⟨_, rfl, rfl⟩

/-- C21. For a decoder whose stream stands at position 0: when the first ten
bytes are `I`, `D`, `3`, `b3`, .., `b9` with `b3`, `b4`, `b5` below `0xFF` and
`b6`..`b9` below `0x80`, `GetID3v2TagHeaderLength` returns
`((b6 << 21) | (b7 << 14) | (b8 << 7) | b9) + 20` if `b3` is 4 and bit `0x10`
of `b5` is set and that value `+ 10` otherwise, and the message is left as it
was; when the stream is shorter than ten bytes or does not begin with `ID3`,
it returns 0 and the message is left as it was. -/
theorem MP3Decoder.GetID3v2TagHeaderLength_length (d : MP3Decoder) (bytes : List Byte)
    (hs : d.m_stream = streamAt bytes 0) (hL : bytes.length < 2 ^ 63) :
    (∀ (b3 b4 b5 b6 b7 b8 b9 : Byte) (rest : List Byte),
        bytes = 73 :: 68 :: 51 :: b3 :: b4 :: b5 :: b6 :: b7 :: b8 :: b9 :: rest →
        b3.val < 0xFF → b4.val < 0xFF → b5.val < 0xFF →
        b6.val < 0x80 → b7.val < 0x80 → b8.val < 0x80 → b9.val < 0x80 →
        ∃ d1, d.GetID3v2TagHeaderLength
            = Result.ok (((b6.val <<< 21) ||| (b7.val <<< 14) ||| (b8.val <<< 7) ||| b9.val)
                + (if b3.val = 4 ∧ b5.val &&& 0x10 ≠ 0 then 20 else 10), d1)
          ∧ d1.m_errorMessage = d.m_errorMessage)
      ∧ ((bytes.length < 10 ∨ bytes.take 3 ≠ asciiBytes "ID3") →
        ∃ d1, d.GetID3v2TagHeaderLength = Result.ok (0, d1)
          ∧ d1.m_errorMessage = d.m_errorMessage) := by
  constructor
  · intro b3 b4 b5 b6 b7 b8 b9 rest hb _ _ _ k6 k7 k8 k9
    rw [syncsafe_or _ _ _ _ k7 k8 k9,
      MP3Decoder.GetID3v2TagHeaderLength_valid d bytes rest b3 b4 b5 b6 b7 b8 b9 hs hL hb
        k6 k7 k8 k9]
    exact ⟨_, rfl, rfl⟩
  · intro h
    have e : asciiBytes "ID3" = [73, 68, 51] := by decide
    rw [e] at h
    exact MP3Decoder.GetID3v2TagHeaderLength_absent d bytes hs hL h

/-- C21 at the header `I D 3 04 00 10 00 00 02 01` (length `2 * 128 + 1 + 20 =
277`) and at the stream `I D 3`, which is shorter than ten bytes. -/
theorem MP3Decoder.GetID3v2TagHeaderLength_length_witness :
    (∃ d1, ({ MP3Decoder.new with m_stream := streamAt [73, 68, 51, 4, 0, 0x10, 0, 0, 2, 1] 0 }
          : MP3Decoder).GetID3v2TagHeaderLength = Result.ok (277, d1)
        ∧ d1.m_errorMessage = "")
      ∧ (∃ d1, ({ MP3Decoder.new with m_stream := streamAt [73, 68, 51] 0 }
          : MP3Decoder).GetID3v2TagHeaderLength = Result.ok (0, d1)
        ∧ d1.m_errorMessage = "") :=
  ⟨(MP3Decoder.GetID3v2TagHeaderLength_length
      { MP3Decoder.new with m_stream := streamAt [73, 68, 51, 4, 0, 0x10, 0, 0, 2, 1] 0 }
      [73, 68, 51, 4, 0, 0x10, 0, 0, 2, 1] rfl (by decide)).1 4 0 0x10 0 0 2 1 [] rfl
      (by decide) (by decide) (by decide) (by decide) (by decide) (by decide) (by decide),
   (MP3Decoder.GetID3v2TagHeaderLength_length
      { MP3Decoder.new with m_stream := streamAt [73, 68, 51] 0 }
      [73, 68, 51] rfl (by decide)).2 (Or.inl (by decide))⟩

/-! ## FlacDecoder: the message for a lost synchronisation -/

theorem StreamWrapper.Seek_end_inside (s : StreamWrapper) (offset : Int)
    (hL : s.m_fileMemoryBufferSize < 2 ^ 63)
    (h0 : offset ≤ 0) (h1 : -(s.m_fileMemoryBufferSize : Int) ≤ offset) :
    s.Seek offset SEEK_END
      = (0, { s with
          m_isEOF := false
          m_fileMemoryBufferPosition := ((s.m_fileMemoryBufferSize : Int) + offset).toNat }) := by
  have hu : toU64 ((s.m_fileMemoryBufferSize : Int) + offset)
      = ((s.m_fileMemoryBufferSize : Int) + offset).toNat := by
    unfold toU64
    omega
  have hc : ¬ (offset > 0 ∨ ((toU64 ((s.m_fileMemoryBufferSize : Int) + offset) : Nat) : Int) < 0) := by
    omega
  unfold StreamWrapper.Seek
  have e1 : ¬ (SEEK_END = SEEK_SET) := by decide
  have e2 : ¬ (SEEK_END = SEEK_CUR) := by decide
  have hc2 : ¬ (offset > 0
      ∨ ((((s.m_fileMemoryBufferSize : Int) + offset).toNat : Nat) : Int) < 0) := by omega
  simp only [if_neg e1, if_neg e2, if_true, hu, if_neg hc2]

theorem strcmpEq_TAG (a b c : Byte) :
    strcmpEq (charArray 4 [a, b, c]) "TAG" = decide ([a, b, c] = asciiBytes "TAG") := by
  have e : asciiBytes "TAG" = [84, 65, 71] := by decide
  have ca : charArray 4 [a, b, c] = [a, b, c, 0] := rfl
  unfold strcmpEq cString
  rw [e, ca]
  by_cases ha : a = 0
  · subst ha
    simp [List.takeWhile]
  · by_cases hb : b = 0
    · subst hb
      simp [List.takeWhile, ha]
    · by_cases hc : c = 0
      · subst hc
        simp [List.takeWhile, ha, hb]
      · simp [List.takeWhile, ha, hb, hc]

theorem take_three_of_le (l : List Byte) (h : 3 ≤ l.length) :
    ∃ a b c, l.take 3 = [a, b, c] := by
  match l, h with
  | a :: b :: c :: rest, _ => exact ⟨a, b, c, rfl⟩

/-- The ID3v1 probe of the FLAC decoder on a stream of at least 128 bytes:
it answers whether the last 128 bytes begin with `TAG`. -/
theorem FlacDecoder.hasID3v1Tag_eq (d : FlacDecoder)
    (hL : d.m_stream.m_fileMemoryBufferSize < 2 ^ 63)
    (h128 : 128 ≤ d.m_stream.m_fileMemoryBufferSize) :
    ∃ d1, d.hasID3v1Tag
        = Result.ok (decide ((d.m_stream.m_fileMemoryBuffer.drop
            (d.m_stream.m_fileMemoryBufferSize - 128)).take 3 = asciiBytes "TAG"), d1) := by
  have hseek := StreamWrapper.Seek_end_inside d.m_stream (-128) hL (by norm_num) (by omega)
  have hp : ((d.m_stream.m_fileMemoryBufferSize : Int) + -128).toNat
      = d.m_stream.m_fileMemoryBufferSize - 128 := by omega
  rw [hp] at hseek
  obtain ⟨s1, hs1⟩ : ∃ s1 : StreamWrapper, s1 = { d.m_stream with
      m_isEOF := false
      m_fileMemoryBufferPosition := d.m_stream.m_fileMemoryBufferSize - 128 } := ⟨_, rfl⟩
  rw [← hs1] at hseek
  have hsize : s1.m_fileMemoryBufferSize = d.m_stream.m_fileMemoryBufferSize := by
    show s1.m_fileMemoryBuffer.length = d.m_stream.m_fileMemoryBuffer.length
    rw [hs1]
  have hpos : s1.m_fileMemoryBufferPosition = d.m_stream.m_fileMemoryBufferSize - 128 := by
    rw [hs1]
  have hbuf : s1.m_fileMemoryBuffer = d.m_stream.m_fileMemoryBuffer := by
    rw [hs1]
  have hL1 : s1.m_fileMemoryBufferSize < 2 ^ 63 := by rw [hsize]; exact hL
  have hin : s1.m_fileMemoryBufferPosition + 3 ≤ s1.m_fileMemoryBufferSize := by
    rw [hsize, hpos]; omega
  have hread := StreamWrapper.Read_inside s1 3 hL1 hin
  rw [hpos, hbuf] at hread
  obtain ⟨a, b, c, habc⟩ := take_three_of_le
    (d.m_stream.m_fileMemoryBuffer.drop (d.m_stream.m_fileMemoryBufferSize - 128))
    (by
      rw [List.length_drop]
      have : d.m_stream.m_fileMemoryBuffer.length = d.m_stream.m_fileMemoryBufferSize := rfl
      omega)
  rw [habc] at hread ⊢
  unfold FlacDecoder.hasID3v1Tag
  dsimp only
  rw [hseek]
  dsimp only
  rw [if_pos rfl, hread]
  dsimp only
  rw [strcmpEq_TAG]
  by_cases ht : [a, b, c] = asciiBytes "TAG"
  · rw [decide_eq_true ht, if_pos rfl]
    exact ⟨_, rfl⟩
  · rw [decide_eq_false ht, if_neg (by decide)]
    exact ⟨_, rfl⟩

theorem not_suffix_of_last (l x : List Char) (a b : Char) (hab : a ≠ b) :
    ¬ (l ++ [a] <:+ x ++ [b]) := by
  intro h
  rw [← List.reverse_prefix] at h
  simp only [List.reverse_append, List.reverse_cons, List.reverse_nil, List.nil_append,
    List.singleton_append] at h
  rw [List.cons_prefix_cons] at h
  exact hab h.1

/-- C24 (as the code has it). `error_callback` with the status `LOST_SYNC`,
with `D` the decoded sample count, `N` the total sample count and `R` the
sample rate: the message is `<LOST_SYNC @ {D/R/60}m {D/R mod 60}s>
<ID3v1_TAG_FOUND>` if and only if `N > 0`, `R > 0`, `N / R = D / R` (the
synchronisation was lost in the whole second the stream ends in) and the last
128 bytes of the stream begin with `TAG`; otherwise it is `LOST_SYNC @
{D/R/60}m {D/R mod 60}s` (`0m 0s` when `R = 0`), which does not end with the
suffix.  The stream holds at least 128 bytes whenever it is probed. -/
theorem FlacDecoder.error_callback_lost_sync (d : FlacDecoder)
    (hL : d.m_stream.m_fileMemoryBufferSize < 2 ^ 63)
    (h128 : d.m_streamTotalSampleCount > 0 → d.m_streamSampleRate > 0 →
      d.m_streamTotalSampleCount / d.m_streamSampleRate
        = d.m_totalDecodedFrameSampleCount / d.m_streamSampleRate →
      128 ≤ d.m_stream.m_fileMemoryBufferSize) :
    ∃ d1, d.error_callback FLAC__StreamDecoderErrorStatus.LOST_SYNC = Result.ok d1
      ∧ d1.m_errorMessage
          = (if d.m_streamTotalSampleCount > 0 ∧ d.m_streamSampleRate > 0
                ∧ d.m_streamTotalSampleCount / d.m_streamSampleRate
                    = d.m_totalDecodedFrameSampleCount / d.m_streamSampleRate
                ∧ (d.m_stream.m_fileMemoryBuffer.drop
                    (d.m_stream.m_fileMemoryBufferSize - 128)).take 3 = asciiBytes "TAG" then
              "<LOST_SYNC @ "
                ++ FlacDecoder.stamp
                    (d.m_totalDecodedFrameSampleCount / d.m_streamSampleRate / 60)
                    (d.m_totalDecodedFrameSampleCount / d.m_streamSampleRate % 60)
                ++ ">" ++ " <ID3v1_TAG_FOUND>"
             else
              "LOST_SYNC @ "
                ++ FlacDecoder.stamp (d.totalDecodedStreamTimeSeconds / 60)
                    (d.totalDecodedStreamTimeSeconds % 60))
      ∧ (" <ID3v1_TAG_FOUND>".data <:+ d1.m_errorMessage.data
          ↔ (d.m_streamTotalSampleCount > 0 ∧ d.m_streamSampleRate > 0
              ∧ d.m_streamTotalSampleCount / d.m_streamSampleRate
                  = d.m_totalDecodedFrameSampleCount / d.m_streamSampleRate
              ∧ (d.m_stream.m_fileMemoryBuffer.drop
                  (d.m_stream.m_fileMemoryBufferSize - 128)).take 3 = asciiBytes "TAG")) := by
  have hplain : ∀ m s : Nat,
      ¬ (" <ID3v1_TAG_FOUND>".data <:+ ("LOST_SYNC @ " ++ FlacDecoder.stamp m s).data) := by
    intro m s
    unfold FlacDecoder.stamp
    simp only [String.data_append]
    rw [← List.append_assoc]
    exact not_suffix_of_last " <ID3v1_TAG_FOUND".data _ '>' 's' (by decide)
  have hfound : ∀ x : String,
      " <ID3v1_TAG_FOUND>".data <:+ (x ++ " <ID3v1_TAG_FOUND>").data := by
    intro x
    rw [String.data_append]
    exact List.suffix_append _ _
  have htds : d.m_streamSampleRate > 0 → d.totalDecodedStreamTimeSeconds
      = d.m_totalDecodedFrameSampleCount / d.m_streamSampleRate := by
    intro hr
    unfold FlacDecoder.totalDecodedStreamTimeSeconds
    rw [if_pos hr]
  have htds2 : ({ d with m_errorCallbackFlagEnabled := true } : FlacDecoder).totalDecodedStreamTimeSeconds
      = d.totalDecodedStreamTimeSeconds := rfl
  unfold FlacDecoder.error_callback
  dsimp only
  rw [htds2]
  by_cases h1 : d.m_streamTotalSampleCount > 0 ∧ d.m_streamSampleRate > 0
  · rw [if_pos h1]
    rw [htds h1.2]
    by_cases h2 : d.m_streamTotalSampleCount / d.m_streamSampleRate
        = d.m_totalDecodedFrameSampleCount / d.m_streamSampleRate
    · rw [if_pos h2]
      obtain ⟨d2, hd2⟩ := FlacDecoder.hasID3v1Tag_eq
        { d with m_errorCallbackFlagEnabled := true } hL (h128 h1.1 h1.2 h2)
      rw [hd2]
      by_cases ht : (d.m_stream.m_fileMemoryBuffer.drop
          (d.m_stream.m_fileMemoryBufferSize - 128)).take 3 = asciiBytes "TAG"
      · have ht2 : (({ d with m_errorCallbackFlagEnabled := true } : FlacDecoder).m_stream.m_fileMemoryBuffer.drop
            (({ d with m_errorCallbackFlagEnabled := true } : FlacDecoder).m_stream.m_fileMemoryBufferSize - 128)).take 3
            = asciiBytes "TAG" := ht
        rw [decide_eq_true ht2]
        dsimp only
        refine ⟨_, rfl, ?_, ?_⟩
        · rw [if_pos ⟨h1.1, h1.2, h2, ht⟩]
        · constructor
          · intro _
            exact ⟨h1.1, h1.2, h2, ht⟩
          · intro _
            exact hfound _
      · have ht2 : ¬ ((({ d with m_errorCallbackFlagEnabled := true } : FlacDecoder).m_stream.m_fileMemoryBuffer.drop
            (({ d with m_errorCallbackFlagEnabled := true } : FlacDecoder).m_stream.m_fileMemoryBufferSize - 128)).take 3
            = asciiBytes "TAG") := ht
        rw [decide_eq_false ht2]
        dsimp only
        refine ⟨_, rfl, ?_, ?_⟩
        · rw [if_neg (fun k => ht k.2.2.2)]
        · constructor
          · intro k
            exact absurd k (hplain _ _)
          · intro k
            exact absurd k.2.2.2 ht
    · rw [if_neg h2]
      refine ⟨_, rfl, ?_, ?_⟩
      · rw [if_neg (fun k => h2 k.2.2.1)]
      · constructor
        · intro k
          exact absurd k (hplain _ _)
        · intro k
          exact absurd k.2.2.1 h2
  · rw [if_neg h1]
    refine ⟨_, rfl, ?_, ?_⟩
    · rw [if_neg (fun k => h1 ⟨k.1, k.2.1⟩)]
    · constructor
      · intro k
        exact absurd k (hplain _ _)
      · intro k
        exact absurd ⟨k.1, k.2.1⟩ h1

set_option maxRecDepth 100000 in
/-- C24 (amended) at a decoder that lost synchronisation one sample before the
total of two samples, over a stream of 128 bytes that begins with `TAG`. -/
theorem FlacDecoder.error_callback_lost_sync_witness :
    ∃ d1, FlacDecoder.lostSyncBeforeTotal.error_callback FLAC__StreamDecoderErrorStatus.LOST_SYNC
        = Result.ok d1
      ∧ d1.m_errorMessage = "<LOST_SYNC @ 0m 0s> <ID3v1_TAG_FOUND>" := by
  obtain ⟨d1, h1, h2, _⟩ := FlacDecoder.error_callback_lost_sync FlacDecoder.lostSyncBeforeTotal
    (by decide) (fun _ _ _ => by decide)
  refine ⟨d1, h1, ?_⟩
  rw [h2]
  decide

set_option maxRecDepth 100000 in
/-- C24 (counterexample). With `D = 1`, `N = 2` and `R = 44100` over a stream
of 128 bytes that begins with `TAG`, the decoded count differs from the total
(`D ≠ N`), so the claim expects `LOST_SYNC @ 0m 0s` without suffix; the code
compares whole seconds (`N / R = D / R = 0`) and stores the message with the
suffix. -/
theorem FlacDecoder.error_callback_same_second :
    FlacDecoder.lostSyncBeforeTotal.m_totalDecodedFrameSampleCount
        ≠ FlacDecoder.lostSyncBeforeTotal.m_streamTotalSampleCount
      ∧ ((FlacDecoder.lostSyncBeforeTotal.error_callback
            FLAC__StreamDecoderErrorStatus.LOST_SYNC).bind fun d1 =>
          Result.ok d1.m_errorMessage) = Result.ok "<LOST_SYNC @ 0m 0s> <ID3v1_TAG_FOUND>"
      ∧ ((FlacDecoder.lostSyncBeforeTotal.error_callback
            FLAC__StreamDecoderErrorStatus.LOST_SYNC).bind fun d1 =>
          Result.ok d1.m_errorMessage) ≠ Result.ok "LOST_SYNC @ 0m 0s" := by
  decide

/-! ## WavPackDecoder: UpdateMD5 serialises the sample words -/

theorem set_chain_one (a : Byte) : ∀ (dst : Nat) (l : List Byte), dst + 1 ≤ l.length →
    l.set dst a = l.take dst ++ [a] ++ l.drop (dst + 1) := by
  intro dst
  induction dst with
  | zero =>
    intro l h
    match l, h with
    | x :: t, _ => rfl
  | succ n ih =>
    intro l h
    match l, h with
    | x :: t, h =>
      have h2 : n + 1 ≤ t.length := by simpa using h
      simp only [List.set_cons_succ, List.take_succ_cons, List.drop_succ_cons, List.cons_append]
      rw [ih t h2]

theorem set_chain_two (a b : Byte) : ∀ (dst : Nat) (l : List Byte), dst + 2 ≤ l.length →
    (l.set dst a).set (dst + 1) b = l.take dst ++ [a, b] ++ l.drop (dst + 2) := by
  intro dst
  induction dst with
  | zero =>
    intro l h
    match l, h with
    | x :: y :: t, _ => rfl
  | succ n ih =>
    intro l h
    match l, h with
    | x :: t, h =>
      have h2 : n + 2 ≤ t.length := by simpa using h
      simp only [List.set_cons_succ, List.take_succ_cons, List.drop_succ_cons, List.cons_append]
      rw [ih t h2]

theorem set_chain_three (a b c : Byte) : ∀ (dst : Nat) (l : List Byte), dst + 3 ≤ l.length →
    ((l.set dst a).set (dst + 1) b).set (dst + 2) c
      = l.take dst ++ [a, b, c] ++ l.drop (dst + 3) := by
  intro dst
  induction dst with
  | zero =>
    intro l h
    match l, h with
    | x :: y :: z :: t, _ => rfl
  | succ n ih =>
    intro l h
    match l, h with
    | x :: t, h =>
      have h2 : n + 3 ≤ t.length := by simpa using h
      simp only [List.set_cons_succ, List.take_succ_cons, List.drop_succ_cons, List.cons_append]
      rw [ih t h2]

theorem set_chain_four (a b c e : Byte) : ∀ (dst : Nat) (l : List Byte), dst + 4 ≤ l.length →
    (((l.set dst a).set (dst + 1) b).set (dst + 2) c).set (dst + 3) e
      = l.take dst ++ [a, b, c, e] ++ l.drop (dst + 4) := by
  intro dst
  induction dst with
  | zero =>
    intro l h
    match l, h with
    | x :: y :: z :: w :: t, _ => rfl
  | succ n ih =>
    intro l h
    match l, h with
    | x :: t, h =>
      have h2 : n + 4 ≤ t.length := by simpa using h
      simp only [List.set_cons_succ, List.take_succ_cons, List.drop_succ_cons, List.cons_append]
      rw [ih t h2]

/-- One iteration of the loop of `UpdateMD5` replaces the bytes at the
destination by the bytes the specification names for the word at the source. -/
theorem WavPackDecoder.UpdateMD5Step_eq (bytesPerSample : Nat) (dsd : Bool) (src dst : Nat)
    (memory : List Byte)
    (hb : bytesPerSample = 1 ∨ bytesPerSample = 2 ∨ bytesPerSample = 3 ∨ bytesPerSample = 4)
    (hlen : dst + bytesPerSample ≤ memory.length) :
    WavPackDecoder.UpdateMD5Step bytesPerSample dsd src dst memory
      = memory.take dst ++ specSampleBytes bytesPerSample dsd (readWord memory src)
          ++ memory.drop (dst + bytesPerSample) := by
  rcases hb with rfl | rfl | rfl | rfl
  · unfold WavPackDecoder.UpdateMD5Step specSampleBytes
    dsimp only
    cases dsd
    · simp only [if_true, Bool.false_eq_true, if_false]
      exact set_chain_one _ dst memory hlen
    · simp only [if_true, Nat.add_zero]
      exact set_chain_one _ dst memory hlen
  · unfold WavPackDecoder.UpdateMD5Step specSampleBytes
    dsimp only
    rw [if_neg (by decide)]
    exact set_chain_two _ _ dst memory hlen
  · unfold WavPackDecoder.UpdateMD5Step specSampleBytes
    dsimp only
    rw [if_neg (by decide)]
    exact set_chain_three _ _ _ dst memory hlen
  · unfold WavPackDecoder.UpdateMD5Step specSampleBytes
    dsimp only
    rw [if_neg (by decide)]
    exact set_chain_four _ _ _ _ dst memory hlen

theorem specSampleBytes_length (bytesPerSample : Nat) (dsd : Bool) (w : Nat)
    (hb : bytesPerSample = 1 ∨ bytesPerSample = 2 ∨ bytesPerSample = 3 ∨ bytesPerSample = 4) :
    (specSampleBytes bytesPerSample dsd w).length = bytesPerSample := by
  rcases hb with rfl | rfl | rfl | rfl <;> rfl

theorem specSerialize_length (bytesPerSample : Nat) (dsd : Bool)
    (hb : bytesPerSample = 1 ∨ bytesPerSample = 2 ∨ bytesPerSample = 3 ∨ bytesPerSample = 4) :
    ∀ words : List Nat, (specSerialize bytesPerSample dsd words).length
      = words.length * bytesPerSample := by
  intro words
  induction words with
  | nil => simp [specSerialize]
  | cons w rest ih =>
    simp only [specSerialize, List.length_append, List.length_cons, ih,
      specSampleBytes_length bytesPerSample dsd w hb]
    ring

theorem specSerialize_append (bytesPerSample : Nat) (dsd : Bool) (xs ys : List Nat) :
    specSerialize bytesPerSample dsd (xs ++ ys)
      = specSerialize bytesPerSample dsd xs ++ specSerialize bytesPerSample dsd ys := by
  induction xs with
  | nil => rfl
  | cons w rest ih =>
    show specSampleBytes bytesPerSample dsd w ++ specSerialize bytesPerSample dsd (rest ++ ys) = _
    rw [ih, specSerialize, List.append_assoc]

theorem wordsToBytes_length (words : List Nat) : (wordsToBytes words).length = 4 * words.length := by
  induction words with
  | nil => rfl
  | cons w rest ih =>
    simp only [wordsToBytes, List.length_append, List.length_cons, ih]
    have : (wordBytes w).length = 4 := rfl
    omega

theorem readWord_wordBytes (w : Nat) (hw : w < 2 ^ 32) (rest : List Byte) :
    readWord (wordBytes w ++ rest) 0 = w := by
  unfold readWord wordBytes
  simp only [List.cons_append, List.nil_append, Nat.mul_zero, Nat.zero_add, List.getD_cons_zero,
    List.getD_cons_succ]
  show (w % 256) % 256 + 256 * ((w / 256 % 256) % 256) + 65536 * ((w / 65536 % 256) % 256)
    + 16777216 * ((w / 16777216 % 256) % 256) = w
  omega

theorem readWord_cons_word (w : Nat) (rest : List Byte) (i : Nat) :
    readWord (wordBytes w ++ rest) (i + 1) = readWord rest i := by
  unfold readWord wordBytes
  have e : ∀ k, 4 * (i + 1) + k = (4 * i + k) + 1 + 1 + 1 + 1 := by intro k; omega
  have e0 : 4 * (i + 1) = (4 * i) + 1 + 1 + 1 + 1 := by omega
  rw [e 1, e 2, e 3, e0]
  simp only [List.cons_append, List.nil_append, List.getD_cons_succ]

/-- The word at index `j` of the memory of an `int32_t` array that holds the
given words. -/
theorem readWord_wordsToBytes : ∀ (words : List Nat) (rest : List Byte) (j : Nat),
    (∀ w ∈ words, w < 2 ^ 32) → j < words.length →
    readWord (wordsToBytes words ++ rest) j = words.getD j 0 := by
  intro words
  induction words with
  | nil => intro rest j _ h; cases h
  | cons w ws ih =>
    intro rest j hw hj
    cases j with
    | zero =>
      rw [wordsToBytes, List.append_assoc, readWord_wordBytes w (hw w (List.mem_cons_self _ _))]
      rfl
    | succ j =>
      rw [wordsToBytes, List.append_assoc, readWord_cons_word]
      rw [ih rest j (fun x hx => hw x (List.mem_cons_of_mem _ hx)) (by simpa using hj)]
      rfl

theorem getD_append_drop (A M : List Byte) (k : Nat) (h : A.length ≤ k) :
    (A ++ M.drop A.length).getD k 0 = M.getD k 0 := by
  rw [List.getD_eq_getElem?_getD, List.getD_eq_getElem?_getD,
    List.getElem?_append_right h, List.getElem?_drop]
  congr 2
  omega

/-- A word that lies behind the bytes written so far reads as in the original memory. -/
theorem readWord_append_drop (A M : List Byte) (j : Nat) (h : A.length ≤ 4 * j) :
    readWord (A ++ M.drop A.length) j = readWord M j := by
  unfold readWord
  rw [getD_append_drop A M _ h, getD_append_drop A M _ (by omega),
    getD_append_drop A M _ (by omega), getD_append_drop A M _ (by omega)]

/-- The loop of `UpdateMD5`, entered after `i` iterations with the first `i`
words serialised at the start of the memory and the rest of the memory
untouched, leaves the first `i + k` words serialised and the rest untouched. -/
theorem WavPackDecoder.UpdateMD5Loop_eq (bytesPerSample : Nat) (dsd : Bool) (words : List Nat)
    (rest : List Byte)
    (hb : bytesPerSample = 1 ∨ bytesPerSample = 2 ∨ bytesPerSample = 3 ∨ bytesPerSample = 4)
    (hw : ∀ w ∈ words, w < 2 ^ 32) :
    ∀ (k i : Nat), i + k ≤ words.length →
      WavPackDecoder.UpdateMD5Loop bytesPerSample dsd k i (i * bytesPerSample)
          (specSerialize bytesPerSample dsd (words.take i)
            ++ (wordsToBytes words ++ rest).drop (i * bytesPerSample))
        = specSerialize bytesPerSample dsd (words.take (i + k))
            ++ (wordsToBytes words ++ rest).drop ((i + k) * bytesPerSample) := by
  intro k
  induction k with
  | zero => intro i _; rfl
  | succ k ih =>
    intro i hik
    have hb4 : bytesPerSample ≤ 4 := by omega
    have hi : i < words.length := by omega
    have hA : (specSerialize bytesPerSample dsd (words.take i)).length = i * bytesPerSample := by
      rw [specSerialize_length bytesPerSample dsd hb, List.length_take, Nat.min_eq_left (by omega)]
    have hM : (wordsToBytes words ++ rest).length = 4 * words.length + rest.length := by
      rw [List.length_append, wordsToBytes_length]
    have hle : i * bytesPerSample ≤ 4 * i := by nlinarith
    have hle2 : (i + 1) * bytesPerSample ≤ 4 * words.length := by nlinarith
    have hle3 : i * bytesPerSample + bytesPerSample ≤ 4 * words.length := by
      have := hle2
      rw [Nat.add_mul, Nat.one_mul] at this
      exact this
    have hread : readWord (specSerialize bytesPerSample dsd (words.take i)
        ++ (wordsToBytes words ++ rest).drop (i * bytesPerSample)) i = words.getD i 0 := by
      have e := readWord_append_drop (specSerialize bytesPerSample dsd (words.take i))
        (wordsToBytes words ++ rest) i (by rw [hA]; exact hle)
      rw [hA] at e
      rw [e, readWord_wordsToBytes words rest i hw hi]
    have hstep : WavPackDecoder.UpdateMD5Step bytesPerSample dsd i (i * bytesPerSample)
        (specSerialize bytesPerSample dsd (words.take i)
          ++ (wordsToBytes words ++ rest).drop (i * bytesPerSample))
        = specSerialize bytesPerSample dsd (words.take (i + 1))
            ++ (wordsToBytes words ++ rest).drop ((i + 1) * bytesPerSample) := by
      rw [WavPackDecoder.UpdateMD5Step_eq bytesPerSample dsd i (i * bytesPerSample) _ hb
        (by rw [List.length_append, hA, List.length_drop, hM]; omega), hread]
      have t1 : (specSerialize bytesPerSample dsd (words.take i)
          ++ (wordsToBytes words ++ rest).drop (i * bytesPerSample)).take (i * bytesPerSample)
          = specSerialize bytesPerSample dsd (words.take i) := by
        rw [List.take_append_of_le_length (by rw [hA]), List.take_of_length_le (by rw [hA])]
      have t2 : (specSerialize bytesPerSample dsd (words.take i)
          ++ (wordsToBytes words ++ rest).drop (i * bytesPerSample)).drop
            (i * bytesPerSample + bytesPerSample)
          = (wordsToBytes words ++ rest).drop ((i + 1) * bytesPerSample) := by
        rw [List.drop_append_eq_append_drop, hA, List.drop_of_length_le (by rw [hA]; omega),
          List.nil_append, List.drop_drop]
        congr 1
        have : i * bytesPerSample + bytesPerSample - i * bytesPerSample = bytesPerSample := by omega
        rw [this]
        ring
      have t3 : words.take (i + 1) = words.take i ++ [words.getD i 0] := by
        rw [List.take_succ, List.getD_eq_getElem?_getD]
        rw [List.getElem?_eq_getElem hi]
        rfl
      rw [t1, t2, t3, specSerialize_append]
      simp only [specSerialize, List.append_nil]
    show WavPackDecoder.UpdateMD5Loop bytesPerSample dsd k (i + 1)
      (i * bytesPerSample + bytesPerSample) (WavPackDecoder.UpdateMD5Step bytesPerSample dsd i
        (i * bytesPerSample) _) = _
    rw [hstep]
    have e1 : i * bytesPerSample + bytesPerSample = (i + 1) * bytesPerSample := by ring
    have e2 : i + (k + 1) = (i + 1) + k := by omega
    rw [e1, e2]
    exact ih (i + 1) (by omega)

/-- C23. With `b` bytes per sample, `b` one of 1, 2, 3 and 4, and the sample
buffer holding `n ≤ 4096` 32-bit words, `UpdateMD5(n)` returns, leaves in the
first `n * b` bytes of the buffer the serialisation of the specification (for
each word, in sample order, its `b` low-order bytes, least significant first;
for `b = 1`, `(w + 128) mod 256` for content that is not DSD and `w mod 256`
for DSD content, the sum being taken in two's complement), leaves the bytes
behind them as they were, and appends exactly those `n * b` bytes to the MD5
state.  After any number `i` of iterations of the loop, every word that has
not been read yet (index `j ≥ i`) still reads as before. -/
theorem WavPackDecoder.UpdateMD5_serialize (d : WavPackDecoder) (words : List Nat)
    (rest : List Byte)
    (hb : d.m_bytesPerSample = 1 ∨ d.m_bytesPerSample = 2 ∨ d.m_bytesPerSample = 3
      ∨ d.m_bytesPerSample = 4)
    (hw : ∀ w ∈ words, w < 2 ^ 32)
    (hn : words.length ≤ MAX_UNPACKED_SAMPLE_BUFFER_SIZE)
    (hm : d.m_unpackedSampleBuffer = wordsToBytes words ++ rest) :
    ∃ d1, d.UpdateMD5 (words.length : Int) = Except.ok d1
      ∧ d1.m_unpackedSampleBuffer.take (words.length * d.m_bytesPerSample.toNat)
          = specSerialize d.m_bytesPerSample.toNat d.m_DSDAudioFlagEnabled words
      ∧ d1.m_unpackedSampleBuffer.drop (words.length * d.m_bytesPerSample.toNat)
          = d.m_unpackedSampleBuffer.drop (words.length * d.m_bytesPerSample.toNat)
      ∧ d1.m_stateStructMD5Algorithm
          = d.m_stateStructMD5Algorithm
              ++ specSerialize d.m_bytesPerSample.toNat d.m_DSDAudioFlagEnabled words
      ∧ ∀ i j : Nat, i ≤ j → j < words.length →
          readWord (WavPackDecoder.UpdateMD5Loop d.m_bytesPerSample.toNat d.m_DSDAudioFlagEnabled
            i 0 0 d.m_unpackedSampleBuffer) j = words.getD j 0 := by
  obtain ⟨b, hbd⟩ : ∃ b : Nat, d.m_bytesPerSample = (b : Int) :=
    ⟨d.m_bytesPerSample.toNat, by omega⟩
  have hbn : b = 1 ∨ b = 2 ∨ b = 3 ∨ b = 4 := by omega
  have hbt : d.m_bytesPerSample.toNat = b := by omega
  have hb4 : b ≤ 4 := by omega
  have hloop : ∀ k : Nat, k ≤ words.length →
      WavPackDecoder.UpdateMD5Loop b d.m_DSDAudioFlagEnabled k 0 0 d.m_unpackedSampleBuffer
        = specSerialize b d.m_DSDAudioFlagEnabled (words.take k)
            ++ (wordsToBytes words ++ rest).drop (k * b) := by
    intro k hk
    have e := WavPackDecoder.UpdateMD5Loop_eq b d.m_DSDAudioFlagEnabled words rest hbn hw k 0
      (by omega)
    simp only [Nat.zero_mul, List.take_zero, specSerialize, List.nil_append, List.drop_zero,
      Nat.zero_add] at e
    rw [hm]
    exact e
  have hlen : ∀ k : Nat, k ≤ words.length →
      (specSerialize b d.m_DSDAudioFlagEnabled (words.take k)).length = k * b := by
    intro k hk
    rw [specSerialize_length b _ hbn, List.length_take, Nat.min_eq_left hk]
  have hbytes : (toI32 (toU64 (toI32 (toU64 (words.length : Int)) * d.m_bytesPerSample))).toNat
      = words.length * b := by
    have h1 : words.length ≤ 4096 := hn
    have h2 : toU64 (words.length : Int) = words.length := by unfold toU64; omega
    have h3 : toI32 words.length = (words.length : Int) := by
      unfold toI32
      split <;> omega
    have h4 : words.length * b ≤ 16384 := by
      have := Nat.mul_le_mul h1 hb4
      omega
    have h5 : toU64 (((words.length * b : Nat)) : Int) = words.length * b := by unfold toU64; omega
    have h6 : toI32 (words.length * b) = ((words.length * b : Nat) : Int) := by
      unfold toI32
      split <;> omega
    rw [h2, h3, hbd, ← Nat.cast_mul, h5, h6]
    omega
  unfold WavPackDecoder.UpdateMD5
  rw [if_pos hb]
  dsimp only
  rw [hbytes, hbt, Int.toNat_ofNat, hloop words.length (le_refl _), List.take_length]
  have hl := hlen words.length (le_refl _)
  rw [List.take_length] at hl
  refine ⟨_, rfl, ?_, ?_, ?_, ?_⟩
  · dsimp only
    rw [List.take_append_of_le_length (by rw [hl]), List.take_of_length_le (by rw [hl])]
  · dsimp only
    rw [List.drop_append_eq_append_drop, List.drop_of_length_le (by rw [hl]), hl, Nat.sub_self,
      List.drop_zero, List.nil_append, hm]
  · dsimp only
    rw [List.take_append_of_le_length (by rw [hl]), List.take_of_length_le (by rw [hl])]
  · intro i j hij hj
    rw [hloop i (by omega)]
    have e := readWord_append_drop (specSerialize b d.m_DSDAudioFlagEnabled (words.take i))
      (wordsToBytes words ++ rest) j
      (by rw [hlen i (by omega)]; have := Nat.mul_le_mul hij hb4; omega)
    rw [hlen i (by omega)] at e
    rw [e, readWord_wordsToBytes words rest j hw hj]

set_option maxRecDepth 100000 in
/-- C23 at two bytes per sample and the words `0x12345678`, `0xFFFF8001`: the
buffer starts with `78 56 01 80` and these four bytes are appended to the MD5
state. -/
theorem WavPackDecoder.UpdateMD5_serialize_witness :
    ∃ d1, WavPackDecoder.twoWords.UpdateMD5 2 = Except.ok d1
      ∧ d1.m_unpackedSampleBuffer.take 4 = [0x78, 0x56, 0x01, 0x80]
      ∧ d1.m_stateStructMD5Algorithm = [0x78, 0x56, 0x01, 0x80] := by
  obtain ⟨d1, h1, h2, _, h3, _⟩ :=
    WavPackDecoder.UpdateMD5_serialize WavPackDecoder.twoWords [0x12345678, 0xFFFF8001]
      (List.replicate 8 0) (by decide) (by decide) (by decide) rfl
  exact ⟨d1, h1, h2, h3⟩

/-! ## StreamWrapper: the position stays inside the buffer -/

/-- A read at a position inside the buffer returns, leaves the position
inside the buffer and keeps the buffer; the position advances by the count
returned, which is at most the count requested. -/
theorem StreamWrapper.Read_total (s : StreamWrapper) (n : Nat)
    (hL : s.m_fileMemoryBufferSize < 2 ^ 63) (hn : n < 2 ^ 63)
    (hp : s.m_fileMemoryBufferPosition ≤ s.m_fileMemoryBufferSize) :
    ∃ r, s.Read n = Result.ok r
      ∧ r.stream.m_fileMemoryBufferPosition ≤ r.stream.m_fileMemoryBufferSize
      ∧ r.stream.m_fileMemoryBuffer = s.m_fileMemoryBuffer
      ∧ r.stream.m_fileMemoryBufferPosition = s.m_fileMemoryBufferPosition + r.count
      ∧ r.count ≤ n := by
  by_cases hin : s.m_fileMemoryBufferPosition + n ≤ s.m_fileMemoryBufferSize
  · exact ⟨_, StreamWrapper.Read_inside s n hL hin, hin, rfl, rfl, le_refl _⟩
  · refine ⟨_, StreamWrapper.Read_beyond_end s n hp hL hn (by omega), le_refl _, rfl, ?_, ?_⟩
    · show s.m_fileMemoryBufferSize
        = s.m_fileMemoryBufferPosition + (s.m_fileMemoryBufferSize - s.m_fileMemoryBufferPosition)
      omega
    · show s.m_fileMemoryBufferSize - s.m_fileMemoryBufferPosition ≤ n
      omega

/-- A read of at least one byte that returns leaves the position inside the
buffer, wherever a seek had put it. -/
theorem StreamWrapper.Read_ok_inside (s : StreamWrapper) (n : Nat) (r : ReadResult)
    (hL : s.m_fileMemoryBufferSize < 2 ^ 63) (hn0 : 0 < n) (hn : n < 2 ^ 63)
    (hp : s.m_fileMemoryBufferPosition < 2 ^ 64)
    (h : s.Read n = Result.ok r) :
    r.stream.m_fileMemoryBufferPosition ≤ r.stream.m_fileMemoryBufferSize := by
  by_cases hin : s.m_fileMemoryBufferPosition ≤ s.m_fileMemoryBufferSize
  · obtain ⟨r2, h2, h3, _⟩ := StreamWrapper.Read_total s n hL hn hin
    rw [h2] at h
    injection h with h
    rw [← h]
    exact h3
  · exfalso
    unfold StreamWrapper.Read at h
    split at h
    · unfold StreamWrapper.copyOut at h
      split at h
      · split at h
        · rename_i h1 h2 h3
          have e1 : ({ s with m_isEOF := true } : StreamWrapper).m_fileMemoryBufferPosition
              = s.m_fileMemoryBufferPosition := rfl
          have e2 : ({ s with m_isEOF := true } : StreamWrapper).m_fileMemoryBufferSize
              = s.m_fileMemoryBufferSize := rfl
          rw [e1, e2] at h3
          unfold toU64 at h3
          omega
        · cases h
      · rename_i h1 h2
        unfold toU64 at h2
        omega
    · unfold StreamWrapper.copyOut at h
      rw [if_pos hn0] at h
      split at h
      · omega
      · cases h

theorem StreamWrapper.Seek_size (s : StreamWrapper) (offset origin : Int) :
    (s.Seek offset origin).2.m_fileMemoryBufferSize = s.m_fileMemoryBufferSize := by
  have h := StreamWrapper.Seek_file s offset origin
  unfold StreamWrapper.file at h
  unfold StreamWrapper.m_fileMemoryBufferSize
  rw [(Prod.mk.inj h).1]

theorem StreamWrapper.Seek_buffer (s : StreamWrapper) (offset origin : Int) :
    (s.Seek offset origin).2.m_fileMemoryBuffer = s.m_fileMemoryBuffer := by
  have h := StreamWrapper.Seek_file s offset origin
  unfold StreamWrapper.file at h
  exact (Prod.mk.inj h).1

/-- A seek that is refused leaves the position where it was, and one that is
accepted leaves a position that is a `size_t` value. -/
theorem StreamWrapper.Seek_position (s : StreamWrapper) (offset origin : Int) :
    ((s.Seek offset origin).1 = 0 ∧ (s.Seek offset origin).2.m_fileMemoryBufferPosition < 2 ^ 64)
      ∨ ((s.Seek offset origin).1 ≠ 0
          ∧ (s.Seek offset origin).2.m_fileMemoryBufferPosition = s.m_fileMemoryBufferPosition) := by
  have t : ∀ x : Int, toU64 x < 2 ^ 64 := by
    intro x
    unfold toU64
    omega
  unfold StreamWrapper.Seek
  dsimp only
  split_ifs
  · exact Or.inr ⟨(show (-1 : Int) ≠ 0 by decide), rfl⟩
  · exact Or.inl ⟨rfl, t _⟩
  · exact Or.inr ⟨(show (-1 : Int) ≠ 0 by decide), rfl⟩
  · exact Or.inl ⟨rfl, t _⟩
  · exact Or.inr ⟨(show (-1 : Int) ≠ 0 by decide), rfl⟩
  · exact Or.inl ⟨rfl, t _⟩
  · exact Or.inr ⟨(show (-1 : Int) ≠ 0 by decide), rfl⟩

/-- A seek from the current position leaves the position inside the buffer. -/
theorem StreamWrapper.Seek_cur_inside (s : StreamWrapper) (offset : Int)
    (hp : s.m_fileMemoryBufferPosition ≤ s.m_fileMemoryBufferSize) :
    (s.Seek offset SEEK_CUR).2.m_fileMemoryBufferPosition
      ≤ (s.Seek offset SEEK_CUR).2.m_fileMemoryBufferSize := by
  rw [StreamWrapper.Seek_size]
  unfold StreamWrapper.Seek
  have e1 : ¬ (SEEK_CUR = SEEK_SET) := by decide
  rw [if_neg e1, if_pos rfl]
  dsimp only
  split_ifs with hc
  · exact hp
  · show toU64 _ ≤ _
    omega

/-- A seek from the start to an offset below `2^32` leaves the position
inside the buffer. -/
theorem StreamWrapper.Seek_set_inside (s : StreamWrapper) (offset : Int)
    (hp : s.m_fileMemoryBufferPosition ≤ s.m_fileMemoryBufferSize)
    (h0 : 0 ≤ offset) (h1 : offset < 2 ^ 32) :
    (s.Seek offset SEEK_SET).2.m_fileMemoryBufferPosition
      ≤ (s.Seek offset SEEK_SET).2.m_fileMemoryBufferSize := by
  rw [StreamWrapper.Seek_size]
  unfold StreamWrapper.Seek
  rw [if_pos rfl]
  dsimp only
  split_ifs with hc
  · exact hp
  · show toU64 _ ≤ _
    have : toU32 offset = toU64 offset := by
      unfold toU32 toU64
      omega
    omega

theorem StreamWrapper.Read_size (s : StreamWrapper) (n : Nat) (r : ReadResult)
    (h : s.Read n = Result.ok r) :
    r.stream.m_fileMemoryBufferSize = s.m_fileMemoryBufferSize := by
  have e := StreamWrapper.Read_file s n r h
  unfold StreamWrapper.file at e
  unfold StreamWrapper.m_fileMemoryBufferSize
  rw [(Prod.mk.inj e).1]

theorem StreamWrapper.Seek_fail_inside (s : StreamWrapper) (offset origin : Int)
    (hp : s.m_fileMemoryBufferPosition ≤ s.m_fileMemoryBufferSize)
    (hf : ¬ ((s.Seek offset origin).1 = 0)) :
    (s.Seek offset origin).2.m_fileMemoryBufferPosition
      ≤ (s.Seek offset origin).2.m_fileMemoryBufferSize := by
  rcases StreamWrapper.Seek_position s offset origin with ⟨h0, _⟩ | ⟨_, h1⟩
  · exact absurd h0 hf
  · rw [StreamWrapper.Seek_size, h1]
    exact hp

theorem StreamWrapper.Seek_ok_lt (s : StreamWrapper) (offset origin : Int)
    (h0 : (s.Seek offset origin).1 = 0) :
    (s.Seek offset origin).2.m_fileMemoryBufferPosition < 2 ^ 64 := by
  rcases StreamWrapper.Seek_position s offset origin with ⟨_, h1⟩ | ⟨hf, _⟩
  · exact h1
  · exact absurd h0 hf

/-! ## MP3Decoder: the tag probes leave the position inside the buffer -/

theorem U32_pos : 0 < U32 := by
  unfold U32
  norm_num

theorem toU32_lt (x : Int) : toU32 x < 2 ^ 32 := by
  unfold toU32
  omega

theorem MP3Decoder.GetID3v2TagHeaderLength_inside (d d1 : MP3Decoder) (n : Nat)
    (hL : d.m_stream.m_fileMemoryBufferSize < 2 ^ 63)
    (hp : d.m_stream.m_fileMemoryBufferPosition ≤ d.m_stream.m_fileMemoryBufferSize)
    (h : d.GetID3v2TagHeaderLength = Result.ok (n, d1)) :
    d1.m_stream.m_fileMemoryBufferPosition ≤ d1.m_stream.m_fileMemoryBufferSize
      ∧ n < 2 ^ 32 := by
  unfold MP3Decoder.GetID3v2TagHeaderLength at h
  split at h
  · obtain ⟨r, hr, h⟩ := Result.bind_eq_ok _ _ _ h
    obtain ⟨r2, h2, e, _⟩ := StreamWrapper.Read_total d.m_stream 10 hL (by norm_num) hp
    rw [h2] at hr
    injection hr with hr
    subst hr
    dsimp only at h
    have hmod : ∀ x : Nat, x % U32 < 2 ^ 32 := fun x => Nat.mod_lt x U32_pos
    repeat' split at h
    all_goals
      injection h with h
      injection h with h1 h2
      subst h2
      refine ⟨e, ?_⟩
      rw [← h1]
      first
        | exact hmod _
        | norm_num
  · injection h with h
    injection h with h1 h2
    subst h2
    refine ⟨hp, ?_⟩
    rw [← h1]
    norm_num

theorem MP3Decoder.GetLyricsTagLength_inside (d d1 : MP3Decoder) (n : Nat)
    (hL : d.m_stream.m_fileMemoryBufferSize < 2 ^ 63)
    (hp : d.m_stream.m_fileMemoryBufferPosition < 2 ^ 64)
    (h : d.GetLyricsTagLength = Result.ok (n, d1)) :
    d1.m_stream.m_fileMemoryBufferPosition ≤ d1.m_stream.m_fileMemoryBufferSize := by
  unfold MP3Decoder.GetLyricsTagLength at h
  rw [Result.bind_eq_ok_iff] at h
  obtain ⟨r, hr, h⟩ := h
  try dsimp only at h
  have e := StreamWrapper.Read_ok_inside _ _ _ hL (by norm_num) (by norm_num) hp hr
  have ef := StreamWrapper.Read_file _ _ _ hr
  have eL : r.stream.m_fileMemoryBufferSize < 2 ^ 63 := by
    have : r.stream.m_fileMemoryBuffer = d.m_stream.m_fileMemoryBuffer := (Prod.mk.inj ef).1
    unfold StreamWrapper.m_fileMemoryBufferSize
    rw [this]
    exact hL
  split at h
  · split at h
    · have e1 := StreamWrapper.Seek_cur_inside r.stream (-MP3Decoder.searchBufferSize) e
      have eL1 := StreamWrapper.Seek_size r.stream (-MP3Decoder.searchBufferSize) SEEK_CUR
      split at h
      · rw [Result.bind_eq_ok_iff] at h
        obtain ⟨r2, hr2, h⟩ := h
        try dsimp only at h
        obtain ⟨r3, hr3, e2, _⟩ := StreamWrapper.Read_total
          (r.stream.Seek (-MP3Decoder.searchBufferSize) SEEK_CUR).2
          MP3Decoder.searchBufferSize.toNat (by rw [eL1]; exact eL) (by decide) e1
        rw [hr3] at hr2
        injection hr2 with hr2
        subst hr2
        split at h
        · rw [Result.bind_eq_ok_iff] at h
          obtain ⟨found, _, h⟩ := h
          try dsimp only at h
          split at h
          all_goals
            injection h with h
            injection h with h1 h2
            subst h2
            exact e2
        · injection h with h
          injection h with h1 h2
          subst h2
          exact e2
      · injection h with h
        injection h with h1 h2
        subst h2
        exact e1
    · split at h
      · have e1 := StreamWrapper.Seek_cur_inside r.stream (-15) e
        have eL1 := StreamWrapper.Seek_size r.stream (-15) SEEK_CUR
        split at h
        · rw [Result.bind_eq_ok_iff] at h
          obtain ⟨r2, hr2, h⟩ := h
          try dsimp only at h
          obtain ⟨r3, hr3, e2, eb2, _⟩ := StreamWrapper.Read_total
            (r.stream.Seek (-15) SEEK_CUR).2 6 (by rw [eL1]; exact eL) (by norm_num) e1
          rw [hr3] at hr2
          injection hr2 with hr2
          subst hr2
          have eL2 : r3.stream.m_fileMemoryBufferSize < 2 ^ 63 := by
            unfold StreamWrapper.m_fileMemoryBufferSize
            rw [eb2, StreamWrapper.Seek_buffer]
            exact eL
          split at h
          · split at h
            · split at h
              · rw [Result.bind_eq_ok_iff] at h
                obtain ⟨r4, hr4, h⟩ := h
                try dsimp only at h
                have e4 : r4.stream.m_fileMemoryBufferPosition ≤ r4.stream.m_fileMemoryBufferSize := by
                  refine StreamWrapper.Read_ok_inside _ 11 r4 ?_ (by norm_num) (by norm_num) ?_ hr4
                  · rw [StreamWrapper.Seek_size]
                    exact eL2
                  · apply lt_of_le_of_lt (StreamWrapper.Seek_cur_inside r3.stream _ e2)
                    rw [StreamWrapper.Seek_size]
                    omega
                split at h
                all_goals
                  injection h with h
                  injection h with h1 h2
                  subst h2
                  exact e4
              · injection h with h
                injection h with h1 h2
                subst h2
                exact StreamWrapper.Seek_cur_inside r3.stream _ e2
            · injection h with h
              injection h with h1 h2
              subst h2
              exact e2
          · injection h with h
            injection h with h1 h2
            subst h2
            exact e2
        · injection h with h
          injection h with h1 h2
          subst h2
          exact e1
      · injection h with h
        injection h with h1 h2
        subst h2
        exact e
  · injection h with h
    injection h with h1 h2
    subst h2
    exact e

theorem MP3Decoder.GetTagFooterLengthAPE_inside (d d1 : MP3Decoder)
    (hL : d.m_stream.m_fileMemoryBufferSize < 2 ^ 63)
    (hp : d.m_stream.m_fileMemoryBufferPosition ≤ d.m_stream.m_fileMemoryBufferSize)
    (h : d.GetTagFooterLengthAPE = Result.ok d1) :
    d1.m_stream.m_fileMemoryBufferPosition ≤ d1.m_stream.m_fileMemoryBufferSize := by
  unfold MP3Decoder.GetTagFooterLengthAPE at h
  dsimp only at h
  split at h
  · rename_i hseek
    rw [Result.bind_eq_ok_iff] at h
    obtain ⟨r, hr, h⟩ := h
    have e := StreamWrapper.Read_ok_inside _ _ _ (by rw [StreamWrapper.Seek_size]; exact hL)
      (by decide) (by decide) (StreamWrapper.Seek_ok_lt _ _ _ hseek) hr
    have eL : r.stream.m_fileMemoryBufferSize < 2 ^ 63 := by
      rw [StreamWrapper.Read_size _ _ _ hr, StreamWrapper.Seek_size]
      exact hL
    try dsimp only at h
    split at h
    · split at h
      · injection h with h
        subst h
        exact e
      · split at h
        all_goals
          dsimp only at h
          split at h
          · rename_i hseek2
            rw [Result.bind_eq_ok_iff] at h
            obtain ⟨lyrics, hl, h⟩ := h
            have el := MP3Decoder.GetLyricsTagLength_inside _ lyrics.2 lyrics.1
              (by dsimp only; rw [StreamWrapper.Seek_size]; exact eL)
              (StreamWrapper.Seek_ok_lt _ _ _ hseek2) hl
            injection h with h
            subst h
            exact el
          · rename_i hseek2
            injection h with h
            subst h
            exact StreamWrapper.Seek_fail_inside _ _ _ e hseek2
    · injection h with h
      subst h
      exact e
  · rename_i hseek
    injection h with h
    subst h
    exact StreamWrapper.Seek_fail_inside _ _ _ hp hseek

theorem MP3Decoder.GetTagFooterLength_inside (d d1 : MP3Decoder) (n : Nat)
    (hL : d.m_stream.m_fileMemoryBufferSize < 2 ^ 63)
    (hp : d.m_stream.m_fileMemoryBufferPosition ≤ d.m_stream.m_fileMemoryBufferSize)
    (h : d.GetTagFooterLength = Result.ok (n, d1)) :
    d1.m_stream.m_fileMemoryBufferPosition ≤ d1.m_stream.m_fileMemoryBufferSize
      ∧ n < 2 ^ 32 := by
  unfold MP3Decoder.GetTagFooterLength at h
  dsimp only at h
  rw [Result.bind_eq_ok_iff] at h
  obtain ⟨d2, h2, h⟩ := h
  rw [Result.bind_eq_ok_iff] at h
  obtain ⟨d3, h3, h⟩ := h
  injection h with h
  injection h with h4 h5
  subst h5
  refine ⟨?_, by rw [← h4]; exact toU32_lt _⟩
  have key : d2.m_stream.m_fileMemoryBufferPosition ≤ d2.m_stream.m_fileMemoryBufferSize
      ∧ d2.m_stream.m_fileMemoryBufferSize < 2 ^ 63 := by
    split at h2
    · rename_i hseek
      rw [Result.bind_eq_ok_iff] at h2
      obtain ⟨r, hr, h2⟩ := h2
      have e := StreamWrapper.Read_ok_inside _ _ _ (by rw [StreamWrapper.Seek_size]; exact hL)
        (by decide) (by decide) (StreamWrapper.Seek_ok_lt _ _ _ hseek) hr
      have eL : r.stream.m_fileMemoryBufferSize < 2 ^ 63 := by
        rw [StreamWrapper.Read_size _ _ _ hr, StreamWrapper.Seek_size]
        exact hL
      try dsimp only at h2
      split at h2
      · split at h2
        · rename_i hseek2
          rw [Result.bind_eq_ok_iff] at h2
          obtain ⟨lyrics, hl, h2⟩ := h2
          have el := MP3Decoder.GetLyricsTagLength_inside _ lyrics.2 lyrics.1
            (by dsimp only; rw [StreamWrapper.Seek_size]; exact eL)
            (StreamWrapper.Seek_ok_lt _ _ _ hseek2) hl
          have ef := (MP3Decoder.GetLyricsTagLength_file _ lyrics.2 lyrics.1 hl).1
          injection h2 with h2
          subst h2
          refine ⟨el, ?_⟩
          have eb : lyrics.2.m_stream.m_fileMemoryBuffer
              = (r.stream.Seek (-128 - 9) SEEK_END).2.m_fileMemoryBuffer := (Prod.mk.inj ef).1
          show lyrics.2.m_stream.m_fileMemoryBuffer.length < 2 ^ 63
          rw [eb, StreamWrapper.Seek_buffer]
          exact eL
        · rename_i hseek2
          injection h2 with h2
          subst h2
          exact ⟨StreamWrapper.Seek_fail_inside _ _ _ e hseek2,
            by dsimp only; rw [StreamWrapper.Seek_size]; exact eL⟩
      · injection h2 with h2
        subst h2
        exact ⟨e, eL⟩
    · rename_i hseek
      injection h2 with h2
      subst h2
      exact ⟨StreamWrapper.Seek_fail_inside _ _ _ hp hseek,
        by dsimp only; rw [StreamWrapper.Seek_size]; exact hL⟩
  exact MP3Decoder.GetTagFooterLengthAPE_inside d2 d3 key.2 key.1 h3

theorem MP3Decoder.GetLyricsTagLength_tag (d d1 : MP3Decoder) (n : Nat)
    (h : d.GetLyricsTagLength = Result.ok (n, d1)) :
    d1.m_fileSizeInBytes = d.m_fileSizeInBytes
      ∧ d1.m_tagHeaderLengthBytes = d.m_tagHeaderLengthBytes := by
  unfold MP3Decoder.GetLyricsTagLength at h
  rw [Result.bind_eq_ok_iff] at h
  obtain ⟨r, hr, h⟩ := h
  try dsimp only at h
  split at h
  · split at h
    · split at h
      rw [Result.bind_eq_ok_iff] at h
      obtain ⟨r2, hr2, h⟩ := h
      try dsimp only at h
      split at h
      rw [Result.bind_eq_ok_iff] at h
      obtain ⟨found, _, h⟩ := h
      try dsimp only at h
      split at h
      all_goals
        injection h with h
        injection h with h1 h2
        subst h2
        exact ⟨rfl, rfl⟩
    · split at h
      · split at h
        rw [Result.bind_eq_ok_iff] at h
        obtain ⟨r2, hr2, h⟩ := h
        try dsimp only at h
        split at h
        split at h
        split at h
        rw [Result.bind_eq_ok_iff] at h
        obtain ⟨r3, hr3, h⟩ := h
        try dsimp only at h
        split at h
        all_goals
          injection h with h
          injection h with h1 h2
          subst h2
          exact ⟨rfl, rfl⟩
      · injection h with h
        injection h with h1 h2
        subst h2
        exact ⟨rfl, rfl⟩
  · injection h with h
    injection h with h1 h2
    subst h2
    exact ⟨rfl, rfl⟩

theorem MP3Decoder.GetTagFooterLengthAPE_tag (d d1 : MP3Decoder)
    (h : d.GetTagFooterLengthAPE = Result.ok d1) :
    d1.m_fileSizeInBytes = d.m_fileSizeInBytes
      ∧ d1.m_tagHeaderLengthBytes = d.m_tagHeaderLengthBytes := by
  unfold MP3Decoder.GetTagFooterLengthAPE at h
  dsimp only at h
  split at h
  · rw [Result.bind_eq_ok_iff] at h
    obtain ⟨r, hr, h⟩ := h
    try dsimp only at h
    split at h
    · split at h
      · injection h with h
        subst h
        exact ⟨rfl, rfl⟩
      · split at h
        all_goals
          dsimp only at h
          split at h
          · rw [Result.bind_eq_ok_iff] at h
            obtain ⟨lyrics, hl, h⟩ := h
            have el := MP3Decoder.GetLyricsTagLength_tag _ lyrics.2 lyrics.1 hl
            injection h with h
            subst h
            exact el
          · injection h with h
            subst h
            exact ⟨rfl, rfl⟩
    · injection h with h
      subst h
      exact ⟨rfl, rfl⟩
  · injection h with h
    subst h
    exact ⟨rfl, rfl⟩

theorem MP3Decoder.GetTagFooterLength_tag (d d1 : MP3Decoder) (n : Nat)
    (h : d.GetTagFooterLength = Result.ok (n, d1)) :
    d1.m_fileSizeInBytes = d.m_fileSizeInBytes
      ∧ d1.m_tagHeaderLengthBytes = d.m_tagHeaderLengthBytes := by
  unfold MP3Decoder.GetTagFooterLength at h
  dsimp only at h
  rw [Result.bind_eq_ok_iff] at h
  obtain ⟨d2, h2, h⟩ := h
  rw [Result.bind_eq_ok_iff] at h
  obtain ⟨d3, h3, h⟩ := h
  obtain ⟨a1, a2⟩ := MP3Decoder.GetTagFooterLengthAPE_tag _ _ h3
  injection h with h
  injection h with h4 h5
  subst h5
  rw [a1, a2]
  split at h2
  · rw [Result.bind_eq_ok_iff] at h2
    obtain ⟨r, hr, h2⟩ := h2
    try dsimp only at h2
    split at h2
    · split at h2
      · rw [Result.bind_eq_ok_iff] at h2
        obtain ⟨lyrics, hl, h2⟩ := h2
        have el := MP3Decoder.GetLyricsTagLength_tag _ lyrics.2 lyrics.1 hl
        injection h2 with h2
        subst h2
        exact el
      · injection h2 with h2
        subst h2
        exact ⟨rfl, rfl⟩
    · injection h2 with h2
      subst h2
      exact ⟨rfl, rfl⟩
  · injection h2 with h2
    subst h2
    exact ⟨rfl, rfl⟩

/-- What a successful `OpenFile` leaves: the stream over the bytes of the
file at a position inside the buffer, the end of the audio data at the size
of the file less the footer length, the byte offset at the header length, both
lengths below `2^32`, and the counters reset. -/
theorem MP3Decoder.OpenFile_opened (d d0 : MP3Decoder) (bytes : List Byte)
    (hL : bytes.length < 2 ^ 63)
    (h : d.OpenFile bytes = Result.ok d0) :
    d0.m_stream.m_fileMemoryBuffer = bytes
      ∧ d0.m_stream.m_fileMemoryBufferPosition ≤ d0.m_stream.m_fileMemoryBufferSize
      ∧ d0.m_fileSizeInBytes = (bytes.length : Int) - (d0.m_tagFooterLengthBytes : Int)
      ∧ d0.m_offset = (d0.m_tagHeaderLengthBytes : Int)
      ∧ d0.m_tagHeaderLengthBytes < 2 ^ 32
      ∧ d0.m_tagFooterLengthBytes < 2 ^ 32
      ∧ d0.m_maxResynchronizationCount = MAX_RESYNCHRONIZATION_ATTEMPTS
      ∧ d0.m_previousFrameHeader = 0
      ∧ d0.m_frameSamplePosition = 0
      ∧ d0.m_decoderIsOpen = true := by
  unfold MP3Decoder.OpenFile at h
  dsimp only at h
  have hlen := StreamWrapper.Length_opened bytes hL
  rw [if_pos (by rw [hlen]; omega)] at h
  rw [Result.bind_eq_ok_iff] at h
  obtain ⟨header, hh, h⟩ := h
  rw [Result.bind_eq_ok_iff] at h
  obtain ⟨footer, hf, h⟩ := h
  obtain ⟨p1, n1⟩ : header.2.m_stream.m_fileMemoryBufferPosition
        ≤ header.2.m_stream.m_fileMemoryBufferSize ∧ header.1 < 2 ^ 32 := by
    refine MP3Decoder.GetID3v2TagHeaderLength_inside _ header.2 header.1 ?_ ?_ hh
    · exact hL
    · exact Nat.zero_le _
  obtain ⟨f1, z1⟩ := MP3Decoder.GetID3v2TagHeaderLength_file _ header.2 header.1 hh
  have hb1 : header.2.m_stream.m_fileMemoryBuffer = bytes := (Prod.mk.inj f1).1
  have hs1 : header.2.m_stream.m_fileMemoryBufferSize = bytes.length := by
    unfold StreamWrapper.m_fileMemoryBufferSize
    rw [hb1]
  obtain ⟨p2, n2⟩ : footer.2.m_stream.m_fileMemoryBufferPosition
        ≤ footer.2.m_stream.m_fileMemoryBufferSize ∧ footer.1 < 2 ^ 32 := by
    refine MP3Decoder.GetTagFooterLength_inside _ footer.2 footer.1 ?_ ?_ hf
    · show header.2.m_stream.m_fileMemoryBufferSize < 2 ^ 63
      rw [hs1]
      exact hL
    · exact p1
  obtain ⟨f2, z2⟩ := MP3Decoder.GetTagFooterLength_file _ footer.2 footer.1 hf
  have hb2 : footer.2.m_stream.m_fileMemoryBuffer = bytes := ((Prod.mk.inj f2).1).trans hb1
  have ht : footer.2.m_tagHeaderLengthBytes = header.1 :=
    (MP3Decoder.GetTagFooterLength_tag _ footer.2 footer.1 hf).2
  injection h with h
  subst h
  dsimp only
  refine ⟨?_, ?_, ?_, rfl, by rw [ht]; exact n1, n2, rfl, rfl, rfl, rfl⟩
  · rw [StreamWrapper.Seek_buffer, hb2]
  · exact StreamWrapper.Seek_set_inside _ _ p2 (by omega) (by rw [ht]; omega)
  · rw [z2]
    dsimp only
    rw [z1]
    dsimp only
    rw [hlen]

/-! ## MP3Decoder: the footer length lies inside the file -/

/-- A read of at least one byte that returns started at a position inside the
buffer, wherever a seek had put it. -/
theorem StreamWrapper.Read_ok_before (s : StreamWrapper) (n : Nat) (r : ReadResult)
    (hL : s.m_fileMemoryBufferSize < 2 ^ 63) (hn0 : 0 < n) (hn : n < 2 ^ 63)
    (hp : s.m_fileMemoryBufferPosition < 2 ^ 64)
    (h : s.Read n = Result.ok r) :
    s.m_fileMemoryBufferPosition ≤ s.m_fileMemoryBufferSize := by
  by_contra hin
  unfold StreamWrapper.Read at h
  split at h
  · unfold StreamWrapper.copyOut at h
    split at h
    · split at h
      · rename_i h1 h2 h3
        have e1 : ({ s with m_isEOF := true } : StreamWrapper).m_fileMemoryBufferPosition
            = s.m_fileMemoryBufferPosition := rfl
        have e2 : ({ s with m_isEOF := true } : StreamWrapper).m_fileMemoryBufferSize
            = s.m_fileMemoryBufferSize := rfl
        rw [e1, e2] at h3
        unfold toU64 at h3
        omega
      · cases h
    · rename_i h1 h2
      unfold toU64 at h2
      omega
  · unfold StreamWrapper.copyOut at h
    rw [if_pos hn0] at h
    split at h
    · omega
    · cases h

/-- A seek from the end with an offset that is not positive is accepted; the
position it leaves is the sum of the size and the offset as a `size_t`. -/
theorem StreamWrapper.Seek_end_accepted (s : StreamWrapper) (offset : Int) (h : offset ≤ 0) :
    (s.Seek offset SEEK_END).1 = 0
      ∧ (s.Seek offset SEEK_END).2.m_fileMemoryBufferPosition
          = toU64 ((s.m_fileMemoryBufferSize : Int) + offset) := by
  have e1 : ¬ (SEEK_END = SEEK_SET) := by decide
  have e2 : ¬ (SEEK_END = SEEK_CUR) := by decide
  have hc : ¬ (offset > 0
      ∨ ((toU64 ((s.m_fileMemoryBufferSize : Int) + offset) : Nat) : Int) < 0) := by omega
  unfold StreamWrapper.Seek
  simp only [if_neg e1, if_neg e2, if_true, if_neg hc, and_self]

/-- A seek from the current position that is accepted leaves a position
inside the buffer, the sum of the position and the offset as a `size_t`. -/
theorem StreamWrapper.Seek_cur_accepted (s : StreamWrapper) (offset : Int)
    (h : (s.Seek offset SEEK_CUR).1 = 0) :
    (s.Seek offset SEEK_CUR).2.m_fileMemoryBufferPosition
        = toU64 ((s.m_fileMemoryBufferPosition : Int) + offset)
      ∧ toU64 ((s.m_fileMemoryBufferPosition : Int) + offset) ≤ s.m_fileMemoryBufferSize := by
  have e1 : ¬ (SEEK_CUR = SEEK_SET) := by decide
  unfold StreamWrapper.Seek at h ⊢
  rw [if_neg e1, if_pos rfl] at h ⊢
  dsimp only at h ⊢
  split_ifs at h ⊢ with hc
  · exact absurd h (show ¬ ((-1 : Int) = 0) by decide)
  · exact ⟨rfl, by omega⟩

theorem firstOccurrence_le : ∀ (hay needle : List Byte) (i : Nat),
    firstOccurrence hay needle = some i → i ≤ hay.length := by
  intro hay
  induction hay with
  | nil =>
    intro needle i h
    unfold firstOccurrence at h
    split_ifs at h
    injection h with h
    omega
  | cons b rest ih =>
    intro needle i h
    unfold firstOccurrence at h
    split_ifs at h
    · injection h with h
      omega
    · cases hr : firstOccurrence rest needle with
      | none =>
        rw [hr] at h
        cases h
      | some j =>
        rw [hr] at h
        have hj := ih needle j hr
        have h2 : j + 1 = i := Option.some.inj h
        rw [List.length_cons]
        omega

theorem cString_length_le (buffer : List Byte) : (cString buffer).length ≤ buffer.length := by
  unfold cString
  exact (List.takeWhile_sublist _).length_le

theorem toU32_le (x : Int) (h : 0 ≤ x) : (toU32 x : Int) ≤ x := by
  unfold toU32
  omega

theorem toU32_add_toU32 (a t : Int) : toU32 (a + (toU32 t : Int)) = toU32 (a + t) := by
  unfold toU32
  omega


/-- The length `GetLyricsTagLength` returns is the 32-bit value of a number
`t`, the distance from the start of the block it found to the position after
the nine bytes of the end marker: the block starts inside the buffer, so `t`
is at most that position, and when `t` is not 0 the start is inside the
buffer.  The first read is at a position inside the buffer; the accumulated
offset is left as it is. -/
theorem MP3Decoder.GetLyricsTagLength_length (d d1 : MP3Decoder) (n : Nat)
    (hL : d.m_stream.m_fileMemoryBufferSize < 2 ^ 63)
    (hp : d.m_stream.m_fileMemoryBufferPosition < 2 ^ 64)
    (h : d.GetLyricsTagLength = Result.ok (n, d1)) :
    d.m_stream.m_fileMemoryBufferPosition ≤ d.m_stream.m_fileMemoryBufferSize
      ∧ d1.m_offset = d.m_offset
      ∧ ∃ t : Int, n = toU32 t
          ∧ t ≤ (d.m_stream.m_fileMemoryBufferPosition : Int) + 9
          ∧ (t = 0 ∨ (d.m_stream.m_fileMemoryBufferPosition : Int) + 9 - t
              ≤ (d.m_stream.m_fileMemoryBufferSize : Int)) := by
  have hzero : ∃ t : Int, 0 = toU32 t
      ∧ t ≤ (d.m_stream.m_fileMemoryBufferPosition : Int) + 9
      ∧ (t = 0 ∨ (d.m_stream.m_fileMemoryBufferPosition : Int) + 9 - t
          ≤ (d.m_stream.m_fileMemoryBufferSize : Int)) :=
    ⟨0, rfl, by omega, Or.inl rfl⟩
  unfold MP3Decoder.GetLyricsTagLength at h
  rw [Result.bind_eq_ok_iff] at h
  obtain ⟨r, hr, h⟩ := h
  try dsimp only at h
  have hin := StreamWrapper.Read_ok_before _ _ _ hL (by norm_num) (by norm_num) hp hr
  refine ⟨hin, ?_⟩
  obtain ⟨r', hr', e1, e2, e3, e4⟩ := StreamWrapper.Read_total d.m_stream 9 hL (by norm_num) hin
  rw [hr'] at hr
  have hrr : r' = r := Result.ok.inj hr
  subst hrr
  have eL : r'.stream.m_fileMemoryBufferSize = d.m_stream.m_fileMemoryBufferSize := by
    unfold StreamWrapper.m_fileMemoryBufferSize
    rw [e2]
  split at h
  · rename_i hc9
    split at h
    · split at h
      · rename_i hseek
        obtain ⟨s1, s2⟩ := StreamWrapper.Seek_cur_accepted _ _ hseek
        rw [Result.bind_eq_ok_iff] at h
        obtain ⟨r2, hr2, h⟩ := h
        try dsimp only at h
        split at h
        · rw [Result.bind_eq_ok_iff] at h
          obtain ⟨found, hfound, h⟩ := h
          try dsimp only at h
          split at h
          · rename_i lyricsOffset
            have h1 := (Prod.mk.inj (Result.ok.inj h)).1
            have h2 := (Prod.mk.inj (Result.ok.inj h)).2
            refine ⟨by rw [← h2], ?_⟩
            have hle : lyricsOffset ≤ MP3Decoder.searchBufferSize.toNat := by
              unfold strstr at hfound
              split at hfound
              · rename_i i hi
                have hi2 := firstOccurrence_le _ _ _ hi
                have hc := cString_length_le
                  (overwrite (List.replicate MP3Decoder.searchBufferSize.toNat 0) 0 r2.data)
                have hl : (overwrite (List.replicate MP3Decoder.searchBufferSize.toNat 0) 0
                    r2.data).length ≤ MP3Decoder.searchBufferSize.toNat := by
                  unfold overwrite
                  rw [List.length_take, List.length_replicate]
                  exact Nat.min_le_left _ _
                have hii : some i = some lyricsOffset := Result.ok.inj hfound
                have hi3 : i = lyricsOffset := Option.some.inj hii
                omega
              · split at hfound
                · exact absurd (Result.ok.inj hfound) (by simp)
                · cases hfound
            have hsz : MP3Decoder.searchBufferSize = 5100 := rfl
            have htn : MP3Decoder.searchBufferSize.toNat = 5100 := by decide
            rw [htn] at hle
            rw [hsz] at s2 h1
            have hu : toU64 ((5100 : Int) - (lyricsOffset : Int)) = 5100 - lyricsOffset := by
              unfold toU64
              omega
            have hi32 : toI32 (toU64 ((5100 : Int) - (lyricsOffset : Int)))
                = ((5100 - lyricsOffset : Nat) : Int) := by
              rw [hu]
              exact toI32_of_lt _ (by omega)
            refine ⟨toI32 (toU64 ((5100 : Int) - (lyricsOffset : Int))), h1.symm, ?_, ?_⟩
            · rw [hi32]
              unfold toU64 at s2
              omega
            · right
              rw [hi32]
              rw [eL] at e1
              omega
          · have h1 := (Prod.mk.inj (Result.ok.inj h)).1
            have h2 := (Prod.mk.inj (Result.ok.inj h)).2
            refine ⟨by rw [← h2], ?_⟩
            rw [← h1]
            exact hzero
        · have h1 := (Prod.mk.inj (Result.ok.inj h)).1
          have h2 := (Prod.mk.inj (Result.ok.inj h)).2
          refine ⟨by rw [← h2], ?_⟩
          rw [← h1]
          exact hzero
      · have h1 := (Prod.mk.inj (Result.ok.inj h)).1
        have h2 := (Prod.mk.inj (Result.ok.inj h)).2
        refine ⟨by rw [← h2], ?_⟩
        rw [← h1]
        exact hzero
    · split at h
      · split at h
        · rename_i hseek
          obtain ⟨s1, s2⟩ := StreamWrapper.Seek_cur_accepted _ _ hseek
          have e15 := StreamWrapper.Seek_cur_inside r'.stream (-15) e1
          have eL15 := StreamWrapper.Seek_size r'.stream (-15) SEEK_CUR
          rw [Result.bind_eq_ok_iff] at h
          obtain ⟨r2, hr2, h⟩ := h
          try dsimp only at h
          obtain ⟨r3, hr3, f1, f2, f3, f4⟩ := StreamWrapper.Read_total
            (r'.stream.Seek (-15) SEEK_CUR).2 6 (by rw [eL15, eL]; exact hL) (by norm_num) e15
          rw [hr3] at hr2
          have hrr2 : r3 = r2 := Result.ok.inj hr2
          subst hrr2
          have fL : r3.stream.m_fileMemoryBufferSize = d.m_stream.m_fileMemoryBufferSize := by
            unfold StreamWrapper.m_fileMemoryBufferSize
            rw [f2, StreamWrapper.Seek_buffer, e2]
          split at h
          · rename_i hc6
            obtain ⟨len, hlen⟩ : ∃ len : Int, len = atoi ((overwrite (overwrite
                (List.replicate 12 0) 0 r'.data) 0 r3.data).set 6 0) := ⟨_, rfl⟩
            rw [← hlen] at h
            split at h
            · split at h
              · rename_i hseek2
                obtain ⟨u1, u2⟩ := StreamWrapper.Seek_cur_accepted _ _ hseek2
                rw [Result.bind_eq_ok_iff] at h
                obtain ⟨r4, hr4, h⟩ := h
                try dsimp only at h
                have g15 := StreamWrapper.Seek_cur_inside r3.stream (-(6 + len)) f1
                obtain ⟨r5, hr5, g1, g2, g3, g4⟩ := StreamWrapper.Read_total
                  (r3.stream.Seek (-(6 + len)) SEEK_CUR).2 11
                  (by rw [StreamWrapper.Seek_size, fL]; exact hL) (by norm_num) g15
                rw [hr5] at hr4
                have hrr4 : r5 = r4 := Result.ok.inj hr4
                subst hrr4
                have gL : r5.stream.m_fileMemoryBufferSize
                    = d.m_stream.m_fileMemoryBufferSize := by
                  unfold StreamWrapper.m_fileMemoryBufferSize
                  rw [g2, StreamWrapper.Seek_buffer, f2, StreamWrapper.Seek_buffer, e2]
                split at h
                · rename_i hmatch
                  have h1 : toU32 (len + 15) = n := (Prod.mk.inj (Result.ok.inj h)).1
                  have h2 := (Prod.mk.inj (Result.ok.inj h)).2
                  refine ⟨by rw [← h2], ?_⟩
                  have hc11 : r5.count = 11 := hmatch.1
                  rw [gL, g3, hc11] at g1
                  rw [hc6] at f3
                  rw [hc9] at e3
                  rw [eL] at s2
                  rw [fL] at u2
                  refine ⟨(d.m_stream.m_fileMemoryBufferPosition : Int) + 9
                    - (((r3.stream.Seek (-(6 + len)) SEEK_CUR).2.m_fileMemoryBufferPosition
                          : Nat) : Int), ?_, ?_, ?_⟩
                  · rw [← h1]
                    rw [u1, f3, s1, e3]
                    rw [e3] at s2
                    unfold toU32 toU64
                    unfold toU64 at s2
                    push_cast
                    omega
                  · omega
                  · right
                    omega
                · have h1 := (Prod.mk.inj (Result.ok.inj h)).1
                  have h2 := (Prod.mk.inj (Result.ok.inj h)).2
                  refine ⟨by rw [← h2], ?_⟩
                  rw [← h1]
                  exact hzero
              · have h1 := (Prod.mk.inj (Result.ok.inj h)).1
                have h2 := (Prod.mk.inj (Result.ok.inj h)).2
                refine ⟨by rw [← h2], ?_⟩
                rw [← h1]
                exact hzero
            · have h1 := (Prod.mk.inj (Result.ok.inj h)).1
              have h2 := (Prod.mk.inj (Result.ok.inj h)).2
              refine ⟨by rw [← h2], ?_⟩
              rw [← h1]
              exact hzero
          · have h1 := (Prod.mk.inj (Result.ok.inj h)).1
            have h2 := (Prod.mk.inj (Result.ok.inj h)).2
            refine ⟨by rw [← h2], ?_⟩
            rw [← h1]
            exact hzero
        · have h1 := (Prod.mk.inj (Result.ok.inj h)).1
          have h2 := (Prod.mk.inj (Result.ok.inj h)).2
          refine ⟨by rw [← h2], ?_⟩
          rw [← h1]
          exact hzero
      · have h1 := (Prod.mk.inj (Result.ok.inj h)).1
        have h2 := (Prod.mk.inj (Result.ok.inj h)).2
        refine ⟨by rw [← h2], ?_⟩
        rw [← h1]
        exact hzero
  · have h1 := (Prod.mk.inj (Result.ok.inj h)).1
    have h2 := (Prod.mk.inj (Result.ok.inj h)).2
    refine ⟨by rw [← h2], ?_⟩
    rw [← h1]
    exact hzero


theorem fieldAt_lt (data : List Byte) (offset : Nat) : fieldAt data offset < 2 ^ 32 := by
  unfold fieldAt
  have h0 := (data.getD offset 0).isLt
  have h1 := (data.getD (offset + 1) 0).isLt
  have h2 := (data.getD (offset + 2) 0).isLt
  have h3 := (data.getD (offset + 3) 0).isLt
  omega

/-- The probe for a Lyrics3 block that follows a seek from the end: when it
returns, the bytes counted so far and the block it found lie inside the
buffer, so the footer length that results is at most the size of the buffer. -/
theorem MP3Decoder.GetLyricsTagLength_footer (X : MP3Decoder) (lyrics : Nat × MP3Decoder)
    (s : StreamWrapper) (offset : Int)
    (hs : X.m_stream = (s.Seek (offset - 9) SEEK_END).2)
    (hL : s.m_fileMemoryBufferSize < 2 ^ 63)
    (h0 : offset ≤ 0) (h1 : -(2 : Int) ^ 40 ≤ offset)
    (h : X.GetLyricsTagLength = Result.ok lyrics) :
    (toU32 (0 - (offset - (lyrics.1 : Int))) : Int) ≤ (s.m_fileMemoryBufferSize : Int)
      ∧ -(2 : Int) ^ 40 - 2 ^ 32 ≤ offset - (lyrics.1 : Int)
      ∧ offset - (lyrics.1 : Int) ≤ 0
      ∧ lyrics.2.m_offset = X.m_offset := by
  obtain ⟨a1, a2⟩ := StreamWrapper.Seek_end_accepted s (offset - 9) (by omega)
  have hz := StreamWrapper.Seek_size s (offset - 9) SEEK_END
  obtain ⟨b1, b2, t, b3, b4, b5⟩ := MP3Decoder.GetLyricsTagLength_length X lyrics.2 lyrics.1
    (by rw [hs, hz]; exact hL)
    (by rw [hs]; exact StreamWrapper.Seek_ok_lt _ _ _ a1)
    h
  rw [hs, hz] at b1 b5
  rw [hs] at b4
  rw [a2] at b1 b4 b5
  have hpos : toU64 ((s.m_fileMemoryBufferSize : Int) + (offset - 9))
      = ((s.m_fileMemoryBufferSize : Int) + (offset - 9)).toNat
      ∧ 0 ≤ (s.m_fileMemoryBufferSize : Int) + (offset - 9) := by
    unfold toU64 at b1 ⊢
    omega
  rw [hpos.1] at b4 b5
  have hlt := toU32_lt t
  have hsum : toU32 (0 - (offset - (lyrics.1 : Int))) = toU32 (-offset + t) := by
    rw [b3]
    have := toU32_add_toU32 (-offset) t
    rw [← this]
    congr 1
    ring
  have hle := toU32_le (-offset + t) (by omega)
  rw [hsum]
  refine ⟨by omega, by omega, by omega, b2⟩

/-- The probe for an APE tag, entered with the bytes counted so far as a
negative offset: when it returns, the footer length that results from its
offset is at most the size of the buffer. -/
theorem MP3Decoder.GetTagFooterLengthAPE_footer (d d1 : MP3Decoder)
    (hL : d.m_stream.m_fileMemoryBufferSize < 2 ^ 63)
    (h0 : d.m_offset ≤ 0) (h1 : -(2 : Int) ^ 34 ≤ d.m_offset)
    (h : d.GetTagFooterLengthAPE = Result.ok d1) :
    (toU32 (0 - d1.m_offset) : Int) ≤ (d.m_stream.m_fileMemoryBufferSize : Int) := by
  have hA : APE_TAG_FOOTER_BYTES = 32 := rfl
  obtain ⟨a1, a2⟩ := StreamWrapper.Seek_end_accepted d.m_stream (d.m_offset - 32) (by omega)
  have hz := StreamWrapper.Seek_size d.m_stream (d.m_offset - 32) SEEK_END
  unfold MP3Decoder.GetTagFooterLengthAPE at h
  rw [hA] at h
  dsimp only at h
  rw [if_pos a1, Result.bind_eq_ok_iff] at h
  obtain ⟨r, hr, h⟩ := h
  have hin := StreamWrapper.Read_ok_before _ _ _ (by rw [hz]; exact hL)
    (by decide) (by decide) (StreamWrapper.Seek_ok_lt _ _ _ a1) hr
  rw [hz, a2] at hin
  have hroom : (32 : Int) - d.m_offset ≤ (d.m_stream.m_fileMemoryBufferSize : Int) := by
    unfold toU64 at hin
    omega
  have hsame : (toU32 (0 - d.m_offset) : Int) ≤ (d.m_stream.m_fileMemoryBufferSize : Int) := by
    have := toU32_le (0 - d.m_offset) (by omega)
    omega
  have eL : r.stream.m_fileMemoryBufferSize = d.m_stream.m_fileMemoryBufferSize := by
    rw [StreamWrapper.Read_size _ _ _ hr, hz]
  try dsimp only at h
  obtain ⟨st, hst⟩ : ∃ st : List Byte, st = overwrite (List.replicate 32 0) 0 r.data := ⟨_, rfl⟩
  rw [← hst] at h
  obtain ⟨size, hsize⟩ : ∃ size : Nat, size = fieldAt st 12 := ⟨_, rfl⟩
  have hsz : size < 2 ^ 32 := by
    rw [hsize]
    exact fieldAt_lt st 12
  rw [← hsize] at h
  split at h
  · split at h
    · rw [← Result.ok.inj h]
      exact hsame
    · by_cases hflag : fieldAt st 20 &&& APE_TAG_FLAG_CONTAINS_HEADER_MASK ≠ 0
      · rw [if_pos hflag] at h
        dsimp only at h
        have a3 := (StreamWrapper.Seek_end_accepted r.stream
          (d.m_offset - (size : Int) - 32 - 9) (by omega)).1
        rw [if_pos a3, Result.bind_eq_ok_iff] at h
        obtain ⟨lyrics, hl, h⟩ := h
        obtain ⟨c1, _, _, c4⟩ := MP3Decoder.GetLyricsTagLength_footer _ lyrics r.stream
          (d.m_offset - (size : Int) - 32) rfl (by rw [eL]; exact hL) (by omega) (by omega) hl
        rw [← Result.ok.inj h]
        show (toU32 (0 - (lyrics.2.m_offset - (lyrics.1 : Int))) : Int) ≤ _
        rw [c4, ← eL]
        exact c1
      · rw [if_neg hflag] at h
        dsimp only at h
        have a3 := (StreamWrapper.Seek_end_accepted r.stream
          (d.m_offset - (size : Int) - 9) (by omega)).1
        rw [if_pos a3, Result.bind_eq_ok_iff] at h
        obtain ⟨lyrics, hl, h⟩ := h
        obtain ⟨c1, _, _, c4⟩ := MP3Decoder.GetLyricsTagLength_footer _ lyrics r.stream
          (d.m_offset - (size : Int)) rfl (by rw [eL]; exact hL) (by omega) (by omega) hl
        rw [← Result.ok.inj h]
        show (toU32 (0 - (lyrics.2.m_offset - (lyrics.1 : Int))) : Int) ≤ _
        rw [c4, ← eL]
        exact c1
  · rw [← Result.ok.inj h]
    exact hsame


/-- The footer length `GetTagFooterLength` returns is at most the size of the
buffer: every probe that counts bytes has read them from inside the buffer. -/
theorem MP3Decoder.GetTagFooterLength_le (d d1 : MP3Decoder) (n : Nat)
    (hL : d.m_stream.m_fileMemoryBufferSize < 2 ^ 63)
    (h : d.GetTagFooterLength = Result.ok (n, d1)) :
    n ≤ d.m_stream.m_fileMemoryBufferSize := by
  unfold MP3Decoder.GetTagFooterLength at h
  dsimp only at h
  rw [Result.bind_eq_ok_iff] at h
  obtain ⟨d2, h2, h⟩ := h
  rw [Result.bind_eq_ok_iff] at h
  obtain ⟨d3, h3, h⟩ := h
  have h4 : toU32 (0 - d3.m_offset) = n := (Prod.mk.inj (Result.ok.inj h)).1
  have hz := StreamWrapper.Seek_size d.m_stream (-128) SEEK_END
  have key : d2.m_stream.m_fileMemoryBufferSize = d.m_stream.m_fileMemoryBufferSize
      ∧ d2.m_offset ≤ 0 ∧ -(2 : Int) ^ 34 ≤ d2.m_offset := by
    split at h2
    · rw [Result.bind_eq_ok_iff] at h2
      obtain ⟨r, hr, h2⟩ := h2
      have eL : r.stream.m_fileMemoryBufferSize = d.m_stream.m_fileMemoryBufferSize := by
        rw [StreamWrapper.Read_size _ _ _ hr, hz]
      try dsimp only at h2
      split at h2
      · have a3 := (StreamWrapper.Seek_end_accepted r.stream (0 - 128 - 9) (by omega)).1
        rw [if_pos a3, Result.bind_eq_ok_iff] at h2
        obtain ⟨lyrics, hl, h2⟩ := h2
        obtain ⟨_, c2, c3, c4⟩ := MP3Decoder.GetLyricsTagLength_footer _ lyrics r.stream
          (0 - 128) rfl (by rw [eL]; exact hL) (by omega) (by omega) hl
        have ef := (MP3Decoder.GetLyricsTagLength_file _ lyrics.2 lyrics.1 hl).1
        have eb : lyrics.2.m_stream.m_fileMemoryBuffer
            = (r.stream.Seek (0 - 128 - 9) SEEK_END).2.m_fileMemoryBuffer := (Prod.mk.inj ef).1
        rw [← Result.ok.inj h2]
        refine ⟨?_, ?_, ?_⟩
        · show lyrics.2.m_stream.m_fileMemoryBuffer.length = _
          rw [eb, StreamWrapper.Seek_buffer]
          exact eL
        · show lyrics.2.m_offset - (lyrics.1 : Int) ≤ 0
          rw [c4]
          exact c3
        · show -(2 : Int) ^ 34 ≤ lyrics.2.m_offset - (lyrics.1 : Int)
          rw [c4]
          have c2' : -(2 : Int) ^ 40 - 2 ^ 32 ≤ (0 : Int) - 128 - (lyrics.1 : Int) := c2
          have c5 := toU32_lt 0
          have hn : lyrics.1 < 2 ^ 32 := by
            obtain ⟨_, _, t, b3, _, _⟩ := MP3Decoder.GetLyricsTagLength_length _ lyrics.2 lyrics.1
              (by
                show (r.stream.Seek (0 - 128 - 9) SEEK_END).2.m_fileMemoryBufferSize < 2 ^ 63
                rw [StreamWrapper.Seek_size, eL]
                exact hL)
              (by
                show (r.stream.Seek (0 - 128 - 9) SEEK_END).2.m_fileMemoryBufferPosition < 2 ^ 64
                exact StreamWrapper.Seek_ok_lt _ _ _ a3)
              hl
            rw [b3]
            exact toU32_lt t
          show -(2 : Int) ^ 34 ≤ (0 : Int) - 128 - (lyrics.1 : Int)
          omega
      · rw [← Result.ok.inj h2]
        exact ⟨eL, le_refl _, by norm_num⟩
    · rw [← Result.ok.inj h2]
      exact ⟨hz, le_refl _, by norm_num⟩
  have hfin := MP3Decoder.GetTagFooterLengthAPE_footer d2 d3 (by rw [key.1]; exact hL)
    key.2.1 key.2.2 h3
  rw [key.1, h4] at hfin
  exact_mod_cast hfin

/-- When `OpenFile` succeeds, the footer length it has computed is at most
the size of the file. -/
theorem MP3Decoder.OpenFile_footer_le (d d0 : MP3Decoder) (bytes : List Byte)
    (hL : bytes.length < 2 ^ 63)
    (h : d.OpenFile bytes = Result.ok d0) :
    d0.m_tagFooterLengthBytes ≤ bytes.length := by
  unfold MP3Decoder.OpenFile at h
  dsimp only at h
  have hlen := StreamWrapper.Length_opened bytes hL
  rw [if_pos (by rw [hlen]; omega)] at h
  rw [Result.bind_eq_ok_iff] at h
  obtain ⟨header, hh, h⟩ := h
  rw [Result.bind_eq_ok_iff] at h
  obtain ⟨footer, hf, h⟩ := h
  obtain ⟨f1, _⟩ := MP3Decoder.GetID3v2TagHeaderLength_file _ header.2 header.1 hh
  have hb1 : header.2.m_stream.m_fileMemoryBuffer = bytes := (Prod.mk.inj f1).1
  have hs1 : header.2.m_stream.m_fileMemoryBufferSize = bytes.length := by
    unfold StreamWrapper.m_fileMemoryBufferSize
    rw [hb1]
  have hle := MP3Decoder.GetTagFooterLength_le _ footer.2 footer.1
    (by
      show header.2.m_stream.m_fileMemoryBufferSize < 2 ^ 63
      rw [hs1]
      exact hL)
    hf
  have hle' : footer.1 ≤ header.2.m_stream.m_fileMemoryBufferSize := hle
  rw [hs1] at hle'
  rw [← Result.ok.inj h]
  exact hle'

/-! ## MP3Decoder: the lengths OpenFile computes -/

/-- C27 (amended). When `OpenFile` succeeds on a fully-buffered file of `L`
bytes: the decoder is open, the header length is at least 0 and an unsigned
32-bit value, the footer length, the sum over the ID3v1, Lyrics3 and APE
tags, is at least 0 and at most `L`, the end of the audio data is `L` less
the footer length, so at least 0 and at most `L`, and the byte offset starts
at the header length.  The header length is not compared with the end of the
audio data. -/
theorem MP3Decoder.OpenFile_lengths (d d0 : MP3Decoder) (bytes : List Byte)
    (hL : bytes.length < 2 ^ 63)
    (h : d.OpenFile bytes = Result.ok d0) :
    d0.m_decoderIsOpen = true
      ∧ (0 : Int) ≤ (d0.m_tagHeaderLengthBytes : Int)
      ∧ (d0.m_tagHeaderLengthBytes : Int) < 2 ^ 32
      ∧ (0 : Int) ≤ (d0.m_tagFooterLengthBytes : Int)
      ∧ (d0.m_tagFooterLengthBytes : Int) ≤ (bytes.length : Int)
      ∧ d0.m_fileSizeInBytes = (bytes.length : Int) - (d0.m_tagFooterLengthBytes : Int)
      ∧ (0 : Int) ≤ d0.m_fileSizeInBytes
      ∧ d0.m_fileSizeInBytes ≤ (bytes.length : Int)
      ∧ d0.m_offset = (d0.m_tagHeaderLengthBytes : Int) := by
  obtain ⟨_, _, h3, h4, h5, h6, _, _, _, h10⟩ := MP3Decoder.OpenFile_opened d d0 bytes hL h
  have hle := MP3Decoder.OpenFile_footer_le d d0 bytes hL h
  refine ⟨h10, by omega, by omega, by omega, by omega, h3, by omega, by omega, h4⟩

set_option maxRecDepth 100000 in
/-- C27 (amended) at the file made of two frames `frame24` and the ID3v1 tag
(176 bytes): header length 0, footer length 128, end of the audio data 48. -/
theorem MP3Decoder.OpenFile_lengths_witness :
    MP3Decoder.openedTaggedTwoFrames.m_tagFooterLengthBytes = 128
      ∧ MP3Decoder.openedTaggedTwoFrames.m_fileSizeInBytes = 48
      ∧ MP3Decoder.openedTaggedTwoFrames.m_decoderIsOpen = true
      ∧ (0 : Int) ≤ (MP3Decoder.openedTaggedTwoFrames.m_tagHeaderLengthBytes : Int)
      ∧ (MP3Decoder.openedTaggedTwoFrames.m_tagHeaderLengthBytes : Int) < 2 ^ 32
      ∧ (0 : Int) ≤ (MP3Decoder.openedTaggedTwoFrames.m_tagFooterLengthBytes : Int)
      ∧ (MP3Decoder.openedTaggedTwoFrames.m_tagFooterLengthBytes : Int)
          ≤ ((MP3Decoder.frame24 ++ MP3Decoder.frame24 ++ ID3v1Tag).length : Int)
      ∧ MP3Decoder.openedTaggedTwoFrames.m_fileSizeInBytes
          = ((MP3Decoder.frame24 ++ MP3Decoder.frame24 ++ ID3v1Tag).length : Int)
            - (MP3Decoder.openedTaggedTwoFrames.m_tagFooterLengthBytes : Int)
      ∧ (0 : Int) ≤ MP3Decoder.openedTaggedTwoFrames.m_fileSizeInBytes
      ∧ MP3Decoder.openedTaggedTwoFrames.m_fileSizeInBytes
          ≤ ((MP3Decoder.frame24 ++ MP3Decoder.frame24 ++ ID3v1Tag).length : Int)
      ∧ MP3Decoder.openedTaggedTwoFrames.m_offset
          = (MP3Decoder.openedTaggedTwoFrames.m_tagHeaderLengthBytes : Int) :=
  ⟨rfl, rfl,
    MP3Decoder.OpenFile_lengths MP3Decoder.new MP3Decoder.openedTaggedTwoFrames
      (MP3Decoder.frame24 ++ MP3Decoder.frame24 ++ ID3v1Tag) (by decide) (by decide)⟩

set_option maxRecDepth 100000 in
/-- C27 (counterexample). On the file `oversizedTag` of 140 bytes `OpenFile`
succeeds with header length `0x7F * 128 + 0x7F + 10 = 16393`, footer length 0
and the end of the audio data at 140, so the header length is above the end
of the audio data and above the size of the file.  The first `Read` then
returns -1 with `LOST_SYNC @ END_OF_FILE`. -/
theorem MP3Decoder.OpenFile_oversized_tag :
    MP3Decoder.oversizedTag.length = 140
      ∧ ((MP3Decoder.new.OpenFile MP3Decoder.oversizedTag).bind fun d =>
          Result.ok (d.m_decoderIsOpen, d.m_tagHeaderLengthBytes, d.m_tagFooterLengthBytes,
            d.m_fileSizeInBytes)) = Result.ok (true, 16393, 0, 140)
      ∧ ¬ ((16393 : Int) ≤ 140)
      ∧ ((MP3Decoder.new.OpenFile MP3Decoder.oversizedTag).bind fun d =>
          (d.ReadAll (fun _ _ => 0) 1).bind fun run =>
          Result.ok (run.1, run.2.m_errorMessage))
        = Result.ok ([-1], "LOST_SYNC @ END_OF_FILE") := by
  decide

/-! ## MP3Decoder: every call of Read returns -/

theorem Result.bind_spec {α β : Type} (x : Result α) (f : α → Result β) (Q : α → Prop)
    (P : β → Prop) (hx : ∃ a, x = Result.ok a ∧ Q a)
    (hf : ∀ a, Q a → ∃ b, f a = Result.ok b ∧ P b) :
    ∃ b, x.bind f = Result.ok b ∧ P b := by
  obtain ⟨a, rfl, hq⟩ := hx
  exact hf a hq

theorem Result.ite_spec {β : Type} (c : Prop) [Decidable c] (x y : Result β) (P : β → Prop)
    (hx : c → ∃ b, x = Result.ok b ∧ P b) (hy : ¬ c → ∃ b, y = Result.ok b ∧ P b) :
    ∃ b, (if c then x else y) = Result.ok b ∧ P b := by
  by_cases h : c
  · rw [if_pos h]
    exact hx h
  · rw [if_neg h]
    exact hy h

/-- The loop of `Read` that reads the header bytes returns; it moves the
position inside the buffer and writes a message only when it fails. -/
theorem MP3Decoder.ReadHeaderLoop_total (index : Nat) : ∀ d : MP3Decoder,
    d.m_stream.m_fileMemoryBufferSize < 2 ^ 63 →
    d.m_stream.m_fileMemoryBufferPosition ≤ d.m_stream.m_fileMemoryBufferSize →
    ∃ res : Bool × MP3Decoder, MP3Decoder.ReadHeaderLoop index d = Result.ok res
      ∧ (res.2.m_stream.m_fileMemoryBuffer = d.m_stream.m_fileMemoryBuffer
        ∧ res.2.m_stream.m_fileMemoryBufferPosition ≤ res.2.m_stream.m_fileMemoryBufferSize
        ∧ res.2.m_offset = d.m_offset
        ∧ res.2.m_fileSizeInBytes = d.m_fileSizeInBytes
        ∧ res.2.m_maxResynchronizationCount = d.m_maxResynchronizationCount
        ∧ (res.1 = true → res.2.m_errorMessage = d.m_errorMessage)
        ∧ (res.1 = false → res.2.m_errorMessage = "LOST_SYNC @ END_OF_FILE")) := by
  induction index with
  | zero =>
    intro d _ hp
    exact ⟨_, rfl, rfl, hp, rfl, rfl, rfl, fun _ => rfl, fun k => Bool.noConfusion k⟩
  | succ index ih =>
    intro d hL hp
    rw [MP3Decoder.ReadHeaderLoop]
    try dsimp only
    obtain ⟨r, hr, e1, e2, _, _⟩ := StreamWrapper.Read_total d.m_stream 1 hL (by norm_num) hp
    rw [hr, Result.bind_ok]
    try dsimp only
    have eL : r.stream.m_fileMemoryBufferSize < 2 ^ 63 := by
      unfold StreamWrapper.m_fileMemoryBufferSize
      rw [e2]
      exact hL
    by_cases hc : r.count = 0
    · rw [if_pos hc]
      exact ⟨_, rfl, e2, e1, rfl, rfl, rfl, fun k => Bool.noConfusion k, fun _ => rfl⟩
    · rw [if_neg hc]
      obtain ⟨res, h1, q1, q2, q3, q4, q5, q6, q7⟩ := ih
        { d with
          m_currentFrameLength := index
          m_stream := r.stream
          m_currentFrameHeader := storeByte 32 d.m_currentFrameHeader index r.data } eL e1
      exact ⟨res, h1, q1.trans e2, q2, q3, q4, q5, q6, q7⟩

theorem MP3Decoder.GetFrameLengthByLayer_count (d : MP3Decoder) :
    d.GetFrameLengthByLayer.2.m_maxResynchronizationCount = d.m_maxResynchronizationCount
      ∧ d.GetFrameLengthByLayer.2.m_decoderIsOpen = d.m_decoderIsOpen := by
  unfold MP3Decoder.GetFrameLengthByLayer
  dsimp only
  split_ifs <;> exact ⟨rfl, rfl⟩

theorem MP3Decoder.GetFrameLength_count (d : MP3Decoder) :
    d.GetFrameLength.2.m_maxResynchronizationCount = d.m_maxResynchronizationCount
      ∧ d.GetFrameLength.2.m_decoderIsOpen = d.m_decoderIsOpen := by
  unfold MP3Decoder.GetFrameLength
  dsimp only
  split_ifs
  · exact ⟨rfl, rfl⟩
  · exact MP3Decoder.GetFrameLengthByLayer_count _
  · exact ⟨rfl, rfl⟩
  · exact ⟨rfl, rfl⟩
  · exact ⟨rfl, rfl⟩

theorem String.length_append_ne_zero (a b : String) (h : a.length ≠ 0) :
    (a ++ b).length ≠ 0 := by
  rw [String.length_append]
  omega

/-- `CheckCRCProtection` at a position inside the buffer returns; it leaves
the position inside the buffer, keeps the byte offset, the end of the audio
data, the frame length and the counter of resynchronization attempts, and
writes a message exactly when it answers false. -/
theorem MP3Decoder.CheckCRCProtection_total (secondsOf : Nat → Nat → Int) (d : MP3Decoder)
    (hL : d.m_stream.m_fileMemoryBufferSize < 2 ^ 63)
    (hp : d.m_stream.m_fileMemoryBufferPosition ≤ d.m_stream.m_fileMemoryBufferSize) :
    ∃ res : Bool × MP3Decoder, d.CheckCRCProtection secondsOf = Result.ok res
      ∧ (res.2.m_stream.m_fileMemoryBuffer = d.m_stream.m_fileMemoryBuffer
        ∧ res.2.m_stream.m_fileMemoryBufferPosition ≤ res.2.m_stream.m_fileMemoryBufferSize
        ∧ res.2.m_offset = d.m_offset
        ∧ res.2.m_fileSizeInBytes = d.m_fileSizeInBytes
        ∧ res.2.m_maxResynchronizationCount = d.m_maxResynchronizationCount
        ∧ res.2.m_currentFrameLength = d.m_currentFrameLength
        ∧ (res.1 = true → res.2.m_errorMessage = d.m_errorMessage)
        ∧ (res.1 = false → res.2.m_errorMessage.length ≠ 0)) := by
  unfold MP3Decoder.CheckCRCProtection
  by_cases hc : d.m_embeddedFrameCRC = 0 ∧ d.m_layerDescription = LAYER_III
  · rw [if_pos hc]
    try dsimp only
    have s1 := StreamWrapper.Seek_cur_inside d.m_stream (-2) hp
    have z1 := StreamWrapper.Seek_size d.m_stream (-2) SEEK_CUR
    have b1 := StreamWrapper.Seek_buffer d.m_stream (-2) SEEK_CUR
    obtain ⟨r1, hr1, e1, f1, _, _⟩ := StreamWrapper.Read_total (d.m_stream.Seek (-2) SEEK_CUR).2 2
      (by rw [z1]; exact hL) (by norm_num) s1
    have L1 : r1.stream.m_fileMemoryBufferSize < 2 ^ 63 := by
      unfold StreamWrapper.m_fileMemoryBufferSize
      rw [f1, b1]
      exact hL
    obtain ⟨r2, hr2, e2, f2, _, _⟩ := StreamWrapper.Read_total r1.stream 1 L1 (by norm_num) e1
    have L2 : r2.stream.m_fileMemoryBufferSize < 2 ^ 63 := by
      unfold StreamWrapper.m_fileMemoryBufferSize
      rw [f2, f1, b1]
      exact hL
    obtain ⟨r3, hr3, e3, f3, _, _⟩ := StreamWrapper.Read_total r2.stream 1 L2 (by norm_num) e2
    have L3 : r3.stream.m_fileMemoryBufferSize < 2 ^ 63 := by
      unfold StreamWrapper.m_fileMemoryBufferSize
      rw [f3, f2, f1, b1]
      exact hL
    have hn : tableAt MP3_CRC_BYTE_SIZE (if d.m_singleChannelMono = 1 then 1 else 0)
        (if d.m_encodingVersion = MPEG1 then 0 else 1) < 2 ^ 63 := by
      have := tableAt_MP3_CRC_BYTE_SIZE_le (if d.m_singleChannelMono = 1 then 1 else 0)
        (if d.m_encodingVersion = MPEG1 then 0 else 1)
      omega
    obtain ⟨r4, hr4, e4, f4, _, _⟩ := StreamWrapper.Read_total r3.stream _ L3 hn e3
    rw [hr1, Result.bind_ok]
    try dsimp only
    rw [hr2, Result.bind_ok]
    try dsimp only
    rw [hr3, Result.bind_ok]
    try dsimp only
    rw [hr4, Result.bind_ok]
    try dsimp only
    have fb : r4.stream.m_fileMemoryBuffer = d.m_stream.m_fileMemoryBuffer := by
      rw [f4, f3, f2, f1, b1]
    refine Result.ite_spec _ _ _ _ (fun _ => ?_) (fun _ => ?_)
    · refine ⟨_, rfl, fb, e4, rfl, rfl, rfl, rfl, fun k => Bool.noConfusion k, fun _ => ?_⟩
      exact String.length_append_ne_zero _ _ (by decide)
    · exact ⟨_, rfl, fb, e4, rfl, rfl, rfl, rfl, fun _ => rfl, fun k => Bool.noConfusion k⟩
  · rw [if_neg hc]
    exact ⟨_, rfl, rfl, hp, rfl, rfl, rfl, rfl, fun _ => rfl, fun k => Bool.noConfusion k⟩

theorem Result.ok_imp {α : Type} (x : Result α) (P Q : α → Prop)
    (h : ∃ a, x = Result.ok a ∧ P a) (himp : ∀ a, P a → Q a) :
    ∃ a, x = Result.ok a ∧ Q a := by
  obtain ⟨a, h1, h2⟩ := h
  exact ⟨a, h1, himp a h2⟩

/-- The loop of `ResynchronizeBitstream`, entered with a frame length of 0 at
a position inside the buffer, with more fuel than bytes remain and with a
counter of attempts of at least 1, returns.  Every byte it reads takes one
attempt, so the position and the counter together do not grow; when it is
left with a frame length above 0, a byte was read and the counter is still
at least 1. -/
theorem MP3Decoder.ResynchronizeLoop_spec (fuel : Nat) : ∀ d : MP3Decoder,
    d.m_stream.m_fileMemoryBufferSize < 2 ^ 63 →
    d.m_stream.m_fileMemoryBufferPosition ≤ d.m_stream.m_fileMemoryBufferSize →
    d.m_currentFrameLength = 0 →
    d.m_stream.m_fileMemoryBufferSize - d.m_stream.m_fileMemoryBufferPosition < fuel →
    1 ≤ d.m_maxResynchronizationCount → d.m_maxResynchronizationCount < 2 ^ 32 →
    ∃ res : Bool × MP3Decoder, MP3Decoder.ResynchronizeLoop fuel d = Result.ok res
      ∧ (res.2.m_stream.m_fileMemoryBuffer = d.m_stream.m_fileMemoryBuffer
        ∧ res.2.m_stream.m_fileMemoryBufferPosition ≤ d.m_stream.m_fileMemoryBufferSize
        ∧ d.m_stream.m_fileMemoryBufferPosition ≤ res.2.m_stream.m_fileMemoryBufferPosition
        ∧ res.2.m_stream.m_fileMemoryBufferPosition + res.2.m_maxResynchronizationCount
            ≤ d.m_stream.m_fileMemoryBufferPosition + d.m_maxResynchronizationCount
        ∧ (res.1 = true → res.2.m_currentFrameLength > 0 →
            d.m_stream.m_fileMemoryBufferPosition < res.2.m_stream.m_fileMemoryBufferPosition
              ∧ 1 ≤ res.2.m_maxResynchronizationCount)
        ∧ res.2.m_offset = d.m_offset
        ∧ res.2.m_fileSizeInBytes = d.m_fileSizeInBytes
        ∧ res.2.m_errorMessage = d.m_errorMessage) := by
  induction fuel with
  | zero =>
    intro d _ _ _ hf _ _
    omega
  | succ fuel ih =>
    intro d hL hp hlen hf hc1 hc2
    have hcnt : toU32 ((d.m_maxResynchronizationCount : Int) - 1)
        = d.m_maxResynchronizationCount - 1 := by
      unfold toU32
      omega
    rw [MP3Decoder.ResynchronizeLoop]
    try dsimp only
    rw [hcnt]
    refine Result.ite_spec _ _ _ _ (fun hc => ?_) (fun hc => ?_)
    · refine Result.bind_spec _ _ _ _
        (StreamWrapper.Read_total d.m_stream 1 hL (by norm_num) hp) ?_
      intro r ⟨e1, e2, e3, e4⟩
      try dsimp only
      have esize : r.stream.m_fileMemoryBufferSize = d.m_stream.m_fileMemoryBufferSize := by
        unfold StreamWrapper.m_fileMemoryBufferSize
        rw [e2]
      refine Result.ite_spec _ _ _ _ (fun hr0 => ?_) (fun hr0 => ?_)
      · have hr1 : r.count = 1 := by omega
        refine Result.ite_spec _ _ _ _ (fun hfound => ?_) (fun hfound => ?_)
        · refine ⟨_, rfl, ?_, ?_, ?_, ?_, ?_, ?_, ?_, ?_⟩
          · dsimp only
            rw [(MP3Decoder.GetFrameLength_preserves _).1]
            exact e2
          · dsimp only
            rw [(MP3Decoder.GetFrameLength_preserves _).1]
            try dsimp only
            rw [← esize]
            exact e1
          · dsimp only
            rw [(MP3Decoder.GetFrameLength_preserves _).1]
            try dsimp only
            omega
          · dsimp only
            rw [(MP3Decoder.GetFrameLength_preserves _).1, (MP3Decoder.GetFrameLength_count _).1]
            try dsimp only
            omega
          · intro _ _
            try dsimp only
            rw [(MP3Decoder.GetFrameLength_preserves _).1, (MP3Decoder.GetFrameLength_count _).1]
            try dsimp only
            omega
          · dsimp only
            rw [(MP3Decoder.GetFrameLength_preserves _).2.2.2.2.2]
          · dsimp only
            rw [(MP3Decoder.GetFrameLength_preserves _).2.2.2.2.1]
          · dsimp only
            rw [(MP3Decoder.GetFrameLength_preserves _).2.1]
        · refine Result.ok_imp _ _ _ (ih _ ?_ ?_ ?_ ?_ ?_ ?_) ?_
          · dsimp only
            rw [(MP3Decoder.GetFrameLength_preserves _).1]
            try dsimp only
            rw [esize]
            exact hL
          · dsimp only
            rw [(MP3Decoder.GetFrameLength_preserves _).1]
            exact e1
          · dsimp only
            try dsimp only at hfound
            omega
          · dsimp only
            rw [(MP3Decoder.GetFrameLength_preserves _).1]
            try dsimp only
            rw [esize]
            omega
          · dsimp only
            rw [(MP3Decoder.GetFrameLength_count _).1]
            try dsimp only
            omega
          · dsimp only
            rw [(MP3Decoder.GetFrameLength_count _).1]
            try dsimp only
            omega
          · intro res ⟨q1, q2, q3, q4, q5, q6, q7, q8⟩
            try dsimp only at q1 q2 q3 q4 q5 q6 q7 q8
            rw [(MP3Decoder.GetFrameLength_preserves _).1] at q1 q2 q3 q4 q5
            rw [(MP3Decoder.GetFrameLength_count _).1] at q4
            rw [(MP3Decoder.GetFrameLength_preserves _).2.2.2.2.2] at q6
            rw [(MP3Decoder.GetFrameLength_preserves _).2.2.2.2.1] at q7
            rw [(MP3Decoder.GetFrameLength_preserves _).2.1] at q8
            try dsimp only at q1 q2 q3 q4 q5 q6 q7 q8
            rw [esize] at q2
            refine ⟨q1.trans e2, q2, by omega, by omega, ?_, q6, q7, q8⟩
            intro k1 k2
            have := q5 k1 k2
            omega
      · refine ⟨_, rfl, e2, ?_, ?_, ?_, ?_, rfl, rfl, rfl⟩
        · dsimp only
          rw [← esize]
          exact e1
        · dsimp only
          omega
        · dsimp only
          omega
        · intro k
          exact Bool.noConfusion k
    · refine ⟨_, rfl, rfl, hp, le_refl _, ?_, ?_, rfl, rfl, rfl⟩
      · dsimp only
        omega
      · intro _ k
        try dsimp only at k
        omega

/-- `ResynchronizeBitstream` with its recursion, at a position inside the
buffer, with more fuel than bytes remain and with a counter of attempts of
at least 1, returns: the bytes it consumes are at most the attempts it uses
up.  It keeps the byte offset, the end of the audio data and the message. -/
theorem MP3Decoder.ResynchronizeBitstreamFuel_spec (fuel : Nat) : ∀ d : MP3Decoder,
    d.m_stream.m_fileMemoryBufferSize < 2 ^ 63 →
    d.m_stream.m_fileMemoryBufferPosition ≤ d.m_stream.m_fileMemoryBufferSize →
    d.m_stream.m_fileMemoryBufferSize - d.m_stream.m_fileMemoryBufferPosition < fuel →
    1 ≤ d.m_maxResynchronizationCount → d.m_maxResynchronizationCount < 2 ^ 32 →
    ∃ res : Bool × MP3Decoder, MP3Decoder.ResynchronizeBitstreamFuel fuel d = Result.ok res
      ∧ (res.2.m_stream.m_fileMemoryBuffer = d.m_stream.m_fileMemoryBuffer
        ∧ res.2.m_stream.m_fileMemoryBufferPosition ≤ d.m_stream.m_fileMemoryBufferSize
        ∧ d.m_stream.m_fileMemoryBufferPosition ≤ res.2.m_stream.m_fileMemoryBufferPosition
        ∧ res.2.m_stream.m_fileMemoryBufferPosition + res.2.m_maxResynchronizationCount
            ≤ d.m_stream.m_fileMemoryBufferPosition + d.m_maxResynchronizationCount
        ∧ res.2.m_offset = d.m_offset
        ∧ res.2.m_fileSizeInBytes = d.m_fileSizeInBytes
        ∧ res.2.m_errorMessage = d.m_errorMessage) := by
  induction fuel with
  | zero =>
    intro d _ _ hf _ _
    omega
  | succ fuel ih =>
    intro d hL hp hf hc1 hc2
    rw [MP3Decoder.ResynchronizeBitstreamFuel]
    try dsimp only
    refine Result.bind_spec _ _ _ _
      (MP3Decoder.ResynchronizeLoop_spec (fuel + 1) _ ?_ ?_ ?_ ?_ ?_ ?_) ?_
    · exact hL
    · exact hp
    · rfl
    · exact hf
    · exact hc1
    · exact hc2
    · intro exit ⟨q1, q2, q3, q4, q5, q6, q7, q8⟩
      try dsimp only at q1 q2 q3 q4 q5 q6 q7 q8
      try dsimp only
      have esize : exit.2.m_stream.m_fileMemoryBufferSize = d.m_stream.m_fileMemoryBufferSize := by
        unfold StreamWrapper.m_fileMemoryBufferSize
        rw [q1]
      refine Result.ite_spec _ _ _ _ (fun hb => ?_) (fun hb => ?_)
      · exact ⟨_, rfl, q1, q2, q3, q4, q6, q7, q8⟩
      · have hb2 : exit.1 = true := by
          cases h : exit.1
          · exact absurd h hb
          · rfl
        refine Result.ite_spec _ _ _ _ (fun hl => ?_) (fun hl => ?_)
        · obtain ⟨k1, k2⟩ := q5 hb2 hl
          refine Result.ite_spec _ _ _ _ (fun hprev => ?_) (fun hprev => ?_)
          · refine Result.ite_spec _ _ _ _ (fun hmask => ?_) (fun hmask => ?_)
            · exact ⟨_, rfl, q1, q2, q3, q4, q6, q7, q8⟩
            · refine Result.ok_imp _ _ _ (ih _ ?_ ?_ ?_ ?_ ?_) ?_
              · rw [esize]
                exact hL
              · rw [esize]
                exact q2
              · rw [esize]
                omega
              · exact k2
              · omega
              · intro res ⟨r1, r2, r3, r4, r5, r6, r7⟩
                rw [esize] at r2
                exact ⟨r1.trans q1, r2, by omega, by omega, r5.trans q6, r6.trans q7,
                  r7.trans q8⟩
          · refine Result.ok_imp _ _ _ (ih _ ?_ ?_ ?_ ?_ ?_) ?_
            · try dsimp only
              rw [esize]
              exact hL
            · try dsimp only
              rw [esize]
              exact q2
            · try dsimp only
              rw [esize]
              omega
            · exact k2
            · try dsimp only
              omega
            · intro res ⟨r1, r2, r3, r4, r5, r6, r7⟩
              try dsimp only at r1 r2 r3 r4 r5 r6 r7
              rw [esize] at r2
              exact ⟨r1.trans q1, r2, by omega, by omega, r5.trans q6, r6.trans q7,
                r7.trans q8⟩
        · exact ⟨_, rfl, q1, q2, q3, q4, q6, q7, q8⟩

/-- `ResynchronizeBitstream` at a position inside the buffer and with a
counter of attempts of at least 1 returns, and the bytes it consumes are at
most the attempts it uses up. -/
theorem MP3Decoder.ResynchronizeBitstream_spec (d : MP3Decoder)
    (hL : d.m_stream.m_fileMemoryBufferSize < 2 ^ 63)
    (hp : d.m_stream.m_fileMemoryBufferPosition ≤ d.m_stream.m_fileMemoryBufferSize)
    (hc1 : 1 ≤ d.m_maxResynchronizationCount) (hc2 : d.m_maxResynchronizationCount < 2 ^ 32) :
    ∃ res : Bool × MP3Decoder, d.ResynchronizeBitstream = Result.ok res
      ∧ (res.2.m_stream.m_fileMemoryBuffer = d.m_stream.m_fileMemoryBuffer
        ∧ res.2.m_stream.m_fileMemoryBufferPosition ≤ d.m_stream.m_fileMemoryBufferSize
        ∧ d.m_stream.m_fileMemoryBufferPosition ≤ res.2.m_stream.m_fileMemoryBufferPosition
        ∧ res.2.m_stream.m_fileMemoryBufferPosition + res.2.m_maxResynchronizationCount
            ≤ d.m_stream.m_fileMemoryBufferPosition + d.m_maxResynchronizationCount
        ∧ res.2.m_offset = d.m_offset
        ∧ res.2.m_fileSizeInBytes = d.m_fileSizeInBytes
        ∧ res.2.m_errorMessage = d.m_errorMessage) :=
  MP3Decoder.ResynchronizeBitstreamFuel_spec _ d hL hp (by omega) hc1 hc2

/-- The end of `Read` returns -1 and leaves a message.  With no message set
on entry and a counter of attempts of at least 1 it runs
`ResynchronizeBitstream`; with a message set it leaves the decoder as it is. -/
theorem MP3Decoder.ReadFailed_spec (secondsOf : Nat → Nat → Int) (d : MP3Decoder)
    (hL : d.m_stream.m_fileMemoryBufferSize < 2 ^ 63)
    (hp : d.m_stream.m_fileMemoryBufferPosition ≤ d.m_stream.m_fileMemoryBufferSize)
    (hc : d.m_errorMessage.length = 0 →
      1 ≤ d.m_maxResynchronizationCount ∧ d.m_maxResynchronizationCount < 2 ^ 32) :
    ∃ res : Int × MP3Decoder, MP3Decoder.ReadFailed secondsOf d = Result.ok res
      ∧ (res.1 = -1
        ∧ res.2.m_stream.m_fileMemoryBuffer = d.m_stream.m_fileMemoryBuffer
        ∧ res.2.m_stream.m_fileMemoryBufferPosition ≤ d.m_stream.m_fileMemoryBufferSize
        ∧ d.m_stream.m_fileMemoryBufferPosition ≤ res.2.m_stream.m_fileMemoryBufferPosition
        ∧ res.2.m_stream.m_fileMemoryBufferPosition + res.2.m_maxResynchronizationCount
            ≤ d.m_stream.m_fileMemoryBufferPosition + d.m_maxResynchronizationCount
        ∧ res.2.m_offset = d.m_offset
        ∧ res.2.m_fileSizeInBytes = d.m_fileSizeInBytes
        ∧ res.2.m_errorMessage.length ≠ 0) := by
  unfold MP3Decoder.ReadFailed
  refine Result.ite_spec _ _ _ _ (fun hm => ?_) (fun hm => ?_)
  · obtain ⟨c1, c2⟩ := hc hm
    refine Result.ite_spec _ _ _ _ (fun _ => ?_) (fun _ => ?_)
    · refine Result.bind_spec _ _ _ _ (MP3Decoder.ResynchronizeBitstream_spec d hL hp c1 c2) ?_
      intro resync ⟨q1, q2, q3, q4, q5, q6, _⟩
      try dsimp only
      refine Result.ite_spec _ _ _ _ (fun _ => ?_) (fun _ => ?_)
      · exact ⟨_, rfl, rfl, q1, q2, q3, q4, q5, q6,
          String.length_append_ne_zero _ _ (by decide)⟩
      · exact ⟨_, rfl, rfl, q1, q2, q3, q4, q5, q6,
          (show ("LOST_SYNC @ END_OF_FILE").length ≠ 0 by decide)⟩
    · refine Result.bind_spec _ _ _ _ (MP3Decoder.ResynchronizeBitstream_spec d hL hp c1 c2) ?_
      intro resync ⟨q1, q2, q3, q4, q5, q6, _⟩
      try dsimp only
      refine Result.ite_spec _ _ _ _ (fun _ => ?_) (fun _ => ?_)
      · exact ⟨_, rfl, rfl, q1, q2, q3, q4, q5, q6,
          (show ("UNRECOGNIZED_FORMAT").length ≠ 0 by decide)⟩
      · refine Result.ite_spec _ _ _ _ (fun _ => ?_) (fun _ => ?_)
        · exact ⟨_, rfl, rfl, q1, q2, q3, q4, q5, q6,
            (show ("BAD_ID3v2_TAG").length ≠ 0 by decide)⟩
        · exact ⟨_, rfl, rfl, q1, q2, q3, q4, q5, q6,
            (show ("BAD_STARTING_SYNC").length ≠ 0 by decide)⟩
  · exact ⟨_, rfl, rfl, rfl, hp, le_refl _, le_refl _, rfl, rfl, hm⟩

theorem StreamWrapper.Seek_set_ok (s : StreamWrapper) (offset : Int)
    (hL : s.m_fileMemoryBufferSize < 2 ^ 63)
    (h0 : 0 ≤ offset) (h1 : offset ≤ (s.m_fileMemoryBufferSize : Int)) :
    s.Seek offset SEEK_SET
      = (0, { s with m_isEOF := false, m_fileMemoryBufferPosition := offset.toNat }) := by
  have hc : ¬ (offset < 0 ∨ toU32 offset > s.m_fileMemoryBufferSize) := by
    have : toU32 offset ≤ s.m_fileMemoryBufferSize := by unfold toU32; omega
    omega
  have hu : toU64 offset = offset.toNat := by unfold toU64; omega
  unfold StreamWrapper.Seek
  simp only [if_true, if_neg hc, hu]

/-- The part of `Read` that follows the acceptance of a header, entered with
the byte offset already advanced by the frame length: it returns the frame
length when the offset is below the end of the audio data, 0 when it is at
the end, and -1 with a message otherwise or when the CRC check fails. -/
theorem MP3Decoder.Read_accepted_spec (secondsOf : Nat → Nat → Int) (Y : MP3Decoder)
    (hL : Y.m_stream.m_fileMemoryBufferSize < 2 ^ 63)
    (hp : Y.m_stream.m_fileMemoryBufferPosition ≤ Y.m_stream.m_fileMemoryBufferSize)
    (ho : 0 ≤ Y.m_offset)
    (hf : Y.m_fileSizeInBytes ≤ (Y.m_stream.m_fileMemoryBufferSize : Int))
    (hcnt : Y.m_errorMessage.length = 0
      → Y.m_maxResynchronizationCount = MAX_RESYNCHRONIZATION_ATTEMPTS)
    (hlen : Y.m_currentFrameLength ≠ 0) :
    ∃ res : Int × MP3Decoder,
      (if Y.m_offset < Y.m_fileSizeInBytes then
          (Y.CheckCRCProtection secondsOf).bind fun crc =>
          let d := crc.2
          if crc.1 then
            let sought := d.m_stream.Seek d.m_offset SEEK_SET
            let d := { d with m_stream := sought.2 }
            if sought.1 ≠ 0 then
              Result.ok (-1, d)
            else
              Result.ok ((d.m_currentFrameLength : Int), d)
          else
            Result.ok (-1, d)
        else if Y.m_offset = Y.m_fileSizeInBytes then
          (Y.CheckCRCProtection secondsOf).bind fun crc =>
          let d := crc.2
          if crc.1 then
            Result.ok (0, d)
          else
            Result.ok (-1, d)
        else
          MP3Decoder.ReadFailed secondsOf { Y with m_errorMessage := "TRUNCATED" }) = Result.ok res
      ∧ (res.2.ready
        ∧ res.2.m_stream.m_fileMemoryBuffer = Y.m_stream.m_fileMemoryBuffer
        ∧ res.2.m_fileSizeInBytes = Y.m_fileSizeInBytes
        ∧ res.2.m_offset = Y.m_offset
        ∧ (res.1 = -1 ∨ res.1 = 0
            ∨ (0 < res.1 ∧ res.1 = (Y.m_currentFrameLength : Int)
                ∧ res.1 = (res.2.m_currentFrameLength : Int)
                ∧ Y.m_offset < Y.m_fileSizeInBytes))
        ∧ (res.1 = -1 → res.2.m_errorMessage.length ≠ 0)) := by
  have esz : ∀ s : StreamWrapper, s.m_fileMemoryBuffer = Y.m_stream.m_fileMemoryBuffer →
      s.m_fileMemoryBufferSize = Y.m_stream.m_fileMemoryBufferSize := by
    intro s hs
    unfold StreamWrapper.m_fileMemoryBufferSize
    rw [hs]
  refine Result.ite_spec _ _ _ _ (fun hlt => ?_) (fun hlt => ?_)
  · refine Result.bind_spec _ _ _ _ (MP3Decoder.CheckCRCProtection_total secondsOf Y hL hp) ?_
    intro crc ⟨c1, c2, c3, c4, c5, c6, c7, c8⟩
    have cz := esz _ c1
    try dsimp only
    refine Result.ite_spec _ _ _ _ (fun hb => ?_) (fun hb => ?_)
    · have hseek := StreamWrapper.Seek_set_ok crc.2.m_stream crc.2.m_offset
        (by rw [cz]; exact hL) (by rw [c3]; exact ho) (by rw [c3, cz]; omega)
      rw [hseek]
      try dsimp only
      refine Result.ite_spec _ _ _ _ (fun hs => ?_) (fun _ => ?_)
      · exact absurd rfl hs
      · have hm := c7 hb
        refine ⟨_, rfl, ⟨?_, ?_, ?_, ?_, ?_⟩, c1, c4, c3, Or.inr (Or.inr ⟨?_, ?_, rfl, hlt⟩), ?_⟩
        · show crc.2.m_stream.m_fileMemoryBufferSize < 2 ^ 63
          rw [cz]
          exact hL
        · show crc.2.m_offset.toNat ≤ crc.2.m_stream.m_fileMemoryBufferSize
          rw [c3, cz]
          omega
        · show 0 ≤ crc.2.m_offset
          rw [c3]
          exact ho
        · show crc.2.m_fileSizeInBytes ≤ (crc.2.m_stream.m_fileMemoryBufferSize : Int)
          rw [c4, cz]
          exact hf
        · intro k
          have k2 : crc.2.m_errorMessage.length = 0 := k
          rw [hm] at k2
          show crc.2.m_maxResynchronizationCount = _
          rw [c5]
          exact hcnt k2
        · show (0 : Int) < (crc.2.m_currentFrameLength : Int)
          rw [c6]
          omega
        · show (crc.2.m_currentFrameLength : Int) = _
          rw [c6]
        · intro k
          have k2 : (crc.2.m_currentFrameLength : Int) = -1 := k
          omega
    · have hb2 : crc.1 = false := by
        cases h : crc.1
        · rfl
        · exact absurd h hb
      have hm := c8 hb2
      refine ⟨_, rfl, ⟨?_, c2, ?_, ?_, ?_⟩, c1, c4, c3, Or.inl rfl, fun _ => hm⟩
      · rw [cz]
        exact hL
      · rw [c3]
        exact ho
      · rw [c4, cz]
        exact hf
      · intro k
        exact absurd k hm
  · refine Result.ite_spec _ _ _ _ (fun heq => ?_) (fun hne => ?_)
    · refine Result.bind_spec _ _ _ _ (MP3Decoder.CheckCRCProtection_total secondsOf Y hL hp) ?_
      intro crc ⟨c1, c2, c3, c4, c5, c6, c7, c8⟩
      have cz := esz _ c1
      try dsimp only
      refine Result.ite_spec _ _ _ _ (fun hb => ?_) (fun hb => ?_)
      · have hm := c7 hb
        refine ⟨_, rfl, ⟨?_, c2, ?_, ?_, ?_⟩, c1, c4, c3, Or.inr (Or.inl rfl), ?_⟩
        · rw [cz]
          exact hL
        · rw [c3]
          exact ho
        · rw [c4, cz]
          exact hf
        · intro k
          rw [hm] at k
          rw [c5]
          exact hcnt k
        · intro k
          have k2 : (0 : Int) = -1 := k
          omega
      · have hb2 : crc.1 = false := by
          cases h : crc.1
          · rfl
          · exact absurd h hb
        have hm := c8 hb2
        refine ⟨_, rfl, ⟨?_, c2, ?_, ?_, ?_⟩, c1, c4, c3, Or.inl rfl, fun _ => hm⟩
        · rw [cz]
          exact hL
        · rw [c3]
          exact ho
        · rw [c4, cz]
          exact hf
        · intro k
          exact absurd k hm
    · refine Result.ok_imp _ _ _
        (MP3Decoder.ReadFailed_spec secondsOf _ ?_ ?_ ?_) ?_
      · exact hL
      · exact hp
      · intro k
        have k2 : ("TRUNCATED").length = 0 := k
        exact absurd k2 (by decide)
      · intro res ⟨r1, r2, r3, r4, r5, r6, r7, r8⟩
        try dsimp only at r2 r3 r4 r5 r6 r7
        have rz := esz _ r2
        refine ⟨⟨?_, ?_, ?_, ?_, ?_⟩, r2, r7, r6, Or.inl r1, fun _ => r8⟩
        · rw [rz]
          exact hL
        · rw [rz]
          exact r3
        · rw [r6]
          exact ho
        · rw [r7, rz]
          exact hf
        · intro k
          exact absurd k r8

/-- Every call of `Read` on a decoder in a state `ready` returns and leaves a
state `ready`.  The value returned is -1, 0 or the frame length, which is
above 0; with the frame length the byte offset has advanced by it and is
below the end of the audio data; with -1 a message is set.  The buffer and
the end of the audio data are left as they are and the byte offset does not
go back. -/
theorem MP3Decoder.Read_spec (secondsOf : Nat → Nat → Int) (d : MP3Decoder) (hr : d.ready) :
    ∃ res : Int × MP3Decoder, d.Read secondsOf = Result.ok res
      ∧ (res.2.ready
        ∧ res.2.m_stream.m_fileMemoryBuffer = d.m_stream.m_fileMemoryBuffer
        ∧ res.2.m_fileSizeInBytes = d.m_fileSizeInBytes
        ∧ (res.1 = -1 ∨ res.1 = 0
            ∨ (0 < res.1 ∧ res.1 = (res.2.m_currentFrameLength : Int)
                ∧ res.2.m_offset = d.m_offset + res.1
                ∧ res.2.m_offset < res.2.m_fileSizeInBytes))
        ∧ (res.1 = -1 → res.2.m_errorMessage.length ≠ 0)
        ∧ d.m_offset ≤ res.2.m_offset) := by
  obtain ⟨hL, hp, ho, hf, hcnt⟩ := hr
  have hmax : MAX_RESYNCHRONIZATION_ATTEMPTS = 65536 := rfl
  have esz : ∀ s : StreamWrapper, s.m_fileMemoryBuffer = d.m_stream.m_fileMemoryBuffer →
      s.m_fileMemoryBufferSize = d.m_stream.m_fileMemoryBufferSize := by
    intro s hs
    unfold StreamWrapper.m_fileMemoryBufferSize
    rw [hs]
  unfold MP3Decoder.Read
  refine Result.bind_spec _ _ _ _ (MP3Decoder.ReadHeaderLoop_total 4 d hL hp) ?_
  intro header ⟨q1, q2, q3, q4, q5, q6, q7⟩
  have hz := esz _ q1
  try dsimp only
  refine Result.ite_spec _ _ _ _ (fun hb => ?_) (fun hb => ?_)
  · have hm := q7 hb
    have hne : header.2.m_errorMessage.length ≠ 0 := by
      rw [hm]
      decide
    refine ⟨_, rfl, ⟨?_, q2, ?_, ?_, ?_⟩, q1, q4, Or.inl rfl, fun _ => hne, le_of_eq q3.symm⟩
    · rw [hz]
      exact hL
    · rw [q3]
      exact ho
    · rw [q4, hz]
      exact hf
    · intro k
      exact absurd k hne
  · have hb2 : header.1 = true := by
      cases h : header.1
      · exact absurd h hb
      · rfl
    have hm := q6 hb2
    obtain ⟨g1, g2, g3, g4, g5, g6⟩ := MP3Decoder.GetFrameLength_preserves header.2
    obtain ⟨g7, _⟩ := MP3Decoder.GetFrameLength_count header.2
    have gz : header.2.GetFrameLength.2.m_stream.m_fileMemoryBufferSize
        = d.m_stream.m_fileMemoryBufferSize := by
      rw [g1]
      exact hz
    have hfail : ∃ res : Int × MP3Decoder,
        MP3Decoder.ReadFailed secondsOf
          { header.2.GetFrameLength.2 with m_currentFrameLength := header.2.GetFrameLength.1 }
          = Result.ok res
        ∧ (res.2.ready
          ∧ res.2.m_stream.m_fileMemoryBuffer = d.m_stream.m_fileMemoryBuffer
          ∧ res.2.m_fileSizeInBytes = d.m_fileSizeInBytes
          ∧ (res.1 = -1 ∨ res.1 = 0
              ∨ (0 < res.1 ∧ res.1 = (res.2.m_currentFrameLength : Int)
                  ∧ res.2.m_offset = d.m_offset + res.1
                  ∧ res.2.m_offset < res.2.m_fileSizeInBytes))
          ∧ (res.1 = -1 → res.2.m_errorMessage.length ≠ 0)
          ∧ d.m_offset ≤ res.2.m_offset) := by
      refine Result.ok_imp _ _ _ (MP3Decoder.ReadFailed_spec secondsOf _ ?_ ?_ ?_) ?_
      · show header.2.GetFrameLength.2.m_stream.m_fileMemoryBufferSize < 2 ^ 63
        rw [gz]
        exact hL
      · show header.2.GetFrameLength.2.m_stream.m_fileMemoryBufferPosition
          ≤ header.2.GetFrameLength.2.m_stream.m_fileMemoryBufferSize
        rw [g1]
        exact q2
      · intro k
        have k2 : header.2.GetFrameLength.2.m_errorMessage.length = 0 := k
        rw [g2, hm] at k2
        show 1 ≤ header.2.GetFrameLength.2.m_maxResynchronizationCount
          ∧ header.2.GetFrameLength.2.m_maxResynchronizationCount < 2 ^ 32
        rw [g7, q5, hcnt k2, hmax]
        exact ⟨by norm_num, by norm_num⟩
      · intro res ⟨r1, r2, r3, r4, r5, r6, r7, r8⟩
        have r2' : res.2.m_stream.m_fileMemoryBuffer
            = header.2.GetFrameLength.2.m_stream.m_fileMemoryBuffer := r2
        have r3' : res.2.m_stream.m_fileMemoryBufferPosition
            ≤ header.2.GetFrameLength.2.m_stream.m_fileMemoryBufferSize := r3
        have r6' : res.2.m_offset = header.2.GetFrameLength.2.m_offset := r6
        have r7' : res.2.m_fileSizeInBytes = header.2.GetFrameLength.2.m_fileSizeInBytes := r7
        rw [g1] at r2'
        rw [gz] at r3'
        rw [g6, q3] at r6'
        rw [g5, q4] at r7'
        have rz := esz _ (r2'.trans q1)
        refine ⟨⟨?_, ?_, ?_, ?_, ?_⟩, r2'.trans q1, r7', Or.inl r1, fun _ => r8,
          le_of_eq r6'.symm⟩
        · rw [rz]
          exact hL
        · rw [rz]
          exact r3'
        · rw [r6']
          exact ho
        · rw [r7', rz]
          exact hf
        · intro k
          exact absurd k r8
    have haccept : ∀ Y : MP3Decoder,
        Y.m_stream = header.2.GetFrameLength.2.m_stream →
        Y.m_errorMessage = header.2.GetFrameLength.2.m_errorMessage →
        Y.m_fileSizeInBytes = header.2.GetFrameLength.2.m_fileSizeInBytes →
        Y.m_offset = header.2.GetFrameLength.2.m_offset + (header.2.GetFrameLength.1 : Int) →
        Y.m_maxResynchronizationCount = header.2.GetFrameLength.2.m_maxResynchronizationCount →
        Y.m_currentFrameLength = header.2.GetFrameLength.1 →
        header.2.GetFrameLength.1 ≠ 0 →
        ∃ res : Int × MP3Decoder,
          (if Y.m_offset < Y.m_fileSizeInBytes then
              (Y.CheckCRCProtection secondsOf).bind fun crc =>
              let d := crc.2
              if crc.1 then
                let sought := d.m_stream.Seek d.m_offset SEEK_SET
                let d := { d with m_stream := sought.2 }
                if sought.1 ≠ 0 then
                  Result.ok (-1, d)
                else
                  Result.ok ((d.m_currentFrameLength : Int), d)
              else
                Result.ok (-1, d)
            else if Y.m_offset = Y.m_fileSizeInBytes then
              (Y.CheckCRCProtection secondsOf).bind fun crc =>
              let d := crc.2
              if crc.1 then
                Result.ok (0, d)
              else
                Result.ok (-1, d)
            else
              MP3Decoder.ReadFailed secondsOf { Y with m_errorMessage := "TRUNCATED" })
            = Result.ok res
          ∧ (res.2.ready
            ∧ res.2.m_stream.m_fileMemoryBuffer = d.m_stream.m_fileMemoryBuffer
            ∧ res.2.m_fileSizeInBytes = d.m_fileSizeInBytes
            ∧ (res.1 = -1 ∨ res.1 = 0
                ∨ (0 < res.1 ∧ res.1 = (res.2.m_currentFrameLength : Int)
                    ∧ res.2.m_offset = d.m_offset + res.1
                    ∧ res.2.m_offset < res.2.m_fileSizeInBytes))
            ∧ (res.1 = -1 → res.2.m_errorMessage.length ≠ 0)
            ∧ d.m_offset ≤ res.2.m_offset) := by
      intro Y y1 y2 y3 y4 y5 y6 hlen
      have yz : Y.m_stream.m_fileMemoryBufferSize = d.m_stream.m_fileMemoryBufferSize := by
        rw [y1]
        exact gz
      refine Result.ok_imp _ _ _ (MP3Decoder.Read_accepted_spec secondsOf Y ?_ ?_ ?_ ?_ ?_ ?_) ?_
      · rw [yz]
        exact hL
      · rw [y1, g1]
        exact q2
      · rw [y4, g6, q3]
        omega
      · rw [y3, g5, q4, yz]
        exact hf
      · intro k
        rw [y2, g2, hm] at k
        rw [y5, g7, q5]
        exact hcnt k
      · rw [y6]
        exact hlen
      · intro res ⟨r1, r2, r3, r4, r5, r6⟩
        rw [y1, g1, q1] at r2
        rw [y3, g5, q4] at r3
        rw [y4, g6, q3] at r4
        refine ⟨r1, r2, r3, ?_, r6, ?_⟩
        · rcases r5 with k | k | ⟨k1, k2, k3, k4⟩
          · exact Or.inl k
          · exact Or.inr (Or.inl k)
          · refine Or.inr (Or.inr ⟨k1, k3, ?_, ?_⟩)
            · rw [r4, k2, y6]
            · rw [r4, r3]
              rw [y4, y3, g5, g6, q3, q4] at k4
              exact k4
        · rw [r4]
          omega
    refine Result.ite_spec _ _ _ _ (fun hlen => ?_) (fun _ => hfail)
    refine Result.ite_spec _ _ _ _ (fun _ => ?_) (fun _ => hfail)
    by_cases hprev : header.2.GetFrameLength.2.m_previousFrameHeader = 0
    · simp only [if_pos hprev]
      exact haccept
        { header.2.GetFrameLength.2 with
          m_currentFrameLength := header.2.GetFrameLength.1
          m_previousFrameHeader := header.2.GetFrameLength.2.m_currentFrameHeader
          m_streamSampleRate := header.2.GetFrameLength.2.m_sampleRate
          m_offset := header.2.GetFrameLength.2.m_offset + (header.2.GetFrameLength.1 : Int) }
        rfl rfl rfl rfl rfl rfl hlen
    · simp only [if_neg hprev]
      exact haccept
        { header.2.GetFrameLength.2 with
          m_currentFrameLength := header.2.GetFrameLength.1
          m_offset := header.2.GetFrameLength.2.m_offset + (header.2.GetFrameLength.1 : Int) }
        rfl rfl rfl rfl rfl rfl hlen

/-- The decoder a successful `OpenFile` leaves is in a state `ready`. -/
theorem MP3Decoder.OpenFile_ready (d d0 : MP3Decoder) (bytes : List Byte)
    (hL : bytes.length < 2 ^ 63) (h : d.OpenFile bytes = Result.ok d0) :
    d0.ready ∧ d0.m_stream.m_fileMemoryBuffer = bytes
      ∧ d0.m_offset = (d0.m_tagHeaderLengthBytes : Int) := by
  obtain ⟨h1, h2, h3, h4, h5, h6, h7, _, _, _⟩ := MP3Decoder.OpenFile_opened d d0 bytes hL h
  have hz : d0.m_stream.m_fileMemoryBufferSize = bytes.length := by
    unfold StreamWrapper.m_fileMemoryBufferSize
    rw [h1]
  refine ⟨⟨?_, h2, ?_, ?_, fun _ => h7⟩, h1, h4⟩
  · rw [hz]
    exact hL
  · rw [h4]
    omega
  · rw [h3, hz]
    omega

/-- Any number of calls of `Read` on a decoder in a state `ready` return and
leave a state `ready` over the same buffer with the same end of the audio
data. -/
theorem MP3Decoder.ReadAll_spec (secondsOf : Nat → Nat → Int) (calls : Nat) :
    ∀ d : MP3Decoder, d.ready →
    ∃ res : List Int × MP3Decoder, MP3Decoder.ReadAll secondsOf calls d = Result.ok res
      ∧ (res.2.ready
        ∧ res.2.m_stream.m_fileMemoryBuffer = d.m_stream.m_fileMemoryBuffer
        ∧ res.2.m_fileSizeInBytes = d.m_fileSizeInBytes
        ∧ d.m_offset ≤ res.2.m_offset) := by
  induction calls with
  | zero =>
    intro d hr
    exact ⟨_, rfl, hr, rfl, rfl, le_refl _⟩
  | succ calls ih =>
    intro d hr
    rw [MP3Decoder.ReadAll]
    refine Result.bind_spec _ _ _ _ (MP3Decoder.Read_spec secondsOf d hr) ?_
    intro first ⟨f1, f2, f3, _, _, f6⟩
    refine Result.bind_spec _ _ _ _ (ih first.2 f1) ?_
    intro rest ⟨r1, r2, r3, r4⟩
    exact ⟨_, rfl, r1, r2.trans f2, r3.trans f3, le_trans f6 r4⟩

/-! ## MP3Decoder: the values Read returns -/

/-- C28. On a decoder that `OpenFile` opened over a fully-buffered stream,
every call of `Read`, after any number of earlier calls, returns; the value is
-1, 0 or the frame length, which is above 0; and whenever it is -1,
`GetLastErrorMessage()` is not the empty string. -/
theorem MP3Decoder.Read_result (secondsOf : Nat → Nat → Int) (d d0 : MP3Decoder)
    (bytes : List Byte) (hL : bytes.length < 2 ^ 63)
    (ho : d.OpenFile bytes = Result.ok d0) (calls : Nat) :
    ∃ (results : List Int) (dk : MP3Decoder) (r : Int) (d1 : MP3Decoder),
      MP3Decoder.ReadAll secondsOf calls d0 = Result.ok (results, dk)
        ∧ dk.Read secondsOf = Result.ok (r, d1)
        ∧ (r = -1 ∨ r = 0 ∨ (0 < r ∧ r = (d1.m_currentFrameLength : Int)))
        ∧ (r = -1 → d1.GetLastErrorMessage ≠ "") := by
  obtain ⟨hr, _, _⟩ := MP3Decoder.OpenFile_ready d d0 bytes hL ho
  obtain ⟨⟨results, dk⟩, h1, k1, _, _, _⟩ := MP3Decoder.ReadAll_spec secondsOf calls d0 hr
  obtain ⟨⟨r, d1⟩, h2, _, _, _, t4, t5, _⟩ := MP3Decoder.Read_spec secondsOf dk k1
  refine ⟨results, dk, r, d1, h1, h2, ?_, ?_⟩
  · rcases t4 with k | k | ⟨k1, k2, _, _⟩
    · exact Or.inl k
    · exact Or.inr (Or.inl k)
    · exact Or.inr (Or.inr ⟨k1, k2⟩)
  · intro k hempty
    have hlen := t5 k
    unfold MP3Decoder.GetLastErrorMessage at hempty
    apply hlen
    show d1.m_errorMessage.length = 0
    rw [hempty]
    rfl

set_option maxRecDepth 100000 in
/-- C28 at the file made of two frames `frame144`, for the second call. -/
theorem MP3Decoder.Read_result_witness :
    ∃ (results : List Int) (dk : MP3Decoder) (r : Int) (d1 : MP3Decoder),
      MP3Decoder.ReadAll (fun _ _ => 0) 1 MP3Decoder.openedTwoFrames = Result.ok (results, dk)
        ∧ dk.Read (fun _ _ => 0) = Result.ok (r, d1)
        ∧ (r = -1 ∨ r = 0 ∨ (0 < r ∧ r = (d1.m_currentFrameLength : Int)))
        ∧ (r = -1 → d1.GetLastErrorMessage ≠ "") :=
  MP3Decoder.Read_result (fun _ _ => 0) MP3Decoder.new MP3Decoder.openedTwoFrames
    (MP3Decoder.frame144 ++ MP3Decoder.frame144) (by decide) (by decide) 1

/-! ## MP3Decoder: the loop that reads a file ends -/

/-- From a decoder in a state `ready` whose byte offset is at most `m` bytes
before the end of the audio data, at most `m` calls of `Read` return a value
above 0 before one returns 0 or -1. -/
theorem MP3Decoder.ReadAll_positive (secondsOf : Nat → Nat → Int) (m : Nat) :
    ∀ d : MP3Decoder, d.ready → (d.m_fileSizeInBytes - d.m_offset).toNat ≤ m →
    ∃ (n : Nat) (results : List Int) (dn : MP3Decoder), n ≤ m
      ∧ MP3Decoder.ReadAll secondsOf (n + 1) d = Result.ok (results, dn)
      ∧ (∀ r ∈ results.take n, 0 < r)
      ∧ (results.drop n = [0] ∨ results.drop n = [-1]) := by
  induction m with
  | zero =>
    intro d hr hm
    obtain ⟨⟨r, d1⟩, h1, _, _, t3, t4, _, _⟩ := MP3Decoder.Read_spec secondsOf d hr
    have e : MP3Decoder.ReadAll secondsOf (0 + 1) d = Result.ok ([r], d1) := by
      rw [MP3Decoder.ReadAll, h1, Result.bind_ok, MP3Decoder.ReadAll, Result.bind_ok]
    refine ⟨0, [r], d1, le_refl _, e, ?_, ?_⟩
    · intro x hx
      simp at hx
    · rcases t4 with k | k | ⟨k1, _, k3, k4⟩
      · right
        have k' : r = -1 := k
        rw [k']
        rfl
      · left
        have k' : r = 0 := k
        rw [k']
        rfl
      · exfalso
        have k3' : d1.m_offset = d.m_offset + r := k3
        have k4' : d1.m_offset < d1.m_fileSizeInBytes := k4
        have t3' : d1.m_fileSizeInBytes = d.m_fileSizeInBytes := t3
        have k1' : 0 < r := k1
        omega
  | succ m ih =>
    intro d hr hm
    obtain ⟨⟨r, d1⟩, h1, t1, _, t3, t4, _, _⟩ := MP3Decoder.Read_spec secondsOf d hr
    have t3' : d1.m_fileSizeInBytes = d.m_fileSizeInBytes := t3
    by_cases hpos : 0 < r
    · have hoff : d1.m_offset = d.m_offset + r ∧ d1.m_offset < d1.m_fileSizeInBytes := by
        rcases t4 with k | k | ⟨_, _, k3, k4⟩
        · have k' : r = -1 := k
          omega
        · have k' : r = 0 := k
          omega
        · exact ⟨k3, k4⟩
      obtain ⟨n, results, dn, hn, hall, hp1, hp2⟩ := ih d1 t1 (by omega)
      have e : MP3Decoder.ReadAll secondsOf (n + 1 + 1) d = Result.ok (r :: results, dn) := by
        rw [MP3Decoder.ReadAll, h1, Result.bind_ok]
        show (MP3Decoder.ReadAll secondsOf (n + 1) d1).bind _ = _
        rw [hall, Result.bind_ok]
      refine ⟨n + 1, r :: results, dn, by omega, e, ?_, ?_⟩
      · intro x hx
        rw [List.take_succ_cons, List.mem_cons] at hx
        rcases hx with hx | hx
        · rw [hx]
          exact hpos
        · exact hp1 x hx
      · rw [List.drop_succ_cons]
        exact hp2
    · have e : MP3Decoder.ReadAll secondsOf (0 + 1) d = Result.ok ([r], d1) := by
        rw [MP3Decoder.ReadAll, h1, Result.bind_ok, MP3Decoder.ReadAll, Result.bind_ok]
      refine ⟨0, [r], d1, Nat.zero_le _, e, ?_, ?_⟩
      · intro x hx
        simp at hx
      · rcases t4 with k | k | ⟨k1, _, _, _⟩
        · right
          have k' : r = -1 := k
          rw [k']
          rfl
        · left
          have k' : r = 0 := k
          rw [k']
          rfl
        · exact absurd k1 hpos

/-- The loop of `DecoderThreadProc` ends: entered with the value of the last
`Read` and a decoder in a state `ready`, it returns once the fuel covers the
bytes left before the end of the audio data, and the value it is left with is
0 or -1 unless it was entered with another value that is not above 0. -/
theorem DecoderThreadProc.readLoop_spec (secondsOf : Nat → Nat → Int) (fuel : Nat) :
    ∀ (d : MP3Decoder) (current : Int) (total : Nat), d.ready →
    (0 < current → (d.m_fileSizeInBytes - d.m_offset).toNat + 2 ≤ fuel) →
    1 ≤ fuel →
    ∃ out : Int × Nat × MP3Decoder,
      DecoderThreadProc.readLoop secondsOf fuel d current total = Result.ok out
        ∧ ((0 < current → out.1 = 0 ∨ out.1 = -1) ∧ (¬ 0 < current → out.1 = current)) := by
  induction fuel with
  | zero =>
    intro d current total _ _ h1
    omega
  | succ fuel ih =>
    intro d current total hr hf _
    rw [DecoderThreadProc.readLoop]
    refine Result.ite_spec _ _ _ _ (fun hc => ?_) (fun hc => ?_)
    · have hc' : 0 < current := hc
      have hfuel := hf hc'
      try dsimp only
      refine Result.bind_spec _ _ _ _ (MP3Decoder.Read_spec secondsOf d hr) ?_
      intro res ⟨t1, _, t3, t4, _, _⟩
      refine Result.ok_imp _ _ _ (ih res.2 res.1 _ t1 ?_ (by omega)) ?_
      · intro hpos
        rcases t4 with k | k | ⟨_, _, k3, k4⟩
        · omega
        · omega
        · omega
      · intro out ⟨o1, o2⟩
        refine ⟨fun _ => ?_, fun k => absurd hc' k⟩
        by_cases hpos : 0 < res.1
        · exact o1 hpos
        · rw [o2 hpos]
          rcases t4 with k | k | ⟨k1, _, _, _⟩
          · exact Or.inr k
          · exact Or.inl k
          · exact absurd k1 hpos
    · exact ⟨_, rfl, fun k => absurd k hc, fun _ => rfl⟩

/-- C29. On a decoder that `OpenFile` opened over a fully-buffered stream:
every call of `Read` that returns a value above 0 has advanced the byte offset
and leaves it below the end of the audio data; so at most `file_end -
header_len` calls return a value above 0 before a call returns 0 or -1, and
the loop of the worker that calls `Read` while the value is above 0 ends with
0 or -1. -/
theorem MP3Decoder.Read_drain (secondsOf : Nat → Nat → Int) (d d0 : MP3Decoder)
    (bytes : List Byte) (hL : bytes.length < 2 ^ 63)
    (ho : d.OpenFile bytes = Result.ok d0) :
    (∀ calls : Nat, ∃ (results : List Int) (dk : MP3Decoder) (r : Int) (d1 : MP3Decoder),
        MP3Decoder.ReadAll secondsOf calls d0 = Result.ok (results, dk)
          ∧ dk.Read secondsOf = Result.ok (r, d1)
          ∧ (0 < r → dk.m_offset < d1.m_offset ∧ d1.m_offset < d0.m_fileSizeInBytes))
      ∧ (∃ (n : Nat) (results : List Int) (dn : MP3Decoder),
          (n : Int) ≤ max 0 (d0.m_fileSizeInBytes - (d0.m_tagHeaderLengthBytes : Int))
            ∧ MP3Decoder.ReadAll secondsOf (n + 1) d0 = Result.ok (results, dn)
            ∧ (∀ r ∈ results.take n, 0 < r)
            ∧ (results.drop n = [0] ∨ results.drop n = [-1]))
      ∧ (∃ (last : Int) (total : Nat) (dEnd : MP3Decoder),
          DecoderThreadProc.readFile secondsOf
              ((d0.m_fileSizeInBytes - (d0.m_tagHeaderLengthBytes : Int)).toNat + 1) d0
            = Result.ok (last, total, dEnd)
          ∧ (last = 0 ∨ last = -1)) := by
  obtain ⟨hr, _, hoff⟩ := MP3Decoder.OpenFile_ready d d0 bytes hL ho
  refine ⟨?_, ?_, ?_⟩
  · intro calls
    obtain ⟨⟨results, dk⟩, h1, k1, _, k3, _⟩ := MP3Decoder.ReadAll_spec secondsOf calls d0 hr
    obtain ⟨⟨r, d1⟩, h2, _, _, t3, t4, _, _⟩ := MP3Decoder.Read_spec secondsOf dk k1
    refine ⟨results, dk, r, d1, h1, h2, ?_⟩
    intro hpos
    have t3' : d1.m_fileSizeInBytes = dk.m_fileSizeInBytes := t3
    have k3' : dk.m_fileSizeInBytes = d0.m_fileSizeInBytes := k3
    rcases t4 with k | k | ⟨_, _, k5, k6⟩
    · have k' : r = -1 := k
      omega
    · have k' : r = 0 := k
      omega
    · have k5' : d1.m_offset = dk.m_offset + r := k5
      have k6' : d1.m_offset < d1.m_fileSizeInBytes := k6
      omega
  · obtain ⟨n, results, dn, hn, hall, hp1, hp2⟩ := MP3Decoder.ReadAll_positive secondsOf
      (d0.m_fileSizeInBytes - d0.m_offset).toNat d0 hr (le_refl _)
    refine ⟨n, results, dn, ?_, hall, hp1, hp2⟩
    rw [hoff] at hn
    omega
  · unfold DecoderThreadProc.readFile
    obtain ⟨⟨r, d1⟩, h2, t1, _, t3, t4, _, _⟩ := MP3Decoder.Read_spec secondsOf d0 hr
    rw [h2, Result.bind_ok]
    have t3' : d1.m_fileSizeInBytes = d0.m_fileSizeInBytes := t3
    obtain ⟨⟨last, total, dEnd⟩, h3, o1, o2⟩ := DecoderThreadProc.readLoop_spec secondsOf
      ((d0.m_fileSizeInBytes - (d0.m_tagHeaderLengthBytes : Int)).toNat + 1) d1 r 0 t1
      (by
        intro hpos
        rcases t4 with k | k | ⟨_, _, k5, k6⟩
        · have k' : r = -1 := k
          omega
        · have k' : r = 0 := k
          omega
        · have k5' : d1.m_offset = d0.m_offset + r := k5
          have k6' : d1.m_offset < d1.m_fileSizeInBytes := k6
          omega)
      (by omega)
    refine ⟨last, total, dEnd, h3, ?_⟩
    by_cases hpos : 0 < r
    · exact o1 hpos
    · have e : last = r := o2 hpos
      rw [e]
      rcases t4 with k | k | ⟨k1, _, _, _⟩
      · exact Or.inr k
      · exact Or.inl k
      · exact absurd k1 hpos

set_option maxRecDepth 100000 in
/-- C29 at the file made of two frames `frame144`. -/
theorem MP3Decoder.Read_drain_witness :
    (∀ calls : Nat, ∃ (results : List Int) (dk : MP3Decoder) (r : Int) (d1 : MP3Decoder),
        MP3Decoder.ReadAll (fun _ _ => 0) calls MP3Decoder.openedTwoFrames = Result.ok (results, dk)
          ∧ dk.Read (fun _ _ => 0) = Result.ok (r, d1)
          ∧ (0 < r → dk.m_offset < d1.m_offset
              ∧ d1.m_offset < MP3Decoder.openedTwoFrames.m_fileSizeInBytes))
      ∧ (∃ (n : Nat) (results : List Int) (dn : MP3Decoder),
          (n : Int) ≤ max 0 (MP3Decoder.openedTwoFrames.m_fileSizeInBytes
              - (MP3Decoder.openedTwoFrames.m_tagHeaderLengthBytes : Int))
            ∧ MP3Decoder.ReadAll (fun _ _ => 0) (n + 1) MP3Decoder.openedTwoFrames
                = Result.ok (results, dn)
            ∧ (∀ r ∈ results.take n, 0 < r)
            ∧ (results.drop n = [0] ∨ results.drop n = [-1]))
      ∧ (∃ (last : Int) (total : Nat) (dEnd : MP3Decoder),
          DecoderThreadProc.readFile (fun _ _ => 0)
              ((MP3Decoder.openedTwoFrames.m_fileSizeInBytes
                - (MP3Decoder.openedTwoFrames.m_tagHeaderLengthBytes : Int)).toNat + 1)
              MP3Decoder.openedTwoFrames
            = Result.ok (last, total, dEnd)
          ∧ (last = 0 ∨ last = -1)) :=
  MP3Decoder.Read_drain (fun _ _ => 0) MP3Decoder.new MP3Decoder.openedTwoFrames
    (MP3Decoder.frame144 ++ MP3Decoder.frame144) (by decide) (by decide)

/-! ## MP3Decoder: the bytes a resynchronization consumes -/

/-- The loop of `ResynchronizeBitstream` takes at least one attempt off the
counter. -/
theorem MP3Decoder.ResynchronizeLoop_count (fuel : Nat) : ∀ d : MP3Decoder,
    1 ≤ d.m_maxResynchronizationCount → d.m_maxResynchronizationCount < 2 ^ 32 →
    ∀ res : Bool × MP3Decoder, MP3Decoder.ResynchronizeLoop fuel d = Result.ok res →
      res.2.m_maxResynchronizationCount < d.m_maxResynchronizationCount := by
  induction fuel with
  | zero =>
    intro d _ _ res h
    exact Result.noConfusion h
  | succ fuel ih =>
    intro d hc1 hc2 res h
    have hcnt : toU32 ((d.m_maxResynchronizationCount : Int) - 1)
        = d.m_maxResynchronizationCount - 1 := by
      unfold toU32
      omega
    rw [MP3Decoder.ResynchronizeLoop] at h
    try dsimp only at h
    rw [hcnt] at h
    by_cases hc : d.m_maxResynchronizationCount - 1 > 0
    · rw [if_pos hc, Result.bind_eq_ok_iff] at h
      obtain ⟨r, _, h⟩ := h
      try dsimp only at h
      by_cases hr0 : r.count ≠ 0
      · rw [if_pos hr0] at h
        split at h
        · have h2 := Result.ok.inj h
          rw [← h2]
          show (MP3Decoder.GetFrameLength _).2.m_maxResynchronizationCount < _
          rw [(MP3Decoder.GetFrameLength_count _).1]
          try dsimp only
          omega
        · have h3 := ih _ ?_ ?_ res h
          · try dsimp only at h3
            rw [(MP3Decoder.GetFrameLength_count _).1] at h3
            try dsimp only at h3
            omega
          · try dsimp only
            rw [(MP3Decoder.GetFrameLength_count _).1]
            try dsimp only
            omega
          · try dsimp only
            rw [(MP3Decoder.GetFrameLength_count _).1]
            try dsimp only
            omega
      · rw [if_neg hr0] at h
        have h2 := Result.ok.inj h
        rw [← h2]
        show d.m_maxResynchronizationCount - 1 < _
        omega
    · rw [if_neg hc] at h
      have h2 := Result.ok.inj h
      rw [← h2]
      show d.m_maxResynchronizationCount - 1 < _
      omega

/-- `ResynchronizeBitstream` with its recursion takes at least one attempt
off the counter. -/
theorem MP3Decoder.ResynchronizeBitstreamFuel_count (fuel : Nat) : ∀ d : MP3Decoder,
    d.m_stream.m_fileMemoryBufferSize < 2 ^ 63 →
    d.m_stream.m_fileMemoryBufferPosition ≤ d.m_stream.m_fileMemoryBufferSize →
    d.m_stream.m_fileMemoryBufferSize - d.m_stream.m_fileMemoryBufferPosition < fuel →
    1 ≤ d.m_maxResynchronizationCount → d.m_maxResynchronizationCount < 2 ^ 32 →
    ∀ res : Bool × MP3Decoder, MP3Decoder.ResynchronizeBitstreamFuel fuel d = Result.ok res →
      res.2.m_maxResynchronizationCount < d.m_maxResynchronizationCount := by
  induction fuel with
  | zero =>
    intro d _ _ hf _ _
    omega
  | succ fuel ih =>
    intro d hL hp hf hc1 hc2 res h
    rw [MP3Decoder.ResynchronizeBitstreamFuel] at h
    try dsimp only at h
    obtain ⟨exit, he, q1, q2, q3, q4, q5, _⟩ := MP3Decoder.ResynchronizeLoop_spec (fuel + 1)
      { d with m_currentFrameHeader := 0, m_currentFrameLength := 0 } hL hp rfl hf hc1 hc2
    have hlt := MP3Decoder.ResynchronizeLoop_count (fuel + 1)
      { d with m_currentFrameHeader := 0, m_currentFrameLength := 0 } hc1 hc2 exit he
    have hlt' : exit.2.m_maxResynchronizationCount < d.m_maxResynchronizationCount := hlt
    have q2' : exit.2.m_stream.m_fileMemoryBufferPosition ≤ d.m_stream.m_fileMemoryBufferSize := q2
    have esize : exit.2.m_stream.m_fileMemoryBufferSize = d.m_stream.m_fileMemoryBufferSize := by
      unfold StreamWrapper.m_fileMemoryBufferSize
      rw [q1]
    rw [he, Result.bind_ok] at h
    try dsimp only at h
    by_cases hb : exit.1 = false
    · rw [if_pos hb] at h
      rw [← Result.ok.inj h]
      exact hlt'
    · rw [if_neg hb] at h
      have hb2 : exit.1 = true := by
        cases k : exit.1
        · exact absurd k hb
        · rfl
      by_cases hl : exit.2.m_currentFrameLength > 0
      · rw [if_pos hl] at h
        obtain ⟨k1, k2⟩ := q5 hb2 hl
        have k1' : d.m_stream.m_fileMemoryBufferPosition
            < exit.2.m_stream.m_fileMemoryBufferPosition := k1
        by_cases hprev : exit.2.m_previousFrameHeader > 0
        · rw [if_pos hprev] at h
          split at h
          · rw [← Result.ok.inj h]
            exact hlt'
          · have h3 := ih exit.2 (by rw [esize]; exact hL) (by rw [esize]; exact q2')
              (by rw [esize]; omega) k2 (by omega) res h
            omega
        · rw [if_neg hprev] at h
          have h3 := ih { exit.2 with m_previousFrameHeader := exit.2.m_currentFrameHeader }
            (by rw [esize]; exact hL) (by rw [esize]; exact q2')
            (by
              show exit.2.m_stream.m_fileMemoryBufferSize
                - exit.2.m_stream.m_fileMemoryBufferPosition < fuel
              rw [esize]
              omega)
            k2
            (by
              show exit.2.m_maxResynchronizationCount < 2 ^ 32
              omega)
            res h
          have h4 : res.2.m_maxResynchronizationCount < exit.2.m_maxResynchronizationCount := h3
          omega
      · rw [if_neg hl] at h
        rw [← Result.ok.inj h]
        exact hlt'


/-- The part of `Read` that follows the acceptance of a header returns and
leaves the counter of resynchronization attempts as it was: with the message
`TRUNCATED` set, the end of `Read` does not run `ResynchronizeBitstream`. -/
theorem MP3Decoder.Read_accepted_count (secondsOf : Nat → Nat → Int) (Y : MP3Decoder)
    (hL : Y.m_stream.m_fileMemoryBufferSize < 2 ^ 63)
    (hp : Y.m_stream.m_fileMemoryBufferPosition ≤ Y.m_stream.m_fileMemoryBufferSize) :
    ∃ res : Int × MP3Decoder,
      (if Y.m_offset < Y.m_fileSizeInBytes then
          (Y.CheckCRCProtection secondsOf).bind fun crc =>
          let d := crc.2
          if crc.1 then
            let sought := d.m_stream.Seek d.m_offset SEEK_SET
            let d := { d with m_stream := sought.2 }
            if sought.1 ≠ 0 then
              Result.ok (-1, d)
            else
              Result.ok ((d.m_currentFrameLength : Int), d)
          else
            Result.ok (-1, d)
        else if Y.m_offset = Y.m_fileSizeInBytes then
          (Y.CheckCRCProtection secondsOf).bind fun crc =>
          let d := crc.2
          if crc.1 then
            Result.ok (0, d)
          else
            Result.ok (-1, d)
        else
          MP3Decoder.ReadFailed secondsOf { Y with m_errorMessage := "TRUNCATED" }) = Result.ok res
      ∧ res.2.m_maxResynchronizationCount = Y.m_maxResynchronizationCount := by
  refine Result.ite_spec _ _ _ _ (fun _ => ?_) (fun _ => ?_)
  · refine Result.bind_spec _ _ _ _ (MP3Decoder.CheckCRCProtection_total secondsOf Y hL hp) ?_
    intro crc ⟨_, _, _, _, c5, _⟩
    try dsimp only
    refine Result.ite_spec _ _ _ _ (fun _ => ?_) (fun _ => ?_)
    · refine Result.ite_spec _ _ _ _ (fun _ => ?_) (fun _ => ?_)
      · exact ⟨_, rfl, c5⟩
      · exact ⟨_, rfl, c5⟩
    · exact ⟨_, rfl, c5⟩
  · refine Result.ite_spec _ _ _ _ (fun _ => ?_) (fun _ => ?_)
    · refine Result.bind_spec _ _ _ _ (MP3Decoder.CheckCRCProtection_total secondsOf Y hL hp) ?_
      intro crc ⟨_, _, _, _, c5, _⟩
      try dsimp only
      refine Result.ite_spec _ _ _ _ (fun _ => ?_) (fun _ => ?_)
      · exact ⟨_, rfl, c5⟩
      · exact ⟨_, rfl, c5⟩
    · unfold MP3Decoder.ReadFailed
      rw [if_neg (show ¬ ("TRUNCATED").length = 0 by decide)]
      exact ⟨_, rfl, rfl⟩

/-- A call of `Read` on a decoder in a state `ready` returns, and either
leaves the counter of resynchronization attempts as it was, or its result is
that of the end of `Read`, entered with no message set, on a decoder over the
same buffer, at a position inside it, with the counter and the message the
call started from. -/
theorem MP3Decoder.Read_end (secondsOf : Nat → Nat → Int) (d : MP3Decoder) (hr : d.ready) :
    ∃ res : Int × MP3Decoder, d.Read secondsOf = Result.ok res
      ∧ (res.2.m_maxResynchronizationCount = d.m_maxResynchronizationCount
        ∨ ∃ X : MP3Decoder,
            X.m_stream.m_fileMemoryBuffer = d.m_stream.m_fileMemoryBuffer
            ∧ X.m_stream.m_fileMemoryBufferPosition ≤ d.m_stream.m_fileMemoryBufferSize
            ∧ X.m_maxResynchronizationCount = d.m_maxResynchronizationCount
            ∧ X.m_errorMessage = d.m_errorMessage
            ∧ X.m_errorMessage.length = 0
            ∧ MP3Decoder.ReadFailed secondsOf X = Result.ok res) := by
  obtain ⟨hL, hp, _, _, hcnt⟩ := hr
  have hmax : MAX_RESYNCHRONIZATION_ATTEMPTS = 65536 := rfl
  have esz : ∀ s : StreamWrapper, s.m_fileMemoryBuffer = d.m_stream.m_fileMemoryBuffer →
      s.m_fileMemoryBufferSize = d.m_stream.m_fileMemoryBufferSize := by
    intro s hs
    unfold StreamWrapper.m_fileMemoryBufferSize
    rw [hs]
  unfold MP3Decoder.Read
  refine Result.bind_spec _ _ _ _ (MP3Decoder.ReadHeaderLoop_total 4 d hL hp) ?_
  intro header ⟨q1, q2, q3, q4, q5, q6, q7⟩
  have hz := esz _ q1
  try dsimp only
  refine Result.ite_spec _ _ _ _ (fun hb => ?_) (fun hb => ?_)
  · exact ⟨_, rfl, Or.inl q5⟩
  · have hb2 : header.1 = true := by
      cases h : header.1
      · exact absurd h hb
      · rfl
    have hm := q6 hb2
    obtain ⟨g1, g2, g3, g4, g5, g6⟩ := MP3Decoder.GetFrameLength_preserves header.2
    obtain ⟨g7, _⟩ := MP3Decoder.GetFrameLength_count header.2
    have gz : header.2.GetFrameLength.2.m_stream.m_fileMemoryBufferSize
        = d.m_stream.m_fileMemoryBufferSize := by
      rw [g1]
      exact hz
    have hfail : ∃ res : Int × MP3Decoder,
        MP3Decoder.ReadFailed secondsOf
          { header.2.GetFrameLength.2 with m_currentFrameLength := header.2.GetFrameLength.1 }
          = Result.ok res
        ∧ (res.2.m_maxResynchronizationCount = d.m_maxResynchronizationCount
          ∨ ∃ X : MP3Decoder,
              X.m_stream.m_fileMemoryBuffer = d.m_stream.m_fileMemoryBuffer
              ∧ X.m_stream.m_fileMemoryBufferPosition ≤ d.m_stream.m_fileMemoryBufferSize
              ∧ X.m_maxResynchronizationCount = d.m_maxResynchronizationCount
              ∧ X.m_errorMessage = d.m_errorMessage
              ∧ X.m_errorMessage.length = 0
              ∧ MP3Decoder.ReadFailed secondsOf X = Result.ok res) := by
      by_cases hmsg : d.m_errorMessage.length = 0
      · have hx : ∃ res : Int × MP3Decoder,
            MP3Decoder.ReadFailed secondsOf
              { header.2.GetFrameLength.2 with
                m_currentFrameLength := header.2.GetFrameLength.1 }
              = Result.ok res ∧ True := by
          refine Result.ok_imp _ _ _ (MP3Decoder.ReadFailed_spec secondsOf _ ?_ ?_ ?_) ?_
          · show header.2.GetFrameLength.2.m_stream.m_fileMemoryBufferSize < 2 ^ 63
            rw [gz]
            exact hL
          · show header.2.GetFrameLength.2.m_stream.m_fileMemoryBufferPosition
              ≤ header.2.GetFrameLength.2.m_stream.m_fileMemoryBufferSize
            rw [g1]
            exact q2
          · intro _
            show 1 ≤ header.2.GetFrameLength.2.m_maxResynchronizationCount
              ∧ header.2.GetFrameLength.2.m_maxResynchronizationCount < 2 ^ 32
            rw [g7, q5, hcnt hmsg, hmax]
            exact ⟨by norm_num, by norm_num⟩
          · intro _ _
            trivial
        obtain ⟨res, hres, _⟩ := hx
        refine ⟨res, hres, Or.inr ⟨_, ?_, ?_, ?_, ?_, ?_, hres⟩⟩
        · show header.2.GetFrameLength.2.m_stream.m_fileMemoryBuffer = _
          rw [g1]
          exact q1
        · show header.2.GetFrameLength.2.m_stream.m_fileMemoryBufferPosition ≤ _
          rw [g1, ← hz]
          exact q2
        · show header.2.GetFrameLength.2.m_maxResynchronizationCount = _
          rw [g7]
          exact q5
        · show header.2.GetFrameLength.2.m_errorMessage = _
          rw [g2]
          exact hm
        · show header.2.GetFrameLength.2.m_errorMessage.length = 0
          rw [g2, hm]
          exact hmsg
      · have hne : ¬ (header.2.GetFrameLength.2.m_errorMessage.length = 0) := by
          rw [g2, hm]
          exact hmsg
        unfold MP3Decoder.ReadFailed
        rw [if_neg hne]
        refine ⟨_, rfl, Or.inl ?_⟩
        show header.2.GetFrameLength.2.m_maxResynchronizationCount = _
        rw [g7]
        exact q5
    have haccept : ∀ Y : MP3Decoder,
        Y.m_stream = header.2.GetFrameLength.2.m_stream →
        Y.m_maxResynchronizationCount = header.2.GetFrameLength.2.m_maxResynchronizationCount →
        ∃ res : Int × MP3Decoder,
          (if Y.m_offset < Y.m_fileSizeInBytes then
              (Y.CheckCRCProtection secondsOf).bind fun crc =>
              let d := crc.2
              if crc.1 then
                let sought := d.m_stream.Seek d.m_offset SEEK_SET
                let d := { d with m_stream := sought.2 }
                if sought.1 ≠ 0 then
                  Result.ok (-1, d)
                else
                  Result.ok ((d.m_currentFrameLength : Int), d)
              else
                Result.ok (-1, d)
            else if Y.m_offset = Y.m_fileSizeInBytes then
              (Y.CheckCRCProtection secondsOf).bind fun crc =>
              let d := crc.2
              if crc.1 then
                Result.ok (0, d)
              else
                Result.ok (-1, d)
            else
              MP3Decoder.ReadFailed secondsOf { Y with m_errorMessage := "TRUNCATED" })
            = Result.ok res
          ∧ (res.2.m_maxResynchronizationCount = d.m_maxResynchronizationCount
            ∨ ∃ X : MP3Decoder,
                X.m_stream.m_fileMemoryBuffer = d.m_stream.m_fileMemoryBuffer
                ∧ X.m_stream.m_fileMemoryBufferPosition ≤ d.m_stream.m_fileMemoryBufferSize
                ∧ X.m_maxResynchronizationCount = d.m_maxResynchronizationCount
                ∧ X.m_errorMessage = d.m_errorMessage
                ∧ X.m_errorMessage.length = 0
                ∧ MP3Decoder.ReadFailed secondsOf X = Result.ok res) := by
      intro Y y1 y5
      refine Result.ok_imp _ _ _ (MP3Decoder.Read_accepted_count secondsOf Y ?_ ?_) ?_
      · rw [y1, gz]
        exact hL
      · rw [y1, g1]
        exact q2
      · intro res r1
        exact Or.inl (by rw [r1, y5, g7, q5])
    refine Result.ite_spec _ _ _ _ (fun hlen => ?_) (fun _ => hfail)
    refine Result.ite_spec _ _ _ _ (fun _ => ?_) (fun _ => hfail)
    by_cases hprev : header.2.GetFrameLength.2.m_previousFrameHeader = 0
    · simp only [if_pos hprev]
      exact haccept
        { header.2.GetFrameLength.2 with
          m_currentFrameLength := header.2.GetFrameLength.1
          m_previousFrameHeader := header.2.GetFrameLength.2.m_currentFrameHeader
          m_streamSampleRate := header.2.GetFrameLength.2.m_sampleRate
          m_offset := header.2.GetFrameLength.2.m_offset + (header.2.GetFrameLength.1 : Int) }
        rfl rfl
    · simp only [if_neg hprev]
      exact haccept
        { header.2.GetFrameLength.2 with
          m_currentFrameLength := header.2.GetFrameLength.1
          m_offset := header.2.GetFrameLength.2.m_offset + (header.2.GetFrameLength.1 : Int) }
        rfl rfl


/-- C26. On a decoder that `OpenFile` opened over a fully-buffered stream,
after any number of calls of `Read`: as long as no message is set the counter
of resynchronization attempts is the 65536 that `OpenFile` stored.  The next
call of `Read` returns, and either it leaves the counter as it was, or its
result is that of the end of `Read` (`ReadFailed`, the only caller of
`ResynchronizeBitstream`), entered with no message set on a decoder `X` over
the same buffer, at a position inside it, with the counter and the message of
the state reached.  For every such `X` (also with the message `TRUNCATED`,
which `Read` sets before its end): with an empty message,
`ResynchronizeBitstream`, with its recursion, returns, takes at least one
attempt off the counter and consumes at most 65536 bytes of the stream, and
the end of `Read` then leaves a message; with a message set, the end of
`Read` returns -1 without calling it. -/
theorem MP3Decoder.ResynchronizeBitstream_bound (secondsOf : Nat → Nat → Int)
    (d d0 : MP3Decoder) (bytes : List Byte) (hL : bytes.length < 2 ^ 63)
    (ho : d.OpenFile bytes = Result.ok d0) (calls : Nat) :
    ∃ (results : List Int) (dk : MP3Decoder),
      MP3Decoder.ReadAll secondsOf calls d0 = Result.ok (results, dk)
        ∧ (dk.m_errorMessage.length = 0
            → dk.m_maxResynchronizationCount = MAX_RESYNCHRONIZATION_ATTEMPTS)
        ∧ (∃ res : Int × MP3Decoder, dk.Read secondsOf = Result.ok res
            ∧ (res.2.m_maxResynchronizationCount = dk.m_maxResynchronizationCount
              ∨ ∃ X : MP3Decoder, X.m_stream.m_fileMemoryBuffer = bytes
                  ∧ X.m_stream.m_fileMemoryBufferPosition ≤ bytes.length
                  ∧ X.m_maxResynchronizationCount = dk.m_maxResynchronizationCount
                  ∧ X.m_errorMessage = dk.m_errorMessage
                  ∧ X.m_errorMessage.length = 0
                  ∧ MP3Decoder.ReadFailed secondsOf X = Result.ok res))
        ∧ ∀ X : MP3Decoder, X.m_stream.m_fileMemoryBuffer = bytes →
            X.m_stream.m_fileMemoryBufferPosition ≤ bytes.length →
            X.m_maxResynchronizationCount = dk.m_maxResynchronizationCount →
            (X.m_errorMessage = dk.m_errorMessage ∨ X.m_errorMessage = "TRUNCATED") →
            (X.m_errorMessage.length = 0 →
              ∃ (b : Bool) (X1 : MP3Decoder) (X2 : MP3Decoder),
                X.ResynchronizeBitstream = Result.ok (b, X1)
                  ∧ X.m_stream.m_fileMemoryBufferPosition ≤ X1.m_stream.m_fileMemoryBufferPosition
                  ∧ X1.m_stream.m_fileMemoryBufferPosition - X.m_stream.m_fileMemoryBufferPosition
                      ≤ MAX_RESYNCHRONIZATION_ATTEMPTS
                  ∧ X1.m_maxResynchronizationCount < X.m_maxResynchronizationCount
                  ∧ MP3Decoder.ReadFailed secondsOf X = Result.ok (-1, X2)
                  ∧ X2.m_errorMessage.length ≠ 0)
              ∧ (X.m_errorMessage.length ≠ 0 →
                  MP3Decoder.ReadFailed secondsOf X = Result.ok (-1, X)) := by
  obtain ⟨hr, hb, _⟩ := MP3Decoder.OpenFile_ready d d0 bytes hL ho
  obtain ⟨⟨results, dk⟩, h1, k1, k2, _, _⟩ := MP3Decoder.ReadAll_spec secondsOf calls d0 hr
  have hk : dk.ready := k1
  have kb : dk.m_stream.m_fileMemoryBuffer = bytes := by
    have k2' : dk.m_stream.m_fileMemoryBuffer = d0.m_stream.m_fileMemoryBuffer := k2
    rw [k2', hb]
  have kz : dk.m_stream.m_fileMemoryBufferSize = bytes.length := by
    unfold StreamWrapper.m_fileMemoryBufferSize
    rw [kb]
  obtain ⟨_, _, _, _, kc⟩ := k1
  have kc' : dk.m_errorMessage.length = 0
      → dk.m_maxResynchronizationCount = MAX_RESYNCHRONIZATION_ATTEMPTS := kc
  have hmax : MAX_RESYNCHRONIZATION_ATTEMPTS = 65536 := rfl
  refine ⟨results, dk, h1, kc', ?_, ?_⟩
  · obtain ⟨res, hres, hcase⟩ := MP3Decoder.Read_end secondsOf dk hk
    refine ⟨res, hres, ?_⟩
    rcases hcase with hsame | ⟨X, x1, x2, x3, x4, x5, x6⟩
    · exact Or.inl hsame
    · exact Or.inr ⟨X, x1.trans kb, by rw [← kz]; exact x2, x3, x4, x5, x6⟩
  intro X x1 x2 x3 x4
  have xz : X.m_stream.m_fileMemoryBufferSize = bytes.length := by
    unfold StreamWrapper.m_fileMemoryBufferSize
    rw [x1]
  constructor
  · intro hm
    have hcount : X.m_maxResynchronizationCount = 65536 := by
      rcases x4 with k | k
      · rw [x3, ← hmax]
        apply kc'
        rw [← k]
        exact hm
      · rw [k] at hm
        exact absurd hm (by decide)
    obtain ⟨⟨b, X1⟩, r1, _, _, r4, r5, _, _, _⟩ := MP3Decoder.ResynchronizeBitstream_spec X
      (by rw [xz]; exact hL) (by rw [xz]; exact x2) (by omega) (by omega)
    have r6 := MP3Decoder.ResynchronizeBitstreamFuel_count _ X
      (by rw [xz]; exact hL) (by rw [xz]; exact x2) (by omega) (by omega) (by omega) (b, X1) r1
    have r6' : X1.m_maxResynchronizationCount < X.m_maxResynchronizationCount := r6
    obtain ⟨⟨v, X2⟩, f1, f2, _, _, _, _, _, _, f9⟩ := MP3Decoder.ReadFailed_spec secondsOf X
      (by rw [xz]; exact hL) (by rw [xz]; exact x2) (fun _ => ⟨by omega, by omega⟩)
    have f2' : v = -1 := f2
    have r4' : X.m_stream.m_fileMemoryBufferPosition ≤ X1.m_stream.m_fileMemoryBufferPosition := r4
    have r5' : X1.m_stream.m_fileMemoryBufferPosition + X1.m_maxResynchronizationCount
        ≤ X.m_stream.m_fileMemoryBufferPosition + X.m_maxResynchronizationCount := r5
    refine ⟨b, X1, X2, r1, r4', ?_, r6', ?_, f9⟩
    · rw [hmax]
      omega
    · rw [f1, f2']
  · intro hm
    unfold MP3Decoder.ReadFailed
    rw [if_neg hm]

set_option maxRecDepth 100000 in
/-- C26 at the file made of two frames `frame144`, after one call of `Read`. -/
theorem MP3Decoder.ResynchronizeBitstream_bound_witness :
    ∃ (results : List Int) (dk : MP3Decoder),
      MP3Decoder.ReadAll (fun _ _ => 0) 1 MP3Decoder.openedTwoFrames = Result.ok (results, dk)
        ∧ (dk.m_errorMessage.length = 0
            → dk.m_maxResynchronizationCount = MAX_RESYNCHRONIZATION_ATTEMPTS)
        ∧ (∃ res : Int × MP3Decoder, dk.Read (fun _ _ => 0) = Result.ok res
            ∧ (res.2.m_maxResynchronizationCount = dk.m_maxResynchronizationCount
              ∨ ∃ X : MP3Decoder,
                  X.m_stream.m_fileMemoryBuffer = MP3Decoder.frame144 ++ MP3Decoder.frame144
                  ∧ X.m_stream.m_fileMemoryBufferPosition
                      ≤ (MP3Decoder.frame144 ++ MP3Decoder.frame144).length
                  ∧ X.m_maxResynchronizationCount = dk.m_maxResynchronizationCount
                  ∧ X.m_errorMessage = dk.m_errorMessage
                  ∧ X.m_errorMessage.length = 0
                  ∧ MP3Decoder.ReadFailed (fun _ _ => 0) X = Result.ok res))
        ∧ ∀ X : MP3Decoder,
            X.m_stream.m_fileMemoryBuffer = MP3Decoder.frame144 ++ MP3Decoder.frame144 →
            X.m_stream.m_fileMemoryBufferPosition
              ≤ (MP3Decoder.frame144 ++ MP3Decoder.frame144).length →
            X.m_maxResynchronizationCount = dk.m_maxResynchronizationCount →
            (X.m_errorMessage = dk.m_errorMessage ∨ X.m_errorMessage = "TRUNCATED") →
            (X.m_errorMessage.length = 0 →
              ∃ (b : Bool) (X1 : MP3Decoder) (X2 : MP3Decoder),
                X.ResynchronizeBitstream = Result.ok (b, X1)
                  ∧ X.m_stream.m_fileMemoryBufferPosition ≤ X1.m_stream.m_fileMemoryBufferPosition
                  ∧ X1.m_stream.m_fileMemoryBufferPosition - X.m_stream.m_fileMemoryBufferPosition
                      ≤ MAX_RESYNCHRONIZATION_ATTEMPTS
                  ∧ X1.m_maxResynchronizationCount < X.m_maxResynchronizationCount
                  ∧ MP3Decoder.ReadFailed (fun _ _ => 0) X = Result.ok (-1, X2)
                  ∧ X2.m_errorMessage.length ≠ 0)
              ∧ (X.m_errorMessage.length ≠ 0 →
                  MP3Decoder.ReadFailed (fun _ _ => 0) X = Result.ok (-1, X)) :=
  MP3Decoder.ResynchronizeBitstream_bound (fun _ _ => 0) MP3Decoder.new
    MP3Decoder.openedTwoFrames (MP3Decoder.frame144 ++ MP3Decoder.frame144) (by decide)
    (by decide) 1

/-! ## MP3Decoder: the length of an APE tag -/

set_option maxRecDepth 100000 in
/-- C22 (evaluation at the failing input): a file of 100 bytes, 68 zero bytes
and an APE footer with size 32 and flags 0, has no ID3v1 tag and no Lyrics3
block, and `32 ≤ S ≤ L`, so the claim expects the footer length 32.
`GetTagFooterLength` first probes for an ID3v1 tag with `Seek(-128,
SEEK_END)`, which the stream accepts on a buffer of 100 bytes, and the read
that follows is outside the buffer: the call has no defined result, and
neither has `OpenFile`. -/
theorem MP3Decoder.GetTagFooterLength_short_ape :
    (List.replicate 68 0 ++ APEFooter 32 0).length = 100
      ∧ fieldAt (APEFooter 32 0) 12 = 32
      ∧ fieldAt (APEFooter 32 0) 20 = 0
      ∧ (MP3Decoder.beforeFooter (List.replicate 68 0 ++ APEFooter 32 0)).GetTagFooterLength
          = Result.undefinedBehaviour
      ∧ MP3Decoder.new.OpenFile (List.replicate 68 0 ++ APEFooter 32 0)
          = Result.undefinedBehaviour := by
  decide

set_option maxRecDepth 100000 in
/-- On files of 128 bytes that end in an APE footer, with no ID3v1 tag and no
Lyrics3 block, `GetTagFooterLength` returns the size `S` of the footer, or
`S + 32` when bit 31 of the flags is set, and returns 0 with `BAD_APE_TAG`
for `S < 32` and for `S > L`; for `S = 128 = L` the Lyrics3 probe that
follows seeks to 9 bytes before the start of the buffer and the call has no
defined result. -/
theorem MP3Decoder.GetTagFooterLength_ape_examples :
    ((MP3Decoder.beforeFooter (List.replicate 96 0 ++ APEFooter 32 0)).GetTagFooterLength.bind
        fun r => Result.ok (r.1, r.2.m_errorMessage)) = Result.ok (32, "")
      ∧ ((MP3Decoder.beforeFooter
            (List.replicate 96 0 ++ APEFooter 64 0x80000000)).GetTagFooterLength.bind
          fun r => Result.ok (r.1, r.2.m_errorMessage)) = Result.ok (96, "")
      ∧ ((MP3Decoder.beforeFooter (List.replicate 96 0 ++ APEFooter 31 0)).GetTagFooterLength.bind
          fun r => Result.ok (r.1, r.2.m_errorMessage)) = Result.ok (0, "BAD_APE_TAG")
      ∧ ((MP3Decoder.beforeFooter (List.replicate 96 0 ++ APEFooter 129 0)).GetTagFooterLength.bind
          fun r => Result.ok (r.1, r.2.m_errorMessage)) = Result.ok (0, "BAD_APE_TAG")
      ∧ (MP3Decoder.beforeFooter (List.replicate 96 0 ++ APEFooter 128 0)).GetTagFooterLength
          = Result.undefinedBehaviour := by
  decide

/-! ## MP3Decoder: a stream of frames that ends with an ID3v1 tag -/

end WinAudioDecodeR
